import Mathlib

/-!
# miniScene: the binary scene store

A shallow embedding of `miniScene/Scene.cpp` (namespace `mini`): the material
variants with their `write`/`read` members, `materialTagOf`,
`createMaterialFromTag`, `getID`, `Scene::save`, `Scene::load`,
`transformedBoxBounds` and the `getBounds` members, together with the
properties of the file format and of the bounds they implement.

Conventions of the embedding

* A file is a list of bytes.  `std::ofstream` output is the list of bytes
  written; `std::ifstream` input is the list of bytes not yet consumed.  Opening
  a file and the state of the stream after writing are not modelled.
* A `std::shared_ptr<T>` is an `SP T`: `none` is the null pointer, `some r`
  points to the node `r`, which carries its address and its pointee.  Two
  pointers are the same identity when they are equal; in a state of the program
  the address determines the pointee, so this is equality of addresses.
  `std::make_shared` in `Scene::load` takes the next address of a counter.
* `float` values are 32-bit patterns, `int` is 32 bits wide and `size_t` 64; a
  value is written as its little-endian object representation.
* The bounds are computed over exact arithmetic: the coordinates are elements of
  an ordered field `K`, and a parameter `num` gives the number each stored
  `float` denotes.
* Failures are values of `Error`: the exceptions thrown, a failed `assert`
  (assertions are taken as enabled), a read past the end of the file, and
  behaviour the language leaves undefined.
* What `Scene.h`, `Serialized.h` and `IO.h` declare is not among the sources;
  it is modelled from the specification, and each such definition says so;
  the same holds for the box and transform operations of the maths library.
-/

namespace mini

/-! ## Bytes and fixed-width values -/

/-- One byte of a file. -/
abbrev Byte := Fin 256

/-- The ways in which `Scene::save` and `Scene::load` end without a result. -/
inductive Error where
  /-- "invalid or incompatible 'mini' scene file (wrong file magic) - cannot load" -/
  | wrongMagic
  /-- "incomplete or incompatible miniScene/.mini file - cannot load" -/
  | incomplete
  /-- "un-supported material tag ... in Scene::load" -/
  | unsupportedTag (tag : Int)
  /-- "un-supported material type ... in Scene::save" -/
  | unsupportedType
  /-- a failed `assert` -/
  | assertion
  /-- the stream ended inside a value that was being read -/
  | truncated
  /-- an unchecked out-of-range subscript, a null dereference, or signed overflow -/
  | undefinedBehaviour
deriving DecidableEq, Repr

/-- The `w` low-order bytes of `n`, least significant first. -/
def encLE : Nat → Nat → List Byte
  | 0, _ => []
  | w + 1, n => Fin.ofNat (n % 256) :: encLE w (n / 256)

/-- The number whose little-endian digits are the given bytes. -/
def decLE : List Byte → Nat
  | [] => 0
  | b :: bs => b.val + 256 * decLE bs

/-- An `int` (32 bits, two's complement). -/
abbrev I32 := { z : Int // -2147483648 ≤ z ∧ z < 2147483648 }

/-- The `int` whose 32-bit pattern is `n mod 2^32` (two's complement). -/
def toInt32 (n : Nat) : I32 :=
  if h : n % 4294967296 < 2147483648 then ⟨(n % 4294967296 : Nat), by omega⟩
  else ⟨(n % 4294967296 : Nat) - 4294967296, by omega⟩

/-- The 32-bit pattern of an integer. -/
def ofInt32 (z : Int) : Nat := (z % 4294967296).toNat

/-- Modelled from the spec: `io::writeElement`/`io::readElement` (IO.h is not among the
sources) copy the object representation of a fixed-layout value, byte-exact; `Fixed α`
gives the width of `α`, its object representation and the value a representation
denotes. -/
class Fixed (α : Type) where
  /-- `sizeof(α)` -/
  size : Nat
  /-- object representation -/
  enc : α → List Byte
  /-- value of an object representation -/
  dec : List Byte → α

/-- Writer and reader agree bit for bit on the layout of `α`. -/
class LawfulFixed (α : Type) [Fixed α] : Prop where
  size_enc : ∀ a : α, (Fixed.enc a).length = Fixed.size α
  dec_enc : ∀ a : α, Fixed.dec (Fixed.enc a) = a

/-- A `float`, held as its 32-bit pattern. -/
abbrev F32 := Fin 4294967296

/-- A `size_t` (64 bits). -/
abbrev SizeT := Fin 18446744073709551616

/-- Conversion of an integer value to `int` (it wraps). -/
def I32.wrap (z : Int) : I32 := toInt32 (ofInt32 z)

/-- Conversion of a size to `size_t`. -/
def SizeT.wrap (n : Nat) : SizeT := Fin.ofNat n

instance : Fixed F32 where
  size := 4
  enc x := encLE 4 x.val
  dec bs := Fin.ofNat (decLE bs)

instance : Fixed SizeT where
  size := 8
  enc x := encLE 8 x.val
  dec bs := Fin.ofNat (decLE bs)

instance : Fixed I32 where
  size := 4
  enc x := encLE 4 (ofInt32 x.val)
  dec bs := toInt32 (decLE bs)

/-- A `vec2f`. -/
structure Vec2f where
  x : F32
  y : F32
deriving DecidableEq, Repr, Inhabited

/-- A `vec3f`. -/
structure Vec3f where
  x : F32
  y : F32
  z : F32
deriving DecidableEq, Repr, Inhabited

/-- A `vec2i`. -/
structure Vec2i where
  x : I32
  y : I32
deriving DecidableEq

/-- A `vec3i`. -/
structure Vec3i where
  x : I32
  y : I32
  z : I32
deriving DecidableEq

/-- An `affine3f`: the three columns of the linear part and the translation. -/
structure Affine3f where
  vx : Vec3f
  vy : Vec3f
  vz : Vec3f
  p : Vec3f
deriving DecidableEq, Repr, Inhabited

/-- A record of two fixed-layout members, one after the other. -/
instance {α β : Type} [Fixed α] [Fixed β] : Fixed (α × β) where
  size := Fixed.size α + Fixed.size β
  enc p := Fixed.enc p.1 ++ Fixed.enc p.2
  dec bs := (Fixed.dec (bs.take (Fixed.size α)), Fixed.dec (bs.drop (Fixed.size α)))

instance : Fixed Vec2f where
  size := Fixed.size (F32 × F32)
  enc v := Fixed.enc (v.x, v.y)
  dec bs := match (Fixed.dec bs : F32 × F32) with
    | (x, y) => ⟨x, y⟩

instance : Fixed Vec3f where
  size := Fixed.size (F32 × F32 × F32)
  enc v := Fixed.enc (v.x, v.y, v.z)
  dec bs := match (Fixed.dec bs : F32 × F32 × F32) with
    | (x, y, z) => ⟨x, y, z⟩

instance : Fixed Vec2i where
  size := Fixed.size (I32 × I32)
  enc v := Fixed.enc (v.x, v.y)
  dec bs := match (Fixed.dec bs : I32 × I32) with
    | (x, y) => ⟨x, y⟩

instance : Fixed Vec3i where
  size := Fixed.size (I32 × I32 × I32)
  enc v := Fixed.enc (v.x, v.y, v.z)
  dec bs := match (Fixed.dec bs : I32 × I32 × I32) with
    | (x, y, z) => ⟨x, y, z⟩

instance : Fixed Affine3f where
  size := Fixed.size (Vec3f × Vec3f × Vec3f × Vec3f)
  enc a := Fixed.enc (a.vx, a.vy, a.vz, a.p)
  dec bs := match (Fixed.dec bs : Vec3f × Vec3f × Vec3f × Vec3f) with
    | (vx, vy, vz, p) => ⟨vx, vy, vz, p⟩

instance : Fixed Byte where
  size := 1
  enc b := [b]
  dec bs := bs.headD 0

/-! ## The binary codec (`io::`) -/

namespace io

/-- Modelled from the spec: `io::writeElement` (IO.h is not among the sources), the
fixed-width encoding of one value. -/
def writeElement {α : Type} [Fixed α] (t : α) : List Byte := Fixed.enc t

/-- Modelled from the spec: `io::readElement` (IO.h is not among the sources), the
fixed-width decoding of one value; it fails when the stream ends inside the value. -/
def readElement {α : Type} [Fixed α] (inp : List Byte) : Except Error (α × List Byte) :=
  if inp.length < Fixed.size α then .error .truncated
  else .ok (Fixed.dec (inp.take (Fixed.size α)), inp.drop (Fixed.size α))

/-- The elements of a vector, one after the other. -/
def writeArray {α : Type} [Fixed α] : List α → List Byte
  | [] => []
  | a :: as => writeElement a ++ writeArray as

/-- Reads `n` consecutive elements. -/
def readArray {α : Type} [Fixed α] : Nat → List Byte → Except Error (List α × List Byte)
  | 0, inp => .ok ([], inp)
  | n + 1, inp => do
    let (a, inp) ← readElement inp
    let (as, inp) ← readArray n inp
    pure (a :: as, inp)

/-- Modelled from the spec: `io::writeVector` (IO.h is not among the sources) writes the
element count as one `size_t`, then the elements. -/
def writeVector {α : Type} [Fixed α] (vt : List α) : List Byte :=
  writeElement (SizeT.wrap vt.length) ++ writeArray vt

/-- Modelled from the spec: `io::readVector` (IO.h is not among the sources) reads the
count, then that many elements, and fails when the stream is truncated. -/
def readVector {α : Type} [Fixed α] (inp : List Byte) : Except Error (List α × List Byte) := do
  let (size, inp) ← (readElement inp : Except Error (SizeT × List Byte))
  readArray size.val inp

end io

/-! ## The entity graph -/

/-- The target of a non-null `std::shared_ptr<α>`: the address of the node (its
identity) and the node itself. -/
structure Ref (α : Type) where
  addr : Nat
  val : α
deriving DecidableEq, Repr

/-- A `std::shared_ptr<α>` (`α::SP`); `none` is the null pointer.  Two pointers are the
same identity when they are equal. -/
abbrev SP (α : Type) := Option (Ref α)

/-- Modelled from the spec: `Texture` (declared in Scene.h, not among the sources) owns a
pixel buffer `data`, `size` (width/height), pixel `format` and `filterMode`; the two
enumerations are held as their `int` values. -/
structure Texture where
  size : Vec2i
  format : I32
  filterMode : I32
  data : List Byte
deriving DecidableEq

/-- A `std::map<α::SP,int>`: the keys are pairwise distinct. -/
abbrev Registry (α : Type) := List (SP α × I32)

/-- `std::map::find`: the value stored for a key, if any. -/
def Registry.find {α : Type} [DecidableEq α] : Registry α → SP α → Option I32
  | [], _ => none
  | (k, v) :: m, key => if k = key then some v else Registry.find m key

/-- `getID(texture, serialized)` of Scene.cpp: the ID in the map, `-1` when the map has
no entry for the pointer. -/
def getID (texture : SP Texture) (serialized : Registry Texture) : I32 :=
  match serialized.find texture with
  | none => ⟨-1, by decide⟩
  | some id => id

/-! ### Material variants

The field types of the variants are declared in Scene.h, which is not among the
sources; colours are taken as `vec3f`, the other parameters as `float`.  `write` and
`read` follow Scene.cpp field by field. -/

/-- Modelled from the spec: the fields of `Plastic` (Scene.h is not among the sources). -/
structure Plastic where
  Ks : Vec3f
  eta : F32
  pigmentColor : Vec3f
  roughness : F32
deriving DecidableEq, Repr, Inhabited

/-- Modelled from the spec: the fields of `Matte` (Scene.h is not among the sources). -/
structure Matte where
  reflectance : Vec3f
deriving DecidableEq, Repr, Inhabited

/-- Modelled from the spec: the fields of `MetallicPaint` (Scene.h is not among the sources). -/
structure MetallicPaint where
  glitterColor : Vec3f
  glitterSpread : F32
  shadeColor : Vec3f
  eta : F32
deriving DecidableEq, Repr, Inhabited

/-- Modelled from the spec: the fields of `ThinGlass` (Scene.h is not among the sources). -/
structure ThinGlass where
  eta : F32
  thickness : F32
  transmission : Vec3f
deriving DecidableEq, Repr, Inhabited

/-- Modelled from the spec: the fields of `Dielectric` (Scene.h is not among the sources). -/
structure Dielectric where
  etaInside : F32
  etaOutside : F32
  transmission : Vec3f
deriving DecidableEq, Repr, Inhabited

/-- Modelled from the spec: the fields of `Metal` (Scene.h is not among the sources). -/
structure Metal where
  eta : Vec3f
  k : Vec3f
  roughness : F32
deriving DecidableEq, Repr, Inhabited

/-- Modelled from the spec: the fields of `Velvet` (Scene.h is not among the sources). -/
structure Velvet where
  reflectance : Vec3f
  horizonScatteringColor : Vec3f
  horizonScatteringFallOff : F32
  backScattering : F32
deriving DecidableEq, Repr, Inhabited

/-- Modelled from the spec: the fields of `DisneyMaterial` (Scene.h is not among the
sources); the two textures are shared references, possibly null. -/
structure DisneyMaterial where
  emission : Vec3f
  baseColor : Vec3f
  metallic : F32
  roughness : F32
  transmission : F32
  ior : F32
  colorTexture : SP Texture
  alphaTexture : SP Texture
deriving DecidableEq, Inhabited

/-- `Plastic::write` -/
def Plastic.write (self : Plastic) (_textures : Registry Texture) : List Byte :=
  io.writeElement self.Ks
  ++ io.writeElement self.eta
  ++ io.writeElement self.pigmentColor
  ++ io.writeElement self.roughness

/-- `Plastic::read` -/
def Plastic.read (self : Plastic) (inp : List Byte) (_textures : List (SP Texture)) :
    Except Error (Plastic × List Byte) := do
  let (Ks, inp) ← io.readElement inp
  let (eta, inp) ← io.readElement inp
  let (pigmentColor, inp) ← io.readElement inp
  let (roughness, inp) ← io.readElement inp
  pure ({ self with Ks := Ks, eta := eta, pigmentColor := pigmentColor, roughness := roughness }, inp)

/-- `Matte::write` -/
def Matte.write (self : Matte) (_textures : Registry Texture) : List Byte :=
  io.writeElement self.reflectance

/-- `Matte::read` -/
def Matte.read (self : Matte) (inp : List Byte) (_textures : List (SP Texture)) :
    Except Error (Matte × List Byte) := do
  let (reflectance, inp) ← io.readElement inp
  pure ({ self with reflectance := reflectance }, inp)

/-- `MetallicPaint::write` -/
def MetallicPaint.write (self : MetallicPaint) (_textures : Registry Texture) : List Byte :=
  io.writeElement self.glitterColor
  ++ io.writeElement self.glitterSpread
  ++ io.writeElement self.shadeColor
  ++ io.writeElement self.eta

/-- `MetallicPaint::read` -/
def MetallicPaint.read (self : MetallicPaint) (inp : List Byte) (_textures : List (SP Texture)) :
    Except Error (MetallicPaint × List Byte) := do
  let (glitterColor, inp) ← io.readElement inp
  let (glitterSpread, inp) ← io.readElement inp
  let (shadeColor, inp) ← io.readElement inp
  let (eta, inp) ← io.readElement inp
  pure ({ self with glitterColor := glitterColor, glitterSpread := glitterSpread,
                    shadeColor := shadeColor, eta := eta }, inp)

/-- `ThinGlass::write` -/
def ThinGlass.write (self : ThinGlass) (_textures : Registry Texture) : List Byte :=
  io.writeElement self.eta
  ++ io.writeElement self.thickness
  ++ io.writeElement self.transmission

/-- `ThinGlass::read` -/
def ThinGlass.read (self : ThinGlass) (inp : List Byte) (_textures : List (SP Texture)) :
    Except Error (ThinGlass × List Byte) := do
  let (eta, inp) ← io.readElement inp
  let (thickness, inp) ← io.readElement inp
  let (transmission, inp) ← io.readElement inp
  pure ({ self with eta := eta, thickness := thickness, transmission := transmission }, inp)

/-- `Dielectric::write` -/
def Dielectric.write (self : Dielectric) (_textures : Registry Texture) : List Byte :=
  io.writeElement self.etaInside
  ++ io.writeElement self.etaOutside
  ++ io.writeElement self.transmission

/-- `Dielectric::read` -/
def Dielectric.read (self : Dielectric) (inp : List Byte) (_textures : List (SP Texture)) :
    Except Error (Dielectric × List Byte) := do
  let (etaInside, inp) ← io.readElement inp
  let (etaOutside, inp) ← io.readElement inp
  let (transmission, inp) ← io.readElement inp
  pure ({ self with etaInside := etaInside, etaOutside := etaOutside,
                    transmission := transmission }, inp)

/-- `Metal::write` -/
def Metal.write (self : Metal) (_textures : Registry Texture) : List Byte :=
  io.writeElement self.eta
  ++ io.writeElement self.k
  ++ io.writeElement self.roughness

/-- `Metal::read` -/
def Metal.read (self : Metal) (inp : List Byte) (_textures : List (SP Texture)) :
    Except Error (Metal × List Byte) := do
  let (eta, inp) ← io.readElement inp
  let (k, inp) ← io.readElement inp
  let (roughness, inp) ← io.readElement inp
  pure ({ self with eta := eta, k := k, roughness := roughness }, inp)

/-- `Velvet::write` -/
def Velvet.write (self : Velvet) (_textures : Registry Texture) : List Byte :=
  io.writeElement self.reflectance
  ++ io.writeElement self.horizonScatteringColor
  ++ io.writeElement self.horizonScatteringFallOff
  ++ io.writeElement self.backScattering

/-- `Velvet::read` -/
def Velvet.read (self : Velvet) (inp : List Byte) (_textures : List (SP Texture)) :
    Except Error (Velvet × List Byte) := do
  let (reflectance, inp) ← io.readElement inp
  let (horizonScatteringColor, inp) ← io.readElement inp
  let (horizonScatteringFallOff, inp) ← io.readElement inp
  let (backScattering, inp) ← io.readElement inp
  pure ({ self with reflectance := reflectance, horizonScatteringColor := horizonScatteringColor,
                    horizonScatteringFallOff := horizonScatteringFallOff,
                    backScattering := backScattering }, inp)

/-- `DisneyMaterial::write` -/
def DisneyMaterial.write (self : DisneyMaterial) (textures : Registry Texture) : List Byte :=
  io.writeElement self.emission
  ++ io.writeElement self.baseColor
  ++ io.writeElement self.metallic
  ++ io.writeElement self.roughness
  ++ io.writeElement self.transmission
  ++ io.writeElement self.ior
  ++ io.writeElement (getID self.colorTexture textures)
  ++ io.writeElement (getID self.alphaTexture textures)

/-- The block `{ int texID = io::io.readElement<int>(in); assert(texID >= 0);
assert(texID < textures.size()); ... = textures[texID]; }` of `DisneyMaterial::read`. -/
def readTextureRef (inp : List Byte) (textures : List (SP Texture)) :
    Except Error (SP Texture × List Byte) := do
  let (texID, inp) ← (io.readElement inp : Except Error (I32 × List Byte))
  if ¬ (texID.val ≥ 0) then throw Error.assertion
  if h : texID.val.toNat < textures.length then
    pure (textures.get ⟨texID.val.toNat, h⟩, inp)
  else throw Error.assertion

/-- `DisneyMaterial::read` -/
def DisneyMaterial.read (self : DisneyMaterial) (inp : List Byte) (textures : List (SP Texture)) :
    Except Error (DisneyMaterial × List Byte) := do
  let (emission, inp) ← io.readElement inp
  let (baseColor, inp) ← io.readElement inp
  let (metallic, inp) ← io.readElement inp
  let (roughness, inp) ← io.readElement inp
  let (transmission, inp) ← io.readElement inp
  let (ior, inp) ← io.readElement inp
  let (colorTexture, inp) ← readTextureRef inp textures
  let (alphaTexture, inp) ← readTextureRef inp textures
  pure ({ self with emission := emission, baseColor := baseColor, metallic := metallic,
                    roughness := roughness, transmission := transmission, ior := ior,
                    colorTexture := colorTexture, alphaTexture := alphaTexture }, inp)

/-- A `Material`: one of the eight variants, or a material that is none of them (a plain
`Material`, as `Material::create()` makes). -/
inductive Material where
  | disney (m : DisneyMaterial)
  | matte (m : Matte)
  | plastic (m : Plastic)
  | metal (m : Metal)
  | velvet (m : Velvet)
  | metallicPaint (m : MetallicPaint)
  | thinGlass (m : ThinGlass)
  | dielectric (m : Dielectric)
  | other
deriving DecidableEq

/-- The enumeration `MaterialTag`, as the `int` values it is written and read as. -/
abbrev MaterialTag := Int

/-- `INVALID=0` -/
def MaterialTag.INVALID : MaterialTag := 0
/-- `DISNEY` -/
def MaterialTag.DISNEY : MaterialTag := 1
/-- `MATTE` -/
def MaterialTag.MATTE : MaterialTag := 2
/-- `PLASTIC` -/
def MaterialTag.PLASTIC : MaterialTag := 3
/-- `METAL` -/
def MaterialTag.METAL : MaterialTag := 4
/-- `VELVET` -/
def MaterialTag.VELVET : MaterialTag := 5
/-- `METALLICPAINT` -/
def MaterialTag.METALLICPAINT : MaterialTag := 6
/-- `THINGLASS` -/
def MaterialTag.THINGLASS : MaterialTag := 7
/-- `DIELECTRIC` -/
def MaterialTag.DIELECTRIC : MaterialTag := 8

/-- `materialTagOf`: the chain of `mat->as<T>()` tests, in the order of the source; a
null `mat` is dereferenced. -/
def materialTagOf (mat : SP Material) : Except Error MaterialTag :=
  match mat with
  | none => .error .undefinedBehaviour
  | some r =>
    match r.val with
    | .disney _ => .ok MaterialTag.DISNEY
    | .matte _ => .ok MaterialTag.MATTE
    | .metal _ => .ok MaterialTag.METAL
    | .velvet _ => .ok MaterialTag.VELVET
    | .plastic _ => .ok MaterialTag.PLASTIC
    | .metallicPaint _ => .ok MaterialTag.METALLICPAINT
    | .dielectric _ => .ok MaterialTag.DIELECTRIC
    | .thinGlass _ => .ok MaterialTag.THINGLASS
    | .other => .error .unsupportedType

/-- `createMaterialFromTag`: the `switch` of the source, then the `throw`.  The values of
a freshly created material are the defaults of its class. -/
def createMaterialFromTag (tag : MaterialTag) : Except Error Material :=
  if tag = MaterialTag.DISNEY then .ok (.disney default)
  else if tag = MaterialTag.METAL then .ok (.metal default)
  else if tag = MaterialTag.VELVET then .ok (.velvet default)
  else if tag = MaterialTag.PLASTIC then .ok (.plastic default)
  else if tag = MaterialTag.MATTE then .ok (.matte default)
  else if tag = MaterialTag.DIELECTRIC then .ok (.dielectric default)
  else if tag = MaterialTag.THINGLASS then .ok (.thinGlass default)
  else if tag = MaterialTag.METALLICPAINT then .ok (.metallicPaint default)
  else .error (.unsupportedTag tag)

/-- The virtual call `mat->write(out, textures)`. -/
def Material.write (self : Material) (textures : Registry Texture) : List Byte :=
  match self with
  | .disney m => m.write textures
  | .matte m => m.write textures
  | .plastic m => m.write textures
  | .metal m => m.write textures
  | .velvet m => m.write textures
  | .metallicPaint m => m.write textures
  | .thinGlass m => m.write textures
  | .dielectric m => m.write textures
  | .other => []

/-- The virtual call `mat->read(in, textures)`. -/
def Material.read (self : Material) (inp : List Byte) (textures : List (SP Texture)) :
    Except Error (Material × List Byte) :=
  match self with
  | .disney m => do let (m, inp) ← m.read inp textures; pure (.disney m, inp)
  | .matte m => do let (m, inp) ← m.read inp textures; pure (.matte m, inp)
  | .plastic m => do let (m, inp) ← m.read inp textures; pure (.plastic m, inp)
  | .metal m => do let (m, inp) ← m.read inp textures; pure (.metal m, inp)
  | .velvet m => do let (m, inp) ← m.read inp textures; pure (.velvet m, inp)
  | .metallicPaint m => do let (m, inp) ← m.read inp textures; pure (.metallicPaint m, inp)
  | .thinGlass m => do let (m, inp) ← m.read inp textures; pure (.thinGlass m, inp)
  | .dielectric m => do let (m, inp) ← m.read inp textures; pure (.dielectric m, inp)
  | .other => pure (.other, inp)

/-- Modelled from the spec: `Mesh` (Scene.h is not among the sources) owns `indices`,
`vertices`, `normals`, `texcoords` and one shared reference to a material. -/
structure Mesh where
  indices : List Vec3i
  vertices : List Vec3f
  normals : List Vec3f
  texcoords : List Vec2f
  material : SP Material
deriving DecidableEq

/-- Modelled from the spec: `Object` (Scene.h is not among the sources) owns an ordered
sequence of mesh references. -/
structure Object where
  meshes : List (SP Mesh)
deriving DecidableEq

/-- Modelled from the spec: `Instance` (Scene.h is not among the sources) holds a shared
reference to one object and the transform `xfm`. -/
structure Instance where
  object : SP Object
  xfm : Affine3f
deriving DecidableEq

/-- Modelled from the spec: `QuadLight` (Scene.h is not among the sources), a plain
fixed-layout value. -/
structure QuadLight where
  corner : Vec3f
  edge0 : Vec3f
  edge1 : Vec3f
  emission : Vec3f
  normal : Vec3f
  area : F32
deriving DecidableEq, Repr, Inhabited

/-- Modelled from the spec: `DirLight` (Scene.h is not among the sources), a plain
fixed-layout value with the two fields `DirLight::toString` prints. -/
structure DirLight where
  direction : Vec3f
  radiance : Vec3f
deriving DecidableEq, Repr, Inhabited

instance : Fixed QuadLight where
  size := Fixed.size (Vec3f × Vec3f × Vec3f × Vec3f × Vec3f × F32)
  enc l := Fixed.enc (l.corner, l.edge0, l.edge1, l.emission, l.normal, l.area)
  dec bs := match (Fixed.dec bs : Vec3f × Vec3f × Vec3f × Vec3f × Vec3f × F32) with
    | (corner, edge0, edge1, emission, normal, area) =>
      ⟨corner, edge0, edge1, emission, normal, area⟩

instance : Fixed DirLight where
  size := Fixed.size (Vec3f × Vec3f)
  enc l := Fixed.enc (l.direction, l.radiance)
  dec bs := match (Fixed.dec bs : Vec3f × Vec3f) with
    | (direction, radiance) => ⟨direction, radiance⟩

/-- Modelled from the spec: `EnvMapLight` (Scene.h is not among the sources) owns a
transform and a texture reference. -/
structure EnvMapLight where
  transform : Affine3f
  texture : SP Texture
deriving DecidableEq

/-- Modelled from the spec: `Scene` (Scene.h is not among the sources), the ordered list
of instance slots and the light containers. -/
structure Scene where
  instances : List (SP Instance)
  quadLights : List QuadLight
  dirLights : List DirLight
  envMapLight : SP EnvMapLight
deriving DecidableEq

/-! ## The deduplicating serializer (`Serialized.h`) -/

/-- Modelled from the spec: one table of the `SerializedScene` (Serialized.h is not among
the sources): the dense `list` of the distinct nodes and the `registry` from identity to
integer ID. -/
structure SerializedEntities (α : Type) where
  list : List (SP α)
  registry : Registry α

/-- Modelled from the spec: `size()`, the number of listed nodes. -/
def SerializedEntities.size {α : Type} (self : SerializedEntities α) : Nat := self.list.length

/-- Modelled from the spec: `getID(node)` "returns the assigned integer ID for a given
identity, or `-1` if the node is the null sentinel"; a node without an ID also gives `-1`. -/
def SerializedEntities.getID {α : Type} [DecidableEq α] (self : SerializedEntities α)
    (node : SP α) : I32 :=
  match node with
  | none => ⟨-1, by decide⟩
  | some _ =>
    match self.registry.find node with
    | none => ⟨-1, by decide⟩
    | some id => id

/-- Modelled from the spec: registering a node, first-seen-wins: a node that has an ID
keeps it, a new node gets the next dense ID (its position in `list`).  The result says
whether the node was new. -/
def SerializedEntities.add {α : Type} [DecidableEq α] (self : SerializedEntities α)
    (node : SP α) : Bool × SerializedEntities α :=
  match self.registry.find node with
  | some _ => (false, self)
  | none => (true, { list := self.list ++ [node],
                     registry := self.registry ++ [(node, I32.wrap self.list.length)] })

/-- Modelled from the spec: `SerializedScene` (Serialized.h is not among the sources), the
tables of the distinct textures, materials and objects of one scene. -/
structure SerializedScene where
  textures : SerializedEntities Texture
  materials : SerializedEntities Material
  objects : SerializedEntities Object

/-- The view with nothing registered. -/
def SerializedScene.empty : SerializedScene :=
  { textures := ⟨[], []⟩, materials := ⟨[], []⟩, objects := ⟨[], []⟩ }

/-- Modelled from the spec: a texture reference met during the traversal.  For textures
"null is a valid shared value and must serialize/deserialize as such": the null reference
of a material is registered like any other and becomes a null entry of the texture list
(the entry for which `Scene::save` writes validity flag 0). -/
def SerializedScene.addTexture (self : SerializedScene) (tex : SP Texture) : SerializedScene :=
  { self with textures := (self.textures.add tex).2 }

/-- Modelled from the spec: a material reference met during the traversal; a material
seen for the first time is registered and its textures are visited. -/
def SerializedScene.addMaterial (self : SerializedScene) (mat : SP Material) : SerializedScene :=
  match mat with
  | none => self
  | some r =>
    if (self.materials.add mat).1 then
      let self := { self with materials := (self.materials.add mat).2 }
      match r.val with
      | .disney d => (self.addTexture d.colorTexture).addTexture d.alphaTexture
      | _ => self
    else self

/-- Modelled from the spec: an object reference met during the traversal; an object seen
for the first time is registered and the materials of its meshes are visited in order. -/
def SerializedScene.addObject (self : SerializedScene) (obj : SP Object) : SerializedScene :=
  match obj with
  | none => self
  | some r =>
    if (self.objects.add obj).1 then
      r.val.meshes.foldl
        (fun acc mesh =>
          match mesh with
          | none => acc
          | some m => acc.addMaterial m.val.material)
        { self with objects := (self.objects.add obj).2 }
    else self

/-- Modelled from the spec: the constructor `SerializedScene(scene)`, a single traversal
of the scene graph in instance order. -/
def SerializedScene.ofScene (scene : Scene) : SerializedScene :=
  scene.instances.foldl
    (fun acc inst =>
      match inst with
      | none => acc
      | some i => acc.addObject i.val.object)
    SerializedScene.empty

/-! ## `Scene::save` -/

/-- `enum { FORMAT_VERSION = 12 }` -/
def FORMAT_VERSION : Nat := 12

/-- `const size_t expected_magic = 4321000000ULL+FORMAT_VERSION` -/
def expected_magic : Nat := 4321000000 + FORMAT_VERSION

/-- The bytes a loop writes: the bytes of each pass, in order. -/
def writeEach {α : Type} (body : α → List Byte) : List α → List Byte
  | [] => []
  | a :: as => body a ++ writeEach body as

/-- The bytes a loop writes when a pass can fail: the first failure ends the loop. -/
def writeEachM {α : Type} (body : α → Except Error (List Byte)) : List α → Except Error (List Byte)
  | [] => pure []
  | a :: as => do
    let x ← body a
    let xs ← writeEachM body as
    pure (x ++ xs)

/-- The four writes `tex->size`, `tex->format`, `tex->filterMode`, `tex->data`. -/
def writeTextureFields (tex : Texture) : List Byte :=
  io.writeElement tex.size
  ++ io.writeElement tex.format
  ++ io.writeElement tex.filterMode
  ++ io.writeVector tex.data

/-- One pass of the texture loop of `Scene::save`. -/
def saveTexture (tex : SP Texture) : List Byte :=
  match tex with
  | none => io.writeElement (I32.wrap 0)
  | some r => io.writeElement (I32.wrap 1) ++ writeTextureFields r.val

/-- The texture section of `Scene::save`. -/
def saveTextures (serialized : SerializedScene) : List Byte :=
  io.writeElement (SizeT.wrap serialized.textures.list.length)
  ++ writeEach saveTexture serialized.textures.list

/-- The light section of `Scene::save`; `assert(tex)` guards the environment map. -/
def saveLights (self : Scene) : Except Error (List Byte) := do
  let envMap ←
    match self.envMapLight with
    | some e =>
      match e.val.texture with
      | none => throw Error.assertion
      | some tex => pure (io.writeElement (I32.wrap 1) ++ io.writeElement e.val.transform
                          ++ writeTextureFields tex.val)
    | none => pure (io.writeElement (I32.wrap 0))
  pure (io.writeVector self.quadLights ++ io.writeVector self.dirLights ++ envMap)

/-- One pass of the material loop of `Scene::save` (the version-12 branch). -/
def saveMaterial (serialized : SerializedScene) (mat : SP Material) : Except Error (List Byte) := do
  let tag ← materialTagOf mat
  match mat with
  | none => throw Error.undefinedBehaviour
  | some r => pure (io.writeElement (I32.wrap tag) ++ r.val.write serialized.textures.registry)

/-- The material section of `Scene::save`. -/
def saveMaterials (serialized : SerializedScene) : Except Error (List Byte) := do
  let body ← writeEachM (saveMaterial serialized) serialized.materials.list
  pure (io.writeElement (SizeT.wrap serialized.materials.list.length) ++ body)

/-- One pass of the mesh loop of `Scene::save`; `assert(matID >= 0)`. -/
def saveMesh (serialized : SerializedScene) (mesh : SP Mesh) : Except Error (List Byte) :=
  match mesh with
  | none => pure (io.writeElement (I32.wrap 0))
  | some r =>
    let matID := serialized.materials.getID r.val.material
    if matID.val ≥ 0 then
      pure (io.writeElement (I32.wrap 1)
            ++ io.writeVector r.val.indices
            ++ io.writeVector r.val.vertices
            ++ io.writeVector r.val.normals
            ++ io.writeVector r.val.texcoords
            ++ io.writeElement matID)
    else throw Error.assertion

/-- One pass of the object loop of `Scene::save`; a null `obj` is dereferenced. -/
def saveObject (serialized : SerializedScene) (obj : SP Object) : Except Error (List Byte) :=
  match obj with
  | none => throw Error.undefinedBehaviour
  | some r => do
    let body ← writeEachM (saveMesh serialized) r.val.meshes
    pure (io.writeElement (SizeT.wrap r.val.meshes.length) ++ body)

/-- The object section of `Scene::save`. -/
def saveObjects (serialized : SerializedScene) : Except Error (List Byte) := do
  let body ← writeEachM (saveObject serialized) serialized.objects.list
  pure (io.writeElement (SizeT.wrap serialized.objects.size) ++ body)

/-- One pass of the instance loop of `Scene::save`. -/
def saveInstance (serialized : SerializedScene) (inst : SP Instance) : List Byte :=
  match inst with
  | none => io.writeElement (I32.wrap 0)
  | some r =>
    io.writeElement (I32.wrap 1)
    ++ io.writeElement r.val.xfm
    ++ io.writeElement (serialized.objects.getID r.val.object)

/-- The instance section of `Scene::save`. -/
def saveInstances (serialized : SerializedScene) (self : Scene) : List Byte :=
  io.writeElement (SizeT.wrap self.instances.length)
  ++ writeEach (saveInstance serialized) self.instances

/-- The body of `Scene::save` once `serialized` is built: the bytes written to the file,
or the failure. -/
def Scene.saveWith (serialized : SerializedScene) (self : Scene) : Except Error (List Byte) := do
  let lights ← saveLights self
  let materials ← saveMaterials serialized
  let objects ← saveObjects serialized
  pure (io.writeElement (SizeT.wrap expected_magic)
        ++ saveTextures serialized
        ++ lights
        ++ materials
        ++ objects
        ++ saveInstances serialized self
        ++ io.writeElement (SizeT.wrap expected_magic))

/-- `Scene::save`: `SerializedScene serialized(this)`, then the sections. -/
def Scene.save (self : Scene) : Except Error (List Byte) :=
  Scene.saveWith (SerializedScene.ofScene self) self

/-! ### The previous format generation

`Scene::save` as it stood for format version 11: the magic word is `4321000000+11` and
the material loop is the branch the source keeps under `#else` ("old version 11"), which
writes the fields of the one material type of that generation without a tag.  That
material is the present `DisneyMaterial` ("DISNEY is the direct equivalent to whatever we
had before version 11"). -/

/-- One pass of the material loop of version 11: the six values, then the two texture
IDs `serialized.getID(mat->colorTexture)`, `serialized.getID(mat->alphaTexture)`. -/
def saveMaterialLegacy (serialized : SerializedScene) (mat : SP Material) :
    Except Error (List Byte) :=
  match mat with
  | none => throw Error.undefinedBehaviour
  | some r =>
    match r.val with
    | .disney d =>
      pure (io.writeElement d.emission
            ++ io.writeElement d.baseColor
            ++ io.writeElement d.metallic
            ++ io.writeElement d.roughness
            ++ io.writeElement d.transmission
            ++ io.writeElement d.ior
            ++ io.writeElement (serialized.textures.getID d.colorTexture)
            ++ io.writeElement (serialized.textures.getID d.alphaTexture))
    | _ => throw Error.unsupportedType

/-- The material section of version 11. -/
def saveMaterialsLegacy (serialized : SerializedScene) : Except Error (List Byte) := do
  let body ← writeEachM (saveMaterialLegacy serialized) serialized.materials.list
  pure (io.writeElement (SizeT.wrap serialized.materials.list.length) ++ body)

/-- The bytes of a version-11 file: the sections of `Scene::save` with the version-11
magic word and the version-11 material section. -/
def Scene.saveLegacyWith (serialized : SerializedScene) (self : Scene) :
    Except Error (List Byte) := do
  let lights ← saveLights self
  let materials ← saveMaterialsLegacy serialized
  let objects ← saveObjects serialized
  pure (io.writeElement (SizeT.wrap (expected_magic - 1))
        ++ saveTextures serialized
        ++ lights
        ++ materials
        ++ objects
        ++ saveInstances serialized self
        ++ io.writeElement (SizeT.wrap (expected_magic - 1)))

/-! ## `Scene::load`

Every `std::make_shared` takes the next unused address `next`. -/

/-- A loop `for (int i=0;i<n;i++)` over a `size_t` bound `n` whose body appends one
element: `k` passes remain and the counter is `i`; incrementing the counter past
`INT_MAX` is signed overflow. -/
def readEach {α : Type} (body : Nat → List Byte → Except Error (α × Nat × List Byte)) :
    Nat → Nat → Nat → List Byte → Except Error (List α × Nat × List Byte)
  | 0, _, next, inp => pure ([], next, inp)
  | k + 1, i, next, inp => do
    let (a, next, inp) ← body next inp
    if i + 1 < 2147483648 then
      let (as, next, inp) ← readEach body k (i + 1) next inp
      pure (a :: as, next, inp)
    else throw Error.undefinedBehaviour

/-- The four reads `tex->size`, `tex->format`, `tex->filterMode`, `tex->data`. -/
def readTextureFields (inp : List Byte) : Except Error (Texture × List Byte) := do
  let (size, inp) ← io.readElement inp
  let (format, inp) ← io.readElement inp
  let (filterMode, inp) ← io.readElement inp
  let (data, inp) ← io.readVector inp
  pure ({ size := size, format := format, filterMode := filterMode, data := data }, inp)

/-- One pass of the texture loop of `Scene::load`. -/
def loadTexture (next : Nat) (inp : List Byte) : Except Error (SP Texture × Nat × List Byte) := do
  let (valid, inp) ← (io.readElement inp : Except Error (I32 × List Byte))
  if valid.val = 0 then
    pure (none, next, inp)
  else
    let (tex, inp) ← readTextureFields inp
    pure (some ⟨next, tex⟩, next + 1, inp)

/-- The light section of `Scene::load`. -/
def loadLights (next : Nat) (inp : List Byte) :
    Except Error ((List QuadLight × List DirLight × SP EnvMapLight) × Nat × List Byte) := do
  let (quadLights, inp) ← io.readVector inp
  let (dirLights, inp) ← io.readVector inp
  let (hasEnvMap, inp) ← (io.readElement inp : Except Error (I32 × List Byte))
  if hasEnvMap.val = 0 then
    pure ((quadLights, dirLights, none), next, inp)
  else
    let (transform, inp) ← io.readElement inp
    let (tex, inp) ← readTextureFields inp
    pure ((quadLights, dirLights,
           some ⟨next, { transform := transform, texture := some ⟨next + 1, tex⟩ }⟩),
          next + 2, inp)

/-- One pass of the material loop of `Scene::load`. -/
def loadMaterial (format_version : Nat) (textures : List (SP Texture))
    (next : Nat) (inp : List Byte) : Except Error (SP Material × Nat × List Byte) := do
  let (tag, inp) ←
    if format_version = 11 then
      pure (MaterialTag.DISNEY, inp)
    else do
      let (tag, inp) ← (io.readElement inp : Except Error (I32 × List Byte))
      pure (tag.val, inp)
  let mat ← createMaterialFromTag tag
  let (mat, inp) ← mat.read inp textures
  pure (some ⟨next, mat⟩, next + 1, inp)

/-- The mesh loop of `Scene::load`, `k` passes remaining: an invalid record appends
nothing. -/
def loadMeshes (materials : List (SP Material)) :
    Nat → Nat → List Byte → Except Error (List (SP Mesh) × Nat × List Byte)
  | 0, next, inp => pure ([], next, inp)
  | k + 1, next, inp => do
    let (isValid, inp) ← (io.readElement inp : Except Error (I32 × List Byte))
    if isValid.val = 0 then
      loadMeshes materials k next inp
    else
      let (indices, inp) ← io.readVector inp
      let (vertices, inp) ← io.readVector inp
      let (normals, inp) ← io.readVector inp
      let (texcoords, inp) ← io.readVector inp
      let (matID, inp) ← (io.readElement inp : Except Error (I32 × List Byte))
      if ¬ (matID.val ≥ 0) then throw Error.assertion
      if h : matID.val.toNat < materials.length then
        let mesh : Mesh := { indices := indices, vertices := vertices, normals := normals,
                             texcoords := texcoords,
                             material := materials.get ⟨matID.val.toNat, h⟩ }
        let (meshes, next', inp) ← loadMeshes materials k (next + 1) inp
        pure (some ⟨next, mesh⟩ :: meshes, next', inp)
      else throw Error.assertion

/-- One pass of the object loop of `Scene::load`; the mesh loop runs to `(int)numMeshes`. -/
def loadObject (materials : List (SP Material)) (next : Nat) (inp : List Byte) :
    Except Error (SP Object × Nat × List Byte) := do
  let (numMeshes, inp) ← (io.readElement inp : Except Error (SizeT × List Byte))
  let (meshes, next', inp) ← loadMeshes materials (toInt32 numMeshes.val).val.toNat (next + 1) inp
  pure (some ⟨next, { meshes := meshes }⟩, next', inp)

/-- One pass of the instance loop of `Scene::load`; `objects[...]` is not range-checked. -/
def loadInstance (objects : List (SP Object)) (next : Nat) (inp : List Byte) :
    Except Error (SP Instance × Nat × List Byte) := do
  let (isValid, inp) ← (io.readElement inp : Except Error (I32 × List Byte))
  if isValid.val = 0 then
    pure (none, next, inp)
  else
    let (xfm, inp) ← io.readElement inp
    let (objID, inp) ← (io.readElement inp : Except Error (I32 × List Byte))
    if h : 0 ≤ objID.val ∧ objID.val.toNat < objects.length then
      pure (some ⟨next, { object := objects.get ⟨objID.val.toNat, h.2⟩, xfm := xfm }⟩, next + 1, inp)
    else throw Error.undefinedBehaviour

/-- What `Scene::load` has built when it returns: the scene and its three local tables. -/
structure Loaded where
  scene : Scene
  textures : List (SP Texture)
  materials : List (SP Material)
  objects : List (SP Object)
  format_version : Nat
deriving DecidableEq

/-- The sections of `Scene::load`, from the texture count to the end of the instance
section, for the format version the leading word selected: what has been built, and the
input that remains. -/
def Scene.loadBody (format_version : Nat) (inp : List Byte) : Except Error (Loaded × List Byte) := do
  let (numTextures, inp) ← (io.readElement inp : Except Error (SizeT × List Byte))
  let (textures, next, inp) ← readEach loadTexture numTextures.val 0 0 inp
  let ((quadLights, dirLights, envMapLight), next, inp) ← loadLights next inp
  let (numMaterials, inp) ← (io.readElement inp : Except Error (SizeT × List Byte))
  let (materials, next, inp) ←
    readEach (loadMaterial format_version textures) numMaterials.val 0 next inp
  let (numObjects, inp) ← (io.readElement inp : Except Error (SizeT × List Byte))
  let (objects, next, inp) ← readEach (loadObject materials) numObjects.val 0 next inp
  let (numInstances, inp) ← (io.readElement inp : Except Error (SizeT × List Byte))
  let (instances, _, inp) ← readEach (loadInstance objects) numInstances.val 0 next inp
  pure ({ scene := { instances := instances, quadLights := quadLights, dirLights := dirLights,
                     envMapLight := envMapLight },
          textures := textures, materials := materials, objects := objects,
          format_version := format_version }, inp)

/-- The magic check of `Scene::load`: the format version the leading word selects. -/
def formatOfMagic (magic : SizeT) : Except Error Nat :=
  if magic.val = expected_magic then
    pure 12
  else if magic.val = expected_magic - 1 then
    pure 11
  else throw Error.wrongMagic

/-- The body of `Scene::load` from the leading magic word to the end of the instance
section. -/
def Scene.loadSections (inp : List Byte) : Except Error (Loaded × List Byte) := do
  let (magic, inp) ← (io.readElement inp : Except Error (SizeT × List Byte))
  let format_version ← formatOfMagic magic
  Scene.loadBody format_version inp

/-- The body of `Scene::load` on the bytes of the file: the sections, then the wrap-up
that reads the trailing magic word. -/
def Scene.loadTables (inp : List Byte) : Except Error Loaded := do
  let (r, inp) ← Scene.loadSections inp
  let (magicAtEnd, _) ← (io.readElement inp : Except Error (SizeT × List Byte))
  if magicAtEnd.val ≠ expected_magic ∧ magicAtEnd.val ≠ expected_magic - 1 then
    throw Error.incomplete
  pure r

/-- `Scene::load` on the bytes of the file. -/
def Scene.load (inp : List Byte) : Except Error Scene := do
  let r ← Scene.loadTables inp
  pure r.scene

/-! ## Vocabulary of the properties

Comparison of graphs up to the addresses of their nodes, the scene `Scene::load` builds
from what `Scene::save` wrote, and the conditions under which both succeed. -/

/-- The table entry a stored ID selects; null when the ID selects none. -/
def entryAt {α : Type} (table : List (SP α)) (id : I32) : SP α :=
  if 0 ≤ id.val then (table[id.val.toNat]?).getD none else none

/-- The ID is a valid position of the table, and the entry there is the node. -/
def resolves {α : Type} (table : List (SP α)) (id : I32) (node : SP α) : Prop :=
  0 ≤ id.val ∧ table[id.val.toNat]? = some node

/-- The number of non-null entries. -/
def liveCount {α : Type} : List (SP α) → Nat
  | [] => 0
  | none :: l => liveCount l
  | some _ :: l => liveCount l + 1

/-- A pointer with the address forgotten and the pointee rewritten by `f`. -/
def stripSP {α : Type} (f : α → α) (p : SP α) : SP α :=
  p.map (fun r => ⟨0, f r.val⟩)

/-- A material with the addresses of its textures forgotten. -/
def Material.strip : Material → Material
  | .disney d => .disney { d with colorTexture := stripSP id d.colorTexture,
                                  alphaTexture := stripSP id d.alphaTexture }
  | m => m

/-- A mesh with the addresses below it forgotten. -/
def Mesh.strip (m : Mesh) : Mesh :=
  { m with material := stripSP Material.strip m.material }

/-- An object with the addresses below it forgotten. -/
def Object.strip (o : Object) : Object :=
  { meshes := o.meshes.map (stripSP Mesh.strip) }

/-- An instance with the addresses below it forgotten. -/
def Instance.strip (i : Instance) : Instance :=
  { i with object := stripSP Object.strip i.object }

/-- An environment-map light with the address of its texture forgotten. -/
def EnvMapLight.strip (e : EnvMapLight) : EnvMapLight :=
  { e with texture := stripSP id e.texture }

/-- The structure of a scene: the scene with every address forgotten.  Two scenes are
structurally equal when their structures are equal. -/
def Scene.strip (s : Scene) : Scene :=
  { s with instances := s.instances.map (stripSP Instance.strip),
           envMapLight := stripSP EnvMapLight.strip s.envMapLight }

/-- The texture table `Scene::load` builds from a saved texture list, allocating from
address `next`. -/
def reloadTextures (next : Nat) : List (SP Texture) → List (SP Texture)
  | [] => []
  | none :: l => none :: reloadTextures next l
  | some r :: l => some ⟨next, r.val⟩ :: reloadTextures (next + 1) l

/-- The environment-map light `Scene::load` builds from a saved one. -/
def reloadEnvMap (next : Nat) (e : SP EnvMapLight) : SP EnvMapLight :=
  match e with
  | none => none
  | some r =>
    some ⟨next, { transform := r.val.transform,
                  texture := r.val.texture.map (fun t => ⟨next + 1, t.val⟩) }⟩

/-- A material as `Scene::load` rebuilds it: the texture references go through the IDs. -/
def Material.reload (reg : Registry Texture) (textures : List (SP Texture)) : Material → Material
  | .disney d => .disney { d with colorTexture := entryAt textures (getID d.colorTexture reg),
                                  alphaTexture := entryAt textures (getID d.alphaTexture reg) }
  | m => m

/-- The material table `Scene::load` builds from a saved material list. -/
def reloadMaterials (reg : Registry Texture) (textures : List (SP Texture)) (next : Nat) :
    List (SP Material) → List (SP Material)
  | [] => []
  | none :: l => none :: reloadMaterials reg textures next l
  | some r :: l => some ⟨next, r.val.reload reg textures⟩ :: reloadMaterials reg textures (next + 1) l

/-- The meshes `Scene::load` builds from the saved meshes of one object: the null slots
are gone. -/
def reloadMeshes (ser : SerializedScene) (materials : List (SP Material)) (next : Nat) :
    List (SP Mesh) → List (SP Mesh)
  | [] => []
  | none :: l => reloadMeshes ser materials next l
  | some r :: l =>
    some ⟨next, { r.val with material := entryAt materials (ser.materials.getID r.val.material) }⟩
      :: reloadMeshes ser materials (next + 1) l

/-- The number of nodes `Scene::load` allocates for a list of objects. -/
def objectsSpan : List (SP Object) → Nat
  | [] => 0
  | none :: l => objectsSpan l
  | some r :: l => 1 + liveCount r.val.meshes + objectsSpan l

/-- The object table `Scene::load` builds from a saved object list. -/
def reloadObjects (ser : SerializedScene) (materials : List (SP Material)) (next : Nat) :
    List (SP Object) → List (SP Object)
  | [] => []
  | none :: l => none :: reloadObjects ser materials next l
  | some r :: l =>
    some ⟨next, { meshes := reloadMeshes ser materials (next + 1) r.val.meshes }⟩
      :: reloadObjects ser materials (next + 1 + liveCount r.val.meshes) l

/-- The instance list `Scene::load` builds from a saved instance list. -/
def reloadInstances (ser : SerializedScene) (objects : List (SP Object)) (next : Nat) :
    List (SP Instance) → List (SP Instance)
  | [] => []
  | none :: l => none :: reloadInstances ser objects next l
  | some r :: l =>
    some ⟨next, { object := entryAt objects (ser.objects.getID r.val.object), xfm := r.val.xfm }⟩
      :: reloadInstances ser objects (next + 1) l

/-- What `Scene::load` builds from the file `Scene::save` wrote for a scene and its
serialized view. -/
def Scene.reload (ser : SerializedScene) (s : Scene) : Loaded :=
  let textures := reloadTextures 0 ser.textures.list
  let n1 := liveCount ser.textures.list
  let n2 := n1 + (if s.envMapLight.isSome then 2 else 0)
  let materials := reloadMaterials ser.textures.registry textures n2 ser.materials.list
  let n3 := n2 + ser.materials.list.length
  let objects := reloadObjects ser materials n3 ser.objects.list
  let n4 := n3 + objectsSpan ser.objects.list
  { scene := { instances := reloadInstances ser objects n4 s.instances,
               quadLights := s.quadLights, dirLights := s.dirLights,
               envMapLight := reloadEnvMap n1 s.envMapLight },
    textures := textures, materials := materials, objects := objects, format_version := 12 }

/-- A material `materialTagOf` knows: one of the eight variants. -/
def Material.Supported : Material → Prop
  | .other => False
  | _ => True

instance : DecidablePred Material.Supported := fun m => by
  cases m <;> unfold Material.Supported <;> infer_instance

/-- The buffer of a texture fits the `size_t` count `io::writeVector` writes. -/
def Texture.Sized (t : Texture) : Prop := t.data.length < 18446744073709551616

instance : DecidablePred Texture.Sized := fun t => by
  unfold Texture.Sized; infer_instance

/-- The arrays of a mesh fit the `size_t` counts `io::writeVector` writes. -/
def Mesh.Sized (m : Mesh) : Prop :=
  m.indices.length < 18446744073709551616 ∧ m.vertices.length < 18446744073709551616
  ∧ m.normals.length < 18446744073709551616 ∧ m.texcoords.length < 18446744073709551616

instance : DecidablePred Mesh.Sized := fun m => by
  unfold Mesh.Sized; infer_instance

/-- Every count of the file fits the integer type it is written and counted in: the
loops of `Scene::load` count in `int`, the vectors are counted in `size_t`. -/
def SerializedScene.Sized (ser : SerializedScene) (s : Scene) : Prop :=
  ser.textures.list.length < 2147483648
  ∧ (∀ tex ∈ ser.textures.list, ∀ r ∈ tex, r.val.Sized)
  ∧ s.quadLights.length < 18446744073709551616
  ∧ s.dirLights.length < 18446744073709551616
  ∧ (∀ e ∈ s.envMapLight, ∀ t ∈ e.val.texture, t.val.Sized)
  ∧ ser.materials.list.length < 2147483648
  ∧ ser.objects.list.length < 2147483648
  ∧ (∀ obj ∈ ser.objects.list, ∀ o ∈ obj,
      o.val.meshes.length < 2147483648 ∧ ∀ mesh ∈ o.val.meshes, ∀ m ∈ mesh, m.val.Sized)
  ∧ s.instances.length < 2147483648

/-- Every reference written as an ID resolves: the listed materials and objects are
non-null, the materials are of the eight variants, and the texture IDs of the Disney
materials, the material IDs of the meshes and the object IDs of the instances are
positions of their tables that hold the referenced node; the environment map has a
texture. -/
def SerializedScene.Resolves (ser : SerializedScene) (s : Scene) : Prop :=
  (∀ mat ∈ ser.materials.list, ∃ r, mat = some r ∧ r.val.Supported
      ∧ ∀ d, r.val = .disney d →
          resolves ser.textures.list (getID d.colorTexture ser.textures.registry) d.colorTexture
          ∧ resolves ser.textures.list (getID d.alphaTexture ser.textures.registry) d.alphaTexture)
  ∧ (∀ obj ∈ ser.objects.list, ∃ o, obj = some o
      ∧ ∀ mesh ∈ o.val.meshes, ∀ m ∈ mesh,
          resolves ser.materials.list (ser.materials.getID m.val.material) m.val.material)
  ∧ (∀ inst ∈ s.instances, ∀ i ∈ inst,
      resolves ser.objects.list (ser.objects.getID i.val.object) i.val.object)
  ∧ (∀ e ∈ s.envMapLight, e.val.texture ≠ none)

/-- The references `Scene::save` follows without a null check are non-null: every
instance has an object, every mesh a material, of one of the eight variants, and the
environment map has a texture.  Null instance slots, null mesh slots and absent textures
of Disney materials are allowed. -/
def Scene.Linked (s : Scene) : Prop :=
  (∀ inst ∈ s.instances, ∀ i ∈ inst, ∃ o, i.val.object = some o
      ∧ ∀ mesh ∈ o.val.meshes, ∀ m ∈ mesh, ∃ mat, m.val.material = some mat
          ∧ mat.val.Supported)
  ∧ (∀ e ∈ s.envMapLight, e.val.texture ≠ none)

/-- No instance slot is null and no object has a null mesh slot. -/
def Scene.NoNullSlots (s : Scene) : Prop :=
  ∀ inst ∈ s.instances, ∃ i, inst = some i
    ∧ ∀ o ∈ i.val.object, ∀ mesh ∈ o.val.meshes, mesh ≠ none

/-- An object without its null mesh slots. -/
def Object.compact (o : Object) : Object :=
  { meshes := o.meshes.filter Option.isSome }

/-- An instance whose object has lost its null mesh slots. -/
def Instance.compact (i : Instance) : Instance :=
  { i with object := i.object.map (fun r => ⟨r.addr, r.val.compact⟩) }

/-- A scene whose objects have lost their null mesh slots. -/
def Scene.compact (s : Scene) : Scene :=
  { s with instances := s.instances.map (Option.map (fun r => ⟨r.addr, r.val.compact⟩)) }

/-- A table is well formed: the registry sends every listed node to a position of the
list that holds it, and the registry knows listed nodes only. -/
def SerializedEntities.WellFormed {α : Type} [DecidableEq α] (t : SerializedEntities α) : Prop :=
  (∀ node ∈ t.list, ∃ i : Nat, t.registry.find node = some (I32.wrap i) ∧ t.list[i]? = some node)
  ∧ (∀ node, t.registry.find node ≠ none → node ∈ t.list)

/-- A material reference `Scene::save` can write: non-null and of one of the eight
variants. -/
def goodMaterial (mat : SP Material) : Prop :=
  ∃ r, mat = some r ∧ r.val.Supported

/-- The listed materials are non-null, of the eight variants, and the textures of the
Disney materials among them are listed. -/
def SerializedScene.MaterialsClosed (ser : SerializedScene) : Prop :=
  ∀ mat ∈ ser.materials.list, ∃ r, mat = some r ∧ r.val.Supported
    ∧ ∀ d, r.val = .disney d →
        d.colorTexture ∈ ser.textures.list ∧ d.alphaTexture ∈ ser.textures.list

/-- The listed objects are non-null and the materials of their meshes are listed. -/
def SerializedScene.ObjectsClosed (ser : SerializedScene) : Prop :=
  ∀ obj ∈ ser.objects.list, ∃ o, obj = some o
    ∧ ∀ mesh ∈ o.val.meshes, ∀ m ∈ mesh, m.val.material ∈ ser.materials.list

/-- The tables are well formed and closed. -/
def SerializedScene.Closed (ser : SerializedScene) : Prop :=
  ser.textures.WellFormed ∧ ser.materials.WellFormed ∧ ser.objects.WellFormed
  ∧ ser.MaterialsClosed ∧ ser.ObjectsClosed

/-! ### Deciding the conditions on a given scene -/

/-- "The pointer is non-null and its target satisfies `q`" can be decided. -/
instance decExistsTarget {α : Type} (p : SP α) (q : Ref α → Prop) [DecidablePred q] :
    Decidable (∃ r, p = some r ∧ q r) :=
  match p with
  | none => isFalse (fun h => h.elim (fun _ hr => Option.noConfusion hr.1))
  | some r =>
    if h : q r then isTrue ⟨r, rfl, h⟩
    else isFalse (fun h' => h'.elim (fun _ hr => h (Option.some.inj hr.1 ▸ hr.2)))

/-- "If the material is a Disney material, `q` holds of it" can be decided. -/
instance decForDisney (m : Material) (q : DisneyMaterial → Prop) [DecidablePred q] :
    Decidable (∀ d, m = .disney d → q d) :=
  match m with
  | .disney d =>
    if h : q d then isTrue (fun _ hd => Material.disney.inj hd ▸ h)
    else isFalse (fun h' => h (h' d rfl))
  | .matte _ => isTrue (fun _ hd => Material.noConfusion hd)
  | .plastic _ => isTrue (fun _ hd => Material.noConfusion hd)
  | .metal _ => isTrue (fun _ hd => Material.noConfusion hd)
  | .velvet _ => isTrue (fun _ hd => Material.noConfusion hd)
  | .metallicPaint _ => isTrue (fun _ hd => Material.noConfusion hd)
  | .thinGlass _ => isTrue (fun _ hd => Material.noConfusion hd)
  | .dielectric _ => isTrue (fun _ hd => Material.noConfusion hd)
  | .other => isTrue (fun _ hd => Material.noConfusion hd)

instance {α : Type} [DecidableEq α] (table : List (SP α)) (id : I32) (node : SP α) :
    Decidable (resolves table id node) := by
  unfold resolves; infer_instance

instance (ser : SerializedScene) (s : Scene) : Decidable (ser.Sized s) := by
  unfold SerializedScene.Sized; infer_instance

instance (ser : SerializedScene) (s : Scene) : Decidable (ser.Resolves s) := by
  unfold SerializedScene.Resolves; infer_instance

instance (s : Scene) : Decidable s.Linked := by
  unfold Scene.Linked; infer_instance

instance (s : Scene) : Decidable s.NoNullSlots := by
  unfold Scene.NoNullSlots; infer_instance

/-! ### A small scene

Two instances share one object of two meshes; the first mesh has a Disney material with
a texture, the second a matte material. -/

/-- A 1x1 texture. -/
def demoTexture : Ref Texture :=
  ⟨100, { size := ⟨I32.wrap 1, I32.wrap 1⟩, format := I32.wrap 2, filterMode := I32.wrap 0,
          data := [7, 8] }⟩

/-- A Disney material with both textures. -/
def demoDisney : Ref Material :=
  ⟨200, .disney { emission := ⟨0, 0, 0⟩, baseColor := ⟨1, 2, 3⟩, metallic := 4, roughness := 5,
                  transmission := 6, ior := 7,
                  colorTexture := some demoTexture, alphaTexture := some demoTexture }⟩

/-- A matte material. -/
def demoMatte : Ref Material := ⟨201, .matte { reflectance := ⟨9, 9, 9⟩ }⟩

/-- A triangle. -/
def demoMesh : Ref Mesh :=
  ⟨300, { indices := [⟨I32.wrap 0, I32.wrap 1, I32.wrap 2⟩],
          vertices := [⟨0, 0, 0⟩, ⟨1, 0, 0⟩, ⟨0, 1, 0⟩], normals := [], texcoords := [],
          material := some demoDisney }⟩

/-- A second mesh, one vertex. -/
def demoMesh2 : Ref Mesh :=
  ⟨301, { indices := [], vertices := [⟨5, 5, 5⟩], normals := [], texcoords := [],
          material := some demoMatte }⟩

/-- An object of the two meshes. -/
def demoObject : Ref Object := ⟨400, { meshes := [some demoMesh, some demoMesh2] }⟩

/-- A transform. -/
def demoXfm : Affine3f := ⟨⟨1, 0, 0⟩, ⟨0, 1, 0⟩, ⟨0, 0, 1⟩, ⟨3, 4, 5⟩⟩

/-- Two instances of the one object and a directional light. -/
def demoScene : Scene :=
  { instances := [some ⟨500, { object := some demoObject, xfm := demoXfm }⟩,
                  some ⟨501, { object := some demoObject, xfm := default }⟩],
    quadLights := [], dirLights := [⟨⟨0, 0, 1⟩, ⟨1, 1, 1⟩⟩], envMapLight := none }

/-! ### A scene with null slots

The instance list has null slots, the object a null mesh slot, and the Disney material
no colour texture, so that the texture table has a null entry. -/

/-- The values of a Disney material without a colour texture. -/
def bareDisneyMaterial : DisneyMaterial :=
  { emission := ⟨0, 0, 0⟩, baseColor := ⟨1, 2, 3⟩, metallic := 4, roughness := 5,
    transmission := 6, ior := 7, colorTexture := none, alphaTexture := some demoTexture }

/-- A Disney material without a colour texture. -/
def bareDisney : Ref Material := ⟨210, .disney bareDisneyMaterial⟩

/-- A mesh with the bare material. -/
def bareMesh : Ref Mesh :=
  ⟨310, { indices := [], vertices := [⟨5, 5, 5⟩], normals := [], texcoords := [],
          material := some bareDisney }⟩

/-- An object with a null mesh slot before its mesh. -/
def gapObject : Ref Object := ⟨410, { meshes := [none, some bareMesh] }⟩

/-- An instance list with null slots around one instance. -/
def gapScene : Scene :=
  { instances := [none, some ⟨510, { object := some gapObject, xfm := demoXfm }⟩, none],
    quadLights := [], dirLights := [], envMapLight := none }

/-! ### The file layout as the specification words it

"Section order, each length-prefixed where it is a variable-length collection: textures,
quad lights, directional lights, optional environment light, materials (tag + variant
payload), objects (mesh count + per-mesh validity + geometry arrays + material ID),
instances (validity + transform + object ID)", between two copies of the magic/version
word. -/

/-- The magic/version word: magic number and format version, combined additively. -/
def magicWord : List Byte := io.writeElement (SizeT.wrap (4321000000 + 12))

/-- The validity flag of an optional record. -/
def validityFlag (present : Bool) : List Byte :=
  io.writeElement (I32.wrap (if present then 1 else 0))

/-- Size, format, filter mode and pixel buffer of a texture. -/
def textureFields (t : Texture) : List Byte :=
  io.writeElement t.size ++ io.writeElement t.format ++ io.writeElement t.filterMode
  ++ io.writeVector t.data

/-- A texture record: flag 0, or flag 1 followed by the texture. -/
def textureRecord : SP Texture → List Byte
  | none => validityFlag false
  | some t => validityFlag true ++ textureFields t.val

/-- The optional environment-light record: presence flag, transform, texture. -/
def envMapRecord : SP EnvMapLight → List Byte
  | none => validityFlag false
  | some e =>
    validityFlag true ++ io.writeElement e.val.transform
    ++ (match e.val.texture with
        | none => []
        | some t => textureFields t.val)

/-- The type tag of a material variant. -/
def Material.tagNumber : Material → Int
  | .disney _ => 1
  | .matte _ => 2
  | .plastic _ => 3
  | .metal _ => 4
  | .velvet _ => 5
  | .metallicPaint _ => 6
  | .thinGlass _ => 7
  | .dielectric _ => 8
  | .other => 0

/-- A material record: the type tag, then the variant's payload. -/
def materialRecord (reg : Registry Texture) : SP Material → List Byte
  | none => []
  | some m => io.writeElement (I32.wrap m.val.tagNumber) ++ m.val.write reg

/-- A mesh record: flag 0, or flag 1 followed by the four vectors and the material ID. -/
def meshRecord (ser : SerializedScene) : SP Mesh → List Byte
  | none => validityFlag false
  | some m =>
    validityFlag true ++ io.writeVector m.val.indices ++ io.writeVector m.val.vertices
    ++ io.writeVector m.val.normals ++ io.writeVector m.val.texcoords
    ++ io.writeElement (ser.materials.getID m.val.material)

/-- An object record: the mesh count, then the mesh records. -/
def objectRecord (ser : SerializedScene) : SP Object → List Byte
  | none => []
  | some o =>
    io.writeElement (SizeT.wrap o.val.meshes.length) ++ o.val.meshes.flatMap (meshRecord ser)

/-- An instance record: flag 0, or flag 1 followed by the transform and the object ID. -/
def instanceRecord (ser : SerializedScene) : SP Instance → List Byte
  | none => validityFlag false
  | some i =>
    validityFlag true ++ io.writeElement i.val.xfm
    ++ io.writeElement (ser.objects.getID i.val.object)

/-- The whole file, section by section. -/
def fileLayout (ser : SerializedScene) (s : Scene) : List Byte :=
  magicWord
  ++ (io.writeElement (SizeT.wrap ser.textures.list.length)
      ++ ser.textures.list.flatMap textureRecord)
  ++ io.writeVector s.quadLights
  ++ io.writeVector s.dirLights
  ++ envMapRecord s.envMapLight
  ++ (io.writeElement (SizeT.wrap ser.materials.list.length)
      ++ ser.materials.list.flatMap (materialRecord ser.textures.registry))
  ++ (io.writeElement (SizeT.wrap ser.objects.list.length)
      ++ ser.objects.list.flatMap (objectRecord ser))
  ++ (io.writeElement (SizeT.wrap s.instances.length)
      ++ s.instances.flatMap (instanceRecord ser))
  ++ magicWord

/-- The material table `Scene::load` builds from a version-11 material section: every
material is a Disney material with the stored values, its textures the table entries at
the stored IDs. -/
def reloadMaterialsLegacy (ser : SerializedScene) (textures : List (SP Texture)) (next : Nat) :
    List (SP Material) → List (SP Material)
  | [] => []
  | none :: l => none :: reloadMaterialsLegacy ser textures next l
  | some r :: l =>
    some ⟨next,
      match r.val with
      | .disney d =>
        .disney { d with colorTexture := entryAt textures (ser.textures.getID d.colorTexture),
                         alphaTexture := entryAt textures (ser.textures.getID d.alphaTexture) }
      | m => m⟩
      :: reloadMaterialsLegacy ser textures (next + 1) l

/-- The listed materials are Disney materials whose texture IDs are positions of the
texture table. -/
def SerializedScene.LegacyMaterials (ser : SerializedScene) : Prop :=
  ∀ mat ∈ ser.materials.list, ∃ r, mat = some r ∧ ∃ d, r.val = .disney d
    ∧ (0 ≤ (ser.textures.getID d.colorTexture).val
        ∧ (ser.textures.getID d.colorTexture).val.toNat < ser.textures.list.length)
    ∧ (0 ≤ (ser.textures.getID d.alphaTexture).val
        ∧ (ser.textures.getID d.alphaTexture).val.toNat < ser.textures.list.length)

/-- The material IDs of the meshes and the object IDs of the instances are positions of
their tables, the listed objects are non-null, and the environment map has a texture. -/
def SerializedScene.InRange (ser : SerializedScene) (s : Scene) : Prop :=
  (∀ obj ∈ ser.objects.list, ∃ o, obj = some o
      ∧ ∀ mesh ∈ o.val.meshes, ∀ m ∈ mesh,
          0 ≤ (ser.materials.getID m.val.material).val
          ∧ (ser.materials.getID m.val.material).val.toNat < ser.materials.list.length)
  ∧ (∀ inst ∈ s.instances, ∀ i ∈ inst,
      0 ≤ (ser.objects.getID i.val.object).val
      ∧ (ser.objects.getID i.val.object).val.toNat < ser.objects.list.length)
  ∧ (∀ e ∈ s.envMapLight, e.val.texture ≠ none)

/-- What `Scene::load` builds from the sections of a saved scene when the material
section, read under `format_version`, yields the table `materialsOf next` from address
`next` on. -/
def Scene.reloadAs (format_version : Nat) (materialsOf : Nat → List (SP Material))
    (ser : SerializedScene) (s : Scene) : Loaded :=
  let textures := reloadTextures 0 ser.textures.list
  let n1 := liveCount ser.textures.list
  let n2 := n1 + (if s.envMapLight.isSome then 2 else 0)
  let materials := materialsOf n2
  let n3 := n2 + ser.materials.list.length
  let objects := reloadObjects ser materials n3 ser.objects.list
  let n4 := n3 + objectsSpan ser.objects.list
  { scene := { instances := reloadInstances ser objects n4 s.instances,
               quadLights := s.quadLights, dirLights := s.dirLights,
               envMapLight := reloadEnvMap n1 s.envMapLight },
    textures := textures, materials := materials, objects := objects,
    format_version := format_version }

/-- "The material is a Disney material and `q` holds of it" can be decided. -/
instance decExistsDisney (m : Material) (q : DisneyMaterial → Prop) [DecidablePred q] :
    Decidable (∃ d, m = .disney d ∧ q d) :=
  match m with
  | .disney d =>
    if h : q d then isTrue ⟨d, rfl, h⟩
    else isFalse (fun h' => h'.elim (fun _ hd => h (Material.disney.inj hd.1 ▸ hd.2)))
  | .matte _ => isFalse (fun h' => h'.elim (fun _ hd => Material.noConfusion hd.1))
  | .plastic _ => isFalse (fun h' => h'.elim (fun _ hd => Material.noConfusion hd.1))
  | .metal _ => isFalse (fun h' => h'.elim (fun _ hd => Material.noConfusion hd.1))
  | .velvet _ => isFalse (fun h' => h'.elim (fun _ hd => Material.noConfusion hd.1))
  | .metallicPaint _ => isFalse (fun h' => h'.elim (fun _ hd => Material.noConfusion hd.1))
  | .thinGlass _ => isFalse (fun h' => h'.elim (fun _ hd => Material.noConfusion hd.1))
  | .dielectric _ => isFalse (fun h' => h'.elim (fun _ hd => Material.noConfusion hd.1))
  | .other => isFalse (fun h' => h'.elim (fun _ hd => Material.noConfusion hd.1))

instance (ser : SerializedScene) : Decidable ser.LegacyMaterials := by
  unfold SerializedScene.LegacyMaterials; infer_instance

instance (ser : SerializedScene) (s : Scene) : Decidable (ser.InRange s) := by
  unfold SerializedScene.InRange; infer_instance

/-- A scene whose only material is a Disney material with both textures. -/
def legacyScene : Scene :=
  { instances := [some ⟨520, { object := some ⟨420, { meshes := [some demoMesh] }⟩,
                               xfm := demoXfm }⟩],
    quadLights := [], dirLights := [], envMapLight := none }


/-! ### Material variants and tags -/

/-- The eight material variants. -/
inductive Variant where
  | disney | matte | plastic | metal | velvet | metallicPaint | thinGlass | dielectric
deriving DecidableEq, Repr

/-- The variant a material is of; none for a material that is none of the eight. -/
def Material.variant : Material → Option Variant
  | .disney _ => some .disney
  | .matte _ => some .matte
  | .plastic _ => some .plastic
  | .metal _ => some .metal
  | .velvet _ => some .velvet
  | .metallicPaint _ => some .metallicPaint
  | .thinGlass _ => some .thinGlass
  | .dielectric _ => some .dielectric
  | .other => none

/-- The tag the specification gives each variant: DISNEY=1, MATTE=2, PLASTIC=3, METAL=4,
VELVET=5, METALLICPAINT=6, THINGLASS=7, DIELECTRIC=8. -/
def Variant.tag : Variant → Int
  | .disney => 1
  | .matte => 2
  | .plastic => 3
  | .metal => 4
  | .velvet => 5
  | .metallicPaint => 6
  | .thinGlass => 7
  | .dielectric => 8

/-- A version-12 file without textures and lights whose one material record stores the
tag 0 (`INVALID`). -/
def invalidTagFile : List Byte :=
  io.writeElement (SizeT.wrap expected_magic)
  ++ (io.writeElement (SizeT.wrap 0)
  ++ (io.writeVector ([] : List QuadLight)
  ++ (io.writeVector ([] : List DirLight)
  ++ (io.writeElement (I32.wrap 0)
  ++ (io.writeElement (SizeT.wrap 1)
  ++ (io.writeElement (I32.wrap 0) ++ []))))))

/-- A material that is none of the eight variants. -/
def plainMaterial : Ref Material := ⟨230, .other⟩

/-- A scene whose one mesh has a material that is none of the eight variants. -/
def plainScene : Scene :=
  { instances := [some ⟨530, { object := some ⟨430, { meshes := [some ⟨330,
      { indices := [], vertices := [], normals := [], texcoords := [],
        material := some plainMaterial }⟩] }⟩, xfm := demoXfm }⟩],
    quadLights := [], dirLights := [], envMapLight := none }

/-! ### The traversal of the serializer as the specification words it

"Construction performs a single full traversal of the scene graph; traversal order
determines ID assignment order (first-seen-wins)". -/

/-- The entries of `seen`, followed by the entries of `l` that are new, each once, in the
order in which they are first met. -/
def firstSeen {α : Type} [DecidableEq α] (seen : List α) : List α → List α
  | [] => seen
  | a :: l => if a ∈ seen then firstSeen seen l else firstSeen (seen ++ [a]) l

/-- A reference as the traversal meets it: a null reference is not followed. -/
def refOf {α : Type} (p : SP α) : List (SP α) :=
  match p with
  | none => []
  | some r => [some r]

/-- The object references of a scene in instance order. -/
def Scene.objectRefs (s : Scene) : List (SP Object) :=
  s.instances.flatMap (fun inst =>
    match inst with
    | none => []
    | some i => refOf i.val.object)

/-- The material references of a list of meshes, in order. -/
def meshMaterialRefs (meshes : List (SP Mesh)) : List (SP Material) :=
  meshes.flatMap (fun mesh =>
    match mesh with
    | none => []
    | some m => refOf m.val.material)

/-- The material references of a list of objects, object by object. -/
def materialRefs (objects : List (SP Object)) : List (SP Material) :=
  objects.flatMap (fun obj =>
    match obj with
    | none => []
    | some o => meshMaterialRefs o.val.meshes)

/-- The texture references of a material: the colour and the alpha texture of a Disney
material, null or not. -/
def Material.textureRefs : Material → List (SP Texture)
  | .disney d => [d.colorTexture, d.alphaTexture]
  | _ => []

/-- The texture references of a list of materials, material by material. -/
def textureRefs (materials : List (SP Material)) : List (SP Texture) :=
  materials.flatMap (fun mat =>
    match mat with
    | none => []
    | some m => m.val.textureRefs)

/-- The IDs of a table are dense: the listed nodes are pairwise distinct; a node has the
ID `id` exactly when `id` is a position of the list and the node stands there; every ID
is one of the integers `0..N-1`, `N` the length of the list; every such integer is the ID
of a node; and no two nodes have the same ID. -/
def SerializedEntities.Dense {α : Type} [DecidableEq α] (t : SerializedEntities α) : Prop :=
  t.list.Nodup
  ∧ (∀ (node : SP α) (id : I32), t.registry.find node = some id ↔ resolves t.list id node)
  ∧ (∀ (node : SP α) (id : I32), t.registry.find node = some id →
      0 ≤ id.val ∧ id.val < t.list.length)
  ∧ (∀ k : Nat, k < t.list.length →
      ∃ node, t.registry.find node = some (I32.wrap k) ∧ t.list[k]? = some node)
  ∧ (∀ (node node' : SP α) (id : I32),
      t.registry.find node = some id → t.registry.find node' = some id → node = node')

/-- The texture list is the first-seen list of the texture references of the listed
materials. -/
def SerializedScene.TexturesTraced (ser : SerializedScene) : Prop :=
  ser.textures.list = firstSeen [] (textureRefs ser.materials.list)

/-- The material list is the first-seen list of the material references of the listed
objects. -/
def SerializedScene.MaterialsTraced (ser : SerializedScene) : Prop :=
  ser.materials.list = firstSeen [] (materialRefs ser.objects.list)

/-- Two matte materials of equal contents. -/
def twinMatte1 : Ref Material := ⟨240, .matte { reflectance := ⟨9, 9, 9⟩ }⟩

/-- The second of the two matte materials. -/
def twinMatte2 : Ref Material := ⟨241, .matte { reflectance := ⟨9, 9, 9⟩ }⟩

/-- A mesh without geometry that has the given material. -/
def twinMesh (addr : Nat) (material : Ref Material) : Ref Mesh :=
  ⟨addr, { indices := [], vertices := [], normals := [], texcoords := [],
           material := some material }⟩

/-- An object of three meshes: the first and the third share a material, the second has a
material of the same contents. -/
def twinObject : Ref Object :=
  ⟨440, { meshes := [some (twinMesh 340 twinMatte1), some (twinMesh 341 twinMatte2),
                     some (twinMesh 342 twinMatte1)] }⟩

/-- Two instances of the object. -/
def twinScene : Scene :=
  { instances := [some ⟨540, { object := some twinObject, xfm := demoXfm }⟩,
                  some ⟨541, { object := some twinObject, xfm := default }⟩],
    quadLights := [], dirLights := [], envMapLight := none }

/-- A version-12 file without textures, lights, materials and objects whose one instance
record stores the object ID 0. -/
def strayObjectFile : List Byte :=
  io.writeElement (SizeT.wrap expected_magic)
  ++ (io.writeElement (SizeT.wrap 0)
  ++ (io.writeVector ([] : List QuadLight)
  ++ (io.writeVector ([] : List DirLight)
  ++ (io.writeElement (I32.wrap 0)
  ++ (io.writeElement (SizeT.wrap 0)
  ++ (io.writeElement (SizeT.wrap 0)
  ++ (io.writeElement (SizeT.wrap 1)
  ++ (io.writeElement (I32.wrap 1)
  ++ (io.writeElement (default : Affine3f)
  ++ (io.writeElement (I32.wrap 0)
  ++ (io.writeElement (SizeT.wrap expected_magic) ++ [])))))))))))

/-! ## The bounds engine

The coordinates are read over exact arithmetic: `K` is an ordered field and `num` gives
the number a stored `float` denotes. -/

/-- A `vec3f` over exact numbers. -/
structure Vec3 (K : Type) where
  x : K
  y : K
  z : K
deriving DecidableEq, Repr

/-- An `affine3f` over exact numbers: the columns `l.vx`, `l.vy`, `l.vz` of the linear
part and the translation `p`. -/
structure Affine3 (K : Type) where
  vx : Vec3 K
  vy : Vec3 K
  vz : Vec3 K
  p : Vec3 K
deriving DecidableEq, Repr

/-- Modelled from the spec: a `box3f` over exact numbers (the box class is the maths
library's, not among the sources).  A default-constructed box is `empty` (lower corner
`+inf`, upper corner `-inf`); `nonFinite` stands for a box with a coordinate that is no
number of exact arithmetic, about which nothing is said. -/
inductive Box3 (K : Type) where
  | empty
  | mk (lower upper : Vec3 K)
  | nonFinite
deriving DecidableEq, Repr

section Bounds

variable {K : Type} [LinearOrderedField K]

/-- The vector a stored `vec3f` denotes. -/
def Vec3f.toVec3 (num : F32 → K) (v : Vec3f) : Vec3 K := ⟨num v.x, num v.y, num v.z⟩

/-- The transform a stored `affine3f` denotes. -/
def Affine3f.toAffine3 (num : F32 → K) (a : Affine3f) : Affine3 K :=
  ⟨a.vx.toVec3 num, a.vy.toVec3 num, a.vz.toVec3 num, a.p.toVec3 num⟩

/-- Componentwise `min`. -/
def Vec3.min (a b : Vec3 K) : Vec3 K := ⟨Min.min a.x b.x, Min.min a.y b.y, Min.min a.z b.z⟩

/-- Componentwise `max`. -/
def Vec3.max (a b : Vec3 K) : Vec3 K := ⟨Max.max a.x b.x, Max.max a.y b.y, Max.max a.z b.z⟩

/-- Modelled from the spec: `box3f::extend(vec3f)`, `lower = min(lower,v)` and
`upper = max(upper,v)`. -/
def Box3.extend (self : Box3 K) (v : Vec3 K) : Box3 K :=
  match self with
  | .empty => .mk v v
  | .mk lower upper => .mk (lower.min v) (upper.max v)
  | .nonFinite => .nonFinite

/-- Modelled from the spec: `box3f::extend(box3f)`, the union of two boxes,
`lower = min(lower,other.lower)` and `upper = max(upper,other.upper)`. -/
def Box3.extendBox (self other : Box3 K) : Box3 K :=
  match self, other with
  | .nonFinite, _ => .nonFinite
  | _, .nonFinite => .nonFinite
  | b, .empty => b
  | .empty, b => b
  | .mk lower upper, .mk lower' upper' => .mk (lower.min lower') (upper.max upper')

/-- Modelled from the spec: `xfmPoint(xfm,p)`, the image of the point `p` under the affine
transform, `p.x*l.vx + p.y*l.vy + p.z*l.vz + xfm.p`. -/
def xfmPoint (xfm : Affine3 K) (p : Vec3 K) : Vec3 K :=
  ⟨p.x * xfm.vx.x + (p.y * xfm.vy.x + (p.z * xfm.vz.x + xfm.p.x)),
   p.x * xfm.vx.y + (p.y * xfm.vy.y + (p.z * xfm.vz.y + xfm.p.y)),
   p.x * xfm.vx.z + (p.y * xfm.vy.z + (p.z * xfm.vz.z + xfm.p.z))⟩

/-- `transformedBoxBounds`: the loop over the eight corners `i = 0..7`.  The corners of
an empty box are infinite and their images are no numbers of exact arithmetic. -/
def transformedBoxBounds (xfm : Affine3 K) (box : Box3 K) : Box3 K :=
  match box with
  | .mk lower upper =>
    (List.range 8).foldl
      (fun bounds i =>
        let corner : Vec3 K :=
          ⟨(if i &&& 1 ≠ 0 then lower else upper).x,
           (if i &&& 2 ≠ 0 then lower else upper).y,
           (if i &&& 4 ≠ 0 then lower else upper).z⟩
        bounds.extend (xfmPoint xfm corner))
      .empty
  | _ => .nonFinite

/-- Modelled from the spec: the blocks `[begin, end)` that
`parallel_for_blocked(0, n, blockSize, ...)` hands to its workers: consecutive runs of
`blockSize` elements, the last one shorter. -/
def blocksOf {α : Type} (blockSize : Nat) (items : List α) : List (List α) :=
  (List.range ((items.length + blockSize - 1) / blockSize)).map
    (fun blockIdx => (items.drop (blockIdx * blockSize)).take blockSize)

/-- `p->`: the target of a pointer; a null pointer has none. -/
def deref {α : Type} (p : SP α) : Except Error α :=
  match p with
  | none => .error .undefinedBehaviour
  | some r => .ok r.val

/-- `Mesh::getBounds`: above `16*1024` vertices one local box per block, merged into
`bounds` (here in block order); else the loop over the vertices. -/
def Mesh.getBounds (num : F32 → K) (self : Mesh) : Box3 K :=
  if self.vertices.length > 16 * 1024 then
    (blocksOf (16 * 1024) self.vertices).foldl
      (fun bounds block =>
        bounds.extendBox
          (block.foldl (fun blockBox vtx => blockBox.extend (vtx.toVec3 num)) .empty))
      .empty
  else
    self.vertices.foldl (fun bounds vtx => bounds.extend (vtx.toVec3 num)) .empty

/-- `Object::getBounds`: above `16*1024` meshes one local box per block, merged into
`bounds` (here in block order); else the loop over the meshes.  Every mesh pointer is
dereferenced. -/
def Object.getBounds (num : F32 → K) (self : Object) : Except Error (Box3 K) :=
  if self.meshes.length > 16 * 1024 then
    (blocksOf (16 * 1024) self.meshes).foldlM
      (fun bounds block => do
        let blockBox ← block.foldlM
          (fun blockBox mesh => do
            let m ← deref mesh
            pure (blockBox.extendBox (m.getBounds num)))
          Box3.empty
        pure (bounds.extendBox blockBox))
      Box3.empty
  else
    self.meshes.foldlM
      (fun bounds mesh => do
        let m ← deref mesh
        pure (bounds.extendBox (m.getBounds num)))
      Box3.empty

/-- `Instance::getBounds`: the bounds of `object`, transformed. -/
def Instance.getBounds (num : F32 → K) (self : Instance) : Except Error (Box3 K) := do
  let object ← deref self.object
  let box ← object.getBounds num
  pure (transformedBoxBounds (self.xfm.toAffine3 num) box)

/-- The loop of a pass that can fail over a list: the results in order, or the first
failure. -/
def mapEach {α β : Type} (f : α → Except Error β) : List α → Except Error (List β)
  | [] => pure []
  | a :: as => do
    let b ← f a
    let bs ← mapEach f as
    pure (b :: bs)

/-- `objectBounds[obj]` on the `std::map`: the stored box, a default-constructed one for
a key the map does not hold. -/
def lookupBounds (objectBounds : List (SP Object × Box3 K)) (obj : SP Object) : Box3 K :=
  match objectBounds.find? (fun e => decide (e.1 = obj)) with
  | some e => e.2
  | none => .empty

/-- `Scene::getBounds`, the branch compiled under `PARALLELILIZE_GETBOUNDS`: the objects
used by the instances are collected (every instance slot is dereferenced), the bounds of
each distinct object are computed once and stored in `objectBounds`, and the instances
are reduced in blocks of 1024 (merged here in block order). -/
def Scene.getBounds (num : F32 → K) (self : Scene) : Except Error (Box3 K) := do
  let instances ← mapEach deref self.instances
  let uniqueObjects := (instances.map (fun inst => inst.object)).dedup
  let objectBounds ← mapEach
    (fun obj => do
      let o ← deref obj
      let box ← o.getBounds num
      pure (obj, box))
    uniqueObjects
  pure ((blocksOf 1024 instances).foldl
    (fun bounds block =>
      bounds.extendBox
        (block.foldl
          (fun blockBox inst =>
            blockBox.extendBox
              (transformedBoxBounds (inst.xfm.toAffine3 num) (lookupBounds objectBounds inst.object)))
          .empty))
    .empty)

/-! ### Vocabulary of the bounds properties -/

/-- Componentwise sum. -/
def Vec3.add (a b : Vec3 K) : Vec3 K := ⟨a.x + b.x, a.y + b.y, a.z + b.z⟩

/-- The eight corners of the box with corners `lower` and `upper`. -/
def corners (lower upper : Vec3 K) : List (Vec3 K) :=
  [⟨lower.x, lower.y, lower.z⟩, ⟨upper.x, lower.y, lower.z⟩,
   ⟨lower.x, upper.y, lower.z⟩, ⟨upper.x, upper.y, lower.z⟩,
   ⟨lower.x, lower.y, upper.z⟩, ⟨upper.x, lower.y, upper.z⟩,
   ⟨lower.x, upper.y, upper.z⟩, ⟨upper.x, upper.y, upper.z⟩]

/-- The box has finite corners, and they are the componentwise minimum and the
componentwise maximum of the points `pts`. -/
def Box3.IsBoundsOf (b : Box3 K) (pts : List (Vec3 K)) : Prop :=
  ∃ lower upper, b = .mk lower upper
    ∧ IsLeast {c | ∃ p ∈ pts, p.x = c} lower.x
    ∧ IsLeast {c | ∃ p ∈ pts, p.y = c} lower.y
    ∧ IsLeast {c | ∃ p ∈ pts, p.z = c} lower.z
    ∧ IsGreatest {c | ∃ p ∈ pts, p.x = c} upper.x
    ∧ IsGreatest {c | ∃ p ∈ pts, p.y = c} upper.y
    ∧ IsGreatest {c | ∃ p ∈ pts, p.z = c} upper.z

/-- The box has finite corners and the point lies between them in every coordinate. -/
def Box3.Contains (b : Box3 K) (p : Vec3 K) : Prop :=
  ∃ lower upper, b = .mk lower upper
    ∧ lower.x ≤ p.x ∧ p.x ≤ upper.x
    ∧ lower.y ≤ p.y ∧ p.y ≤ upper.y
    ∧ lower.z ≤ p.z ∧ p.z ≤ upper.z

/-- The transform followed by the translation by `t`. -/
def Affine3.translate (t : Vec3 K) (xfm : Affine3 K) : Affine3 K :=
  { xfm with p := xfm.p.add t }

/-- The identity transform. -/
def Affine3.identity : Affine3 K := ⟨⟨1, 0, 0⟩, ⟨0, 1, 0⟩, ⟨0, 0, 1⟩, ⟨0, 0, 0⟩⟩

end Bounds

/-- The number an IEEE-754 binary32 bit pattern denotes; 0 for the infinities and the
NaNs. -/
def F32.toRat (x : F32) : ℚ :=
  let sign : ℚ := if x.val / 2147483648 = 1 then -1 else 1
  let e := (x.val / 8388608) % 256
  let m := x.val % 8388608
  if e = 255 then 0
  else if e = 0 then sign * m / 2 ^ 149
  else sign * ((8388608 + m : Nat) * 2 ^ (e - 1) : Nat) / 2 ^ 149

/-- The `float` 0.5. -/
def F32.half : F32 := ⟨1056964608, by decide⟩

/-- The `float` -0.5. -/
def F32.negHalf : F32 := ⟨3204448256, by decide⟩

/-- The `float` 1. -/
def F32.one : F32 := ⟨1065353216, by decide⟩

/-- The `float` 2. -/
def F32.two : F32 := ⟨1073741824, by decide⟩

/-- The identity transform in `float`s. -/
def identityXfm : Affine3f :=
  ⟨⟨F32.one, 0, 0⟩, ⟨0, F32.one, 0⟩, ⟨0, 0, F32.one⟩, ⟨0, 0, 0⟩⟩

/-- The identity followed by the translation by (2, 1, 0.5), in `float`s. -/
def shiftedXfm : Affine3f :=
  ⟨⟨F32.one, 0, 0⟩, ⟨0, F32.one, 0⟩, ⟨0, 0, F32.one⟩, ⟨F32.two, F32.one, F32.half⟩⟩

/-- The unit cube centred at the origin: eight vertices and twelve triangles. -/
def cubeMesh : Ref Mesh :=
  ⟨350, { indices := [⟨I32.wrap 0, I32.wrap 1, I32.wrap 3⟩, ⟨I32.wrap 0, I32.wrap 3, I32.wrap 2⟩,
                      ⟨I32.wrap 4, I32.wrap 7, I32.wrap 5⟩, ⟨I32.wrap 4, I32.wrap 6, I32.wrap 7⟩,
                      ⟨I32.wrap 0, I32.wrap 5, I32.wrap 1⟩, ⟨I32.wrap 0, I32.wrap 4, I32.wrap 5⟩,
                      ⟨I32.wrap 2, I32.wrap 3, I32.wrap 7⟩, ⟨I32.wrap 2, I32.wrap 7, I32.wrap 6⟩,
                      ⟨I32.wrap 0, I32.wrap 2, I32.wrap 6⟩, ⟨I32.wrap 0, I32.wrap 6, I32.wrap 4⟩,
                      ⟨I32.wrap 1, I32.wrap 7, I32.wrap 3⟩, ⟨I32.wrap 1, I32.wrap 5, I32.wrap 7⟩],
          vertices := [⟨F32.negHalf, F32.negHalf, F32.negHalf⟩, ⟨F32.half, F32.negHalf, F32.negHalf⟩,
                       ⟨F32.negHalf, F32.half, F32.negHalf⟩, ⟨F32.half, F32.half, F32.negHalf⟩,
                       ⟨F32.negHalf, F32.negHalf, F32.half⟩, ⟨F32.half, F32.negHalf, F32.half⟩,
                       ⟨F32.negHalf, F32.half, F32.half⟩, ⟨F32.half, F32.half, F32.half⟩],
          normals := [], texcoords := [], material := some demoMatte }⟩

/-- An object of the cube. -/
def cubeObject : Ref Object := ⟨450, { meshes := [some cubeMesh] }⟩

/-- A scene of one instance of the cube under the given transform. -/
def cubeScene (xfm : Affine3f) : Scene :=
  { instances := [some ⟨550, { object := some cubeObject, xfm := xfm }⟩],
    quadLights := [], dirLights := [], envMapLight := none }

section ShiftDef

variable {K : Type} [LinearOrderedField K]

/-- The box with both corners moved by `t`; an empty box stays empty. -/
def Box3.shift (t : Vec3 K) : Box3 K → Box3 K
  | .empty => .empty
  | .mk lower upper => .mk (lower.add t) (upper.add t)
  | .nonFinite => .nonFinite

end ShiftDef



section BoundsReference

variable {K : Type} [LinearOrderedField K]

/-- The six rotations by 90 degrees about a coordinate axis through the origin: about
the x, the y and the z axis, each in both senses (columns `l.vx`, `l.vy`, `l.vz`, then the
translation). -/
def quarterTurns : List (Affine3 K) :=
  [⟨⟨1, 0, 0⟩, ⟨0, 0, 1⟩, ⟨0, -1, 0⟩, ⟨0, 0, 0⟩⟩,
   ⟨⟨1, 0, 0⟩, ⟨0, 0, -1⟩, ⟨0, 1, 0⟩, ⟨0, 0, 0⟩⟩,
   ⟨⟨0, 0, -1⟩, ⟨0, 1, 0⟩, ⟨1, 0, 0⟩, ⟨0, 0, 0⟩⟩,
   ⟨⟨0, 0, 1⟩, ⟨0, 1, 0⟩, ⟨-1, 0, 0⟩, ⟨0, 0, 0⟩⟩,
   ⟨⟨0, 1, 0⟩, ⟨-1, 0, 0⟩, ⟨0, 0, 1⟩, ⟨0, 0, 0⟩⟩,
   ⟨⟨0, -1, 0⟩, ⟨1, 0, 0⟩, ⟨0, 0, 1⟩, ⟨0, 0, 0⟩⟩]

/-- The block-parallel branch of `Mesh::getBounds` when the workers finish in the order
`completion`: each worker's `blockBox` is the box of its block, and the boxes are merged
into `bounds` under the mutex in that order. -/
def Mesh.getBoundsBlocked (num : F32 → K) (completion : List (List Vec3f)) : Box3 K :=
  completion.foldl
    (fun bounds block =>
      bounds.extendBox
        (block.foldl (fun blockBox vtx => blockBox.extend (vtx.toVec3 num)) .empty))
    .empty

/-- The sequential branch of `Mesh::getBounds`:
`for (auto vtx : vertices) bounds.extend(vtx)`. -/
def Mesh.getBoundsSequential (num : F32 → K) (self : Mesh) : Box3 K :=
  self.vertices.foldl (fun bounds vtx => bounds.extend (vtx.toVec3 num)) .empty

/-- The block-parallel branch of `Object::getBounds` when the workers finish in the order
`completion`. -/
def Object.getBoundsBlocked (num : F32 → K) (completion : List (List (SP Mesh))) :
    Except Error (Box3 K) :=
  completion.foldlM
    (fun bounds block => do
      let blockBox ← block.foldlM
        (fun blockBox mesh => do
          let m ← deref mesh
          pure (blockBox.extendBox (m.getBounds num)))
        Box3.empty
      pure (bounds.extendBox blockBox))
    Box3.empty

/-- The sequential branch of `Object::getBounds`:
`for (auto mesh : meshes) bounds.extend(mesh->getBounds())`. -/
def Object.getBoundsSequential (num : F32 → K) (self : Object) : Except Error (Box3 K) :=
  self.meshes.foldlM
    (fun bounds mesh => do
      let m ← deref mesh
      pure (bounds.extendBox (m.getBounds num)))
    Box3.empty

/-- `Scene::getBounds`, the branch under `#else` (without `PARALLELILIZE_GETBOUNDS`):
`for (auto inst : instances) bounds.extend(inst->getBounds())`. -/
def Scene.getBoundsReference (num : F32 → K) (self : Scene) : Except Error (Box3 K) :=
  self.instances.foldlM
    (fun bounds inst => do
      let i ← deref inst
      let box ← i.getBounds num
      pure (bounds.extendBox box))
    Box3.empty

end BoundsReference

/-- Every instance slot, the object of every instance and every mesh slot of these
objects is non-null. -/
def Scene.Live (s : Scene) : Prop :=
  ∀ inst ∈ s.instances, ∃ i, inst = some i
    ∧ ∃ o, i.val.object = some o ∧ ∀ mesh ∈ o.val.meshes, mesh ≠ none

instance (s : Scene) : Decidable s.Live := by
  unfold Scene.Live; infer_instance

/-- The `float` -1. -/
def F32.negOne : F32 := ⟨3212836864, by decide⟩

/-- The rotation by 90 degrees about the z axis, in `float`s. -/
def quarterTurnXfm : Affine3f :=
  ⟨⟨0, F32.one, 0⟩, ⟨F32.negOne, 0, 0⟩, ⟨0, 0, F32.one⟩, ⟨0, 0, 0⟩⟩

/-- A mesh of 20000 vertices, alternately two opposite corners of the unit cube. -/
def largeMesh : Mesh :=
  { indices := [],
    vertices := (List.range 20000).map (fun i =>
      if i % 2 = 0 then ⟨F32.negHalf, F32.negHalf, F32.negHalf⟩
      else ⟨F32.half, F32.half, F32.half⟩),
    normals := [], texcoords := [], material := some demoMatte }


section SlotBounds

variable {K : Type} [LinearOrderedField K]

/-- The box a mesh slot adds to the bounds of its object: the bounds of the mesh, nothing
for a null slot. -/
def slotBounds (num : F32 → K) (mesh : SP Mesh) : Box3 K :=
  match mesh with
  | some m => m.val.getBounds num
  | none => .empty

end SlotBounds


section ObjectBox

variable {K : Type} [LinearOrderedField K]

/-- The box `Object::getBounds` returns for the object behind a pointer; the empty box
where it returns none. -/
def objectBox (num : F32 → K) (obj : SP Object) : Box3 K :=
  match obj with
  | some o =>
    match o.val.getBounds num with
    | .ok box => box
    | .error _ => .empty
  | none => .empty

end ObjectBox


/-! ## The subdivide tool (`tools/subdivide.cpp`)

`miniSubdivide` loads a scene, builds a new scene in which every triangle of every mesh
is split into four at the midpoints of its edges, and saves it.  The tool keeps three
`std::map`s from the nodes of the input to the nodes it has built for them, and one
`std::map` from strings to new vertex indices for the mesh at hand. -/

/-- A `std::string`. -/
abbrev StdString := List Char

/-- The character of a decimal digit. -/
def digitChar (d : Nat) : Char :=
  match d with
  | 0 => '0'
  | 1 => '1'
  | 2 => '2'
  | 3 => '3'
  | 4 => '4'
  | 5 => '5'
  | 6 => '6'
  | 7 => '7'
  | 8 => '8'
  | _ => '9'

/-- The decimal digits of `n`, the most significant first; `fuel` bounds their number. -/
def decimal : Nat → Nat → StdString
  | 0, _ => []
  | fuel + 1, n =>
    if n < 10 then [digitChar n] else decimal fuel (n / 10) ++ [digitChar (n % 10)]

/-- `std::to_string(int32_t)`: a minus sign for a negative value, then the decimal
digits of the magnitude (at most ten). -/
def to_string (i : I32) : StdString :=
  if i.val < 0 then '-' :: decimal 10 i.val.natAbs else decimal 10 i.val.natAbs

/-- `midpointIndexToString(i1, i2)`: the two indices in ascending order, a comma between
them. -/
def midpointIndexToString (i1 i2 : I32) : StdString :=
  if i1.val < i2.val then to_string i1 ++ [','] ++ to_string i2
  else to_string i2 ++ [','] ++ to_string i1

/-- The digit a character denotes; 0 for a character that is no digit. -/
def digitValue (c : Char) : Nat :=
  if c = '1' then 1 else if c = '2' then 2 else if c = '3' then 3 else if c = '4' then 4
  else if c = '5' then 5 else if c = '6' then 6 else if c = '7' then 7 else if c = '8' then 8
  else if c = '9' then 9 else 0

/-- The number a string of decimal digits denotes. -/
def decimalValue (s : StdString) : Nat :=
  s.foldl (fun acc c => 10 * acc + digitValue c) 0

/-- A `std::map`: its entries, the latest assignment first. -/
abbrev StdMap (κ ν : Type) := List (κ × ν)

/-- `std::map::find`: the value stored for a key, if any. -/
def StdMap.find {κ ν : Type} [DecidableEq κ] : StdMap κ ν → κ → Option ν
  | [], _ => none
  | (k, v) :: m, key => if k = key then some v else StdMap.find m key

/-- The assignment `map[key] = value`. -/
def StdMap.set {κ ν : Type} (m : StdMap κ ν) (key : κ) (value : ν) : StdMap κ ν :=
  (key, value) :: m

/-- `vertices[i]` with an `int32_t` subscript, unchecked: outside the vector the read is
undefined. -/
def vertexAt (vertices : List Vec3f) (i : I32) : Except Error Vec3f :=
  if h : 0 ≤ i.val ∧ i.val.toNat < vertices.length then
    pure (vertices.get ⟨i.val.toNat, h.2⟩)
  else throw Error.undefinedBehaviour

/-- The three reads `v[k] = mesh->vertices[index[k]]` of a triangle. -/
def trianglePositions (vertices : List Vec3f) (index : Vec3i) :
    Except Error (Vec3f × Vec3f × Vec3f) := do
  let v0 ← vertexAt vertices index.x
  let v1 ← vertexAt vertices index.y
  let v2 ← vertexAt vertices index.z
  pure (v0, v1, v2)

/-- The locals of the mesh loop: `vertexMap`, and the `vertices` and `indices` of the new
mesh. -/
structure MeshBuild where
  vertexMap : StdMap StdString I32
  vertices : List Vec3f
  indices : List Vec3i
deriving DecidableEq

/-- The `if (vertexMap.find(indexString) != vertexMap.end())` of the triangle loop: the
index stored for the key, or else the vertex is appended, `vertices.size()` (converted to
`int32_t`) is its index and the key is entered. -/
def MeshBuild.vertexFor (b : MeshBuild) (indexString : StdString) (position : Vec3f) :
    I32 × MeshBuild :=
  match b.vertexMap.find indexString with
  | some idx => (idx, b)
  | none =>
    (I32.wrap b.vertices.length,
     { b with vertexMap := b.vertexMap.set indexString (I32.wrap b.vertices.length),
              vertices := b.vertices ++ [position] })

/-- One pass of the triangle loop.  `mid p q` stands for the `float` expression
`(p + q) / 2.0f`; the three midpoints are looked up or appended first, then the three
corners, then the four triangles `(i[k], j[k], j[(k+2)%3])`, `k = 0, 1, 2`, and
`(j[0], j[1], j[2])` are appended. -/
def subdivideTriangle (mid : Vec3f → Vec3f → Vec3f) (mesh : Mesh) (b : MeshBuild)
    (index : Vec3i) : Except Error MeshBuild := do
  let (v0, v1, v2) ← trianglePositions mesh.vertices index
  let (j0, b) := b.vertexFor (midpointIndexToString index.x index.y) (mid v0 v1)
  let (j1, b) := b.vertexFor (midpointIndexToString index.y index.z) (mid v1 v2)
  let (j2, b) := b.vertexFor (midpointIndexToString index.z index.x) (mid v2 v0)
  let (i0, b) := b.vertexFor (to_string index.x) v0
  let (i1, b) := b.vertexFor (to_string index.y) v1
  let (i2, b) := b.vertexFor (to_string index.z) v2
  pure { b with indices := b.indices ++ [⟨i0, j0, j2⟩, ⟨i1, j1, j0⟩, ⟨i2, j2, j1⟩, ⟨j0, j1, j2⟩] }

/-- The triangle loop over `mesh->indices`, from an empty `vertexMap`. -/
def subdivideBuild (mid : Vec3f → Vec3f → Vec3f) (mesh : Mesh) : Except Error MeshBuild :=
  mesh.indices.foldlM (subdivideTriangle mid mesh) { vertexMap := [], vertices := [], indices := [] }

/-- Modelled from the spec: `Material::create()` (Scene.h is not among the sources), a
material that is none of the eight variants. -/
def Material.create : Material := .other

/-- Modelled from the spec: `Mesh::create(material)` (Scene.h is not among the sources), a
mesh without geometry that references the material. -/
def Mesh.create (material : SP Material) : Mesh :=
  { indices := [], vertices := [], normals := [], texcoords := [], material := material }

/-- Modelled from the spec: `Object::create(meshes)` (Scene.h is not among the sources). -/
def Object.create (meshes : List (SP Mesh)) : Object := { meshes := meshes }

/-- Modelled from the spec: `Instance::create(object)` (Scene.h is not among the sources):
the instance references the object, its transform is the default one. -/
def Instance.create (object : SP Object) : Instance := { object := object, xfm := default }

/-- Modelled from the spec: `Scene::create(instances)` (Scene.h is not among the sources): a
scene of these instances, without lights. -/
def Scene.create (instances : List (SP Instance)) : Scene :=
  { instances := instances, quadLights := [], dirLights := [], envMapLight := none }

/-- The mesh built for an input mesh: `Mesh::create(material)`, then
`newMesh->vertices = vertices; newMesh->indices = indices` after the triangle loop. -/
def subdivideMesh (mid : Vec3f → Vec3f → Vec3f) (material : SP Material) (mesh : Mesh) :
    Except Error Mesh := do
  let newMesh := Mesh.create material
  let b ← subdivideBuild mid mesh
  pure { newMesh with vertices := b.vertices, indices := b.indices }

/-- The locals of the mesh loop of one object: the map `meshes`, the next free address and
`newMeshes`. -/
structure MeshPass where
  meshes : StdMap (SP Mesh) (SP Mesh)
  next : Nat
  newMeshes : List (SP Mesh)
deriving DecidableEq

/-- One pass of the mesh loop: a mesh found in `meshes` is reused; else the dummy
material and the new mesh are allocated, the triangles are subdivided (the null mesh is
dereferenced), and the new mesh is entered in `meshes`. -/
def subdivideMeshSlot (mid : Vec3f → Vec3f → Vec3f) (st : MeshPass) (mesh : SP Mesh) :
    Except Error MeshPass :=
  match st.meshes.find mesh with
  | some newMesh => pure { st with newMeshes := st.newMeshes ++ [newMesh] }
  | none => do
    let m ← deref mesh
    let newMesh ← subdivideMesh mid (some ⟨st.next, Material.create⟩) m
    pure { meshes := st.meshes.set mesh (some ⟨st.next + 1, newMesh⟩),
           next := st.next + 2,
           newMeshes := st.newMeshes ++ [some ⟨st.next + 1, newMesh⟩] }

/-- The locals of `miniSubdivide`: the maps `instances`, `objects`, `meshes`, the list
`newInstances`, and the next free address. -/
structure Subdivision where
  instances : StdMap (SP Instance) (SP Instance)
  objects : StdMap (SP Object) (SP Object)
  meshes : StdMap (SP Mesh) (SP Mesh)
  newInstances : List (SP Instance)
  next : Nat
deriving DecidableEq

/-- One pass of the instance loop: an instance found in `instances` is reused; else, if
its object is found in `objects`, a new instance of the new object is appended (and not
entered in `instances`); else the meshes of the object are subdivided, and the new object
and the new instance are created, appended and entered in `objects` and `instances`. -/
def subdivideInstance (mid : Vec3f → Vec3f → Vec3f) (st : Subdivision) (inst : SP Instance) :
    Except Error Subdivision :=
  match st.instances.find inst with
  | some newInstance => pure { st with newInstances := st.newInstances ++ [newInstance] }
  | none => do
    let i ← deref inst
    match st.objects.find i.object with
    | some newObject =>
      pure { st with newInstances := st.newInstances ++ [some ⟨st.next, Instance.create newObject⟩],
                     next := st.next + 1 }
    | none => do
      let object ← deref i.object
      let pass ← object.meshes.foldlM (subdivideMeshSlot mid)
        { meshes := st.meshes, next := st.next, newMeshes := [] }
      let newObject : SP Object := some ⟨pass.next, Object.create pass.newMeshes⟩
      let newInstance : SP Instance := some ⟨pass.next + 1, Instance.create newObject⟩
      pure { instances := st.instances.set inst newInstance,
             objects := st.objects.set i.object newObject,
             meshes := pass.meshes,
             newInstances := st.newInstances ++ [newInstance],
             next := pass.next + 2 }

/-- The instance loop of `miniSubdivide` over the loaded scene, the first new node at
address `next`. -/
def subdivideScene (mid : Vec3f → Vec3f → Vec3f) (next : Nat) (scene : Scene) :
    Except Error Subdivision :=
  scene.instances.foldlM (subdivideInstance mid)
    { instances := [], objects := [], meshes := [], newInstances := [], next := next }

/-- The body of `miniSubdivide` on the bytes of the input file: `Scene::load`, the
instance loop, `Scene::create(newInstances)` and `newScene->save`; the bytes of the output
file. -/
def miniSubdivide (mid : Vec3f → Vec3f → Vec3f) (next : Nat) (inp : List Byte) :
    Except Error (List Byte) := do
  let scene ← Scene.load inp
  let st ← subdivideScene mid next scene
  let newScene := Scene.create st.newInstances
  newScene.save

/-! ### Vocabulary of the subdivision properties -/

/-- The `int32_t` is a position of a vector of `n` elements. -/
def InRange (n : Nat) (i : I32) : Prop := 0 ≤ i.val ∧ i.val.toNat < n

instance (n : Nat) (i : I32) : Decidable (InRange n i) := by
  unfold InRange; infer_instance

/-- Every triangle index of the mesh is a position of its vertices. -/
def Mesh.IndicesValid (m : Mesh) : Prop :=
  ∀ index ∈ m.indices, InRange m.vertices.length index.x ∧ InRange m.vertices.length index.y
    ∧ InRange m.vertices.length index.z

instance (m : Mesh) : Decidable m.IndicesValid := by
  unfold Mesh.IndicesValid; infer_instance

/-- The six keys the triangle loop looks up for a triangle: the three midpoints, then the
three corners. -/
def triangleKeys (index : Vec3i) : List StdString :=
  [midpointIndexToString index.x index.y, midpointIndexToString index.y index.z,
   midpointIndexToString index.z index.x, to_string index.x, to_string index.y,
   to_string index.z]

/-- The vertex indices the triangles use, with repetitions. -/
def usedVertices (indices : List Vec3i) : List I32 :=
  indices.flatMap (fun index => [index.x, index.y, index.z])

/-- The undirected edges of the triangles, with repetitions. -/
def usedEdges (indices : List Vec3i) : List (Sym2 I32) :=
  indices.flatMap (fun index => [s(index.x, index.y), s(index.y, index.z), s(index.z, index.x)])

/-- The position that belongs to a key of `vertexMap`: the vertex of the input for the key
of a vertex index, the midpoint of the two vertices for the key of an edge. -/
def KeyPosition (mid : Vec3f → Vec3f → Vec3f) (vertices : List Vec3f) (key : StdString)
    (position : Vec3f) : Prop :=
  (∀ i, key = to_string i → vertexAt vertices i = .ok position)
  ∧ (∀ i j vi vj, key = midpointIndexToString i j → vertexAt vertices i = .ok vi →
      vertexAt vertices j = .ok vj → position = mid vi vj)

/-- The state of the triangle loop after the keys `keys` have been looked up: `vertexMap`
holds these keys, each once, with the index of the vertex appended for it, and that vertex
has the position that belongs to the key. -/
def MeshBuild.Sound (mid : Vec3f → Vec3f → Vec3f) (vertices : List Vec3f) (keys : List StdString)
    (b : MeshBuild) : Prop :=
  (b.vertexMap.map Prod.fst).Nodup
  ∧ (∀ key, key ∈ b.vertexMap.map Prod.fst ↔ key ∈ keys)
  ∧ b.vertexMap.length = b.vertices.length
  ∧ (∀ key v, b.vertexMap.find key = some v →
      ∃ (p : Nat) (position : Vec3f), v = I32.wrap p ∧ b.vertices[p]? = some position
        ∧ KeyPosition mid vertices key position)
  ∧ (∀ key key' v, b.vertexMap.find key = some v → b.vertexMap.find key' = some v → key = key')

/-- The four triangles appended for the input triangle `index` stand at the positions
`4k .. 4k+3` of `indices`, and their corners are the new vertices `vertexMap` holds for the
corners and the edges of `index`. -/
def MeshBuild.Emitted (b : MeshBuild) (k : Nat) (index : Vec3i) : Prop :=
  ∃ i0 i1 i2 j0 j1 j2,
    b.vertexMap.find (to_string index.x) = some i0
    ∧ b.vertexMap.find (to_string index.y) = some i1
    ∧ b.vertexMap.find (to_string index.z) = some i2
    ∧ b.vertexMap.find (midpointIndexToString index.x index.y) = some j0
    ∧ b.vertexMap.find (midpointIndexToString index.y index.z) = some j1
    ∧ b.vertexMap.find (midpointIndexToString index.z index.x) = some j2
    ∧ b.indices[4 * k]? = some ⟨i0, j0, j2⟩
    ∧ b.indices[4 * k + 1]? = some ⟨i1, j1, j0⟩
    ∧ b.indices[4 * k + 2]? = some ⟨i2, j2, j1⟩
    ∧ b.indices[4 * k + 3]? = some ⟨j0, j1, j2⟩

/-- A commutative function on `vec3f` values, to put in the place of the `float`
midpoint where a concrete one is needed: the mean of the two bit patterns, by
component. -/
def meanBits (p q : Vec3f) : Vec3f :=
  ⟨Fin.ofNat ((p.x.val + q.x.val) / 2), Fin.ofNat ((p.y.val + q.y.val) / 2),
   Fin.ofNat ((p.z.val + q.z.val) / 2)⟩

/-- Two triangles that share the edge between the vertices 1 and 2, in opposite
directions. -/
def quadMesh : Mesh :=
  { indices := [⟨I32.wrap 0, I32.wrap 1, I32.wrap 2⟩, ⟨I32.wrap 2, I32.wrap 1, I32.wrap 3⟩],
    vertices := [⟨0, 0, 0⟩, ⟨2, 0, 0⟩, ⟨0, 2, 0⟩, ⟨2, 2, 0⟩], normals := [], texcoords := [],
    material := some demoMatte }


/-! ### Vocabulary of the properties of the instance loop -/

/-- Every triangle index of every mesh of the scene is a position of the vertices of its
mesh. -/
def Scene.IndicesValid (s : Scene) : Prop :=
  ∀ inst ∈ s.instances, ∀ i ∈ inst, ∀ o ∈ i.val.object, ∀ mesh ∈ o.val.meshes, ∀ m ∈ mesh,
    m.val.IndicesValid

instance (s : Scene) : Decidable s.IndicesValid := by
  unfold Scene.IndicesValid; infer_instance

/-- Some instance of the scene has an object with at least one mesh slot. -/
def Scene.HasMesh (s : Scene) : Prop :=
  ∃ inst ∈ s.instances, ∃ i ∈ inst, ∃ o ∈ i.val.object, o.val.meshes ≠ []

instance (s : Scene) : Decidable s.HasMesh := by
  unfold Scene.HasMesh; infer_instance

/-- Every entry of the map `meshes` sends an input mesh to a mesh built from it by the
triangle loop, with a dummy material of its own. -/
def MeshesSound (mid : Vec3f → Vec3f → Vec3f) (meshes : StdMap (SP Mesh) (SP Mesh)) : Prop :=
  ∀ key v, meshes.find key = some v →
    ∃ (m newMesh : Ref Mesh) (a : Nat), key = some m ∧ v = some newMesh
      ∧ subdivideMesh mid (some ⟨a, Material.create⟩) m.val = .ok newMesh.val

/-- Every entry of the map `objects` sends an input object to an object whose meshes are, in
order, the entries of `meshes` for the meshes of the input object. -/
def ObjectsSound (objects : StdMap (SP Object) (SP Object)) (meshes : StdMap (SP Mesh) (SP Mesh)) :
    Prop :=
  ∀ key v, objects.find key = some v →
    ∃ o newObject, key = some o ∧ v = some newObject
      ∧ newObject.val.meshes = o.val.meshes.map (fun mesh => (meshes.find mesh).getD none)
      ∧ ∀ mesh ∈ o.val.meshes, ∃ newMesh, meshes.find mesh = some newMesh

/-- Every entry of the map `instances` sends an input instance to an instance created from
the entry of `objects` for its object. -/
def InstancesSound (instances : StdMap (SP Instance) (SP Instance))
    (objects : StdMap (SP Object) (SP Object)) : Prop :=
  ∀ key v, instances.find key = some v →
    ∃ i o newInstance newObject, key = some i ∧ i.val.object = some o ∧ v = some newInstance
      ∧ newInstance.val = Instance.create (some newObject)
      ∧ objects.find (some o) = some (some newObject)

/-- The state of the instance loop after the slots `done`: one new instance per slot, in
order, each created from the entry of `objects` for the object of its slot; the three maps
are sound; an instance entered in `instances` has its entry as new instance in every slot
that holds it; the keys of `objects` are objects of slots; and an instance that stands in
the first slot of its object is entered in `instances`. -/
def Subdivision.Sound (mid : Vec3f → Vec3f → Vec3f) (done : List (SP Instance))
    (st : Subdivision) : Prop :=
  st.newInstances.length = done.length
  ∧ (∀ (k : Nat) (i : Ref Instance), done[k]? = some (some i) →
      ∃ (o : Ref Object) (newInstance : Ref Instance) (newObject : Ref Object),
        i.val.object = some o
        ∧ st.newInstances[k]? = some (some newInstance)
        ∧ newInstance.val = Instance.create (some newObject)
        ∧ st.objects.find (some o) = some (some newObject))
  ∧ InstancesSound st.instances st.objects
  ∧ ObjectsSound st.objects st.meshes
  ∧ MeshesSound mid st.meshes
  ∧ (∀ (key v : SP Instance), st.instances.find key = some v →
      ∀ k : Nat, done[k]? = some key → st.newInstances[k]? = some v)
  ∧ (∀ (key v : SP Object), st.objects.find key = some v →
      ∃ (k : Nat) (i : Ref Instance), done[k]? = some (some i) ∧ i.val.object = key)
  ∧ (∀ (k : Nat) (i : Ref Instance), done[k]? = some (some i) →
      (∀ (k' : Nat) (i' : Ref Instance), k' < k → done[k']? = some (some i') →
        i'.val.object ≠ i.val.object) →
      ∃ v, st.instances.find (some i) = some v)

/-- The two scenes have the same instance slots up to the transforms: slot by slot both are
null, or both hold an instance at the same address with the same object; and two slots hold
the same instance in the one scene exactly when they do in the other. -/
def Scene.XfmVariant (s1 s2 : Scene) : Prop :=
  s1.instances.length = s2.instances.length
  ∧ ∀ p ∈ s1.instances.zip s2.instances,
      p.1.map (fun r => (r.addr, r.val.object)) = p.2.map (fun r => (r.addr, r.val.object))
      ∧ ∀ q ∈ s1.instances.zip s2.instances, (p.1 = q.1 ↔ p.2 = q.2)

instance (s1 s2 : Scene) : Decidable (s1.XfmVariant s2) := by
  unfold Scene.XfmVariant; infer_instance

/-- The demo scene with other transforms. -/
def turnedScene : Scene :=
  { instances := [some ⟨500, { object := some demoObject, xfm := quarterTurnXfm }⟩,
                  some ⟨501, { object := some demoObject, xfm := shiftedXfm }⟩],
    quadLights := [], dirLights := [⟨⟨0, 0, 1⟩, ⟨1, 1, 1⟩⟩], envMapLight := none }

/-- A scene built in memory: two instances of one object, the second one in two slots. -/
def repeatedScene : Scene :=
  { instances := [some ⟨500, { object := some demoObject, xfm := demoXfm }⟩,
                  some ⟨501, { object := some demoObject, xfm := default }⟩,
                  some ⟨501, { object := some demoObject, xfm := default }⟩],
    quadLights := [], dirLights := [], envMapLight := none }

/-- A second object, of the second mesh of the demo object. -/
def sharingObject : Ref Object := ⟨401, { meshes := [some demoMesh2] }⟩

/-- A scene built in memory with every kind of sharing: the first instance stands in the
slots 0 and 2, the slots 0, 1 and 2 hold instances of the one object, and the object of the
slot 3 has a mesh of that object. -/
def sharingScene : Scene :=
  { instances := [some ⟨500, { object := some demoObject, xfm := demoXfm }⟩,
                  some ⟨501, { object := some demoObject, xfm := default }⟩,
                  some ⟨500, { object := some demoObject, xfm := demoXfm }⟩,
                  some ⟨502, { object := some sharingObject, xfm := default }⟩],
    quadLights := [], dirLights := [], envMapLight := none }
/-! ## Laws of the codec -/

theorem encLE_length (w n : Nat) : (encLE w n).length = w := by
  induction w generalizing n with
  | zero => rfl
  | succ w ih => simp [encLE, ih]

theorem decLE_encLE (w n : Nat) : decLE (encLE w n) = n % 256 ^ w := by
  induction w generalizing n with
  | zero => simp [encLE, decLE, Nat.mod_one]
  | succ w ih =>
    simp only [encLE, decLE, ih]
    have h : (Fin.ofNat (n % 256) : Byte).val = n % 256 := by
      simp [Fin.ofNat]
    rw [h, pow_succ, Nat.mul_comm (256 ^ w) 256, Nat.mod_mul]

theorem toInt32_ofInt32 (z : Int) (h1 : -2147483648 ≤ z) (h2 : z < 2147483648) :
    (toInt32 (ofInt32 z)).val = z := by
  unfold toInt32 ofInt32
  have h0 : (0 : Int) ≤ z % 4294967296 := Int.emod_nonneg z (by decide)
  have hlt : z % 4294967296 < 4294967296 := Int.emod_lt_of_pos z (by decide)
  have hn : ((z % 4294967296).toNat : Int) = z % 4294967296 := Int.toNat_of_nonneg h0
  have hm : (z % 4294967296).toNat % 4294967296 = (z % 4294967296).toNat := by
    apply Nat.mod_eq_of_lt
    omega
  split
  · show (((z % 4294967296).toNat % 4294967296 : Nat) : Int) = z
    omega
  · show (((z % 4294967296).toNat % 4294967296 : Nat) : Int) - 4294967296 = z
    omega

theorem wrap32_val (z : Int) (h1 : -2147483648 ≤ z) (h2 : z < 2147483648) :
    (I32.wrap z).val = z := toInt32_ofInt32 z h1 h2

theorem wrap32_self (x : I32) : I32.wrap x.val = x :=
  Subtype.ext (toInt32_ofInt32 x.val x.property.1 x.property.2)

theorem wrapSize_val (n : Nat) (h : n < 18446744073709551616) : (SizeT.wrap n).val = n := by
  simp only [SizeT.wrap, Fin.ofNat]
  omega

instance : LawfulFixed F32 where
  size_enc _ := encLE_length _ _
  dec_enc x := by
    apply Fin.ext
    show (Fin.ofNat (decLE (encLE 4 x.val)) : F32).val = x.val
    simp only [decLE_encLE, Fin.ofNat]
    have := x.isLt
    omega

instance : LawfulFixed SizeT where
  size_enc _ := encLE_length _ _
  dec_enc x := by
    apply Fin.ext
    show (Fin.ofNat (decLE (encLE 8 x.val)) : SizeT).val = x.val
    simp only [decLE_encLE, Fin.ofNat]
    have := x.isLt
    omega

instance : LawfulFixed I32 where
  size_enc _ := encLE_length _ _
  dec_enc x := by
    show toInt32 (decLE (encLE 4 (ofInt32 x.val))) = x
    have h : ofInt32 x.val % 256 ^ 4 = ofInt32 x.val := by
      apply Nat.mod_eq_of_lt
      unfold ofInt32
      have hlt : x.val % 4294967296 < 4294967296 := Int.emod_lt_of_pos _ (by decide)
      omega
    rw [decLE_encLE, h]
    exact wrap32_self x

instance : LawfulFixed Byte where
  size_enc _ := rfl
  dec_enc _ := rfl

theorem take_enc {α : Type} [Fixed α] [LawfulFixed α] (a : α) (r : List Byte) :
    (Fixed.enc a ++ r).take (Fixed.size α) = Fixed.enc a :=
  List.take_left' (LawfulFixed.size_enc a)

theorem drop_enc {α : Type} [Fixed α] [LawfulFixed α] (a : α) (r : List Byte) :
    (Fixed.enc a ++ r).drop (Fixed.size α) = r :=
  List.drop_left' (LawfulFixed.size_enc a)

theorem dec_take_enc {α : Type} [Fixed α] [LawfulFixed α] (a : α) (r : List Byte) :
    Fixed.dec ((Fixed.enc a ++ r).take (Fixed.size α)) = a := by
  rw [take_enc, LawfulFixed.dec_enc]

instance {α β : Type} [Fixed α] [Fixed β] [LawfulFixed α] [LawfulFixed β] :
    LawfulFixed (α × β) where
  size_enc p := by
    show (Fixed.enc p.1 ++ Fixed.enc p.2).length = Fixed.size α + Fixed.size β
    rw [List.length_append, LawfulFixed.size_enc, LawfulFixed.size_enc]
  dec_enc p := by
    show ((Fixed.dec ((Fixed.enc p.1 ++ Fixed.enc p.2).take (Fixed.size α)) : α),
          (Fixed.dec ((Fixed.enc p.1 ++ Fixed.enc p.2).drop (Fixed.size α)) : β)) = p
    rw [dec_take_enc, drop_enc, LawfulFixed.dec_enc]

instance : LawfulFixed Vec2f where
  size_enc v := LawfulFixed.size_enc (v.x, v.y)
  dec_enc v := by
    show (match (Fixed.dec (Fixed.enc (v.x, v.y)) : F32 × F32) with
      | (x, y) => Vec2f.mk x y) = v
    rw [LawfulFixed.dec_enc]

instance : LawfulFixed Vec3f where
  size_enc v := LawfulFixed.size_enc (v.x, v.y, v.z)
  dec_enc v := by
    show (match (Fixed.dec (Fixed.enc (v.x, v.y, v.z)) : F32 × F32 × F32) with
      | (x, y, z) => Vec3f.mk x y z) = v
    rw [LawfulFixed.dec_enc]

instance : LawfulFixed Vec2i where
  size_enc v := LawfulFixed.size_enc (v.x, v.y)
  dec_enc v := by
    show (match (Fixed.dec (Fixed.enc (v.x, v.y)) : I32 × I32) with
      | (x, y) => Vec2i.mk x y) = v
    rw [LawfulFixed.dec_enc]

instance : LawfulFixed Vec3i where
  size_enc v := LawfulFixed.size_enc (v.x, v.y, v.z)
  dec_enc v := by
    show (match (Fixed.dec (Fixed.enc (v.x, v.y, v.z)) : I32 × I32 × I32) with
      | (x, y, z) => Vec3i.mk x y z) = v
    rw [LawfulFixed.dec_enc]

instance : LawfulFixed Affine3f where
  size_enc a := LawfulFixed.size_enc (a.vx, a.vy, a.vz, a.p)
  dec_enc a := by
    show (match (Fixed.dec (Fixed.enc (a.vx, a.vy, a.vz, a.p)) : Vec3f × Vec3f × Vec3f × Vec3f) with
      | (vx, vy, vz, p) => Affine3f.mk vx vy vz p) = a
    rw [LawfulFixed.dec_enc]

instance : LawfulFixed QuadLight where
  size_enc l := LawfulFixed.size_enc (l.corner, l.edge0, l.edge1, l.emission, l.normal, l.area)
  dec_enc l := by
    show (match (Fixed.dec (Fixed.enc (l.corner, l.edge0, l.edge1, l.emission, l.normal, l.area)) :
        Vec3f × Vec3f × Vec3f × Vec3f × Vec3f × F32) with
      | (corner, edge0, edge1, emission, normal, area) =>
        QuadLight.mk corner edge0 edge1 emission normal area) = l
    rw [LawfulFixed.dec_enc]

instance : LawfulFixed DirLight where
  size_enc l := LawfulFixed.size_enc (l.direction, l.radiance)
  dec_enc l := by
    show (match (Fixed.dec (Fixed.enc (l.direction, l.radiance)) : Vec3f × Vec3f) with
      | (direction, radiance) => DirLight.mk direction radiance) = l
    rw [LawfulFixed.dec_enc]

/-! ### Reading back what was written -/

theorem readElement_append {α : Type} [Fixed α] [LawfulFixed α] (a : α) (rest : List Byte) :
    io.readElement (io.writeElement a ++ rest) = .ok (a, rest) := by
  unfold io.readElement io.writeElement
  have h : ¬ (Fixed.enc a ++ rest).length < Fixed.size α := by
    rw [List.length_append, LawfulFixed.size_enc]
    omega
  rw [if_neg h, dec_take_enc, drop_enc]

theorem readElement_short {α : Type} [Fixed α] (inp : List Byte)
    (h : inp.length < Fixed.size α) :
    (io.readElement inp : Except Error (α × List Byte)) = .error .truncated := by
  unfold io.readElement
  rw [if_pos h]

theorem ok_bind {ε α β : Type} (a : α) (f : α → Except ε β) :
    (Except.ok a >>= f) = f a := rfl

theorem readArray_append {α : Type} [Fixed α] [LawfulFixed α] (l : List α) (rest : List Byte) :
    io.readArray l.length (io.writeArray l ++ rest) = .ok (l, rest) := by
  induction l with
  | nil => rfl
  | cons a l ih =>
    simp only [List.length_cons, io.readArray, io.writeArray, List.append_assoc,
      readElement_append, ok_bind, ih]
    rfl

theorem readVector_append {α : Type} [Fixed α] [LawfulFixed α] (l : List α) (rest : List Byte)
    (h : l.length < 18446744073709551616) :
    io.readVector (io.writeVector l ++ rest) = .ok (l, rest) := by
  simp only [io.readVector, io.writeVector, List.append_assoc, readElement_append, ok_bind,
    wrapSize_val _ h, readArray_append]

/-! ## Material variants -/

theorem plastic_read_write (self m : Plastic) (reg : Registry Texture)
    (textures : List (SP Texture)) (rest : List Byte) :
    self.read (m.write reg ++ rest) textures = .ok (m, rest) := by
  simp only [Plastic.read, Plastic.write, List.append_assoc, readElement_append, ok_bind]
  rfl

theorem matte_read_write (self m : Matte) (reg : Registry Texture)
    (textures : List (SP Texture)) (rest : List Byte) :
    self.read (m.write reg ++ rest) textures = .ok (m, rest) := by
  simp only [Matte.read, Matte.write, List.append_assoc, readElement_append, ok_bind]
  rfl

theorem metallicPaint_read_write (self m : MetallicPaint) (reg : Registry Texture)
    (textures : List (SP Texture)) (rest : List Byte) :
    self.read (m.write reg ++ rest) textures = .ok (m, rest) := by
  simp only [MetallicPaint.read, MetallicPaint.write, List.append_assoc, readElement_append,
    ok_bind]
  rfl

theorem thinGlass_read_write (self m : ThinGlass) (reg : Registry Texture)
    (textures : List (SP Texture)) (rest : List Byte) :
    self.read (m.write reg ++ rest) textures = .ok (m, rest) := by
  simp only [ThinGlass.read, ThinGlass.write, List.append_assoc, readElement_append, ok_bind]
  rfl

theorem dielectric_read_write (self m : Dielectric) (reg : Registry Texture)
    (textures : List (SP Texture)) (rest : List Byte) :
    self.read (m.write reg ++ rest) textures = .ok (m, rest) := by
  simp only [Dielectric.read, Dielectric.write, List.append_assoc, readElement_append, ok_bind]
  rfl

theorem metal_read_write (self m : Metal) (reg : Registry Texture)
    (textures : List (SP Texture)) (rest : List Byte) :
    self.read (m.write reg ++ rest) textures = .ok (m, rest) := by
  simp only [Metal.read, Metal.write, List.append_assoc, readElement_append, ok_bind]
  rfl

theorem velvet_read_write (self m : Velvet) (reg : Registry Texture)
    (textures : List (SP Texture)) (rest : List Byte) :
    self.read (m.write reg ++ rest) textures = .ok (m, rest) := by
  simp only [Velvet.read, Velvet.write, List.append_assoc, readElement_append, ok_bind]
  rfl

theorem readTextureRef_ok (id : I32) (textures : List (SP Texture)) (rest : List Byte)
    (h0 : 0 ≤ id.val) (h1 : id.val.toNat < textures.length) :
    readTextureRef (io.writeElement id ++ rest) textures = .ok (entryAt textures id, rest) := by
  simp only [readTextureRef, readElement_append, ok_bind]
  have hn : ¬ ¬ (id.val ≥ 0) := by omega
  simp only [hn, if_false, dif_pos h1, entryAt, if_pos h0, List.getElem?_eq_getElem h1,
    Option.getD_some]
  rfl

theorem readTextureRef_neg (id : I32) (textures : List (SP Texture)) (rest : List Byte)
    (h0 : id.val < 0) :
    readTextureRef (io.writeElement id ++ rest) textures = .error .assertion := by
  simp only [readTextureRef, readElement_append, ok_bind]
  have hn : ¬ (id.val ≥ 0) := by omega
  simp only [hn, not_false_eq_true, if_true]
  rfl

theorem readTextureRef_large (id : I32) (textures : List (SP Texture)) (rest : List Byte)
    (h1 : ¬ id.val.toNat < textures.length) :
    readTextureRef (io.writeElement id ++ rest) textures = .error .assertion := by
  simp only [readTextureRef, readElement_append, ok_bind]
  by_cases hn : id.val ≥ 0
  · simp only [hn, not_true_eq_false, if_false, dif_neg h1]
    rfl
  · simp only [hn, not_false_eq_true, if_true]
    rfl

theorem disney_read_write (self m : DisneyMaterial) (reg : Registry Texture)
    (textures : List (SP Texture)) (rest : List Byte)
    (hc0 : 0 ≤ (getID m.colorTexture reg).val)
    (hc1 : (getID m.colorTexture reg).val.toNat < textures.length)
    (ha0 : 0 ≤ (getID m.alphaTexture reg).val)
    (ha1 : (getID m.alphaTexture reg).val.toNat < textures.length) :
    self.read (m.write reg ++ rest) textures
      = .ok ({ m with colorTexture := entryAt textures (getID m.colorTexture reg),
                      alphaTexture := entryAt textures (getID m.alphaTexture reg) }, rest) := by
  simp only [DisneyMaterial.read, DisneyMaterial.write, List.append_assoc, readElement_append,
    ok_bind, readTextureRef_ok _ _ _ hc0 hc1, readTextureRef_ok _ _ _ ha0 ha1]
  rfl

/-! ## Sections of the file -/

theorem wrap32_zero : (I32.wrap 0).val = 0 := by decide

theorem wrap32_one : (I32.wrap 1).val = 1 := by decide

theorem readTextureFields_append (t : Texture) (rest : List Byte) (h : t.Sized) :
    readTextureFields (writeTextureFields t ++ rest) = .ok (t, rest) := by
  simp only [readTextureFields, writeTextureFields, List.append_assoc, readElement_append,
    readVector_append _ _ h, ok_bind]
  rfl

theorem loadTexture_null (next : Nat) (rest : List Byte) :
    loadTexture next (saveTexture none ++ rest) = .ok (none, next, rest) := by
  simp only [loadTexture, saveTexture, readElement_append, ok_bind, wrap32_zero, if_true]
  rfl

theorem loadTexture_live (r : Ref Texture) (next : Nat) (rest : List Byte) (h : r.val.Sized) :
    loadTexture next (saveTexture (some r) ++ rest) = .ok (some ⟨next, r.val⟩, next + 1, rest) := by
  simp only [loadTexture, saveTexture, List.append_assoc, readElement_append, ok_bind,
    wrap32_one, one_ne_zero, if_false, readTextureFields_append _ _ h]
  rfl

theorem loadTextures_saved (l : List (SP Texture)) (i next : Nat) (rest : List Byte)
    (hlen : i + l.length < 2147483648) (hs : ∀ tex ∈ l, ∀ r ∈ tex, r.val.Sized) :
    readEach loadTexture l.length i next (writeEach saveTexture l ++ rest)
      = .ok (reloadTextures next l, next + liveCount l, rest) := by
  induction l generalizing i next with
  | nil => rfl
  | cons tex l ih =>
    have hi : i + 1 < 2147483648 := by
      simp only [List.length_cons] at hlen
      omega
    have hlen' : (i + 1) + l.length < 2147483648 := by
      simp only [List.length_cons] at hlen
      omega
    have hs' : ∀ tex ∈ l, ∀ r ∈ tex, r.val.Sized := fun t ht => hs t (List.mem_cons_of_mem _ ht)
    cases tex with
    | none =>
      simp only [List.length_cons, readEach, writeEach, List.append_assoc, loadTexture_null,
        ok_bind, if_pos hi, ih (i + 1) next hlen' hs', reloadTextures, liveCount]
      rfl
    | some r =>
      have hr : r.val.Sized := hs (some r) (List.mem_cons_self _ _) r rfl
      simp only [List.length_cons, readEach, writeEach, List.append_assoc,
        loadTexture_live _ _ _ hr, ok_bind, if_pos hi, ih (i + 1) (next + 1) hlen' hs',
        reloadTextures, liveCount]
      have : next + 1 + liveCount l = next + (liveCount l + 1) := by omega
      rw [this]
      rfl

theorem loadLights_saved (s : Scene) (hq : s.quadLights.length < 18446744073709551616)
    (hd : s.dirLights.length < 18446744073709551616)
    (ht : ∀ e ∈ s.envMapLight, e.val.texture ≠ none)
    (hs : ∀ e ∈ s.envMapLight, ∀ t ∈ e.val.texture, t.val.Sized) :
    ∃ b, saveLights s = .ok b ∧ ∀ next rest,
      loadLights next (b ++ rest)
        = .ok ((s.quadLights, s.dirLights, reloadEnvMap next s.envMapLight),
               next + (if s.envMapLight.isSome then 2 else 0), rest) := by
  cases he : s.envMapLight with
  | none =>
    refine ⟨_, by simp only [saveLights, he]; rfl, ?_⟩
    intro next rest
    simp only [loadLights, List.append_assoc, readVector_append _ _ hq, readVector_append _ _ hd,
      readElement_append, ok_bind, wrap32_zero, if_true, reloadEnvMap]
    rfl
  | some e =>
    cases htex : e.val.texture with
    | none => exact absurd htex (ht e (by rw [he]; rfl))
    | some t =>
      have hsz : t.val.Sized := hs e (by rw [he]; rfl) t (by rw [htex]; rfl)
      refine ⟨_, by simp only [saveLights, he, htex]; rfl, ?_⟩
      intro next rest
      simp only [loadLights, List.append_assoc, readVector_append _ _ hq,
        readVector_append _ _ hd, readElement_append, ok_bind, wrap32_one, one_ne_zero,
        if_false, readTextureFields_append _ _ hsz, reloadEnvMap, htex]
      rfl

theorem create_disney : createMaterialFromTag (I32.wrap MaterialTag.DISNEY).val = .ok (.disney default) := rfl
theorem create_matte : createMaterialFromTag (I32.wrap MaterialTag.MATTE).val = .ok (.matte default) := rfl
theorem create_plastic : createMaterialFromTag (I32.wrap MaterialTag.PLASTIC).val = .ok (.plastic default) := rfl
theorem create_metal : createMaterialFromTag (I32.wrap MaterialTag.METAL).val = .ok (.metal default) := rfl
theorem create_velvet : createMaterialFromTag (I32.wrap MaterialTag.VELVET).val = .ok (.velvet default) := rfl
theorem create_metallicPaint :
    createMaterialFromTag (I32.wrap MaterialTag.METALLICPAINT).val = .ok (.metallicPaint default) := rfl
theorem create_thinGlass :
    createMaterialFromTag (I32.wrap MaterialTag.THINGLASS).val = .ok (.thinGlass default) := rfl
theorem create_dielectric :
    createMaterialFromTag (I32.wrap MaterialTag.DIELECTRIC).val = .ok (.dielectric default) := rfl

theorem twelve_ne_eleven : ¬ ((12 : Nat) = 11) := by decide

theorem loadMaterial_saved (ser : SerializedScene) (r : Ref Material)
    (textures : List (SP Texture)) (hsup : r.val.Supported)
    (hd : ∀ d, r.val = .disney d →
      (0 ≤ (getID d.colorTexture ser.textures.registry).val
        ∧ (getID d.colorTexture ser.textures.registry).val.toNat < textures.length)
      ∧ (0 ≤ (getID d.alphaTexture ser.textures.registry).val
        ∧ (getID d.alphaTexture ser.textures.registry).val.toNat < textures.length)) :
    ∃ b, saveMaterial ser (some r) = .ok b ∧ ∀ next rest,
      loadMaterial 12 textures next (b ++ rest)
        = .ok (some ⟨next, r.val.reload ser.textures.registry textures⟩, next + 1, rest) := by
  obtain ⟨a, m⟩ := r
  cases m with
  | disney d =>
    obtain ⟨⟨hc0, hc1⟩, ha0, ha1⟩ := hd d rfl
    refine ⟨_, rfl, ?_⟩
    intro next rest
    simp only [loadMaterial, Material.write, Material.read, List.append_assoc, twelve_ne_eleven,
      if_false, readElement_append, ok_bind, pure_bind, create_disney,
      disney_read_write _ _ _ _ _ hc0 hc1 ha0 ha1]
    rfl
  | matte d =>
    refine ⟨_, rfl, ?_⟩
    intro next rest
    simp only [loadMaterial, Material.write, Material.read, List.append_assoc, twelve_ne_eleven,
      if_false, readElement_append, ok_bind, pure_bind, create_matte, matte_read_write]
    rfl
  | plastic d =>
    refine ⟨_, rfl, ?_⟩
    intro next rest
    simp only [loadMaterial, Material.write, Material.read, List.append_assoc, twelve_ne_eleven,
      if_false, readElement_append, ok_bind, pure_bind, create_plastic, plastic_read_write]
    rfl
  | metal d =>
    refine ⟨_, rfl, ?_⟩
    intro next rest
    simp only [loadMaterial, Material.write, Material.read, List.append_assoc, twelve_ne_eleven,
      if_false, readElement_append, ok_bind, pure_bind, create_metal, metal_read_write]
    rfl
  | velvet d =>
    refine ⟨_, rfl, ?_⟩
    intro next rest
    simp only [loadMaterial, Material.write, Material.read, List.append_assoc, twelve_ne_eleven,
      if_false, readElement_append, ok_bind, pure_bind, create_velvet, velvet_read_write]
    rfl
  | metallicPaint d =>
    refine ⟨_, rfl, ?_⟩
    intro next rest
    simp only [loadMaterial, Material.write, Material.read, List.append_assoc, twelve_ne_eleven,
      if_false, readElement_append, ok_bind, pure_bind, create_metallicPaint,
      metallicPaint_read_write]
    rfl
  | thinGlass d =>
    refine ⟨_, rfl, ?_⟩
    intro next rest
    simp only [loadMaterial, Material.write, Material.read, List.append_assoc, twelve_ne_eleven,
      if_false, readElement_append, ok_bind, pure_bind, create_thinGlass, thinGlass_read_write]
    rfl
  | dielectric d =>
    refine ⟨_, rfl, ?_⟩
    intro next rest
    simp only [loadMaterial, Material.write, Material.read, List.append_assoc, twelve_ne_eleven,
      if_false, readElement_append, ok_bind, pure_bind, create_dielectric,
      dielectric_read_write]
    rfl
  | other => exact absurd hsup (by simp [Material.Supported])

theorem loadMaterials_saved (ser : SerializedScene) (textures : List (SP Texture))
    (l : List (SP Material))
    (h : ∀ mat ∈ l, ∃ r, mat = some r ∧ r.val.Supported ∧ ∀ d, r.val = .disney d →
      (0 ≤ (getID d.colorTexture ser.textures.registry).val
        ∧ (getID d.colorTexture ser.textures.registry).val.toNat < textures.length)
      ∧ (0 ≤ (getID d.alphaTexture ser.textures.registry).val
        ∧ (getID d.alphaTexture ser.textures.registry).val.toNat < textures.length)) :
    ∃ b, writeEachM (saveMaterial ser) l = .ok b ∧ ∀ i next rest, i + l.length < 2147483648 →
      readEach (loadMaterial 12 textures) l.length i next (b ++ rest)
        = .ok (reloadMaterials ser.textures.registry textures next l, next + l.length, rest) := by
  induction l with
  | nil => exact ⟨[], rfl, fun _ _ _ _ => rfl⟩
  | cons mat l ih =>
    obtain ⟨r, rfl, hsup, hd⟩ := h mat (List.mem_cons_self _ _)
    obtain ⟨b1, hb1, hload1⟩ := loadMaterial_saved ser r textures hsup hd
    obtain ⟨b2, hb2, hload2⟩ := ih (fun m hm => h m (List.mem_cons_of_mem _ hm))
    refine ⟨b1 ++ b2, by simp only [writeEachM, hb1, hb2, ok_bind]; rfl, ?_⟩
    intro i next rest hlen
    simp only [List.length_cons] at hlen
    have hi : i + 1 < 2147483648 := by omega
    simp only [List.length_cons, readEach, List.append_assoc, hload1, ok_bind, if_pos hi,
      hload2 (i + 1) (next + 1) rest (by omega), reloadMaterials]
    have : next + 1 + l.length = next + (l.length + 1) := by omega
    rw [this]
    rfl

theorem loadMeshes_saved (ser : SerializedScene) (materials : List (SP Material))
    (l : List (SP Mesh))
    (h : ∀ mesh ∈ l, ∀ m ∈ mesh, m.val.Sized
      ∧ 0 ≤ (ser.materials.getID m.val.material).val
      ∧ (ser.materials.getID m.val.material).val.toNat < materials.length) :
    ∃ b, writeEachM (saveMesh ser) l = .ok b ∧ ∀ next rest,
      loadMeshes materials l.length next (b ++ rest)
        = .ok (reloadMeshes ser materials next l, next + liveCount l, rest) := by
  induction l with
  | nil => exact ⟨[], rfl, fun _ _ => rfl⟩
  | cons mesh l ih =>
    obtain ⟨b2, hb2, hload2⟩ := ih (fun m hm => h m (List.mem_cons_of_mem _ hm))
    cases mesh with
    | none =>
      refine ⟨_, by simp only [writeEachM, saveMesh, hb2, ok_bind, pure_bind]; rfl, ?_⟩
      intro next rest
      simp only [List.length_cons, loadMeshes, List.append_assoc, readElement_append, ok_bind,
        wrap32_zero, if_true, hload2, reloadMeshes, liveCount]
    | some m =>
      obtain ⟨⟨hi, hv, hn, ht⟩, h0, h1⟩ := h (some m) (List.mem_cons_self _ _) m rfl
      have hge : (ser.materials.getID m.val.material).val ≥ 0 := h0
      refine ⟨_, by simp only [writeEachM, saveMesh, if_pos hge, hb2, ok_bind, pure_bind]; rfl, ?_⟩
      intro next rest
      have hnn : ¬ ¬ ((ser.materials.getID m.val.material).val ≥ 0) := by omega
      simp only [List.length_cons, loadMeshes, List.append_assoc, readElement_append, ok_bind,
        wrap32_one, one_ne_zero, if_false, readVector_append _ _ hi, readVector_append _ _ hv,
        readVector_append _ _ hn, readVector_append _ _ ht, hnn, dif_pos h1, hload2,
        reloadMeshes, liveCount, entryAt, if_pos h0, List.getElem?_eq_getElem h1,
        Option.getD_some]
      have : next + 1 + liveCount l = next + (liveCount l + 1) := by omega
      rw [this]
      rfl

theorem toInt32_small (n : Nat) (h : n < 2147483648) : (toInt32 n).val.toNat = n := by
  unfold toInt32
  have hm : n % 4294967296 = n := Nat.mod_eq_of_lt (by omega)
  have hlt : n % 4294967296 < 2147483648 := by omega
  rw [dif_pos hlt]
  show ((n % 4294967296 : Nat) : Int).toNat = n
  omega

theorem loadObject_saved (ser : SerializedScene) (materials : List (SP Material))
    (o : Ref Object) (hlen : o.val.meshes.length < 2147483648)
    (h : ∀ mesh ∈ o.val.meshes, ∀ m ∈ mesh, m.val.Sized
      ∧ 0 ≤ (ser.materials.getID m.val.material).val
      ∧ (ser.materials.getID m.val.material).val.toNat < materials.length) :
    ∃ b, saveObject ser (some o) = .ok b ∧ ∀ next rest,
      loadObject materials next (b ++ rest)
        = .ok (some ⟨next, { meshes := reloadMeshes ser materials (next + 1) o.val.meshes }⟩,
               next + 1 + liveCount o.val.meshes, rest) := by
  obtain ⟨b, hb, hload⟩ := loadMeshes_saved ser materials o.val.meshes h
  refine ⟨_, by simp only [saveObject, hb, ok_bind]; rfl, ?_⟩
  intro next rest
  have hw : (SizeT.wrap o.val.meshes.length).val = o.val.meshes.length :=
    wrapSize_val _ (by omega)
  simp only [loadObject, List.append_assoc, readElement_append, ok_bind, hw,
    toInt32_small _ hlen, hload]
  rfl

theorem loadObjects_saved (ser : SerializedScene) (materials : List (SP Material))
    (l : List (SP Object))
    (h : ∀ obj ∈ l, ∃ o, obj = some o ∧ o.val.meshes.length < 2147483648
      ∧ ∀ mesh ∈ o.val.meshes, ∀ m ∈ mesh, m.val.Sized
        ∧ 0 ≤ (ser.materials.getID m.val.material).val
        ∧ (ser.materials.getID m.val.material).val.toNat < materials.length) :
    ∃ b, writeEachM (saveObject ser) l = .ok b ∧ ∀ i next rest, i + l.length < 2147483648 →
      readEach (loadObject materials) l.length i next (b ++ rest)
        = .ok (reloadObjects ser materials next l, next + objectsSpan l, rest) := by
  induction l with
  | nil => exact ⟨[], rfl, fun _ _ _ _ => rfl⟩
  | cons obj l ih =>
    obtain ⟨o, rfl, hlen, hm⟩ := h obj (List.mem_cons_self _ _)
    obtain ⟨b1, hb1, hload1⟩ := loadObject_saved ser materials o hlen hm
    obtain ⟨b2, hb2, hload2⟩ := ih (fun m hm => h m (List.mem_cons_of_mem _ hm))
    refine ⟨b1 ++ b2, by simp only [writeEachM, hb1, hb2, ok_bind]; rfl, ?_⟩
    intro i next rest hl
    simp only [List.length_cons] at hl
    have hi : i + 1 < 2147483648 := by omega
    simp only [List.length_cons, readEach, List.append_assoc, hload1, ok_bind, if_pos hi,
      hload2 (i + 1) (next + 1 + liveCount o.val.meshes) rest (by omega), reloadObjects,
      objectsSpan]
    have : next + 1 + liveCount o.val.meshes + objectsSpan l
        = next + (1 + liveCount o.val.meshes + objectsSpan l) := by omega
    rw [this]
    rfl

theorem loadInstances_saved (ser : SerializedScene) (objects : List (SP Object))
    (l : List (SP Instance))
    (h : ∀ inst ∈ l, ∀ r ∈ inst, 0 ≤ (ser.objects.getID r.val.object).val
      ∧ (ser.objects.getID r.val.object).val.toNat < objects.length)
    (i next : Nat) (rest : List Byte) (hlen : i + l.length < 2147483648) :
    readEach (loadInstance objects) l.length i next (writeEach (saveInstance ser) l ++ rest)
      = .ok (reloadInstances ser objects next l, next + liveCount l, rest) := by
  induction l generalizing i next with
  | nil => rfl
  | cons inst l ih =>
    simp only [List.length_cons] at hlen
    have hi : i + 1 < 2147483648 := by omega
    have h' : ∀ inst ∈ l, ∀ r ∈ inst, 0 ≤ (ser.objects.getID r.val.object).val
      ∧ (ser.objects.getID r.val.object).val.toNat < objects.length :=
      fun m hm => h m (List.mem_cons_of_mem _ hm)
    cases inst with
    | none =>
      simp only [List.length_cons, readEach, writeEach, saveInstance, loadInstance,
        List.append_assoc, readElement_append, ok_bind, pure_bind, wrap32_zero, if_true,
        if_pos hi, ih h' (i + 1) next (by omega), reloadInstances, liveCount]
      rfl
    | some r =>
      obtain ⟨h0, h1⟩ := h (some r) (List.mem_cons_self _ _) r rfl
      simp only [List.length_cons, readEach, writeEach, saveInstance, loadInstance,
        List.append_assoc, readElement_append, ok_bind, pure_bind, wrap32_one, one_ne_zero,
        if_false, dif_pos (And.intro h0 h1), if_pos hi,
        ih h' (i + 1) (next + 1) (by omega), reloadInstances, liveCount, entryAt, if_pos h0,
        List.getElem?_eq_getElem h1, Option.getD_some]
      have : next + 1 + liveCount l = next + (liveCount l + 1) := by omega
      rw [this]
      rfl

/-! ## The whole file -/

theorem reloadTextures_length (next : Nat) (l : List (SP Texture)) :
    (reloadTextures next l).length = l.length := by
  induction l generalizing next with
  | nil => rfl
  | cons t l ih => cases t <;> simp [reloadTextures, ih]

theorem reloadMaterials_length (reg : Registry Texture) (textures : List (SP Texture))
    (next : Nat) (l : List (SP Material)) :
    (reloadMaterials reg textures next l).length = l.length := by
  induction l generalizing next with
  | nil => rfl
  | cons t l ih => cases t <;> simp [reloadMaterials, ih]

theorem reloadObjects_length (ser : SerializedScene) (materials : List (SP Material))
    (next : Nat) (l : List (SP Object)) :
    (reloadObjects ser materials next l).length = l.length := by
  induction l generalizing next with
  | nil => rfl
  | cons t l ih => cases t <;> simp [reloadObjects, ih]

theorem reloadInstances_length (ser : SerializedScene) (objects : List (SP Object))
    (next : Nat) (l : List (SP Instance)) :
    (reloadInstances ser objects next l).length = l.length := by
  induction l generalizing next with
  | nil => rfl
  | cons t l ih => cases t <;> simp [reloadInstances, ih]

theorem resolves_range {α : Type} {table : List (SP α)} {id : I32} {node : SP α}
    (h : resolves table id node) : 0 ≤ id.val ∧ id.val.toNat < table.length := by
  refine ⟨h.1, ?_⟩
  by_contra hn
  have := List.getElem?_eq_none (Nat.le_of_not_lt hn)
  rw [h.2] at this
  exact Option.noConfusion this

theorem magic_val : (SizeT.wrap expected_magic).val = expected_magic := by decide

theorem formatOfMagic_current : formatOfMagic (SizeT.wrap expected_magic) = .ok 12 := by
  unfold formatOfMagic
  rw [magic_val, if_pos rfl]
  rfl

theorem loadBody_saved (v : Nat) (ser : SerializedScene) (s : Scene) (hz : ser.Sized s)
    (hin : ser.InRange s) (bm : List Byte) (materialsOf : Nat → List (SP Material))
    (hlen : ∀ n, (materialsOf n).length = ser.materials.list.length)
    (hlm : ∀ i next rest, i + ser.materials.list.length < 2147483648 →
      readEach (loadMaterial v (reloadTextures 0 ser.textures.list))
          ser.materials.list.length i next (bm ++ rest)
        = .ok (materialsOf next, next + ser.materials.list.length, rest)) :
    ∃ bl bo, saveLights s = .ok bl ∧ writeEachM (saveObject ser) ser.objects.list = .ok bo
      ∧ ∀ rest, Scene.loadBody v
          (saveTextures ser ++ (bl ++ (io.writeElement (SizeT.wrap ser.materials.list.length)
            ++ (bm ++ (io.writeElement (SizeT.wrap ser.objects.size) ++ (bo
              ++ (saveInstances ser s ++ rest)))))))
          = .ok (Scene.reloadAs v materialsOf ser s, rest) := by
  obtain ⟨hzt, hzts, hzq, hzd, hze, hzm, hzo, hzos, hzi⟩ := hz
  obtain ⟨hro, hri, hre⟩ := hin
  obtain ⟨bl, hbl, hll⟩ := loadLights_saved s hzq hzd hre hze
  obtain ⟨bo, hbo, hlo⟩ := loadObjects_saved ser
    (materialsOf (liveCount ser.textures.list + (if s.envMapLight.isSome then 2 else 0)))
    ser.objects.list (by
      intro obj hobj
      obtain ⟨o, ho, hm⟩ := hro obj hobj
      have hs := hzos obj hobj o ho
      refine ⟨o, ho, hs.1, ?_⟩
      intro mesh hmesh m hmm
      rw [hlen]
      exact ⟨hs.2 mesh hmesh m hmm, hm mesh hmesh m hmm⟩)
  have hli := loadInstances_saved ser
    (reloadObjects ser
      (materialsOf (liveCount ser.textures.list + (if s.envMapLight.isSome then 2 else 0)))
      (liveCount ser.textures.list + (if s.envMapLight.isSome then 2 else 0)
        + ser.materials.list.length) ser.objects.list)
    s.instances (by
      intro inst hinst r hr
      rw [reloadObjects_length]
      exact hri inst hinst r hr)
  refine ⟨bl, bo, hbl, hbo, ?_⟩
  intro rest
  have h1 : (SizeT.wrap ser.textures.list.length).val = ser.textures.list.length :=
    wrapSize_val _ (by omega)
  have h2 : (SizeT.wrap ser.materials.list.length).val = ser.materials.list.length :=
    wrapSize_val _ (by omega)
  have h3 : (SizeT.wrap ser.objects.size).val = ser.objects.list.length :=
    wrapSize_val _ (by unfold SerializedEntities.size; omega)
  have h4 : (SizeT.wrap s.instances.length).val = s.instances.length :=
    wrapSize_val _ (by omega)
  unfold Scene.loadBody
  simp only [saveTextures, saveInstances, List.append_assoc]
  rw [readElement_append, ok_bind]
  dsimp only
  rw [h1, loadTextures_saved _ 0 0 _ (by omega) hzts, ok_bind]
  dsimp only
  rw [hll, ok_bind]
  dsimp only
  rw [readElement_append, ok_bind]
  dsimp only
  rw [h2, Nat.zero_add, hlm 0 _ _ (by omega), ok_bind]
  dsimp only
  rw [readElement_append, ok_bind]
  dsimp only
  rw [h3, hlo 0 _ _ (by omega), ok_bind]
  dsimp only
  rw [readElement_append, ok_bind]
  dsimp only
  rw [h4, hli 0 _ _ (by omega), ok_bind]
  rfl

theorem resolves_inRange (ser : SerializedScene) (s : Scene) (hr : ser.Resolves s) :
    ser.InRange s := by
  obtain ⟨_, hro, hri, hre⟩ := hr
  refine ⟨?_, ?_, hre⟩
  · intro obj hobj
    obtain ⟨o, ho, hm⟩ := hro obj hobj
    exact ⟨o, ho, fun mesh hmesh m hmm => resolves_range (hm mesh hmesh m hmm)⟩
  · intro inst hinst i hi
    exact resolves_range (hri inst hinst i hi)

theorem load_saved (ser : SerializedScene) (s : Scene) (hz : ser.Sized s) (hr : ser.Resolves s) :
    ∃ body, Scene.saveWith ser s = .ok (body ++ io.writeElement (SizeT.wrap expected_magic))
      ∧ ∀ rest, Scene.loadSections (body ++ rest) = .ok (Scene.reload ser s, rest) := by
  obtain ⟨bm, hbm, hlm⟩ := loadMaterials_saved ser (reloadTextures 0 ser.textures.list)
    ser.materials.list (by
      intro mat hmat
      obtain ⟨r, hr1, hsup, hd⟩ := hr.1 mat hmat
      refine ⟨r, hr1, hsup, ?_⟩
      intro d hd'
      have := hd d hd'
      rw [reloadTextures_length]
      exact ⟨resolves_range this.1, resolves_range this.2⟩)
  obtain ⟨bl, bo, hbl, hbo, hload⟩ := loadBody_saved 12 ser s hz (resolves_inRange ser s hr) bm
    (fun n => reloadMaterials ser.textures.registry (reloadTextures 0 ser.textures.list) n
      ser.materials.list)
    (fun n => reloadMaterials_length _ _ _ _) hlm
  refine ⟨io.writeElement (SizeT.wrap expected_magic) ++ saveTextures ser ++ bl ++
      (io.writeElement (SizeT.wrap ser.materials.list.length) ++ bm) ++
      (io.writeElement (SizeT.wrap ser.objects.size) ++ bo) ++ saveInstances ser s, ?_, ?_⟩
  · simp only [Scene.saveWith, saveMaterials, saveObjects, hbl, hbm, hbo, ok_bind]
    rfl
  · intro rest
    unfold Scene.loadSections
    simp only [List.append_assoc]
    rw [readElement_append, ok_bind]
    dsimp only
    rw [formatOfMagic_current, ok_bind, hload]
    rfl

theorem readElement_exact {α : Type} [Fixed α] [LawfulFixed α] (a : α) :
    io.readElement (io.writeElement a) = .ok (a, []) := by
  have := readElement_append a []
  rwa [List.append_nil] at this

theorem loadTables_saved (ser : SerializedScene) (s : Scene) (hz : ser.Sized s)
    (hr : ser.Resolves s) :
    ∃ b, Scene.saveWith ser s = .ok b ∧ Scene.loadTables b = .ok (Scene.reload ser s) := by
  obtain ⟨body, hsave, hload⟩ := load_saved ser s hz hr
  refine ⟨_, hsave, ?_⟩
  unfold Scene.loadTables
  rw [hload, ok_bind]
  dsimp only
  rw [readElement_exact, ok_bind]
  dsimp only
  rw [magic_val]
  have : ¬ (expected_magic ≠ expected_magic ∧ expected_magic ≠ expected_magic - 1) :=
    fun h => h.1 rfl
  rw [if_neg this]
  rfl

theorem stripSP_entryAt {α : Type} (f : α → α) (table : List (SP α)) (id : I32) :
    stripSP f (entryAt table id) = entryAt (table.map (stripSP f)) id := by
  unfold entryAt
  split
  · rw [List.getElem?_map]
    cases table[id.val.toNat]? <;> rfl
  · rfl

theorem entryAt_resolves {α : Type} {table : List (SP α)} {id : I32} {node : SP α}
    (h : resolves table id node) : entryAt table id = node := by
  unfold entryAt
  rw [if_pos h.1, h.2]
  rfl

theorem reloadTextures_strip (next : Nat) (l : List (SP Texture)) :
    (reloadTextures next l).map (stripSP id) = l.map (stripSP id) := by
  induction l generalizing next with
  | nil => rfl
  | cons t l ih =>
    cases t with
    | none => simp only [reloadTextures, List.map_cons, ih]
    | some r => simp only [reloadTextures, List.map_cons, ih]; rfl

theorem reload_texture_strip (reg : Registry Texture) (list : List (SP Texture)) (next : Nat)
    (t : SP Texture) (h : resolves list (getID t reg) t) :
    stripSP id (entryAt (reloadTextures next list) (getID t reg)) = stripSP id t := by
  rw [stripSP_entryAt, reloadTextures_strip, ← stripSP_entryAt, entryAt_resolves h]

theorem reloadMaterials_strip (reg : Registry Texture) (list : List (SP Texture)) (n next : Nat)
    (l : List (SP Material))
    (h : ∀ mat ∈ l, ∀ r ∈ mat, ∀ d, r.val = .disney d →
      resolves list (getID d.colorTexture reg) d.colorTexture
      ∧ resolves list (getID d.alphaTexture reg) d.alphaTexture) :
    (reloadMaterials reg (reloadTextures n list) next l).map (stripSP Material.strip)
      = l.map (stripSP Material.strip) := by
  induction l generalizing next with
  | nil => rfl
  | cons t l ih =>
    have h' := fun m hm => h m (List.mem_cons_of_mem _ hm)
    cases t with
    | none => simp only [reloadMaterials, List.map_cons, ih next h']
    | some r =>
      simp only [reloadMaterials, List.map_cons, ih (next + 1) h']
      congr 1
      obtain ⟨a, m⟩ := r
      cases m with
      | disney d =>
        obtain ⟨hc, ha⟩ := h _ (List.mem_cons_self _ _) ⟨a, .disney d⟩ rfl d rfl
        simp only [stripSP, Option.map_some', Material.reload, Material.strip]
        have e1 := reload_texture_strip reg list n _ hc
        have e2 := reload_texture_strip reg list n _ ha
        simp only [stripSP] at e1 e2
        rw [e1, e2]
      | matte d => rfl
      | plastic d => rfl
      | metal d => rfl
      | velvet d => rfl
      | metallicPaint d => rfl
      | thinGlass d => rfl
      | dielectric d => rfl
      | other => rfl

theorem reload_material_strip (ser : SerializedScene) (materials : List (SP Material))
    (hm : materials.map (stripSP Material.strip)
      = ser.materials.list.map (stripSP Material.strip))
    (mat : SP Material) (h : resolves ser.materials.list (ser.materials.getID mat) mat) :
    stripSP Material.strip (entryAt materials (ser.materials.getID mat))
      = stripSP Material.strip mat := by
  rw [stripSP_entryAt, hm, ← stripSP_entryAt, entryAt_resolves h]

theorem reloadMeshes_strip (ser : SerializedScene) (materials : List (SP Material))
    (hm : materials.map (stripSP Material.strip)
      = ser.materials.list.map (stripSP Material.strip))
    (next : Nat) (l : List (SP Mesh))
    (h : ∀ mesh ∈ l, ∀ m ∈ mesh,
      resolves ser.materials.list (ser.materials.getID m.val.material) m.val.material) :
    (reloadMeshes ser materials next l).map (stripSP Mesh.strip)
      = (l.filter Option.isSome).map (stripSP Mesh.strip) := by
  induction l generalizing next with
  | nil => rfl
  | cons t l ih =>
    have h' := fun m hm => h m (List.mem_cons_of_mem _ hm)
    cases t with
    | none =>
      simp only [reloadMeshes, ih next h']
      rfl
    | some r =>
      have e := reload_material_strip ser materials hm _ (h _ (List.mem_cons_self _ _) r rfl)
      simp only [reloadMeshes, List.map_cons, ih (next + 1) h', List.filter_cons,
        Option.isSome_some, if_true]
      congr 1
      simp only [stripSP, Option.map_some', Mesh.strip]
      simp only [stripSP] at e
      rw [e]

theorem reloadObjects_strip (ser : SerializedScene) (materials : List (SP Material))
    (hm : materials.map (stripSP Material.strip)
      = ser.materials.list.map (stripSP Material.strip))
    (next : Nat) (l : List (SP Object))
    (h : ∀ obj ∈ l, ∀ o ∈ obj, ∀ mesh ∈ o.val.meshes, ∀ m ∈ mesh,
      resolves ser.materials.list (ser.materials.getID m.val.material) m.val.material) :
    (reloadObjects ser materials next l).map (stripSP Object.strip)
      = l.map (stripSP (fun o => o.compact.strip)) := by
  induction l generalizing next with
  | nil => rfl
  | cons t l ih =>
    have h' := fun m hm => h m (List.mem_cons_of_mem _ hm)
    cases t with
    | none => simp only [reloadObjects, List.map_cons, ih next h']; rfl
    | some r =>
      simp only [reloadObjects, List.map_cons, ih _ h']
      congr 1
      simp only [stripSP, Option.map_some', Object.strip, Object.compact]
      rw [reloadMeshes_strip ser materials hm _ _ (h _ (List.mem_cons_self _ _) r rfl)]

theorem reloadInstances_strip (ser : SerializedScene) (objects : List (SP Object))
    (ho : objects.map (stripSP Object.strip)
      = ser.objects.list.map (stripSP (fun o => o.compact.strip)))
    (next : Nat) (l : List (SP Instance))
    (h : ∀ inst ∈ l, ∀ r ∈ inst,
      resolves ser.objects.list (ser.objects.getID r.val.object) r.val.object) :
    (reloadInstances ser objects next l).map (stripSP Instance.strip)
      = (l.map (Option.map (fun r => (⟨r.addr, r.val.compact⟩ : Ref Instance)))).map
          (stripSP Instance.strip) := by
  induction l generalizing next with
  | nil => rfl
  | cons t l ih =>
    have h' := fun m hm => h m (List.mem_cons_of_mem _ hm)
    cases t with
    | none => simp only [reloadInstances, List.map_cons, ih next h']; rfl
    | some r =>
      simp only [reloadInstances, List.map_cons, ih _ h']
      congr 1
      simp only [stripSP, Option.map_some', Instance.strip, Instance.compact]
      have e : stripSP Object.strip (entryAt objects (ser.objects.getID r.val.object))
          = stripSP (fun o => o.compact.strip) r.val.object := by
        rw [stripSP_entryAt, ho, ← stripSP_entryAt,
          entryAt_resolves (h _ (List.mem_cons_self _ _) r rfl)]
      simp only [stripSP] at e
      rw [e]
      cases r.val.object <;> rfl

theorem reload_strip (ser : SerializedScene) (s : Scene) (hr : ser.Resolves s) :
    (Scene.reload ser s).scene.strip = s.compact.strip := by
  obtain ⟨hrm, hro, hri, hre⟩ := hr
  have hm := reloadMaterials_strip ser.textures.registry ser.textures.list 0
    (liveCount ser.textures.list + (if s.envMapLight.isSome then 2 else 0)) ser.materials.list
    (by
      intro mat hmat r hr d hd
      obtain ⟨r', hr', _, hd'⟩ := hrm mat hmat
      have : r = r' := by
        rw [hr'] at hr
        exact (Option.some.inj hr).symm
      subst this
      exact hd' d hd)
  have ho := reloadObjects_strip ser _ hm
    (liveCount ser.textures.list + (if s.envMapLight.isSome then 2 else 0)
      + ser.materials.list.length) ser.objects.list
    (by
      intro obj hobj o ho
      obtain ⟨o', ho', hmesh⟩ := hro obj hobj
      have : o = o' := by
        rw [ho'] at ho
        exact (Option.some.inj ho).symm
      subst this
      exact hmesh)
  have hi := reloadInstances_strip ser _ ho
    (liveCount ser.textures.list + (if s.envMapLight.isSome then 2 else 0)
      + ser.materials.list.length + objectsSpan ser.objects.list) s.instances hri
  simp only [Scene.reload, Scene.strip, Scene.compact, hi]
  congr 1
  cases he : s.envMapLight with
  | none => rfl
  | some e =>
    simp only [reloadEnvMap, stripSP, Option.map_some', EnvMapLight.strip]
    cases e.val.texture <;> rfl

/-! ## The serialized view the traversal builds -/

theorem find_append {α : Type} [DecidableEq α] (m : Registry α) (k key : SP α) (v : I32) :
    Registry.find (m ++ [(k, v)]) key
      = match Registry.find m key with
        | some x => some x
        | none => if k = key then some v else none := by
  induction m with
  | nil => simp only [List.nil_append, Registry.find]
  | cons p m ih =>
    obtain ⟨k', v'⟩ := p
    simp only [List.cons_append, Registry.find]
    by_cases h : k' = key
    · simp only [if_pos h]
    · simp only [if_neg h]
      exact ih

theorem add_wellFormed {α : Type} [DecidableEq α] (t : SerializedEntities α) (node : SP α)
    (h : t.WellFormed) :
    (t.add node).2.WellFormed ∧ t.list ⊆ (t.add node).2.list ∧ node ∈ (t.add node).2.list := by
  unfold SerializedEntities.add
  cases hf : t.registry.find node with
  | some id =>
    refine ⟨h, fun _ hx => hx, h.2 node ?_⟩
    rw [hf]
    exact Option.noConfusion
  | none =>
    refine ⟨⟨?_, ?_⟩, fun _ hx => List.mem_append_left _ hx,
      List.mem_append_right _ (List.mem_singleton_self _)⟩
    · intro x hx
      rcases List.mem_append.mp hx with hx | hx
      · obtain ⟨i, hi1, hi2⟩ := h.1 x hx
        refine ⟨i, ?_, ?_⟩
        · show Registry.find (t.registry ++ [(node, I32.wrap t.list.length)]) x = _
          rw [find_append, hi1]
        · show (t.list ++ [node])[i]? = _
          have hlt : i < t.list.length := by
            by_contra hc
            have := List.getElem?_eq_none (Nat.le_of_not_lt hc)
            rw [hi2] at this
            exact Option.noConfusion this
          rw [List.getElem?_append_left hlt, hi2]
      · have hx' : x = node := List.mem_singleton.mp hx
        subst hx'
        refine ⟨t.list.length, ?_, ?_⟩
        · show Registry.find (t.registry ++ [(x, I32.wrap t.list.length)]) x = _
          rw [find_append, hf]
          simp only [if_true]
        · show (t.list ++ [x])[t.list.length]? = _
          rw [List.getElem?_append_right (Nat.le_refl _)]
          simp only [Nat.sub_self, List.getElem?_cons_zero]
    · intro x hx
      have hx' : Registry.find (t.registry ++ [(node, I32.wrap t.list.length)]) x ≠ none := hx
      rw [find_append] at hx'
      cases hfx : t.registry.find x with
      | some y =>
        exact List.mem_append_left _ (h.2 x (by rw [hfx]; exact Option.noConfusion))
      | none =>
        rw [hfx] at hx'
        by_cases hk : node = x
        · subst hk
          exact List.mem_append_right _ (List.mem_singleton_self _)
        · simp only [if_neg hk] at hx'
          exact absurd rfl hx'

theorem addTexture_spec (ser : SerializedScene) (t : SP Texture) (h : ser.textures.WellFormed) :
    (ser.addTexture t).textures.WellFormed
    ∧ ser.textures.list ⊆ (ser.addTexture t).textures.list
    ∧ t ∈ (ser.addTexture t).textures.list
    ∧ (ser.addTexture t).materials = ser.materials
    ∧ (ser.addTexture t).objects = ser.objects := by
  obtain ⟨h1, h2, h3⟩ := add_wellFormed ser.textures t h
  exact ⟨h1, h2, h3, rfl, rfl⟩

theorem add_old {α : Type} [DecidableEq α] (t : SerializedEntities α) (node : SP α)
    (h : (t.add node).1 = false) : (t.add node).2 = t := by
  unfold SerializedEntities.add at h ⊢
  cases hf : t.registry.find node with
  | some id => rfl
  | none => rw [hf] at h; exact Bool.noConfusion h

theorem add_new {α : Type} [DecidableEq α] (t : SerializedEntities α) (node : SP α)
    (h : (t.add node).1 = true) : (t.add node).2.list = t.list ++ [node] := by
  unfold SerializedEntities.add at h ⊢
  cases hf : t.registry.find node with
  | some id => rw [hf] at h; exact Bool.noConfusion h
  | none => rfl

theorem addMaterial_new (ser res : SerializedScene) (r : Ref Material)
    (hsup : r.val.Supported)
    (hnew : (ser.materials.add (some r)).1 = true)
    (hm : ser.materials.WellFormed) (hc : ser.MaterialsClosed)
    (h1 : res.textures.WellFormed) (h2 : ser.textures.list ⊆ res.textures.list)
    (h3 : res.materials = (ser.materials.add (some r)).2) (h4 : res.objects = ser.objects)
    (h5 : ∀ d, r.val = .disney d →
      d.colorTexture ∈ res.textures.list ∧ d.alphaTexture ∈ res.textures.list) :
    res.textures.WellFormed
    ∧ res.materials.WellFormed
    ∧ res.MaterialsClosed
    ∧ ser.materials.list ⊆ res.materials.list
    ∧ some r ∈ res.materials.list
    ∧ res.objects = ser.objects := by
  obtain ⟨hw, hsub, hmem⟩ := add_wellFormed ser.materials (some r) hm
  refine ⟨h1, by rw [h3]; exact hw, ?_, by rw [h3]; exact hsub, by rw [h3]; exact hmem, h4⟩
  intro m hmm
  rw [h3, add_new _ _ hnew] at hmm
  rcases List.mem_append.mp hmm with hold | hnw
  · obtain ⟨r', hr', hs', hd'⟩ := hc m hold
    exact ⟨r', hr', hs', fun d' hd'' => ⟨h2 (hd' d' hd'').1, h2 (hd' d' hd'').2⟩⟩
  · exact ⟨r, List.mem_singleton.mp hnw, hsup, h5⟩

theorem addMaterial_eq_old (ser : SerializedScene) (r : Ref Material)
    (h : (ser.materials.add (some r)).1 = false) : ser.addMaterial (some r) = ser := by
  simp only [SerializedScene.addMaterial, h, Bool.false_eq_true, if_false]

theorem addMaterial_eq_disney (ser : SerializedScene) (a : Nat) (d : DisneyMaterial)
    (h : (ser.materials.add (some ⟨a, .disney d⟩)).1 = true) :
    ser.addMaterial (some ⟨a, .disney d⟩)
      = (SerializedScene.addTexture
          { ser with materials := (ser.materials.add (some ⟨a, .disney d⟩)).2 }
          d.colorTexture).addTexture d.alphaTexture := by
  simp only [SerializedScene.addMaterial, h, if_true]

theorem addMaterial_eq_plain (ser : SerializedScene) (r : Ref Material)
    (h : (ser.materials.add (some r)).1 = true) (hnd : ∀ d, r.val ≠ .disney d) :
    ser.addMaterial (some r) = { ser with materials := (ser.materials.add (some r)).2 } := by
  obtain ⟨a, v⟩ := r
  cases v with
  | disney d => exact absurd rfl (hnd d)
  | matte d => simp only [SerializedScene.addMaterial, h, if_true]
  | plastic d => simp only [SerializedScene.addMaterial, h, if_true]
  | metal d => simp only [SerializedScene.addMaterial, h, if_true]
  | velvet d => simp only [SerializedScene.addMaterial, h, if_true]
  | metallicPaint d => simp only [SerializedScene.addMaterial, h, if_true]
  | thinGlass d => simp only [SerializedScene.addMaterial, h, if_true]
  | dielectric d => simp only [SerializedScene.addMaterial, h, if_true]
  | other => simp only [SerializedScene.addMaterial, h, if_true]

theorem addMaterial_spec (ser : SerializedScene) (mat : SP Material) (hg : goodMaterial mat)
    (ht : ser.textures.WellFormed) (hm : ser.materials.WellFormed) (hc : ser.MaterialsClosed) :
    (ser.addMaterial mat).textures.WellFormed
    ∧ (ser.addMaterial mat).materials.WellFormed
    ∧ (ser.addMaterial mat).MaterialsClosed
    ∧ ser.materials.list ⊆ (ser.addMaterial mat).materials.list
    ∧ mat ∈ (ser.addMaterial mat).materials.list
    ∧ (ser.addMaterial mat).objects = ser.objects
    ∧ ser.textures.list ⊆ (ser.addMaterial mat).textures.list := by
  obtain ⟨r, rfl, hsup⟩ := hg
  cases hnew : (ser.materials.add (some r)).1 with
  | false =>
    have hmem := (add_wellFormed ser.materials (some r) hm).2.2
    rw [add_old _ _ hnew] at hmem
    rw [addMaterial_eq_old ser r hnew]
    exact ⟨ht, hm, hc, fun _ hx => hx, hmem, rfl, fun _ hx => hx⟩
  | true =>
    by_cases hdis : ∃ d, r.val = .disney d
    · obtain ⟨d, hrd⟩ := hdis
      obtain ⟨a, v⟩ := r
      have hv : v = .disney d := hrd
      subst hv
      obtain ⟨t1, t2, t3, t4, t5⟩ := addTexture_spec
        { ser with materials := (ser.materials.add (some ⟨a, .disney d⟩)).2 } d.colorTexture ht
      obtain ⟨u1, u2, u3, u4, u5⟩ := addTexture_spec
        (SerializedScene.addTexture
          { ser with materials := (ser.materials.add (some ⟨a, .disney d⟩)).2 } d.colorTexture)
        d.alphaTexture t1
      rw [addMaterial_eq_disney ser a d hnew]
      have key := addMaterial_new ser _ ⟨a, .disney d⟩ hsup hnew hm hc u1
        (fun x hx => u2 (t2 hx)) (by rw [u4, t4]) (by rw [u5, t5])
        (by
          intro d' hd'
          have : d = d' := Material.disney.inj hd'
          subst this
          exact ⟨u2 t3, u3⟩)
      exact ⟨key.1, key.2.1, key.2.2.1, key.2.2.2.1, key.2.2.2.2.1, key.2.2.2.2.2,
        fun x hx => u2 (t2 hx)⟩
    · have hnd : ∀ d, r.val ≠ .disney d := fun d hd' => hdis ⟨d, hd'⟩
      rw [addMaterial_eq_plain ser r hnew hnd]
      have key := addMaterial_new ser
        { ser with materials := (ser.materials.add (some r)).2 } r
        hsup hnew hm hc ht (fun _ hx => hx) rfl rfl (fun d' hd' => absurd hd' (hnd d'))
      exact ⟨key.1, key.2.1, key.2.2.1, key.2.2.2.1, key.2.2.2.2.1, key.2.2.2.2.2,
        fun _ hx => hx⟩

theorem meshFold_spec (l : List (SP Mesh)) (ser : SerializedScene)
    (hg : ∀ mesh ∈ l, ∀ m ∈ mesh, goodMaterial m.val.material)
    (ht : ser.textures.WellFormed) (hm : ser.materials.WellFormed) (hc : ser.MaterialsClosed) :
    (l.foldl (fun acc mesh =>
        match mesh with
        | none => acc
        | some m => acc.addMaterial m.val.material) ser).textures.WellFormed
    ∧ (l.foldl (fun acc mesh =>
        match mesh with
        | none => acc
        | some m => acc.addMaterial m.val.material) ser).materials.WellFormed
    ∧ (l.foldl (fun acc mesh =>
        match mesh with
        | none => acc
        | some m => acc.addMaterial m.val.material) ser).MaterialsClosed
    ∧ ser.materials.list ⊆ (l.foldl (fun acc mesh =>
        match mesh with
        | none => acc
        | some m => acc.addMaterial m.val.material) ser).materials.list
    ∧ (∀ mesh ∈ l, ∀ m ∈ mesh, m.val.material ∈ (l.foldl (fun acc mesh =>
        match mesh with
        | none => acc
        | some m => acc.addMaterial m.val.material) ser).materials.list)
    ∧ (l.foldl (fun acc mesh =>
        match mesh with
        | none => acc
        | some m => acc.addMaterial m.val.material) ser).objects = ser.objects := by
  induction l generalizing ser with
  | nil => exact ⟨ht, hm, hc, fun _ hx => hx, fun _ hx => absurd hx (List.not_mem_nil _), rfl⟩
  | cons mesh l ih =>
    have hg' := fun x hx => hg x (List.mem_cons_of_mem _ hx)
    cases mesh with
    | none =>
      obtain ⟨a1, a2, a3, a4, a5, a6⟩ := ih ser hg' ht hm hc
      refine ⟨a1, a2, a3, a4, ?_, a6⟩
      intro x hx m hm'
      rcases List.mem_cons.mp hx with hx | hx
      · subst hx; exact Option.noConfusion hm'
      · exact a5 x hx m hm'
    | some r =>
      obtain ⟨b1, b2, b3, b4, b5, b6, _⟩ := addMaterial_spec ser r.val.material
        (hg _ (List.mem_cons_self _ _) r rfl) ht hm hc
      obtain ⟨a1, a2, a3, a4, a5, a6⟩ := ih (ser.addMaterial r.val.material) hg' b1 b2 b3
      refine ⟨a1, a2, a3, fun x hx => a4 (b4 hx), ?_, by rw [← b6]; exact a6⟩
      intro x hx m hm'
      rcases List.mem_cons.mp hx with hx | hx
      · subst hx
        have : r = m := Option.some.inj hm'
        subst this
        exact a4 b5
      · exact a5 x hx m hm'

theorem addObject_spec (ser : SerializedScene) (obj : SP Object)
    (hg : ∃ o, obj = some o ∧ ∀ mesh ∈ o.val.meshes, ∀ m ∈ mesh, goodMaterial m.val.material)
    (hcl : ser.Closed) :
    (ser.addObject obj).Closed
    ∧ ser.objects.list ⊆ (ser.addObject obj).objects.list
    ∧ obj ∈ (ser.addObject obj).objects.list := by
  obtain ⟨o, rfl, hgm⟩ := hg
  obtain ⟨ht, hm, ho, hmc, hoc⟩ := hcl
  obtain ⟨hw, hsub, hmem⟩ := add_wellFormed ser.objects (some o) ho
  cases hnew : (ser.objects.add (some o)).1 with
  | false =>
    have e : ser.addObject (some o) = ser := by
      simp only [SerializedScene.addObject, hnew, Bool.false_eq_true, if_false]
    rw [add_old _ _ hnew] at hmem
    rw [e]
    exact ⟨⟨ht, hm, ho, hmc, hoc⟩, fun _ hx => hx, hmem⟩
  | true =>
    have e : ser.addObject (some o) = o.val.meshes.foldl (fun acc mesh =>
        match mesh with
        | none => acc
        | some m => acc.addMaterial m.val.material)
        { ser with objects := (ser.objects.add (some o)).2 } := by
      simp only [SerializedScene.addObject, hnew, if_true]
    obtain ⟨a1, a2, a3, a4, a5, a6⟩ := meshFold_spec o.val.meshes
      { ser with objects := (ser.objects.add (some o)).2 } hgm ht hm hmc
    rw [e]
    refine ⟨⟨a1, a2, by rw [a6]; exact hw, a3, ?_⟩, by rw [a6]; exact hsub, by rw [a6]; exact hmem⟩
    intro x hx
    rw [a6] at hx
    have hx' : x ∈ ser.objects.list ++ [some o] := by
      rw [← add_new _ _ hnew]; exact hx
    rcases List.mem_append.mp hx' with hold | hnw
    · obtain ⟨o', ho', hmesh⟩ := hoc x hold
      exact ⟨o', ho', fun mesh hmesh' m hm' => a4 (hmesh mesh hmesh' m hm')⟩
    · exact ⟨o, List.mem_singleton.mp hnw, a5⟩

theorem instanceFold_spec (l : List (SP Instance)) (ser : SerializedScene)
    (hg : ∀ inst ∈ l, ∀ i ∈ inst, ∃ o, i.val.object = some o
      ∧ ∀ mesh ∈ o.val.meshes, ∀ m ∈ mesh, goodMaterial m.val.material)
    (hcl : ser.Closed) :
    (l.foldl (fun acc inst =>
        match inst with
        | none => acc
        | some i => acc.addObject i.val.object) ser).Closed
    ∧ ser.objects.list ⊆ (l.foldl (fun acc inst =>
        match inst with
        | none => acc
        | some i => acc.addObject i.val.object) ser).objects.list
    ∧ (∀ inst ∈ l, ∀ i ∈ inst, i.val.object ∈ (l.foldl (fun acc inst =>
        match inst with
        | none => acc
        | some i => acc.addObject i.val.object) ser).objects.list) := by
  induction l generalizing ser with
  | nil => exact ⟨hcl, fun _ hx => hx, fun _ hx => absurd hx (List.not_mem_nil _)⟩
  | cons inst l ih =>
    have hg' := fun x hx => hg x (List.mem_cons_of_mem _ hx)
    cases inst with
    | none =>
      obtain ⟨a1, a2, a3⟩ := ih ser hg' hcl
      refine ⟨a1, a2, ?_⟩
      intro x hx i hi
      rcases List.mem_cons.mp hx with hx | hx
      · subst hx; exact Option.noConfusion hi
      · exact a3 x hx i hi
    | some r =>
      obtain ⟨b1, b2, b3⟩ := addObject_spec ser r.val.object
        (hg _ (List.mem_cons_self _ _) r rfl) hcl
      obtain ⟨a1, a2, a3⟩ := ih (ser.addObject r.val.object) hg' b1
      refine ⟨a1, fun x hx => a2 (b2 hx), ?_⟩
      intro x hx i hi
      rcases List.mem_cons.mp hx with hx | hx
      · subst hx
        have : r = i := Option.some.inj hi
        subst this
        exact a2 b3
      · exact a3 x hx i hi

theorem empty_closed : SerializedScene.empty.Closed := by
  refine ⟨⟨?_, ?_⟩, ⟨?_, ?_⟩, ⟨?_, ?_⟩, ?_, ?_⟩
  · intro x hx; exact absurd hx (List.not_mem_nil _)
  · intro x hx; exact absurd rfl hx
  · intro x hx; exact absurd hx (List.not_mem_nil _)
  · intro x hx; exact absurd rfl hx
  · intro x hx; exact absurd hx (List.not_mem_nil _)
  · intro x hx; exact absurd rfl hx
  · intro x hx; exact absurd hx (List.not_mem_nil _)
  · intro x hx; exact absurd hx (List.not_mem_nil _)

theorem ofScene_closed (s : Scene) (hl : s.Linked) :
    (SerializedScene.ofScene s).Closed
    ∧ ∀ inst ∈ s.instances, ∀ i ∈ inst, i.val.object ∈ (SerializedScene.ofScene s).objects.list := by
  have h := instanceFold_spec s.instances SerializedScene.empty (by
    intro inst hinst i hi
    obtain ⟨o, ho, hm⟩ := hl.1 inst hinst i hi
    exact ⟨o, ho, fun mesh hmesh m hmm => hm mesh hmesh m hmm⟩) empty_closed
  exact ⟨h.1, h.2.2⟩

theorem wellFormed_find {α : Type} [DecidableEq α] (t : SerializedEntities α) (node : SP α)
    (h : t.WellFormed) (hmem : node ∈ t.list) (hlen : t.list.length < 2147483648) :
    ∃ id, t.registry.find node = some id ∧ resolves t.list id node := by
  obtain ⟨i, hi1, hi2⟩ := h.1 node hmem
  have hlt : i < t.list.length := by
    by_contra hc
    have := List.getElem?_eq_none (Nat.le_of_not_lt hc)
    rw [hi2] at this
    exact Option.noConfusion this
  have hv : (I32.wrap (i : Int)).val = i := wrap32_val _ (by omega) (by omega)
  refine ⟨_, hi1, ?_, ?_⟩
  · rw [hv]; omega
  · rw [hv]
    simpa using hi2

theorem wellFormed_getID {α : Type} [DecidableEq α] (t : SerializedEntities α) (node : SP α)
    (h : t.WellFormed) (hmem : node ∈ t.list) (hn : node ≠ none)
    (hlen : t.list.length < 2147483648) :
    resolves t.list (t.getID node) node := by
  obtain ⟨id, h1, h2⟩ := wellFormed_find t node h hmem hlen
  cases node with
  | none => exact absurd rfl hn
  | some r =>
    simp only [SerializedEntities.getID, h1]
    exact h2

theorem wellFormed_textureID (t : SerializedEntities Texture) (node : SP Texture)
    (h : t.WellFormed) (hmem : node ∈ t.list) (hlen : t.list.length < 2147483648) :
    resolves t.list (getID node t.registry) node := by
  obtain ⟨id, h1, h2⟩ := wellFormed_find t node h hmem hlen
  simp only [getID, h1]
  exact h2

theorem closed_resolves (ser : SerializedScene) (s : Scene) (hc : ser.Closed)
    (hcov : ∀ inst ∈ s.instances, ∀ i ∈ inst, i.val.object ∈ ser.objects.list)
    (henv : ∀ e ∈ s.envMapLight, e.val.texture ≠ none)
    (ht : ser.textures.list.length < 2147483648)
    (hm : ser.materials.list.length < 2147483648)
    (ho : ser.objects.list.length < 2147483648) :
    ser.Resolves s := by
  obtain ⟨wt, wm, wo, cm, co⟩ := hc
  refine ⟨?_, ?_, ?_, henv⟩
  · intro mat hmat
    obtain ⟨r, hr, hs, hd⟩ := cm mat hmat
    exact ⟨r, hr, hs, fun d hd' =>
      ⟨wellFormed_textureID _ _ wt (hd d hd').1 ht, wellFormed_textureID _ _ wt (hd d hd').2 ht⟩⟩
  · intro obj hobj
    obtain ⟨o, ho', hmesh⟩ := co obj hobj
    exact ⟨o, ho', fun mesh hmesh' m hm' =>
      wellFormed_getID _ _ wm (hmesh mesh hmesh' m hm')
        (fun e => by
          obtain ⟨r, hr, _⟩ := cm _ (hmesh mesh hmesh' m hm')
          rw [e] at hr
          exact Option.noConfusion hr) hm⟩
  · intro inst hinst i hi
    exact wellFormed_getID _ _ wo (hcov inst hinst i hi)
      (fun e => by
        obtain ⟨o, ho', _⟩ := co _ (hcov inst hinst i hi)
        rw [e] at ho'
        exact Option.noConfusion ho') ho

theorem ofScene_resolves (s : Scene) (hl : s.Linked)
    (hz : (SerializedScene.ofScene s).Sized s) :
    (SerializedScene.ofScene s).Resolves s := by
  obtain ⟨hc, hcov⟩ := ofScene_closed s hl
  exact closed_resolves _ s hc hcov hl.2 hz.1 hz.2.2.2.2.2.1 hz.2.2.2.2.2.2.1

theorem map_eq_self {α : Type} (f : α → α) (l : List α) (h : ∀ x ∈ l, f x = x) :
    l.map f = l := by
  induction l with
  | nil => rfl
  | cons a l ih =>
    rw [List.map_cons, h a (List.mem_cons_self _ _),
      ih (fun x hx => h x (List.mem_cons_of_mem _ hx))]

theorem compact_of_noNullSlots (s : Scene) (h : s.NoNullSlots) : s.compact = s := by
  unfold Scene.compact
  have : s.instances.map (Option.map (fun r => (⟨r.addr, r.val.compact⟩ : Ref Instance)))
      = s.instances := by
    apply map_eq_self
    intro inst hinst
    obtain ⟨i, rfl, hi⟩ := h inst hinst
    obtain ⟨a, ⟨object, xfm⟩⟩ := i
    simp only [Option.map_some', Instance.compact]
    cases object with
    | none => rfl
    | some o =>
      have hall := hi o rfl
      obtain ⟨oa, ⟨meshes⟩⟩ := o
      have hf : meshes.filter Option.isSome = meshes := by
        apply List.filter_eq_self.mpr
        intro mesh hmesh
        cases mesh with
        | none => exact absurd rfl (hall none hmesh)
        | some m => rfl
      simp only [Option.map_some', Object.compact, hf]
  rw [this]

/-! ## Null slots and sharing -/

theorem reloadTextures_vals (next : Nat) (l : List (SP Texture)) :
    (reloadTextures next l).map (Option.map Ref.val) = l.map (Option.map Ref.val) := by
  induction l generalizing next with
  | nil => rfl
  | cons t l ih =>
    cases t with
    | none => simp only [reloadTextures, List.map_cons, ih]
    | some r => simp only [reloadTextures, List.map_cons, ih]; rfl

theorem reloadInstances_xfms (ser : SerializedScene) (objects : List (SP Object)) (next : Nat)
    (l : List (SP Instance)) :
    (reloadInstances ser objects next l).map (Option.map (fun r => r.val.xfm))
      = l.map (Option.map (fun r => r.val.xfm)) := by
  induction l generalizing next with
  | nil => rfl
  | cons t l ih =>
    cases t with
    | none => simp only [reloadInstances, List.map_cons, ih]
    | some r => simp only [reloadInstances, List.map_cons, ih]; rfl

theorem null_iff_of_map_eq {α β : Type} (f : Ref α → β) (l' l : List (SP α))
    (h : l'.map (Option.map f) = l.map (Option.map f)) (i : Nat) :
    l'[i]? = some none ↔ l[i]? = some none := by
  have hi : (l'[i]?).map (Option.map f) = (l[i]?).map (Option.map f) := by
    rw [← List.getElem?_map, ← List.getElem?_map, h]
  constructor
  · intro h1
    rw [h1] at hi
    cases h2 : l[i]? with
    | none => rw [h2] at hi; exact Option.noConfusion hi
    | some x =>
      rw [h2] at hi
      cases x with
      | none => rfl
      | some r => exact Option.noConfusion (Option.some.inj hi)
  · intro h1
    rw [h1] at hi
    cases h2 : l'[i]? with
    | none => rw [h2] at hi; exact Option.noConfusion hi
    | some x =>
      rw [h2] at hi
      cases x with
      | none => rfl
      | some r => exact Option.noConfusion (Option.some.inj hi)

theorem reloadInstances_at (ser : SerializedScene) (objects : List (SP Object)) (next : Nat)
    (l : List (SP Instance)) (i : Nat) (r : Ref Instance) (h : l[i]? = some (some r)) :
    ∃ a, (reloadInstances ser objects next l)[i]?
      = some (some ⟨a, { object := entryAt objects (ser.objects.getID r.val.object),
                         xfm := r.val.xfm }⟩) := by
  induction l generalizing next i with
  | nil => exact Option.noConfusion h
  | cons t l ih =>
    cases i with
    | zero =>
      have ht : t = some r := by
        simpa using h
      subst ht
      exact ⟨next, by simp [reloadInstances]⟩
    | succ i =>
      have h' : l[i]? = some (some r) := by
        simpa using h
      cases t with
      | none =>
        obtain ⟨a, ha⟩ := ih next i h'
        exact ⟨a, by simpa [reloadInstances] using ha⟩
      | some t =>
        obtain ⟨a, ha⟩ := ih (next + 1) i h'
        exact ⟨a, by simpa [reloadInstances] using ha⟩

theorem reloadObjects_at (ser : SerializedScene) (materials : List (SP Material)) (next : Nat)
    (l : List (SP Object)) (k : Nat) (o : Ref Object) (h : l[k]? = some (some o)) :
    ∃ o', (reloadObjects ser materials next l)[k]? = some (some o') := by
  induction l generalizing next k with
  | nil => exact Option.noConfusion h
  | cons t l ih =>
    cases k with
    | zero =>
      have ht : t = some o := by
        simpa using h
      subst ht
      exact ⟨⟨next, { meshes := reloadMeshes ser materials (next + 1) o.val.meshes }⟩,
        by simp only [reloadObjects, List.getElem?_cons_zero]⟩
    | succ k =>
      have h' : l[k]? = some (some o) := by
        simpa using h
      cases t with
      | none =>
        obtain ⟨a, ha⟩ := ih next k h'
        exact ⟨a, by simpa [reloadObjects] using ha⟩
      | some t =>
        obtain ⟨a, ha⟩ := ih (next + 1 + liveCount t.val.meshes) k h'
        exact ⟨a, by simpa [reloadObjects] using ha⟩

theorem entryAt_reloadObjects (ser : SerializedScene) (materials : List (SP Material))
    (next : Nat) (l : List (SP Object)) (id : I32) (o : Ref Object)
    (h : resolves l id (some o)) :
    ∃ o', entryAt (reloadObjects ser materials next l) id = some o'
      ∧ some o' ∈ reloadObjects ser materials next l := by
  obtain ⟨o', ho'⟩ := reloadObjects_at ser materials next l id.val.toNat o h.2
  refine ⟨o', ?_, List.getElem?_mem ho'⟩
  unfold entryAt
  rw [if_pos h.1, ho']
  rfl

/-! ## Round trips -/

theorem load_of_loadTables (b : List Byte) (r : Loaded) (h : Scene.loadTables b = .ok r) :
    Scene.load b = .ok r.scene := by
  unfold Scene.load
  rw [h]
  rfl

/-- C1: for every scene without null sentinels (no null instance slot, no null mesh slot,
every instance with an object, every mesh with a material of the eight variants, the
environment map with its texture) whose counts fit their integer types, `Scene::save`
writes a file and `Scene::load` of that file returns a scene structurally equal to the
saved one: the same instances in the same order with the same transforms, the same
objects, meshes (index, vertex, normal and texcoord arrays) and materials (variant and
fields), the same texture contents and the same lights. -/
theorem save_load_structure (s : Scene) (hl : s.Linked) (hn : s.NoNullSlots)
    (hz : (SerializedScene.ofScene s).Sized s) :
    ∃ b s', Scene.save s = .ok b ∧ Scene.load b = .ok s' ∧ s'.strip = s.strip := by
  have hr := ofScene_resolves s hl hz
  obtain ⟨b, hsave, hload⟩ := loadTables_saved _ s hz hr
  refine ⟨b, _, hsave, load_of_loadTables b _ hload, ?_⟩
  rw [reload_strip _ s hr, compact_of_noNullSlots s hn]

theorem save_load_structure_witness :
    ∃ b s', Scene.save demoScene = .ok b ∧ Scene.load b = .ok s'
      ∧ s'.strip = demoScene.strip :=
  save_load_structure demoScene (by decide) (by decide) (by decide)

/-- C2: when the instance list has null slots and the texture table null entries,
`Scene::save` writes validity flag 0 for them and `Scene::load` restores null entries at
exactly the same positions: the loaded texture table and instance list have the lengths
of the saved ones, are null at exactly the same positions, and hold the same texture
contents and the same transforms at all other positions. -/
theorem save_load_null_slots (s : Scene) (hl : s.Linked)
    (hz : (SerializedScene.ofScene s).Sized s) :
    ∃ b r, Scene.save s = .ok b ∧ Scene.loadTables b = .ok r ∧ Scene.load b = .ok r.scene
      ∧ r.textures.length = (SerializedScene.ofScene s).textures.list.length
      ∧ (∀ i : Nat, r.textures[i]? = some none
          ↔ (SerializedScene.ofScene s).textures.list[i]? = some none)
      ∧ r.textures.map (Option.map Ref.val)
          = (SerializedScene.ofScene s).textures.list.map (Option.map Ref.val)
      ∧ r.scene.instances.length = s.instances.length
      ∧ (∀ i : Nat, r.scene.instances[i]? = some none ↔ s.instances[i]? = some none)
      ∧ r.scene.instances.map (Option.map (fun x => x.val.xfm))
          = s.instances.map (Option.map (fun x => x.val.xfm)) := by
  have hr := ofScene_resolves s hl hz
  obtain ⟨b, hsave, hload⟩ := loadTables_saved _ s hz hr
  refine ⟨b, _, hsave, hload, load_of_loadTables b _ hload, ?_, ?_, ?_, ?_, ?_, ?_⟩
  · exact reloadTextures_length _ _
  · exact null_iff_of_map_eq Ref.val _ _ (reloadTextures_vals _ _)
  · exact reloadTextures_vals _ _
  · exact reloadInstances_length _ _ _ _
  · exact null_iff_of_map_eq (fun x => x.val.xfm) _ _ (reloadInstances_xfms _ _ _ _)
  · exact reloadInstances_xfms _ _ _ _

theorem save_load_null_slots_witness :
    (SerializedScene.ofScene gapScene).textures.list = [none, some demoTexture]
    ∧ ∃ b r, Scene.save gapScene = .ok b ∧ Scene.loadTables b = .ok r
      ∧ Scene.load b = .ok r.scene
      ∧ r.textures.length = (SerializedScene.ofScene gapScene).textures.list.length
      ∧ (∀ i : Nat, r.textures[i]? = some none
          ↔ (SerializedScene.ofScene gapScene).textures.list[i]? = some none)
      ∧ r.textures.map (Option.map Ref.val)
          = (SerializedScene.ofScene gapScene).textures.list.map (Option.map Ref.val)
      ∧ r.scene.instances.length = gapScene.instances.length
      ∧ (∀ i : Nat, r.scene.instances[i]? = some none ↔ gapScene.instances[i]? = some none)
      ∧ r.scene.instances.map (Option.map (fun x => x.val.xfm))
          = gapScene.instances.map (Option.map (fun x => x.val.xfm)) :=
  ⟨by decide, save_load_null_slots gapScene (by decide) (by decide)⟩

/-- C3: when two instance slots of the saved scene reference the same object, the two
loaded instances reference the same loaded object, one entry of the object table
`Scene::load` built. -/
theorem save_load_shared_object (s : Scene) (hl : s.Linked)
    (hz : (SerializedScene.ofScene s).Sized s)
    (i j : Nat) (ri rj : Ref Instance)
    (hi : s.instances[i]? = some (some ri)) (hj : s.instances[j]? = some (some rj))
    (hsame : ri.val.object = rj.val.object) :
    ∃ b r li lj o, Scene.save s = .ok b ∧ Scene.loadTables b = .ok r
      ∧ Scene.load b = .ok r.scene
      ∧ r.scene.instances[i]? = some (some li) ∧ r.scene.instances[j]? = some (some lj)
      ∧ li.val.object = some o ∧ lj.val.object = some o ∧ some o ∈ r.objects := by
  have hr := ofScene_resolves s hl hz
  obtain ⟨b, hsave, hload⟩ := loadTables_saved _ s hz hr
  obtain ⟨ai, hai⟩ := reloadInstances_at (SerializedScene.ofScene s)
    (Scene.reload (SerializedScene.ofScene s) s).objects
    ((liveCount (SerializedScene.ofScene s).textures.list
        + (if s.envMapLight.isSome then 2 else 0))
      + (SerializedScene.ofScene s).materials.list.length
      + objectsSpan (SerializedScene.ofScene s).objects.list) s.instances i ri hi
  obtain ⟨aj, haj⟩ := reloadInstances_at (SerializedScene.ofScene s)
    (Scene.reload (SerializedScene.ofScene s) s).objects
    ((liveCount (SerializedScene.ofScene s).textures.list
        + (if s.envMapLight.isSome then 2 else 0))
      + (SerializedScene.ofScene s).materials.list.length
      + objectsSpan (SerializedScene.ofScene s).objects.list) s.instances j rj hj
  obtain ⟨oi, hoi, _⟩ := hl.1 _ (List.getElem?_mem hi) ri rfl
  have hres := hr.2.2.1 _ (List.getElem?_mem hi) ri rfl
  rw [hoi] at hres
  obtain ⟨o', ho1, ho2⟩ := entryAt_reloadObjects (SerializedScene.ofScene s)
    (Scene.reload (SerializedScene.ofScene s) s).materials
    ((liveCount (SerializedScene.ofScene s).textures.list
        + (if s.envMapLight.isSome then 2 else 0))
      + (SerializedScene.ofScene s).materials.list.length)
    (SerializedScene.ofScene s).objects.list _ oi hres
  refine ⟨b, _, _, _, o', hsave, hload, load_of_loadTables b _ hload, hai, haj, ?_, ?_, ho2⟩
  · show entryAt _ _ = some o'
    rw [hoi]
    exact ho1
  · show entryAt _ _ = some o'
    rw [← hsame, hoi]
    exact ho1

theorem save_load_shared_object_witness :
    ∃ b r li lj o, Scene.save demoScene = .ok b ∧ Scene.loadTables b = .ok r
      ∧ Scene.load b = .ok r.scene
      ∧ r.scene.instances[0]? = some (some li) ∧ r.scene.instances[1]? = some (some lj)
      ∧ li.val.object = some o ∧ lj.val.object = some o ∧ some o ∈ r.objects :=
  save_load_shared_object demoScene (by decide) (by decide) 0 1
    ⟨500, { object := some demoObject, xfm := demoXfm }⟩
    ⟨501, { object := some demoObject, xfm := default }⟩ (by decide) (by decide) (by decide)

/-! ## The variants' own layouts -/

/-- C9: for each of the variants Matte, Plastic, Metal, Velvet, MetallicPaint, ThinGlass
and Dielectric, `read` applied to the bytes `write` produced for a material `m`, followed
by any further bytes, yields `m` itself, every field equal, whatever the object read into
held before, and leaves exactly the further bytes unread. -/
theorem variant_read_write (reg : Registry Texture) (textures : List (SP Texture))
    (rest : List Byte) :
    (∀ self m : Matte, self.read (m.write reg ++ rest) textures = .ok (m, rest))
    ∧ (∀ self m : Plastic, self.read (m.write reg ++ rest) textures = .ok (m, rest))
    ∧ (∀ self m : Metal, self.read (m.write reg ++ rest) textures = .ok (m, rest))
    ∧ (∀ self m : Velvet, self.read (m.write reg ++ rest) textures = .ok (m, rest))
    ∧ (∀ self m : MetallicPaint, self.read (m.write reg ++ rest) textures = .ok (m, rest))
    ∧ (∀ self m : ThinGlass, self.read (m.write reg ++ rest) textures = .ok (m, rest))
    ∧ (∀ self m : Dielectric, self.read (m.write reg ++ rest) textures = .ok (m, rest)) :=
  ⟨fun self m => matte_read_write self m reg textures rest,
   fun self m => plastic_read_write self m reg textures rest,
   fun self m => metal_read_write self m reg textures rest,
   fun self m => velvet_read_write self m reg textures rest,
   fun self m => metallicPaint_read_write self m reg textures rest,
   fun self m => thinGlass_read_write self m reg textures rest,
   fun self m => dielectric_read_write self m reg textures rest⟩

/-- C8: for each of the eight variants, the pass of the material loop of `Scene::save`
writes the variant's type tag as one `int`, four bytes (Disney 1, Matte 2, Plastic 3, Metal 4,
Velvet 5, MetallicPaint 6, ThinGlass 7, Dielectric 8) and, immediately after it, what the
variant's `write` emits: exactly the fields of its row of the dispatch table, in that
order, and nothing else. -/
theorem material_layout (ser : SerializedScene) (a : Nat) :
    (∀ m : DisneyMaterial,
      m.write ser.textures.registry
        = Fixed.enc m.emission ++ Fixed.enc m.baseColor ++ Fixed.enc m.metallic
          ++ Fixed.enc m.roughness ++ Fixed.enc m.transmission ++ Fixed.enc m.ior
          ++ Fixed.enc (getID m.colorTexture ser.textures.registry)
          ++ Fixed.enc (getID m.alphaTexture ser.textures.registry)
      ∧ saveMaterial ser (some ⟨a, .disney m⟩)
        = .ok ([1, 0, 0, 0] ++ m.write ser.textures.registry))
    ∧ (∀ m : Matte,
      m.write ser.textures.registry = Fixed.enc m.reflectance
      ∧ saveMaterial ser (some ⟨a, .matte m⟩)
        = .ok ([2, 0, 0, 0] ++ m.write ser.textures.registry))
    ∧ (∀ m : Plastic,
      m.write ser.textures.registry
        = Fixed.enc m.Ks ++ Fixed.enc m.eta ++ Fixed.enc m.pigmentColor
          ++ Fixed.enc m.roughness
      ∧ saveMaterial ser (some ⟨a, .plastic m⟩)
        = .ok ([3, 0, 0, 0] ++ m.write ser.textures.registry))
    ∧ (∀ m : Metal,
      m.write ser.textures.registry
        = Fixed.enc m.eta ++ Fixed.enc m.k ++ Fixed.enc m.roughness
      ∧ saveMaterial ser (some ⟨a, .metal m⟩)
        = .ok ([4, 0, 0, 0] ++ m.write ser.textures.registry))
    ∧ (∀ m : Velvet,
      m.write ser.textures.registry
        = Fixed.enc m.reflectance ++ Fixed.enc m.horizonScatteringColor
          ++ Fixed.enc m.horizonScatteringFallOff ++ Fixed.enc m.backScattering
      ∧ saveMaterial ser (some ⟨a, .velvet m⟩)
        = .ok ([5, 0, 0, 0] ++ m.write ser.textures.registry))
    ∧ (∀ m : MetallicPaint,
      m.write ser.textures.registry
        = Fixed.enc m.glitterColor ++ Fixed.enc m.glitterSpread ++ Fixed.enc m.shadeColor
          ++ Fixed.enc m.eta
      ∧ saveMaterial ser (some ⟨a, .metallicPaint m⟩)
        = .ok ([6, 0, 0, 0] ++ m.write ser.textures.registry))
    ∧ (∀ m : ThinGlass,
      m.write ser.textures.registry
        = Fixed.enc m.eta ++ Fixed.enc m.thickness ++ Fixed.enc m.transmission
      ∧ saveMaterial ser (some ⟨a, .thinGlass m⟩)
        = .ok ([7, 0, 0, 0] ++ m.write ser.textures.registry))
    ∧ (∀ m : Dielectric,
      m.write ser.textures.registry
        = Fixed.enc m.etaInside ++ Fixed.enc m.etaOutside ++ Fixed.enc m.transmission
      ∧ saveMaterial ser (some ⟨a, .dielectric m⟩)
        = .ok ([8, 0, 0, 0] ++ m.write ser.textures.registry)) :=
  ⟨fun _ => ⟨rfl, rfl⟩, fun _ => ⟨rfl, rfl⟩, fun _ => ⟨rfl, rfl⟩, fun _ => ⟨rfl, rfl⟩,
   fun _ => ⟨rfl, rfl⟩, fun _ => ⟨rfl, rfl⟩, fun _ => ⟨rfl, rfl⟩, fun _ => ⟨rfl, rfl⟩⟩

/-- C10 (as amended): for every Disney material whose two texture references, an absent
one included, have IDs in the registry at which the texture table holds that reference,
`DisneyMaterial::read` applied to the bytes `DisneyMaterial::write` produced succeeds,
restores the six fields and both texture references, an absent texture being read back
as absent, and leaves the bytes that follow unread. -/
theorem disney_read_write_registered (self m : DisneyMaterial) (reg : Registry Texture)
    (textures : List (SP Texture)) (rest : List Byte)
    (hc : resolves textures (getID m.colorTexture reg) m.colorTexture)
    (ha : resolves textures (getID m.alphaTexture reg) m.alphaTexture) :
    self.read (m.write reg ++ rest) textures = .ok (m, rest) := by
  rw [disney_read_write self m reg textures rest (resolves_range hc).1 (resolves_range hc).2
    (resolves_range ha).1 (resolves_range ha).2, entryAt_resolves hc, entryAt_resolves ha]

theorem disney_read_write_registered_witness :
    (default : DisneyMaterial).read
        (bareDisneyMaterial.write (SerializedScene.ofScene gapScene).textures.registry
          ++ [1, 2, 3])
        (SerializedScene.ofScene gapScene).textures.list
      = .ok (bareDisneyMaterial, [1, 2, 3]) :=
  disney_read_write_registered default bareDisneyMaterial
    (SerializedScene.ofScene gapScene).textures.registry
    (SerializedScene.ofScene gapScene).textures.list [1, 2, 3] (by decide) (by decide)

/-- C10, the claim as stated fails: for a Disney material without colour texture and a
registry that has no entry for the null texture, `write` emits the ID -1 and `read`
stops at `assert(texID >= 0)`. -/
theorem disney_read_rejects_minus_one :
    (getID bareDisneyMaterial.colorTexture [(some demoTexture, I32.wrap 0)]).val = -1
    ∧ (default : DisneyMaterial).read
          (bareDisneyMaterial.write [(some demoTexture, I32.wrap 0)]) [some demoTexture]
        = .error .assertion := by
  refine ⟨by decide, ?_⟩
  have h := readTextureRef_neg (getID bareDisneyMaterial.colorTexture
    [(some demoTexture, I32.wrap 0)])
    [some demoTexture]
    (io.writeElement (getID bareDisneyMaterial.alphaTexture [(some demoTexture, I32.wrap 0)]))
    (by decide)
  simp only [DisneyMaterial.read, DisneyMaterial.write, List.append_assoc, readElement_append,
    ok_bind, h]
  rfl

/-! ## The magic words -/

theorem formatOfMagic_other (magic : SizeT) (h1 : magic.val ≠ 4321000012)
    (h2 : magic.val ≠ 4321000011) : formatOfMagic magic = .error .wrongMagic := by
  unfold formatOfMagic
  have e1 : ¬ magic.val = expected_magic := h1
  have e2 : ¬ magic.val = expected_magic - 1 := h2
  rw [if_neg e1, if_neg e2]
  rfl

theorem loadSections_wrongMagic (inp : List Byte) (magic : SizeT) (rest : List Byte)
    (hread : io.readElement inp = .ok (magic, rest))
    (h1 : magic.val ≠ 4321000012) (h2 : magic.val ≠ 4321000011) :
    Scene.loadSections inp = .error .wrongMagic := by
  unfold Scene.loadSections
  rw [hread, ok_bind]
  dsimp only
  rw [formatOfMagic_other magic h1 h2]
  rfl

theorem load_of_loadSections_error (inp : List Byte) (e : Error)
    (h : Scene.loadSections inp = .error e) : Scene.load inp = .error e := by
  unfold Scene.load Scene.loadTables
  rw [h]
  rfl

/-- C4: `Scene::load` accepts a file only if its leading word is the current magic
4321000012 (format version 12) or the previous generation's magic 4321000011; for every
other leading word it fails with the wrong-magic error whatever follows the word, so
without reading any section. -/
theorem load_checks_magic :
    expected_magic = 4321000012
    ∧ (∀ (magic : SizeT) (rest : List Byte),
        magic.val ≠ 4321000012 → magic.val ≠ 4321000011 →
        Scene.load (io.writeElement magic ++ rest) = .error .wrongMagic)
    ∧ (∀ (inp : List Byte) (s : Scene), Scene.load inp = .ok s →
        ∃ (magic : SizeT) (rest : List Byte), io.readElement inp = .ok (magic, rest)
          ∧ (magic.val = 4321000012 ∨ magic.val = 4321000011)) := by
  refine ⟨rfl, ?_, ?_⟩
  · intro magic rest h1 h2
    exact load_of_loadSections_error _ _
      (loadSections_wrongMagic _ magic rest (readElement_append magic rest) h1 h2)
  · intro inp s hs
    cases hread : (io.readElement inp : Except Error (SizeT × List Byte)) with
    | error e =>
      have : Scene.loadSections inp = .error e := by
        unfold Scene.loadSections
        rw [hread]
        rfl
      rw [load_of_loadSections_error _ _ this] at hs
      exact Except.noConfusion hs
    | ok p =>
      obtain ⟨magic, rest⟩ := p
      refine ⟨magic, rest, rfl, ?_⟩
      by_contra hn
      have h1 : magic.val ≠ 4321000012 := fun e => hn (Or.inl e)
      have h2 : magic.val ≠ 4321000011 := fun e => hn (Or.inr e)
      rw [load_of_loadSections_error _ _ (loadSections_wrongMagic _ magic rest hread h1 h2)] at hs
      exact Except.noConfusion hs

theorem load_checks_magic_witness :
    Scene.load (io.writeElement (SizeT.wrap 4321000010) ++ []) = .error .wrongMagic :=
  load_checks_magic.2.1 (SizeT.wrap 4321000010) [] (by decide) (by decide)

theorem load_bad_trailer (inp : List Byte) (r : Loaded) (inp' : List Byte) (w : SizeT)
    (rest : List Byte) (hs : Scene.loadSections inp = .ok (r, inp'))
    (hw : io.readElement inp' = .ok (w, rest))
    (h1 : w.val ≠ 4321000012) (h2 : w.val ≠ 4321000011) :
    Scene.load inp = .error .incomplete := by
  unfold Scene.load Scene.loadTables
  rw [hs, ok_bind]
  dsimp only
  rw [hw, ok_bind]
  dsimp only
  have : w.val ≠ expected_magic ∧ w.val ≠ expected_magic - 1 := ⟨h1, h2⟩
  rw [if_pos this]
  rfl

theorem load_no_trailer (inp : List Byte) (r : Loaded) (inp' : List Byte)
    (hs : Scene.loadSections inp = .ok (r, inp')) (hlen : inp'.length < 8) :
    Scene.load inp = .error .truncated := by
  unfold Scene.load Scene.loadTables
  rw [hs, ok_bind]
  dsimp only
  rw [readElement_short inp' hlen]
  rfl

/-- C5: `Scene::load` fails with the incomplete-file error, returning no scene, whenever
the word it reads after the instance section is neither 4321000012 nor 4321000011; and
for every file `Scene::save` wrote, the file with the trailing marker dropped (wholly, or
all but its first `k < 8` bytes) does not load: the read of the trailing word fails. -/
theorem load_detects_truncation (s : Scene) (hl : s.Linked)
    (hz : (SerializedScene.ofScene s).Sized s) :
    (∀ (inp : List Byte) (r : Loaded) (inp' : List Byte) (w : SizeT) (rest : List Byte),
        Scene.loadSections inp = .ok (r, inp') → io.readElement inp' = .ok (w, rest) →
        w.val ≠ 4321000012 → w.val ≠ 4321000011 → Scene.load inp = .error .incomplete)
    ∧ ∃ body, Scene.save s = .ok (body ++ io.writeElement (SizeT.wrap 4321000012))
        ∧ (∃ s', Scene.load (body ++ io.writeElement (SizeT.wrap 4321000012)) = .ok s')
        ∧ Scene.load body = .error .truncated
        ∧ (∀ k, k < 8 →
            Scene.load (body ++ (io.writeElement (SizeT.wrap 4321000012)).take k)
              = .error .truncated)
        ∧ (∀ (w : SizeT) (rest : List Byte), w.val ≠ 4321000012 → w.val ≠ 4321000011 →
            Scene.load (body ++ io.writeElement w ++ rest) = .error .incomplete) := by
  refine ⟨load_bad_trailer, ?_⟩
  have hr := ofScene_resolves s hl hz
  obtain ⟨body, hsave, hload⟩ := load_saved _ s hz hr
  obtain ⟨b, hb, hlb⟩ := loadTables_saved _ s hz hr
  have hbe : b = body ++ io.writeElement (SizeT.wrap expected_magic) := by
    rw [hsave] at hb
    exact (Except.ok.inj hb).symm
  refine ⟨body, hsave, ⟨(Scene.reload (SerializedScene.ofScene s) s).scene, ?_⟩, ?_, ?_, ?_⟩
  · rw [hbe] at hlb
    exact load_of_loadTables _ _ hlb
  · have := hload []
    rw [List.append_nil] at this
    exact load_no_trailer body _ [] this (by decide)
  · intro k hk
    refine load_no_trailer _ _ _ (hload _) ?_
    rw [List.length_take]
    omega
  · intro w rest h1 h2
    rw [List.append_assoc]
    exact load_bad_trailer _ _ _ w rest (hload _) (readElement_append w rest) h1 h2

theorem load_detects_truncation_witness :
    (∀ (inp : List Byte) (r : Loaded) (inp' : List Byte) (w : SizeT) (rest : List Byte),
        Scene.loadSections inp = .ok (r, inp') → io.readElement inp' = .ok (w, rest) →
        w.val ≠ 4321000012 → w.val ≠ 4321000011 → Scene.load inp = .error .incomplete)
    ∧ ∃ body, Scene.save demoScene = .ok (body ++ io.writeElement (SizeT.wrap 4321000012))
        ∧ (∃ s', Scene.load (body ++ io.writeElement (SizeT.wrap 4321000012)) = .ok s')
        ∧ Scene.load body = .error .truncated
        ∧ (∀ k, k < 8 →
            Scene.load (body ++ (io.writeElement (SizeT.wrap 4321000012)).take k)
              = .error .truncated)
        ∧ (∀ (w : SizeT) (rest : List Byte), w.val ≠ 4321000012 → w.val ≠ 4321000011 →
            Scene.load (body ++ io.writeElement w ++ rest) = .error .incomplete) :=
  load_detects_truncation demoScene (by decide) (by decide)

/-! ## The layout of the file -/

theorem bind_ok_inv {α β : Type} (x : Except Error α) (f : α → Except Error β) (b : β)
    (h : (x >>= f) = .ok b) : ∃ a, x = .ok a ∧ f a = .ok b := by
  cases x with
  | error e => exact Except.noConfusion h
  | ok a => exact ⟨a, rfl, h⟩

theorem writeEach_flatMap {α : Type} (f : α → List Byte) (l : List α) :
    writeEach f l = l.flatMap f := by
  induction l with
  | nil => rfl
  | cons a l ih => simp only [writeEach, List.flatMap_cons, ih]

theorem writeEachM_flatMap {α : Type} (f : α → Except Error (List Byte)) (g : α → List Byte)
    (l : List α) (b : List Byte) (hf : ∀ a ∈ l, ∀ x, f a = .ok x → x = g a)
    (h : writeEachM f l = .ok b) : b = l.flatMap g := by
  induction l generalizing b with
  | nil => exact (Except.ok.inj h).symm
  | cons a l ih =>
    unfold writeEachM at h
    obtain ⟨x, hx, h⟩ := bind_ok_inv _ _ _ h
    obtain ⟨xs, hxs, h⟩ := bind_ok_inv _ _ _ h
    have e1 := hf a (List.mem_cons_self _ _) x hx
    have e2 := ih xs (fun a' ha' => hf a' (List.mem_cons_of_mem _ ha')) hxs
    rw [List.flatMap_cons, ← e1, ← e2]
    exact (Except.ok.inj h).symm

theorem saveMaterial_record (ser : SerializedScene) (mat : SP Material) (x : List Byte)
    (h : saveMaterial ser mat = .ok x) : x = materialRecord ser.textures.registry mat := by
  cases mat with
  | none => exact Except.noConfusion h
  | some r =>
    obtain ⟨a, v⟩ := r
    cases v <;> first
      | exact (Except.ok.inj h).symm
      | exact Except.noConfusion h

theorem saveMesh_record (ser : SerializedScene) (mesh : SP Mesh) (x : List Byte)
    (h : saveMesh ser mesh = .ok x) : x = meshRecord ser mesh := by
  cases mesh with
  | none => exact (Except.ok.inj h).symm
  | some r =>
    unfold saveMesh at h
    by_cases hge : (ser.materials.getID r.val.material).val ≥ 0
    · simp only [if_pos hge] at h
      exact (Except.ok.inj h).symm
    · simp only [if_neg hge] at h
      exact Except.noConfusion h

theorem saveObject_record (ser : SerializedScene) (obj : SP Object) (x : List Byte)
    (h : saveObject ser obj = .ok x) : x = objectRecord ser obj := by
  cases obj with
  | none => exact Except.noConfusion h
  | some r =>
    unfold saveObject at h
    obtain ⟨body, hbody, h⟩ := bind_ok_inv _ _ _ h
    have e := writeEachM_flatMap _ (meshRecord ser) _ _
      (fun a _ x hx => saveMesh_record ser a x hx) hbody
    rw [e] at h
    exact (Except.ok.inj h).symm

theorem saveLights_record (s : Scene) (x : List Byte) (h : saveLights s = .ok x) :
    x = io.writeVector s.quadLights ++ io.writeVector s.dirLights
          ++ envMapRecord s.envMapLight := by
  unfold saveLights at h
  cases he : s.envMapLight with
  | none =>
    rw [he] at h
    exact (Except.ok.inj h).symm
  | some e =>
    rw [he] at h
    cases ht : e.val.texture with
    | none =>
      simp only [ht] at h
      exact Except.noConfusion h
    | some t =>
      simp only [ht] at h
      simp only [envMapRecord, ht]
      exact (Except.ok.inj h).symm

theorem saveTexture_record : saveTexture = textureRecord := by
  funext tex
  cases tex <;> rfl

theorem saveInstance_record (ser : SerializedScene) :
    saveInstance ser = instanceRecord ser := by
  funext inst
  cases inst <;> rfl

/-- C7: the bytes `Scene::save` writes are, in this order and with nothing else: the word
4321000000+12, the texture section (count, then per texture flag 0, or flag 1 followed by
size, format, filter mode and pixel buffer), the quad-light vector, the directional-light
vector, the optional environment-light record, the material section (count, then per
material tag and payload), the object section (count, then per object the mesh count and
per mesh a flag and, if valid, four vectors and the material ID), the instance section
(count, then per slot a flag and, if valid, transform and object ID), and the same word
again. -/
theorem save_layout (ser : SerializedScene) (s : Scene) (b : List Byte)
    (h : Scene.saveWith ser s = .ok b) : b = fileLayout ser s := by
  unfold Scene.saveWith at h
  obtain ⟨lights, hl, h⟩ := bind_ok_inv _ _ _ h
  obtain ⟨materials, hm, h⟩ := bind_ok_inv _ _ _ h
  obtain ⟨objects, ho, h⟩ := bind_ok_inv _ _ _ h
  unfold saveMaterials at hm
  obtain ⟨mb, hmb, hm⟩ := bind_ok_inv _ _ _ hm
  unfold saveObjects at ho
  obtain ⟨ob, hob, ho⟩ := bind_ok_inv _ _ _ ho
  have e1 := saveLights_record s lights hl
  have e2 := writeEachM_flatMap _ (materialRecord ser.textures.registry) _ _
    (fun a _ x hx => saveMaterial_record ser a x hx) hmb
  have e3 := writeEachM_flatMap _ (objectRecord ser) _ _
    (fun a _ x hx => saveObject_record ser a x hx) hob
  have e4 : saveTextures ser = io.writeElement (SizeT.wrap ser.textures.list.length)
      ++ ser.textures.list.flatMap textureRecord := by
    unfold saveTextures
    rw [writeEach_flatMap, saveTexture_record]
  have e5 : saveInstances ser s = io.writeElement (SizeT.wrap s.instances.length)
      ++ s.instances.flatMap (instanceRecord ser) := by
    unfold saveInstances
    rw [writeEach_flatMap, saveInstance_record]
  have hm' := (Except.ok.inj hm).symm
  have ho' := (Except.ok.inj ho).symm
  have h' := (Except.ok.inj h).symm
  rw [h', hm', ho', e1, e2, e3, e4, e5]
  simp only [fileLayout, magicWord, SerializedEntities.size, List.append_assoc]
  rfl

theorem demo_save_ok : ∃ b, Scene.save demoScene = .ok b := by
  obtain ⟨b, hb, _⟩ := loadTables_saved (SerializedScene.ofScene demoScene) demoScene
    (by decide) (by decide)
  exact ⟨b, hb⟩

theorem save_layout_witness :
    ∃ b, Scene.save demoScene = .ok b
      ∧ b = fileLayout (SerializedScene.ofScene demoScene) demoScene := by
  obtain ⟨b, hb⟩ := demo_save_ok
  exact ⟨b, hb, save_layout (SerializedScene.ofScene demoScene) demoScene b hb⟩

/-! ## The previous format generation -/

theorem disney_read_ids (self d : DisneyMaterial) (idc ida : I32)
    (textures : List (SP Texture)) (rest : List Byte)
    (hc0 : 0 ≤ idc.val) (hc1 : idc.val.toNat < textures.length)
    (ha0 : 0 ≤ ida.val) (ha1 : ida.val.toNat < textures.length) :
    self.read (io.writeElement d.emission ++ io.writeElement d.baseColor
        ++ io.writeElement d.metallic ++ io.writeElement d.roughness
        ++ io.writeElement d.transmission ++ io.writeElement d.ior
        ++ io.writeElement idc ++ io.writeElement ida ++ rest) textures
      = .ok ({ d with colorTexture := entryAt textures idc,
                      alphaTexture := entryAt textures ida }, rest) := by
  simp only [DisneyMaterial.read, List.append_assoc, readElement_append,
    ok_bind, readTextureRef_ok _ _ _ hc0 hc1, readTextureRef_ok _ _ _ ha0 ha1]
  rfl

theorem loadMaterial_legacy (ser : SerializedScene) (r : Ref Material) (d : DisneyMaterial)
    (hd : r.val = .disney d) (textures : List (SP Texture))
    (hc0 : 0 ≤ (ser.textures.getID d.colorTexture).val)
    (hc1 : (ser.textures.getID d.colorTexture).val.toNat < textures.length)
    (ha0 : 0 ≤ (ser.textures.getID d.alphaTexture).val)
    (ha1 : (ser.textures.getID d.alphaTexture).val.toNat < textures.length) :
    ∃ b, saveMaterialLegacy ser (some r) = .ok b ∧ ∀ next rest,
      loadMaterial 11 textures next (b ++ rest)
        = .ok (some ⟨next, .disney
            { d with colorTexture := entryAt textures (ser.textures.getID d.colorTexture),
                     alphaTexture := entryAt textures (ser.textures.getID d.alphaTexture) }⟩,
               next + 1, rest) := by
  obtain ⟨a, v⟩ := r
  have hv : v = .disney d := hd
  subst hv
  refine ⟨_, rfl, ?_⟩
  intro next rest
  have hcreate : createMaterialFromTag MaterialTag.DISNEY = .ok (.disney default) := rfl
  simp only [loadMaterial, if_true, pure_bind, ok_bind, hcreate, Material.read,
    disney_read_ids _ d _ _ textures rest hc0 hc1 ha0 ha1]
  rfl

theorem loadMaterials_legacy (ser : SerializedScene) (textures : List (SP Texture))
    (l : List (SP Material))
    (h : ∀ mat ∈ l, ∃ r, mat = some r ∧ ∃ d, r.val = .disney d
      ∧ (0 ≤ (ser.textures.getID d.colorTexture).val
          ∧ (ser.textures.getID d.colorTexture).val.toNat < textures.length)
      ∧ (0 ≤ (ser.textures.getID d.alphaTexture).val
          ∧ (ser.textures.getID d.alphaTexture).val.toNat < textures.length)) :
    ∃ b, writeEachM (saveMaterialLegacy ser) l = .ok b ∧ ∀ i next rest,
      i + l.length < 2147483648 →
      readEach (loadMaterial 11 textures) l.length i next (b ++ rest)
        = .ok (reloadMaterialsLegacy ser textures next l, next + l.length, rest) := by
  induction l with
  | nil => exact ⟨[], rfl, fun _ _ _ _ => rfl⟩
  | cons mat l ih =>
    obtain ⟨r, rfl, d, hd, ⟨hc0, hc1⟩, ha0, ha1⟩ := h mat (List.mem_cons_self _ _)
    obtain ⟨b1, hb1, hload1⟩ := loadMaterial_legacy ser r d hd textures hc0 hc1 ha0 ha1
    obtain ⟨b2, hb2, hload2⟩ := ih (fun m hm => h m (List.mem_cons_of_mem _ hm))
    refine ⟨b1 ++ b2, by simp only [writeEachM, hb1, hb2, ok_bind]; rfl, ?_⟩
    intro i next rest hlen
    simp only [List.length_cons] at hlen
    have hi : i + 1 < 2147483648 := by omega
    simp only [List.length_cons, readEach, List.append_assoc, hload1, ok_bind, if_pos hi,
      hload2 (i + 1) (next + 1) rest (by omega), reloadMaterialsLegacy, hd]
    have : next + 1 + l.length = next + (l.length + 1) := by omega
    rw [this]
    rfl

theorem reloadMaterialsLegacy_length (ser : SerializedScene) (textures : List (SP Texture))
    (next : Nat) (l : List (SP Material)) :
    (reloadMaterialsLegacy ser textures next l).length = l.length := by
  induction l generalizing next with
  | nil => rfl
  | cons t l ih => cases t <;> simp [reloadMaterialsLegacy, ih]

theorem reloadMaterialsLegacy_disney (ser : SerializedScene) (textures : List (SP Texture))
    (next : Nat) (l : List (SP Material))
    (h : ∀ mat ∈ l, ∃ r, mat = some r ∧ ∃ d, r.val = .disney d)
    (i : Nat) (x : SP Material) (hx : (reloadMaterialsLegacy ser textures next l)[i]? = some x) :
    ∃ a d a', l[i]? = some (some ⟨a, .disney d⟩)
      ∧ x = some ⟨a', .disney
          { d with colorTexture := entryAt textures (ser.textures.getID d.colorTexture),
                   alphaTexture := entryAt textures (ser.textures.getID d.alphaTexture) }⟩ := by
  induction l generalizing next i with
  | nil => exact Option.noConfusion hx
  | cons t l ih =>
    obtain ⟨r, hr, d, hd⟩ := h t (List.mem_cons_self _ _)
    subst hr
    obtain ⟨a, v⟩ := r
    have hv : v = .disney d := hd
    subst hv
    cases i with
    | zero =>
      refine ⟨a, d, next, by simp, ?_⟩
      have : x = some ⟨next, .disney
          { d with colorTexture := entryAt textures (ser.textures.getID d.colorTexture),
                   alphaTexture := entryAt textures (ser.textures.getID d.alphaTexture) }⟩ := by
        simpa [reloadMaterialsLegacy] using hx.symm
      exact this
    | succ i =>
      have hx' : (reloadMaterialsLegacy ser textures (next + 1) l)[i]? = some x := by
        simpa [reloadMaterialsLegacy] using hx
      obtain ⟨a1, d1, a2, h1, h2⟩ := ih (next + 1)
        (fun m hm => h m (List.mem_cons_of_mem _ hm)) i hx'
      exact ⟨a1, d1, a2, by simpa using h1, h2⟩

theorem previous_magic_val : (SizeT.wrap (expected_magic - 1)).val = expected_magic - 1 := by
  decide

theorem formatOfMagic_previous : formatOfMagic (SizeT.wrap (expected_magic - 1)) = .ok 11 := by
  unfold formatOfMagic
  rw [previous_magic_val, if_neg (by decide), if_pos rfl]
  rfl

/-- C6: a file with the previous generation's magic word 4321000011 whose material section
holds, for each material, the legacy layout without a type tag (emission, baseColor,
metallic, roughness, transmission, ior, colorTexture ID, alphaTexture ID, the IDs in
range) loads: `Scene::load` selects format version 11, reads no tag, and every loaded
material is a `DisneyMaterial` carrying the stored values, its textures the table
entries at the stored IDs. -/
theorem load_legacy (ser : SerializedScene) (s : Scene) (hz : ser.Sized s)
    (hin : ser.InRange s) (hm : ser.LegacyMaterials) :
    ∃ b r, Scene.saveLegacyWith ser s = .ok b
      ∧ (∃ rest, b = io.writeElement (SizeT.wrap 4321000011) ++ rest)
      ∧ Scene.loadTables b = .ok r ∧ Scene.load b = .ok r.scene
      ∧ r.format_version = 11
      ∧ r.materials.length = ser.materials.list.length
      ∧ (∀ (i : Nat) x, r.materials[i]? = some x →
          ∃ a d a', ser.materials.list[i]? = some (some ⟨a, .disney d⟩)
            ∧ x = some ⟨a', .disney
                { d with
                  colorTexture := entryAt r.textures (ser.textures.getID d.colorTexture),
                  alphaTexture := entryAt r.textures (ser.textures.getID d.alphaTexture) }⟩)
      ∧ (∀ mat ∈ ser.materials.list, ∃ payload, saveMaterialLegacy ser mat = .ok payload
          ∧ ∀ next rest, ∃ m, loadMaterial 11 r.textures next (payload ++ rest)
              = .ok (m, next + 1, rest)) := by
  have hm' : ∀ mat ∈ ser.materials.list, ∃ r, mat = some r ∧ ∃ d, r.val = .disney d
      ∧ (0 ≤ (ser.textures.getID d.colorTexture).val
          ∧ (ser.textures.getID d.colorTexture).val.toNat
              < (reloadTextures 0 ser.textures.list).length)
      ∧ (0 ≤ (ser.textures.getID d.alphaTexture).val
          ∧ (ser.textures.getID d.alphaTexture).val.toNat
              < (reloadTextures 0 ser.textures.list).length) := by
    intro mat hmat
    rw [reloadTextures_length]
    exact hm mat hmat
  obtain ⟨bm, hbm, hlm⟩ := loadMaterials_legacy ser (reloadTextures 0 ser.textures.list)
    ser.materials.list hm'
  obtain ⟨bl, bo, hbl, hbo, hload⟩ := loadBody_saved 11 ser s hz hin bm
    (fun n => reloadMaterialsLegacy ser (reloadTextures 0 ser.textures.list) n
      ser.materials.list)
    (fun n => reloadMaterialsLegacy_length _ _ _ _) hlm
  have hsave : Scene.saveLegacyWith ser s
      = .ok (io.writeElement (SizeT.wrap (expected_magic - 1)) ++ saveTextures ser ++ bl ++
          (io.writeElement (SizeT.wrap ser.materials.list.length) ++ bm) ++
          (io.writeElement (SizeT.wrap ser.objects.size) ++ bo) ++ saveInstances ser s
          ++ io.writeElement (SizeT.wrap (expected_magic - 1))) := by
    simp only [Scene.saveLegacyWith, saveMaterialsLegacy, saveObjects, hbl, hbm, hbo, ok_bind]
    rfl
  have hsec : Scene.loadSections
      (io.writeElement (SizeT.wrap (expected_magic - 1)) ++ saveTextures ser ++ bl ++
          (io.writeElement (SizeT.wrap ser.materials.list.length) ++ bm) ++
          (io.writeElement (SizeT.wrap ser.objects.size) ++ bo) ++ saveInstances ser s
          ++ io.writeElement (SizeT.wrap (expected_magic - 1)))
      = .ok (Scene.reloadAs 11 (fun n => reloadMaterialsLegacy ser
          (reloadTextures 0 ser.textures.list) n ser.materials.list) ser s,
          io.writeElement (SizeT.wrap (expected_magic - 1))) := by
    unfold Scene.loadSections
    simp only [List.append_assoc]
    rw [readElement_append, ok_bind]
    dsimp only
    rw [formatOfMagic_previous, ok_bind, hload]
  have htab : Scene.loadTables
      (io.writeElement (SizeT.wrap (expected_magic - 1)) ++ saveTextures ser ++ bl ++
          (io.writeElement (SizeT.wrap ser.materials.list.length) ++ bm) ++
          (io.writeElement (SizeT.wrap ser.objects.size) ++ bo) ++ saveInstances ser s
          ++ io.writeElement (SizeT.wrap (expected_magic - 1)))
      = .ok (Scene.reloadAs 11 (fun n => reloadMaterialsLegacy ser
          (reloadTextures 0 ser.textures.list) n ser.materials.list) ser s) := by
    unfold Scene.loadTables
    rw [hsec, ok_bind]
    dsimp only
    rw [readElement_exact, ok_bind]
    dsimp only
    rw [previous_magic_val]
    have : ¬ (expected_magic - 1 ≠ expected_magic ∧ expected_magic - 1 ≠ expected_magic - 1) :=
      fun h => h.2 rfl
    rw [if_neg this]
    rfl
  refine ⟨_, _, hsave, ⟨_, by simp only [List.append_assoc]; rfl⟩, htab,
    load_of_loadTables _ _ htab, rfl, reloadMaterialsLegacy_length _ _ _ _, ?_, ?_⟩
  · intro i x hx
    exact reloadMaterialsLegacy_disney ser _ _ _
      (fun mat hmat => by
        obtain ⟨r, hr, d, hd, _⟩ := hm mat hmat
        exact ⟨r, hr, d, hd⟩) i x hx
  · intro mat hmat
    obtain ⟨r, hr, d, hd, ⟨hc0, hc1⟩, ha0, ha1⟩ := hm' mat hmat
    subst hr
    obtain ⟨b, hb, hl⟩ := loadMaterial_legacy ser r d hd (reloadTextures 0 ser.textures.list)
      hc0 hc1 ha0 ha1
    exact ⟨b, hb, fun next rest => ⟨_, hl next rest⟩⟩

theorem load_legacy_witness :
    ∃ b r, Scene.saveLegacyWith (SerializedScene.ofScene legacyScene) legacyScene = .ok b
      ∧ (∃ rest, b = io.writeElement (SizeT.wrap 4321000011) ++ rest)
      ∧ Scene.loadTables b = .ok r ∧ Scene.load b = .ok r.scene
      ∧ r.format_version = 11
      ∧ r.materials.length = (SerializedScene.ofScene legacyScene).materials.list.length
      ∧ (∀ (i : Nat) x, r.materials[i]? = some x →
          ∃ a d a', (SerializedScene.ofScene legacyScene).materials.list[i]?
              = some (some ⟨a, .disney d⟩)
            ∧ x = some ⟨a', .disney
                { d with
                  colorTexture := entryAt r.textures
                    ((SerializedScene.ofScene legacyScene).textures.getID d.colorTexture),
                  alphaTexture := entryAt r.textures
                    ((SerializedScene.ofScene legacyScene).textures.getID d.alphaTexture) }⟩)
      ∧ (∀ mat ∈ (SerializedScene.ofScene legacyScene).materials.list,
          ∃ payload, saveMaterialLegacy (SerializedScene.ofScene legacyScene) mat = .ok payload
          ∧ ∀ next rest, ∃ m, loadMaterial 11 r.textures next (payload ++ rest)
              = .ok (m, next + 1, rest)) :=
  load_legacy (SerializedScene.ofScene legacyScene) legacyScene (by decide) (by decide)
    (by decide)


/-! ## Material tags -/

/-- C11: a material of one of the eight variants gets the tag of its variant from
`materialTagOf` (DISNEY=1, MATTE=2, PLASTIC=3, METAL=4, VELVET=5, METALLICPAINT=6,
THINGLASS=7, DIELECTRIC=8), `createMaterialFromTag` of that tag is a material of the same
variant, and the eight tags are pairwise distinct. -/
theorem tag_round_trip :
    (∀ (mat : Ref Material) (v : Variant), mat.val.variant = some v →
      materialTagOf (some mat) = .ok v.tag
      ∧ ∃ m, createMaterialFromTag v.tag = .ok m ∧ m.variant = some v)
    ∧ (∀ v w : Variant, v.tag = w.tag → v = w)
    ∧ (∀ (mat : Ref Material) (tag : MaterialTag) (m : Material),
        materialTagOf (some mat) = .ok tag → createMaterialFromTag tag = .ok m →
        m.variant = mat.val.variant ∧ mat.val.variant ≠ none) := by
  refine ⟨?_, ?_, ?_⟩
  · rintro ⟨a, m⟩ v h
    cases m <;> cases v <;> first
      | exact Option.noConfusion h
      | exact Variant.noConfusion (Option.some.inj h)
      | exact ⟨rfl, _, rfl, rfl⟩
  · intro v w h
    cases v <;> cases w <;> first | rfl | exact absurd h (by decide)
  · rintro ⟨a, mat⟩ tag m h1 h2
    cases mat <;> first
      | exact Except.noConfusion h1
      | (cases Except.ok.inj h1; cases Except.ok.inj h2; exact ⟨rfl, fun h => Option.noConfusion h⟩)

theorem tag_round_trip_witness :
    materialTagOf (some demoMatte) = .ok 2
      ∧ ∃ m, createMaterialFromTag 2 = .ok m ∧ m.variant = some Variant.matte :=
  tag_round_trip.1 demoMatte Variant.matte rfl

theorem create_supported (tag : Int) (h : 1 ≤ tag ∧ tag ≤ 8) :
    ∃ m, createMaterialFromTag tag = .ok m := by
  obtain ⟨h1, h2⟩ := h
  have : tag = 1 ∨ tag = 2 ∨ tag = 3 ∨ tag = 4 ∨ tag = 5 ∨ tag = 6 ∨ tag = 7 ∨ tag = 8 := by
    omega
  rcases this with h | h | h | h | h | h | h | h <;> subst h <;> exact ⟨_, rfl⟩

theorem create_unsupported (tag : Int) (h : ¬ (1 ≤ tag ∧ tag ≤ 8)) :
    createMaterialFromTag tag = .error (.unsupportedTag tag) := by
  unfold createMaterialFromTag MaterialTag.DISNEY MaterialTag.METAL MaterialTag.VELVET
    MaterialTag.PLASTIC MaterialTag.MATTE MaterialTag.DIELECTRIC MaterialTag.THINGLASS
    MaterialTag.METALLICPAINT
  have h1 : ¬ tag = 1 := by omega
  have h2 : ¬ tag = 2 := by omega
  have h3 : ¬ tag = 3 := by omega
  have h4 : ¬ tag = 4 := by omega
  have h5 : ¬ tag = 5 := by omega
  have h6 : ¬ tag = 6 := by omega
  have h7 : ¬ tag = 7 := by omega
  have h8 : ¬ tag = 8 := by omega
  rw [if_neg h1, if_neg h4, if_neg h5, if_neg h3, if_neg h2, if_neg h8, if_neg h7, if_neg h6]

/-- A loop whose first `j` passes succeed and whose next pass fails, fails with the error
of that pass. -/
theorem readEach_fails {α : Type} (body : Nat → List Byte → Except Error (α × Nat × List Byte))
    (e : Error) (j : Nat) :
    ∀ (k i next : Nat) (inp : List Byte) (as : List α) (next' : Nat) (inp' : List Byte),
      j < k → readEach body j i next inp = .ok (as, next', inp') → body next' inp' = .error e →
      readEach body k i next inp = .error e := by
  induction j with
  | zero =>
    intro k i next inp as next' inp' hk h hb
    obtain ⟨k, rfl⟩ : ∃ k', k = k' + 1 := ⟨k - 1, by omega⟩
    cases Except.ok.inj h
    unfold readEach
    rw [hb]
    rfl
  | succ j ih =>
    intro k i next inp as next' inp' hk h hb
    obtain ⟨k, rfl⟩ : ∃ k', k = k' + 1 := ⟨k - 1, by omega⟩
    unfold readEach at h ⊢
    cases hbody : body next inp with
    | error e' =>
      rw [hbody] at h
      exact Except.noConfusion h
    | ok p =>
      obtain ⟨a, next1, inp1⟩ := p
      rw [hbody] at h
      rw [ok_bind] at h ⊢
      dsimp only at h ⊢
      by_cases hi : i + 1 < 2147483648
      · rw [if_pos hi] at h ⊢
        obtain ⟨q, hq, _⟩ := bind_ok_inv _ _ _ h
        obtain ⟨as1, next2, inp2⟩ := q
        have hq' : readEach body j (i + 1) next1 inp1 = .ok (as1, next', inp') := by
          cases hrest : readEach body j (i + 1) next1 inp1 with
          | error e' => rw [hrest] at hq; exact Except.noConfusion hq
          | ok q' =>
            rw [hrest] at h hq
            cases Except.ok.inj hq
            cases Except.ok.inj h
            rfl
        rw [ih k (i + 1) next1 inp1 as1 next' inp' (by omega) hq' hb]
        rfl
      · rw [if_neg hi] at h
        exact Except.noConfusion h

theorem loadMaterial_bad_tag (textures : List (SP Texture)) (next : Nat) (inp inp' : List Byte)
    (tag : I32) (h : io.readElement inp = .ok (tag, inp')) (hbad : ¬ (1 ≤ tag.val ∧ tag.val ≤ 8)) :
    loadMaterial 12 textures next inp = .error (.unsupportedTag tag.val) := by
  unfold loadMaterial
  rw [if_neg twelve_ne_eleven, h]
  simp only [ok_bind, pure_bind, bind_assoc]
  rw [create_unsupported _ hbad]
  rfl

/-- A file whose material loop fails is rejected with the error of that loop. -/
theorem load_material_error (inp inp1 inp2 inp3 inp4 inp5 : List Byte)
    (magic numTextures numMaterials : SizeT) (textures : List (SP Texture))
    (lights : List QuadLight × List DirLight × SP EnvMapLight) (next1 next2 : Nat) (e : Error)
    (h0 : io.readElement inp = .ok (magic, inp1)) (hm : magic.val = expected_magic)
    (h1 : io.readElement inp1 = .ok (numTextures, inp2))
    (h2 : readEach loadTexture numTextures.val 0 0 inp2 = .ok (textures, next1, inp3))
    (h3 : loadLights next1 inp3 = .ok (lights, next2, inp4))
    (h4 : io.readElement inp4 = .ok (numMaterials, inp5))
    (h5 : readEach (loadMaterial 12 textures) numMaterials.val 0 next2 inp5 = .error e) :
    Scene.load inp = .error e := by
  apply load_of_loadSections_error
  unfold Scene.loadSections
  rw [h0, ok_bind]
  dsimp only
  have hf : formatOfMagic magic = .ok 12 := by
    unfold formatOfMagic
    rw [if_pos hm]
    rfl
  rw [hf, ok_bind]
  unfold Scene.loadBody
  rw [h1, ok_bind]
  dsimp only
  rw [h2, ok_bind]
  dsimp only
  rw [h3, ok_bind]
  obtain ⟨quadLights, dirLights, envMapLight⟩ := lights
  dsimp only
  rw [h4, ok_bind]
  dsimp only
  rw [h5]
  rfl

/-- C12: `createMaterialFromTag` returns a material exactly for the tags 1..8 and fails
with the unsupported-tag error, which carries the tag, for every other integer; and
`Scene::load` of a version-12 file whose sections before the materials are read and whose
first `j` material records are read fails with that error when the next record stores a
tag outside 1..8. -/
theorem createMaterialFromTag_domain :
    (∀ tag : MaterialTag, (∃ m, createMaterialFromTag tag = .ok m) ↔ (1 ≤ tag ∧ tag ≤ 8))
    ∧ (∀ tag : MaterialTag, ¬ (1 ≤ tag ∧ tag ≤ 8) →
        createMaterialFromTag tag = .error (.unsupportedTag tag))
    ∧ (∀ (inp inp1 inp2 inp3 inp4 inp5 inp6 inp7 : List Byte)
        (magic numTextures numMaterials : SizeT) (textures : List (SP Texture))
        (lights : List QuadLight × List DirLight × SP EnvMapLight) (next1 next2 next3 j : Nat)
        (mats : List (SP Material)) (tag : I32),
        io.readElement inp = .ok (magic, inp1) → magic.val = expected_magic →
        io.readElement inp1 = .ok (numTextures, inp2) →
        readEach loadTexture numTextures.val 0 0 inp2 = .ok (textures, next1, inp3) →
        loadLights next1 inp3 = .ok (lights, next2, inp4) →
        io.readElement inp4 = .ok (numMaterials, inp5) →
        j < numMaterials.val →
        readEach (loadMaterial 12 textures) j 0 next2 inp5 = .ok (mats, next3, inp6) →
        io.readElement inp6 = .ok (tag, inp7) →
        ¬ (1 ≤ tag.val ∧ tag.val ≤ 8) →
        Scene.load inp = .error (.unsupportedTag tag.val)) := by
  refine ⟨?_, create_unsupported, ?_⟩
  · intro tag
    constructor
    · rintro ⟨m, hm⟩
      by_contra hn
      rw [create_unsupported tag hn] at hm
      exact Except.noConfusion hm
    · exact create_supported tag
  · intro inp inp1 inp2 inp3 inp4 inp5 inp6 inp7 magic numTextures numMaterials textures lights
      next1 next2 next3 j mats tag h0 hm h1 h2 h3 h4 hj h5 h6 hbad
    exact load_material_error inp inp1 inp2 inp3 inp4 inp5 magic numTextures numMaterials
      textures lights next1 next2 _ h0 hm h1 h2 h3 h4
      (readEach_fails _ _ j _ 0 next2 inp5 mats next3 inp6 hj h5
        (loadMaterial_bad_tag textures next3 inp6 inp7 tag h6 hbad))

theorem createMaterialFromTag_domain_witness :
    Scene.load invalidTagFile = .error (.unsupportedTag 0) :=
  createMaterialFromTag_domain.2.2 invalidTagFile _ _ _ _ _ _ _ _ _ _ [] ([], [], none) 0 0 0 0 []
    (I32.wrap 0)
    (readElement_append _ _) magic_val (readElement_append _ _) rfl
    (by
      simp only [loadLights, readVector_append _ _ (by decide : ([] : List QuadLight).length < 18446744073709551616),
        readVector_append _ _ (by decide : ([] : List DirLight).length < 18446744073709551616),
        readElement_append, ok_bind, wrap32_zero, if_true]
      rfl)
    (readElement_append _ _) (by decide) rfl (readElement_append _ _) (by decide)

/-! ## Failures of the material loop of `Scene::save` -/

theorem materialTagOf_unsupported (mat : Ref Material) (h : mat.val.variant = none) :
    materialTagOf (some mat) = .error .unsupportedType := by
  obtain ⟨a, m⟩ := mat
  cases m <;> first | rfl | exact Option.noConfusion h

theorem saveMaterial_unsupported (ser : SerializedScene) (mat : Ref Material)
    (h : mat.val.variant = none) : saveMaterial ser (some mat) = .error .unsupportedType := by
  unfold saveMaterial
  rw [materialTagOf_unsupported mat h]
  rfl

theorem saveMaterial_supported (ser : SerializedScene) (mat : Ref Material)
    (h : mat.val.variant ≠ none) : ∃ b, saveMaterial ser (some mat) = .ok b := by
  obtain ⟨a, m⟩ := mat
  cases m <;> first | exact ⟨_, rfl⟩ | exact absurd rfl h

theorem writeEachM_fails {α : Type} (body : α → Except Error (List Byte)) (l : List α) (a : α)
    (e : Error) (hmem : a ∈ l) (ha : body a = .error e) : ∃ e', writeEachM body l = .error e' := by
  induction l with
  | nil => exact absurd hmem (List.not_mem_nil _)
  | cons x l ih =>
    unfold writeEachM
    cases hx : body x with
    | error e' => exact ⟨e', rfl⟩
    | ok b =>
      rcases List.mem_cons.mp hmem with rfl | hmem'
      · rw [ha] at hx
        exact Except.noConfusion hx
      · obtain ⟨e', he'⟩ := ih hmem'
        rw [he']
        exact ⟨e', rfl⟩

theorem saveMaterials_unsupported (ser : SerializedScene) (l : List (SP Material))
    (mat : Ref Material) (h : mat.val.variant = none) (hmem : some mat ∈ l)
    (hl : ∀ m ∈ l, m ≠ none) :
    writeEachM (saveMaterial ser) l = .error .unsupportedType := by
  induction l with
  | nil => exact absurd hmem (List.not_mem_nil _)
  | cons x l ih =>
    unfold writeEachM
    cases x with
    | none => exact absurd rfl (hl none (List.mem_cons_self _ _))
    | some r =>
      by_cases hr : r.val.variant = none
      · rw [saveMaterial_unsupported ser r hr]
        rfl
      · obtain ⟨b, hb⟩ := saveMaterial_supported ser r hr
        have hmem' : some mat ∈ l := by
          rcases List.mem_cons.mp hmem with heq | hmem'
          · cases heq
            exact absurd h hr
          · exact hmem'
        rw [hb, ih hmem' (fun m hm => hl m (List.mem_cons_of_mem _ hm))]
        rfl

theorem saveWith_materials_error (ser : SerializedScene) (s : Scene) (e : Error)
    (h : writeEachM (saveMaterial ser) ser.materials.list = .error e) :
    ∃ e', Scene.saveWith ser s = .error e'
      ∧ ((∃ b, saveLights s = .ok b) → e' = e) := by
  unfold Scene.saveWith
  cases hl : saveLights s with
  | error e' =>
    refine ⟨e', rfl, ?_⟩
    rintro ⟨b, hb⟩
    exact Except.noConfusion hb
  | ok b =>
    refine ⟨e, ?_, fun _ => rfl⟩
    unfold saveMaterials
    rw [h]
    rfl

/-! ## The IDs of the serializer -/

theorem firstSeen_append {α : Type} [DecidableEq α] (l1 l2 : List α) :
    ∀ seen : List α, firstSeen seen (l1 ++ l2) = firstSeen (firstSeen seen l1) l2 := by
  induction l1 with
  | nil => intro seen; rfl
  | cons a l1 ih =>
    intro seen
    simp only [List.cons_append, firstSeen]
    split
    · exact ih seen
    · exact ih (seen ++ [a])

theorem mem_firstSeen {α : Type} [DecidableEq α] (l : List α) :
    ∀ (seen : List α) (x : α), x ∈ firstSeen seen l ↔ x ∈ seen ∨ x ∈ l := by
  induction l with
  | nil => intro seen x; simp [firstSeen]
  | cons a l ih =>
    intro seen x
    simp only [firstSeen]
    split
    · next h =>
      rw [ih, List.mem_cons]
      constructor
      · rintro (h1 | h1)
        · exact Or.inl h1
        · exact Or.inr (Or.inr h1)
      · rintro (h1 | rfl | h1)
        · exact Or.inl h1
        · exact Or.inl h
        · exact Or.inr h1
    · rw [ih, List.mem_append, List.mem_singleton, List.mem_cons]
      tauto

theorem firstSeen_nodup {α : Type} [DecidableEq α] (l : List α) :
    ∀ seen : List α, seen.Nodup → (firstSeen seen l).Nodup := by
  induction l with
  | nil => intro seen h; exact h
  | cons a l ih =>
    intro seen h
    simp only [firstSeen]
    split
    · exact ih seen h
    · next hn =>
      apply ih
      rw [List.nodup_append]
      refine ⟨h, List.nodup_singleton a, ?_⟩
      intro x hx hx'
      rw [List.mem_singleton] at hx'
      subst hx'
      exact hn hx

theorem firstSeen_length {α : Type} [DecidableEq α] (l : List α) :
    (firstSeen [] l).length = l.toFinset.card := by
  rw [← List.toFinset_card_of_nodup (firstSeen_nodup l [] List.nodup_nil)]
  congr 1
  ext x
  simp [mem_firstSeen]

theorem wellFormed_find_none {α : Type} [DecidableEq α] (t : SerializedEntities α)
    (h : t.WellFormed) (node : SP α) : t.registry.find node = none ↔ node ∉ t.list := by
  constructor
  · intro hf hmem
    obtain ⟨i, hi, _⟩ := h.1 node hmem
    rw [hf] at hi
    exact Option.noConfusion hi
  · intro hn
    by_contra hf
    exact hn (h.2 node hf)

theorem add_list {α : Type} [DecidableEq α] (t : SerializedEntities α) (h : t.WellFormed)
    (node : SP α) : (t.add node).2.list = firstSeen t.list [node] := by
  unfold SerializedEntities.add
  simp only [firstSeen]
  cases hf : t.registry.find node with
  | none =>
    have := (wellFormed_find_none t h node).mp hf
    simp only [if_neg this]
  | some id =>
    have : node ∈ t.list := h.2 node (by rw [hf]; exact Option.noConfusion)
    simp only [if_pos this]

theorem add_first {α : Type} [DecidableEq α] (t : SerializedEntities α) (h : t.WellFormed)
    (node : SP α) : (t.add node).1 = true ↔ node ∉ t.list := by
  unfold SerializedEntities.add
  cases hf : t.registry.find node with
  | none =>
    have := (wellFormed_find_none t h node).mp hf
    simp only [this, not_false_eq_true]
  | some id =>
    have : node ∈ t.list := h.2 node (by rw [hf]; exact Option.noConfusion)
    simp only [this, not_true_eq_false, Bool.false_eq_true]

theorem addTexture_list (ser : SerializedScene) (t : SP Texture) (h : ser.textures.WellFormed) :
    (ser.addTexture t).textures.list = firstSeen ser.textures.list [t] :=
  add_list ser.textures h t

theorem firstSeen_two {α : Type} [DecidableEq α] (seen : List α) (a b : α) :
    firstSeen (firstSeen seen [a]) [b] = firstSeen seen [a, b] :=
  (firstSeen_append [a] [b] seen).symm

theorem textureRefs_append (l : List (SP Material)) (r : Ref Material) :
    textureRefs (l ++ [some r]) = textureRefs l ++ r.val.textureRefs := by
  simp [textureRefs]

theorem addMaterial_trace (ser : SerializedScene) (mat : SP Material)
    (ht : ser.textures.WellFormed) (hm : ser.materials.WellFormed) (hT : ser.TexturesTraced) :
    (ser.addMaterial mat).textures.WellFormed
    ∧ (ser.addMaterial mat).materials.WellFormed
    ∧ (ser.addMaterial mat).objects = ser.objects
    ∧ (ser.addMaterial mat).materials.list = firstSeen ser.materials.list (refOf mat)
    ∧ (ser.addMaterial mat).TexturesTraced := by
  cases mat with
  | none => exact ⟨ht, hm, rfl, rfl, hT⟩
  | some r =>
    have hlist := add_list ser.materials hm (some r)
    obtain ⟨hw, -, -⟩ := add_wellFormed ser.materials (some r) hm
    cases hnew : (ser.materials.add (some r)).1 with
    | false =>
      rw [addMaterial_eq_old ser r hnew]
      refine ⟨ht, hm, rfl, ?_, hT⟩
      show ser.materials.list = firstSeen ser.materials.list [some r]
      rw [← hlist, add_old _ _ hnew]
    | true =>
      have hnewlist := add_new _ _ hnew
      obtain ⟨a, v⟩ := r
      by_cases hd : ∃ d, v = .disney d
      · obtain ⟨d, rfl⟩ := hd
        rw [addMaterial_eq_disney ser a d hnew]
        have h1 := addTexture_spec
          { ser with materials := (ser.materials.add (some ⟨a, .disney d⟩)).2 } d.colorTexture ht
        have h2 := addTexture_spec _ d.alphaTexture h1.1
        have e1 : (SerializedScene.addTexture
              { ser with materials := (ser.materials.add (some ⟨a, .disney d⟩)).2 }
              d.colorTexture).textures.list = firstSeen ser.textures.list [d.colorTexture] :=
          addTexture_list { ser with materials := (ser.materials.add (some ⟨a, .disney d⟩)).2 }
            d.colorTexture ht
        refine ⟨h2.1, ?_, ?_, ?_, ?_⟩
        · rw [h2.2.2.2.1, h1.2.2.2.1]
          exact hw
        · rw [h2.2.2.2.2, h1.2.2.2.2]
        · rw [h2.2.2.2.1, h1.2.2.2.1]
          exact hlist
        · unfold SerializedScene.TexturesTraced
          rw [h2.2.2.2.1, h1.2.2.2.1, addTexture_list _ _ h1.1, e1]
          show firstSeen (firstSeen ser.textures.list [d.colorTexture]) [d.alphaTexture]
            = firstSeen [] (textureRefs (ser.materials.add (some ⟨a, .disney d⟩)).2.list)
          rw [firstSeen_two, hnewlist, textureRefs_append, firstSeen_append, ← hT]
          rfl
      · have hnd : ∀ d, (⟨a, v⟩ : Ref Material).val ≠ .disney d := fun d h => hd ⟨d, h⟩
        rw [addMaterial_eq_plain ser ⟨a, v⟩ hnew hnd]
        refine ⟨ht, hw, rfl, hlist, ?_⟩
        unfold SerializedScene.TexturesTraced
        show ser.textures.list = firstSeen [] (textureRefs (ser.materials.add (some ⟨a, v⟩)).2.list)
        rw [hnewlist, textureRefs_append, firstSeen_append, ← hT]
        have : (⟨a, v⟩ : Ref Material).val.textureRefs = [] := by
          cases v <;> first | rfl | exact absurd rfl (hnd _)
        rw [this]
        rfl

theorem meshFold_trace (l : List (SP Mesh)) :
    ∀ (ser : SerializedScene), ser.textures.WellFormed → ser.materials.WellFormed →
      ser.TexturesTraced →
      (l.foldl (fun acc mesh =>
          match mesh with
          | none => acc
          | some m => acc.addMaterial m.val.material) ser).textures.WellFormed
      ∧ (l.foldl (fun acc mesh =>
          match mesh with
          | none => acc
          | some m => acc.addMaterial m.val.material) ser).materials.WellFormed
      ∧ (l.foldl (fun acc mesh =>
          match mesh with
          | none => acc
          | some m => acc.addMaterial m.val.material) ser).objects = ser.objects
      ∧ (l.foldl (fun acc mesh =>
          match mesh with
          | none => acc
          | some m => acc.addMaterial m.val.material) ser).materials.list
          = firstSeen ser.materials.list (meshMaterialRefs l)
      ∧ (l.foldl (fun acc mesh =>
          match mesh with
          | none => acc
          | some m => acc.addMaterial m.val.material) ser).TexturesTraced := by
  induction l with
  | nil => intro ser ht hm hT; exact ⟨ht, hm, rfl, rfl, hT⟩
  | cons mesh l ih =>
    intro ser ht hm hT
    rw [List.foldl_cons]
    cases mesh with
    | none =>
      have e : meshMaterialRefs (none :: l) = meshMaterialRefs l := by simp [meshMaterialRefs]
      rw [e]
      exact ih ser ht hm hT
    | some m =>
      obtain ⟨h1, h2, h3, h4, h5⟩ := addMaterial_trace ser m.val.material ht hm hT
      obtain ⟨k1, k2, k3, k4, k5⟩ := ih (ser.addMaterial m.val.material) h1 h2 h5
      have e : meshMaterialRefs (some m :: l) = refOf m.val.material ++ meshMaterialRefs l := by
        simp [meshMaterialRefs]
      refine ⟨k1, k2, ?_, ?_, k5⟩
      · rw [← h3]; exact k3
      · rw [e, firstSeen_append, ← h4]; exact k4

theorem materialRefs_append (l : List (SP Object)) (r : Ref Object) :
    materialRefs (l ++ [some r]) = materialRefs l ++ meshMaterialRefs r.val.meshes := by
  simp [materialRefs]

theorem addObject_trace (ser : SerializedScene) (obj : SP Object)
    (ht : ser.textures.WellFormed) (hm : ser.materials.WellFormed) (ho : ser.objects.WellFormed)
    (hT : ser.TexturesTraced) (hM : ser.MaterialsTraced) :
    (ser.addObject obj).textures.WellFormed
    ∧ (ser.addObject obj).materials.WellFormed
    ∧ (ser.addObject obj).objects.WellFormed
    ∧ (ser.addObject obj).TexturesTraced
    ∧ (ser.addObject obj).MaterialsTraced
    ∧ (ser.addObject obj).objects.list = firstSeen ser.objects.list (refOf obj) := by
  cases obj with
  | none => exact ⟨ht, hm, ho, hT, hM, rfl⟩
  | some r =>
    have hlist := add_list ser.objects ho (some r)
    obtain ⟨hw, -, -⟩ := add_wellFormed ser.objects (some r) ho
    cases hnew : (ser.objects.add (some r)).1 with
    | false =>
      have e : ser.addObject (some r) = ser := by
        simp only [SerializedScene.addObject, hnew, Bool.false_eq_true, if_false]
      rw [e]
      refine ⟨ht, hm, ho, hT, hM, ?_⟩
      show ser.objects.list = firstSeen ser.objects.list [some r]
      rw [← hlist, add_old _ _ hnew]
    | true =>
      have e : ser.addObject (some r)
          = r.val.meshes.foldl
              (fun acc mesh =>
                match mesh with
                | none => acc
                | some m => acc.addMaterial m.val.material)
              { ser with objects := (ser.objects.add (some r)).2 } := by
        simp only [SerializedScene.addObject, hnew, if_true]
      obtain ⟨k1, k2, k3, k4, k5⟩ := meshFold_trace r.val.meshes
        { ser with objects := (ser.objects.add (some r)).2 } ht hm hT
      rw [e]
      refine ⟨k1, k2, ?_, k5, ?_, ?_⟩
      · rw [k3]; exact hw
      · unfold SerializedScene.MaterialsTraced
        rw [k4, k3]
        show firstSeen ser.materials.list (meshMaterialRefs r.val.meshes)
          = firstSeen [] (materialRefs (ser.objects.add (some r)).2.list)
        rw [add_new _ _ hnew, materialRefs_append, firstSeen_append, ← hM]
      · rw [k3]; exact hlist

theorem instanceFold_trace (l : List (SP Instance)) :
    ∀ (ser : SerializedScene), ser.textures.WellFormed → ser.materials.WellFormed →
      ser.objects.WellFormed → ser.TexturesTraced → ser.MaterialsTraced →
      (l.foldl (fun acc inst =>
          match inst with
          | none => acc
          | some i => acc.addObject i.val.object) ser).textures.WellFormed
      ∧ (l.foldl (fun acc inst =>
          match inst with
          | none => acc
          | some i => acc.addObject i.val.object) ser).materials.WellFormed
      ∧ (l.foldl (fun acc inst =>
          match inst with
          | none => acc
          | some i => acc.addObject i.val.object) ser).objects.WellFormed
      ∧ (l.foldl (fun acc inst =>
          match inst with
          | none => acc
          | some i => acc.addObject i.val.object) ser).TexturesTraced
      ∧ (l.foldl (fun acc inst =>
          match inst with
          | none => acc
          | some i => acc.addObject i.val.object) ser).MaterialsTraced
      ∧ (l.foldl (fun acc inst =>
          match inst with
          | none => acc
          | some i => acc.addObject i.val.object) ser).objects.list
          = firstSeen ser.objects.list
              (l.flatMap (fun inst =>
                match inst with
                | none => []
                | some i => refOf i.val.object)) := by
  induction l with
  | nil => intro ser ht hm ho hT hM; exact ⟨ht, hm, ho, hT, hM, rfl⟩
  | cons inst l ih =>
    intro ser ht hm ho hT hM
    rw [List.foldl_cons, List.flatMap_cons]
    cases inst with
    | none => exact ih ser ht hm ho hT hM
    | some i =>
      obtain ⟨h1, h2, h3, h4, h5, h6⟩ := addObject_trace ser i.val.object ht hm ho hT hM
      obtain ⟨k1, k2, k3, k4, k5, k6⟩ := ih (ser.addObject i.val.object) h1 h2 h3 h4 h5
      refine ⟨k1, k2, k3, k4, k5, ?_⟩
      show _ = firstSeen ser.objects.list (refOf i.val.object ++ _)
      rw [firstSeen_append, ← h6]
      exact k6

theorem ofScene_trace (s : Scene) :
    (SerializedScene.ofScene s).textures.WellFormed
    ∧ (SerializedScene.ofScene s).materials.WellFormed
    ∧ (SerializedScene.ofScene s).objects.WellFormed
    ∧ (SerializedScene.ofScene s).TexturesTraced
    ∧ (SerializedScene.ofScene s).MaterialsTraced
    ∧ (SerializedScene.ofScene s).objects.list = firstSeen [] s.objectRefs :=
  instanceFold_trace s.instances SerializedScene.empty empty_closed.1 empty_closed.2.1
    empty_closed.2.2.1 rfl rfl

theorem nodup_position {α : Type} (l : List α) (h : l.Nodup) (i j : Nat) (a : α)
    (hi : l[i]? = some a) (hj : l[j]? = some a) : i = j := by
  obtain ⟨hi', hia⟩ := List.getElem?_eq_some_iff.mp hi
  obtain ⟨hj', hja⟩ := List.getElem?_eq_some_iff.mp hj
  exact (List.Nodup.getElem_inj_iff h).mp (hia.trans hja.symm)

theorem wellFormed_dense {α : Type} [DecidableEq α] (t : SerializedEntities α)
    (h : t.WellFormed) (hnd : t.list.Nodup) (hlen : t.list.length < 2147483648) : t.Dense := by
  have key : ∀ (node : SP α) (id : I32), t.registry.find node = some id ↔ resolves t.list id node := by
    intro node id
    constructor
    · intro hf
      have hmem : node ∈ t.list := h.2 node (by rw [hf]; exact Option.noConfusion)
      obtain ⟨id', h1, h2⟩ := wellFormed_find t node h hmem hlen
      rw [hf] at h1
      cases Option.some.inj h1
      exact h2
    · rintro ⟨h0, h1⟩
      have hmem : node ∈ t.list := by
        obtain ⟨hlt, hv⟩ := List.getElem?_eq_some_iff.mp h1
        exact hv ▸ List.getElem_mem hlt
      obtain ⟨i, hi1, hi2⟩ := h.1 node hmem
      have e := nodup_position t.list hnd _ _ node hi2 h1
      rw [hi1, e]
      have : ((id.val.toNat : Nat) : Int) = id.val := Int.toNat_of_nonneg h0
      rw [this, wrap32_self]
  refine ⟨hnd, key, ?_, ?_, ?_⟩
  · intro node id hf
    obtain ⟨h0, h1⟩ := (key node id).mp hf
    obtain ⟨hlt, -⟩ := List.getElem?_eq_some_iff.mp h1
    exact ⟨h0, by omega⟩
  · intro k hk
    have hmem : t.list[k] ∈ t.list := List.getElem_mem hk
    obtain ⟨i, hi1, hi2⟩ := h.1 _ hmem
    have hk2 : t.list[k]? = some t.list[k] := List.getElem?_eq_getElem hk
    have e := nodup_position t.list hnd _ _ _ hi2 hk2
    exact ⟨t.list[k], by rw [hi1, e], hk2⟩
  · intro node node' id h1 h2
    have r1 := (key node id).mp h1
    have r2 := (key node' id).mp h2
    have := r1.2.symm.trans r2.2
    exact Option.some.inj this

theorem mem_refOf {α : Type} (p q : SP α) : q ∈ refOf p ↔ q = p ∧ p ≠ none := by
  cases p with
  | none => simp [refOf]
  | some r => simp [refOf]

/-- C15: in the view `Scene::save` builds, each of the three lists is the list of the
distinct references of its kind in the order in which the traversal first meets them, so
its length is the number of distinct identities; and when that number fits an `int` the
IDs are the positions 0..N-1 of the list: a node has the ID `k` exactly when it stands at
position `k`, the listed nodes are pairwise distinct, and two nodes with the same ID are
the same node, whatever their contents. -/
theorem ofScene_ids (s : Scene) :
    ((SerializedScene.ofScene s).objects.list = firstSeen [] s.objectRefs
      ∧ (SerializedScene.ofScene s).materials.list
          = firstSeen [] (materialRefs (SerializedScene.ofScene s).objects.list)
      ∧ (SerializedScene.ofScene s).textures.list
          = firstSeen [] (textureRefs (SerializedScene.ofScene s).materials.list))
    ∧ ((SerializedScene.ofScene s).objects.list.length = s.objectRefs.toFinset.card
      ∧ (SerializedScene.ofScene s).materials.list.length
          = (materialRefs (SerializedScene.ofScene s).objects.list).toFinset.card
      ∧ (SerializedScene.ofScene s).textures.list.length
          = (textureRefs (SerializedScene.ofScene s).materials.list).toFinset.card)
    ∧ ((SerializedScene.ofScene s).objects.list.length < 2147483648 →
        (SerializedScene.ofScene s).objects.Dense)
    ∧ ((SerializedScene.ofScene s).materials.list.length < 2147483648 →
        (SerializedScene.ofScene s).materials.Dense)
    ∧ ((SerializedScene.ofScene s).textures.list.length < 2147483648 →
        (SerializedScene.ofScene s).textures.Dense) := by
  obtain ⟨ht, hm, ho, hT, hM, hO⟩ := ofScene_trace s
  refine ⟨⟨hO, hM, hT⟩, ⟨?_, ?_, ?_⟩, ?_, ?_, ?_⟩
  · rw [hO]; exact firstSeen_length _
  · rw [hM]; exact firstSeen_length _
  · rw [hT]; exact firstSeen_length _
  · intro hlen
    exact wellFormed_dense _ ho (by rw [hO]; exact firstSeen_nodup _ _ List.nodup_nil) hlen
  · intro hlen
    exact wellFormed_dense _ hm (by rw [hM]; exact firstSeen_nodup _ _ List.nodup_nil) hlen
  · intro hlen
    exact wellFormed_dense _ ht (by rw [hT]; exact firstSeen_nodup _ _ List.nodup_nil) hlen

theorem ofScene_ids_witness :
    (SerializedScene.ofScene twinScene).materials.list = [some twinMatte1, some twinMatte2]
    ∧ (SerializedScene.ofScene twinScene).materials.registry.find (some twinMatte1)
        = some (I32.wrap 0)
    ∧ (SerializedScene.ofScene twinScene).materials.registry.find (some twinMatte2)
        = some (I32.wrap 1)
    ∧ (SerializedScene.ofScene twinScene).materials.Dense :=
  ⟨by decide, by decide, by decide, (ofScene_ids twinScene).2.2.2.1 (by decide)⟩

/-! ## Scenes `Scene::save` cannot write -/

theorem meshMaterialRefs_live (l : List (SP Mesh)) (x : SP Material)
    (h : x ∈ meshMaterialRefs l) : x ≠ none := by
  unfold meshMaterialRefs at h
  obtain ⟨mesh, -, hx⟩ := List.mem_flatMap.mp h
  cases mesh with
  | none => exact absurd hx (List.not_mem_nil _)
  | some m => exact ((mem_refOf _ _).mp hx).1 ▸ ((mem_refOf _ _).mp hx).2

theorem materialRefs_live (l : List (SP Object)) (x : SP Material)
    (h : x ∈ materialRefs l) : x ≠ none := by
  unfold materialRefs at h
  obtain ⟨obj, -, hx⟩ := List.mem_flatMap.mp h
  cases obj with
  | none => exact absurd hx (List.not_mem_nil _)
  | some o => exact meshMaterialRefs_live _ _ hx

theorem ofScene_materials_live (s : Scene) :
    ∀ m ∈ (SerializedScene.ofScene s).materials.list, m ≠ none := by
  intro m hm
  rw [(ofScene_trace s).2.2.2.2.1] at hm
  rcases (mem_firstSeen _ _ _).mp hm with h | h
  · exact absurd h (List.not_mem_nil _)
  · exact materialRefs_live _ _ h

/-- C13: for a material that is none of the eight variants `materialTagOf` fails with the
unsupported-type error; hence the save of every serialized view whose material list holds
such a material fails, and `Scene::save` of a scene whose serialized material list holds
one fails, with the unsupported-type error whenever the light section before the
materials is written. -/
theorem save_rejects_unsupported :
    (∀ mat : Ref Material, mat.val.variant = none →
      materialTagOf (some mat) = .error .unsupportedType)
    ∧ (∀ (ser : SerializedScene) (s : Scene) (mat : Ref Material), mat.val.variant = none →
        some mat ∈ ser.materials.list → ∃ e, Scene.saveWith ser s = .error e)
    ∧ (∀ (s : Scene) (mat : Ref Material), mat.val.variant = none →
        some mat ∈ (SerializedScene.ofScene s).materials.list →
        ∃ e, s.save = .error e ∧ ((∃ b, saveLights s = .ok b) → e = .unsupportedType)) := by
  refine ⟨materialTagOf_unsupported, ?_, ?_⟩
  · intro ser s mat h hmem
    obtain ⟨e, he⟩ := writeEachM_fails (saveMaterial ser) ser.materials.list (some mat) _ hmem
      (saveMaterial_unsupported ser mat h)
    obtain ⟨e', he', -⟩ := saveWith_materials_error ser s e he
    exact ⟨e', he'⟩
  · intro s mat h hmem
    exact saveWith_materials_error (SerializedScene.ofScene s) s _
      (saveMaterials_unsupported _ _ mat h hmem (ofScene_materials_live s))

theorem save_rejects_unsupported_witness :
    ∃ e, plainScene.save = .error e ∧ ((∃ b, saveLights plainScene = .ok b) → e = .unsupportedType) :=
  save_rejects_unsupported.2.2 plainScene plainMaterial rfl (by decide)

/-! ## The texture registry lookup -/

theorem gap_registry :
    (SerializedScene.ofScene gapScene).textures.registry
      = [(none, I32.wrap 0), (some demoTexture, I32.wrap 1)] := by
  decide

theorem registry_find_mem {α : Type} [DecidableEq α] (m : Registry α) (key : SP α) (id : I32)
    (h : m.find key = some id) : (key, id) ∈ m := by
  induction m with
  | nil => cases h
  | cons e m ih =>
    obtain ⟨k, v⟩ := e
    unfold Registry.find at h
    by_cases hk : k = key
    · rw [if_pos hk] at h
      cases h
      rw [hk]
      exact List.mem_cons_self _ _
    · rw [if_neg hk] at h
      exact List.mem_cons_of_mem _ (ih h)

theorem registry_find_none {α : Type} [DecidableEq α] (m : Registry α) (key : SP α) :
    m.find key = none ↔ key ∉ m.map Prod.fst := by
  induction m with
  | nil => simp [Registry.find]
  | cons e m ih =>
    obtain ⟨k, v⟩ := e
    unfold Registry.find
    by_cases hk : k = key
    · subst hk
      simp
    · rw [if_neg hk, ih]
      simp only [List.map_cons, List.mem_cons, not_or]
      exact ⟨fun hm => ⟨fun e => hk e.symm, hm⟩, fun hm => hm.2⟩

/-- C14 (amended): `getID(texture, serialized)` is the lookup in the registry, with no test
for null.  It returns the ID the registry holds for the reference when the registry has an
entry for it, null or not, and -1 when the registry has no entry for it.  So it returns -1
exactly when the registry has no entry for the reference or holds -1 for it; and for a
registry whose IDs are all non-negative it returns -1 exactly when the registry has no
entry for the reference, that is when the reference is no key of the registry. -/
theorem getID_lookup (texture : SP Texture) (serialized : Registry Texture) :
    (∀ id, serialized.find texture = some id → getID texture serialized = id)
    ∧ (serialized.find texture = none → (getID texture serialized).val = -1)
    ∧ ((getID texture serialized).val = -1
        ↔ serialized.find texture = none
          ∨ ∃ id, serialized.find texture = some id ∧ id.val = -1)
    ∧ ((∀ e ∈ serialized, 0 ≤ e.2.val) →
        ((getID texture serialized).val = -1 ↔ serialized.find texture = none))
    ∧ (serialized.find texture = none ↔ texture ∉ serialized.map Prod.fst) := by
  have h1 : ∀ id, serialized.find texture = some id → getID texture serialized = id := by
    intro id h
    unfold getID
    rw [h]
  have h2 : serialized.find texture = none → (getID texture serialized).val = -1 := by
    intro h
    unfold getID
    rw [h]
  have h3 : (getID texture serialized).val = -1
      ↔ serialized.find texture = none
        ∨ ∃ id, serialized.find texture = some id ∧ id.val = -1 := by
    constructor
    · intro h
      cases hf : serialized.find texture with
      | none => exact Or.inl rfl
      | some id =>
        right
        rw [h1 id hf] at h
        exact ⟨id, rfl, h⟩
    · rintro (h | ⟨id, hf, hid⟩)
      · exact h2 h
      · rw [h1 id hf]
        exact hid
  refine ⟨h1, h2, h3, ?_, registry_find_none serialized texture⟩
  intro hpos
  constructor
  · intro h
    rcases h3.mp h with hn | ⟨id, hf, hid⟩
    · exact hn
    · have := hpos _ (registry_find_mem serialized texture id hf)
      dsimp only at this
      omega
  · exact h2

/-- The registry of the scene with null slots: the ID 1 for the texture, and for the null
reference -1 would mean that the registry had no entry for it. -/
theorem getID_lookup_witness :
    getID (some demoTexture) [(none, I32.wrap 0), (some demoTexture, I32.wrap 1)] = I32.wrap 1
    ∧ ((getID none [(none, I32.wrap 0), (some demoTexture, I32.wrap 1)]).val = -1
        ↔ Registry.find [(none, I32.wrap 0), (some demoTexture, I32.wrap 1)] none = none) :=
  ⟨(getID_lookup (some demoTexture) [(none, I32.wrap 0), (some demoTexture, I32.wrap 1)]).1
      (I32.wrap 1) (by decide),
    (getID_lookup none [(none, I32.wrap 0), (some demoTexture, I32.wrap 1)]).2.2.2.1
      (by decide)⟩

/-- C14, as claimed, fails: for a registry that holds an ID for the null reference
`getID` returns that ID for the null sentinel, not -1. -/
theorem getID_null_registered :
    (getID none [(none, I32.wrap 0), (some demoTexture, I32.wrap 1)]).val = 0
    ∧ (getID none [(none, I32.wrap 0), (some demoTexture, I32.wrap 1)]).val ≠ -1 := by
  decide

/-- A registry that holds -1 for a reference: `getID` returns -1 although the registry has
an entry for the reference. -/
theorem getID_minus_one_held :
    (getID (some demoTexture) [(some demoTexture, I32.wrap (-1))]).val = -1
    ∧ Registry.find [(some demoTexture, I32.wrap (-1))] (some demoTexture) ≠ none := by
  decide

/-! ## What `Scene::load` builds -/

theorem readEach_all {α : Type} (body : Nat → List Byte → Except Error (α × Nat × List Byte))
    (P : α → Prop)
    (hb : ∀ next inp a next' inp', body next inp = .ok (a, next', inp') → P a) :
    ∀ (k i next : Nat) (inp : List Byte) (as : List α) (next' : Nat) (inp' : List Byte),
      readEach body k i next inp = .ok (as, next', inp') → ∀ a ∈ as, P a := by
  intro k
  induction k with
  | zero =>
    intro i next inp as next' inp' h a ha
    cases Except.ok.inj h
    exact absurd ha (List.not_mem_nil _)
  | succ k ih =>
    intro i next inp as next' inp' h a ha
    unfold readEach at h
    obtain ⟨⟨a1, next1, inp1⟩, hbody, h⟩ := bind_ok_inv _ _ _ h
    dsimp only at h
    by_cases hi : i + 1 < 2147483648
    · rw [if_pos hi] at h
      obtain ⟨⟨as1, next2, inp2⟩, hrest, h⟩ := bind_ok_inv _ _ _ h
      cases Except.ok.inj h
      rcases List.mem_cons.mp ha with rfl | ha'
      · exact hb _ _ _ _ _ hbody
      · exact ih _ _ _ _ _ _ hrest a ha'
    · rw [if_neg hi] at h
      exact Except.noConfusion h

theorem loadMaterial_live (v : Nat) (textures : List (SP Texture)) (next : Nat)
    (inp : List Byte) (mat : SP Material) (next' : Nat) (inp' : List Byte)
    (h : loadMaterial v textures next inp = .ok (mat, next', inp')) : mat ≠ none := by
  unfold loadMaterial at h
  dsimp only at h
  split at h
  · rw [pure_bind] at h
    obtain ⟨m, -, h⟩ := bind_ok_inv _ _ _ h
    obtain ⟨⟨m', inp2⟩, -, h⟩ := bind_ok_inv _ _ _ h
    cases Except.ok.inj h
    exact fun e => Option.noConfusion e
  · obtain ⟨⟨tag, inp1⟩, -, h⟩ := bind_ok_inv _ _ _ h
    dsimp only at h
    rw [pure_bind] at h
    obtain ⟨m, -, h⟩ := bind_ok_inv _ _ _ h
    obtain ⟨⟨m', inp2⟩, -, h⟩ := bind_ok_inv _ _ _ h
    cases Except.ok.inj h
    exact fun e => Option.noConfusion e

/-- What one valid mesh record gives: the rest of the loop, and the mesh built from the
record with the table entry at the stored material ID. -/
theorem loadMeshes_record (materials : List (SP Material)) (k next : Nat)
    (inp inp1 inp2 inp3 inp4 inp5 inp6 : List Byte) (isValid matID : I32)
    (indices : List Vec3i) (vertices normals : List Vec3f) (texcoords : List Vec2f)
    (meshes : List (SP Mesh)) (next' : Nat) (rest : List Byte)
    (h0 : io.readElement inp = .ok (isValid, inp1)) (hv : isValid.val ≠ 0)
    (h1 : io.readVector inp1 = .ok (indices, inp2))
    (h2 : io.readVector inp2 = .ok (vertices, inp3))
    (h3 : io.readVector inp3 = .ok (normals, inp4))
    (h4 : io.readVector inp4 = .ok (texcoords, inp5))
    (h5 : io.readElement inp5 = .ok (matID, inp6))
    (h : loadMeshes materials (k + 1) next inp = .ok (meshes, next', rest)) :
    resolves materials matID (entryAt materials matID)
    ∧ ∃ tail, loadMeshes materials k (next + 1) inp6 = .ok (tail, next', rest)
        ∧ meshes = some ⟨next, Mesh.mk indices vertices normals texcoords
                                 (entryAt materials matID)⟩ :: tail := by
  unfold loadMeshes at h
  rw [h0, ok_bind] at h
  dsimp only at h
  rw [if_neg hv, h1, ok_bind] at h
  dsimp only at h
  rw [h2, ok_bind] at h
  dsimp only at h
  rw [h3, ok_bind] at h
  dsimp only at h
  rw [h4, ok_bind] at h
  dsimp only at h
  rw [h5, ok_bind] at h
  dsimp only at h
  by_cases hneg : matID.val ≥ 0
  · by_cases hlt : matID.val.toNat < materials.length
    · simp only [hneg, not_true_eq_false, if_false, dif_pos hlt, pure_bind] at h
      obtain ⟨⟨tail, next2, inp7⟩, htail, h⟩ := bind_ok_inv _ _ _ h
      cases Except.ok.inj h
      have he : entryAt materials matID = materials.get ⟨matID.val.toNat, hlt⟩ := by
        simp only [entryAt, if_pos hneg, List.getElem?_eq_getElem hlt, Option.getD_some,
          List.get_eq_getElem]
      refine ⟨⟨hneg, ?_⟩, tail, htail, ?_⟩
      · rw [he]
        simp only [List.getElem?_eq_getElem hlt, List.get_eq_getElem]
      · rw [he]
    · simp only [hneg, not_true_eq_false, if_false, dif_neg hlt, pure_bind] at h
      exact Except.noConfusion h
  · simp only [hneg, not_false_eq_true, if_true] at h
    exact Except.noConfusion h

theorem loadMeshes_all (materials : List (SP Material)) (hm : ∀ mat ∈ materials, mat ≠ none) :
    ∀ (k next : Nat) (inp : List Byte) (meshes : List (SP Mesh)) (next' : Nat)
      (rest : List Byte), loadMeshes materials k next inp = .ok (meshes, next', rest) →
      ∀ mesh ∈ meshes, ∃ m mat, mesh = some m ∧ m.val.material = some mat
        ∧ ∃ matID : I32, resolves materials matID (some mat) := by
  intro k
  induction k with
  | zero =>
    intro next inp meshes next' rest h mesh hmesh
    cases Except.ok.inj h
    exact absurd hmesh (List.not_mem_nil _)
  | succ k ih =>
    intro next inp meshes next' rest horig mesh hmesh
    have h := horig
    unfold loadMeshes at h
    obtain ⟨⟨isValid, inp1⟩, h0, h⟩ := bind_ok_inv _ _ _ h
    dsimp only at h
    by_cases hv : isValid.val = 0
    · rw [if_pos hv] at h
      exact ih _ _ _ _ _ h mesh hmesh
    · rw [if_neg hv] at h
      obtain ⟨⟨indices, inp2⟩, h1, h⟩ := bind_ok_inv _ _ _ h
      dsimp only at h
      obtain ⟨⟨vertices, inp3⟩, h2, h⟩ := bind_ok_inv _ _ _ h
      dsimp only at h
      obtain ⟨⟨normals, inp4⟩, h3, h⟩ := bind_ok_inv _ _ _ h
      dsimp only at h
      obtain ⟨⟨texcoords, inp5⟩, h4, h⟩ := bind_ok_inv _ _ _ h
      dsimp only at h
      obtain ⟨⟨matID, inp6⟩, h5, -⟩ := bind_ok_inv _ _ _ h
      obtain ⟨hres, tail, htail, rfl⟩ := loadMeshes_record materials k next inp inp1 inp2 inp3
        inp4 inp5 inp6 isValid matID indices vertices normals texcoords meshes next' rest
        h0 hv h1 h2 h3 h4 h5 horig
      rcases List.mem_cons.mp hmesh with rfl | hmesh'
      · have hmem : entryAt materials matID ∈ materials := by
          obtain ⟨hlt, hval⟩ := List.getElem?_eq_some_iff.mp hres.2
          exact hval ▸ List.getElem_mem hlt
        cases hmat : entryAt materials matID with
        | none => rw [hmat] at hmem; exact absurd rfl (hm none hmem)
        | some mat =>
          refine ⟨_, mat, rfl, rfl, matID, ?_⟩
          rw [hmat] at hres
          exact hres
      · exact ih _ _ _ _ _ htail mesh hmesh'

theorem loadObject_all (materials : List (SP Material)) (hm : ∀ mat ∈ materials, mat ≠ none)
    (next : Nat) (inp : List Byte) (obj : SP Object) (next' : Nat) (rest : List Byte)
    (h : loadObject materials next inp = .ok (obj, next', rest)) :
    ∃ o, obj = some o ∧ ∀ mesh ∈ o.val.meshes, ∃ m mat, mesh = some m
      ∧ m.val.material = some mat ∧ ∃ matID : I32, resolves materials matID (some mat) := by
  unfold loadObject at h
  obtain ⟨⟨numMeshes, inp1⟩, -, h⟩ := bind_ok_inv _ _ _ h
  dsimp only at h
  obtain ⟨⟨meshes, next1, inp2⟩, hmeshes, h⟩ := bind_ok_inv _ _ _ h
  cases Except.ok.inj h
  exact ⟨_, rfl, loadMeshes_all materials hm _ _ _ _ _ _ hmeshes⟩

theorem loadInstance_object (objects : List (SP Object)) (next : Nat) (inp : List Byte)
    (inst : SP Instance) (next' : Nat) (rest : List Byte)
    (h : loadInstance objects next inp = .ok (inst, next', rest)) :
    ∀ i ∈ inst, i.val.object ∈ objects := by
  unfold loadInstance at h
  obtain ⟨⟨isValid, inp1⟩, -, h⟩ := bind_ok_inv _ _ _ h
  dsimp only at h
  by_cases hv : isValid.val = 0
  · rw [if_pos hv] at h
    cases Except.ok.inj h
    intro i hi
    exact Option.noConfusion hi
  · rw [if_neg hv] at h
    obtain ⟨⟨xfm, inp2⟩, -, h⟩ := bind_ok_inv _ _ _ h
    dsimp only at h
    obtain ⟨⟨objID, inp3⟩, -, h⟩ := bind_ok_inv _ _ _ h
    dsimp only at h
    by_cases hr : 0 ≤ objID.val ∧ objID.val.toNat < objects.length
    · rw [dif_pos hr] at h
      cases Except.ok.inj h
      intro i hi
      cases Option.some.inj hi
      exact List.get_mem _ _ _
    · rw [dif_neg hr] at h
      exact Except.noConfusion h

/-- The three loops behind a result of `Scene::loadBody`. -/
theorem loadBody_inv (v : Nat) (inp : List Byte) (r : Loaded) (rest : List Byte)
    (h : Scene.loadBody v inp = .ok (r, rest)) :
    ∃ (k2 n2 n2' k3 n3 n3' k4 n4 n4' : Nat) (inp2 inp2' inp3 inp3' inp4 inp4' : List Byte),
      readEach (loadMaterial v r.textures) k2 0 n2 inp2 = .ok (r.materials, n2', inp2')
      ∧ readEach (loadObject r.materials) k3 0 n3 inp3 = .ok (r.objects, n3', inp3')
      ∧ readEach (loadInstance r.objects) k4 0 n4 inp4 = .ok (r.scene.instances, n4', inp4') := by
  unfold Scene.loadBody at h
  obtain ⟨⟨numTextures, i1⟩, -, h⟩ := bind_ok_inv _ _ _ h
  dsimp only at h
  obtain ⟨⟨textures, n1, i2⟩, -, h⟩ := bind_ok_inv _ _ _ h
  dsimp only at h
  obtain ⟨⟨⟨quadLights, dirLights, envMapLight⟩, n2, i3⟩, -, h⟩ := bind_ok_inv _ _ _ h
  dsimp only at h
  obtain ⟨⟨numMaterials, i4⟩, -, h⟩ := bind_ok_inv _ _ _ h
  dsimp only at h
  obtain ⟨⟨materials, n3, i5⟩, hmat, h⟩ := bind_ok_inv _ _ _ h
  dsimp only at h
  obtain ⟨⟨numObjects, i6⟩, -, h⟩ := bind_ok_inv _ _ _ h
  dsimp only at h
  obtain ⟨⟨objects, n4, i7⟩, hobj, h⟩ := bind_ok_inv _ _ _ h
  dsimp only at h
  obtain ⟨⟨numInstances, i8⟩, -, h⟩ := bind_ok_inv _ _ _ h
  dsimp only at h
  obtain ⟨⟨instances, n5, i9⟩, hinst, h⟩ := bind_ok_inv _ _ _ h
  cases Except.ok.inj h
  exact ⟨_, _, _, _, _, _, _, _, _, _, _, _, _, _, _, hmat, hobj, hinst⟩

theorem loadTables_inv (inp : List Byte) (r : Loaded) (h : Scene.loadTables inp = .ok r) :
    ∃ (v : Nat) (inp1 rest : List Byte), Scene.loadBody v inp1 = .ok (r, rest) := by
  unfold Scene.loadTables at h
  obtain ⟨⟨r', inp'⟩, hs, h⟩ := bind_ok_inv _ _ _ h
  dsimp only at h
  obtain ⟨⟨magicAtEnd, inp''⟩, -, h⟩ := bind_ok_inv _ _ _ h
  dsimp only at h
  have hr : r' = r := by
    split at h
    · exact Except.noConfusion h
    · exact Except.ok.inj h
  subst hr
  unfold Scene.loadSections at hs
  obtain ⟨⟨magic, inp1⟩, -, hs⟩ := bind_ok_inv _ _ _ hs
  dsimp only at hs
  obtain ⟨v, -, hs⟩ := bind_ok_inv _ _ _ hs
  exact ⟨v, inp1, inp', hs⟩

theorem load_inv (inp : List Byte) (s : Scene) (h : Scene.load inp = .ok s) :
    ∃ r, Scene.loadTables inp = .ok r ∧ r.scene = s := by
  unfold Scene.load at h
  obtain ⟨r, hr, h⟩ := bind_ok_inv _ _ _ h
  exact ⟨r, hr, Except.ok.inj h⟩

/-- C16: in every scene `Scene::load` returns, every mesh of every object an instance
references is non-null and references a non-null material that is an entry of the
material table `Scene::load` built, at a valid position of it; and the material of the
mesh built from a valid mesh record is the table entry at the material ID stored in that
record. -/
theorem load_mesh_materials :
    (∀ (inp : List Byte) (s : Scene), Scene.load inp = .ok s →
      ∃ r : Loaded, Scene.loadTables inp = .ok r ∧ r.scene = s
        ∧ (∀ mat ∈ r.materials, mat ≠ none)
        ∧ ∀ inst ∈ s.instances, ∀ i ∈ inst, ∃ o, i.val.object = some o ∧ some o ∈ r.objects
            ∧ ∀ mesh ∈ o.val.meshes, ∃ m mat, mesh = some m ∧ m.val.material = some mat
                ∧ ∃ matID : I32, resolves r.materials matID (some mat))
    ∧ (∀ (materials : List (SP Material)) (k next : Nat)
        (inp inp1 inp2 inp3 inp4 inp5 inp6 : List Byte) (isValid matID : I32)
        (indices : List Vec3i) (vertices normals : List Vec3f) (texcoords : List Vec2f)
        (meshes : List (SP Mesh)) (next' : Nat) (rest : List Byte),
        io.readElement inp = .ok (isValid, inp1) → isValid.val ≠ 0 →
        io.readVector inp1 = .ok (indices, inp2) →
        io.readVector inp2 = .ok (vertices, inp3) →
        io.readVector inp3 = .ok (normals, inp4) →
        io.readVector inp4 = .ok (texcoords, inp5) →
        io.readElement inp5 = .ok (matID, inp6) →
        loadMeshes materials (k + 1) next inp = .ok (meshes, next', rest) →
        resolves materials matID (entryAt materials matID)
        ∧ ∃ tail, meshes = some ⟨next, Mesh.mk indices vertices normals texcoords
                                   (entryAt materials matID)⟩ :: tail) := by
  constructor
  · intro inp s h
    obtain ⟨r, hr, rfl⟩ := load_inv inp s h
    obtain ⟨v, inp1, rest, hbody⟩ := loadTables_inv inp r hr
    obtain ⟨k2, n2, n2', k3, n3, n3', k4, n4, n4', i2, i2', i3, i3', i4, i4', hmat, hobj, hinst⟩ :=
      loadBody_inv v inp1 r rest hbody
    have hlive : ∀ mat ∈ r.materials, mat ≠ none :=
      readEach_all _ (fun mat => mat ≠ none)
        (fun next inp a next' inp' ha => loadMaterial_live v r.textures next inp a next' inp' ha)
        _ _ _ _ _ _ _ hmat
    have hobjs := readEach_all _
      (fun obj : SP Object => ∃ o, obj = some o ∧ ∀ mesh ∈ o.val.meshes, ∃ m mat, mesh = some m
        ∧ m.val.material = some mat ∧ ∃ matID : I32, resolves r.materials matID (some mat))
      (fun next inp a next' inp' ha => loadObject_all r.materials hlive next inp a next' inp' ha)
      _ _ _ _ _ _ _ hobj
    have hinsts := readEach_all _ (fun inst : SP Instance => ∀ i ∈ inst, i.val.object ∈ r.objects)
      (fun next inp a next' inp' ha => loadInstance_object r.objects next inp a next' inp' ha)
      _ _ _ _ _ _ _ hinst
    refine ⟨r, hr, rfl, hlive, ?_⟩
    intro inst hi i hii
    have hmem := hinsts inst hi i hii
    obtain ⟨o, ho, hmeshes⟩ := hobjs _ hmem
    exact ⟨o, ho, ho ▸ hmem, hmeshes⟩
  · intro materials k next inp inp1 inp2 inp3 inp4 inp5 inp6 isValid matID indices vertices
      normals texcoords meshes next' rest h0 hv h1 h2 h3 h4 h5 h
    obtain ⟨hres, tail, -, hm⟩ := loadMeshes_record materials k next inp inp1 inp2 inp3 inp4
      inp5 inp6 isValid matID indices vertices normals texcoords meshes next' rest h0 hv h1 h2
      h3 h4 h5 h
    exact ⟨hres, tail, hm⟩

theorem load_mesh_materials_witness :
    ∃ b s, Scene.save demoScene = .ok b ∧ Scene.load b = .ok s
      ∧ ∃ r : Loaded, Scene.loadTables b = .ok r ∧ r.scene = s
        ∧ (∀ mat ∈ r.materials, mat ≠ none)
        ∧ ∀ inst ∈ s.instances, ∀ i ∈ inst, ∃ o, i.val.object = some o ∧ some o ∈ r.objects
            ∧ ∀ mesh ∈ o.val.meshes, ∃ m mat, mesh = some m ∧ m.val.material = some mat
                ∧ ∃ matID : I32, resolves r.materials matID (some mat) := by
  obtain ⟨b, hb, hload⟩ := loadTables_saved (SerializedScene.ofScene demoScene) demoScene
    (by decide) (by decide)
  exact ⟨b, _, hb, load_of_loadTables b _ hload,
    load_mesh_materials.1 b _ (load_of_loadTables b _ hload)⟩

/-! ## Stored cross-references out of range -/

theorem readTextureRef_bad (inp inp' : List Byte) (texID : I32) (textures : List (SP Texture))
    (h : io.readElement inp = .ok (texID, inp'))
    (hbad : ¬ (0 ≤ texID.val ∧ texID.val.toNat < textures.length)) :
    readTextureRef inp textures = .error .assertion := by
  unfold readTextureRef
  rw [h, ok_bind]
  dsimp only
  by_cases h0 : texID.val ≥ 0
  · have hlt : ¬ texID.val.toNat < textures.length := fun hlt => hbad ⟨h0, hlt⟩
    simp only [h0, not_true_eq_false, if_false, dif_neg hlt, pure_bind]
    rfl
  · simp only [h0, not_false_eq_true, if_true]
    rfl

theorem loadMeshes_bad_material (materials : List (SP Material)) (k next : Nat)
    (inp inp1 inp2 inp3 inp4 inp5 inp6 : List Byte) (isValid matID : I32)
    (indices : List Vec3i) (vertices normals : List Vec3f) (texcoords : List Vec2f)
    (h0 : io.readElement inp = .ok (isValid, inp1)) (hv : isValid.val ≠ 0)
    (h1 : io.readVector inp1 = .ok (indices, inp2))
    (h2 : io.readVector inp2 = .ok (vertices, inp3))
    (h3 : io.readVector inp3 = .ok (normals, inp4))
    (h4 : io.readVector inp4 = .ok (texcoords, inp5))
    (h5 : io.readElement inp5 = .ok (matID, inp6))
    (hbad : ¬ (0 ≤ matID.val ∧ matID.val.toNat < materials.length)) :
    loadMeshes materials (k + 1) next inp = .error .assertion := by
  unfold loadMeshes
  rw [h0, ok_bind]
  dsimp only
  rw [if_neg hv, h1, ok_bind]
  dsimp only
  rw [h2, ok_bind]
  dsimp only
  rw [h3, ok_bind]
  dsimp only
  rw [h4, ok_bind]
  dsimp only
  rw [h5, ok_bind]
  dsimp only
  by_cases hneg : matID.val ≥ 0
  · have hlt : ¬ matID.val.toNat < materials.length := fun hlt => hbad ⟨hneg, hlt⟩
    simp only [hneg, not_true_eq_false, if_false, dif_neg hlt, pure_bind]
    rfl
  · simp only [hneg, not_false_eq_true, if_true]
    rfl

theorem loadInstance_bad_object (objects : List (SP Object)) (next : Nat)
    (inp inp1 inp2 inp3 : List Byte) (isValid objID : I32) (xfm : Affine3f)
    (h0 : io.readElement inp = .ok (isValid, inp1)) (hv : isValid.val ≠ 0)
    (h1 : io.readElement inp1 = .ok (xfm, inp2))
    (h2 : io.readElement inp2 = .ok (objID, inp3))
    (hbad : ¬ (0 ≤ objID.val ∧ objID.val.toNat < objects.length)) :
    loadInstance objects next inp = .error .undefinedBehaviour := by
  unfold loadInstance
  rw [h0, ok_bind]
  dsimp only
  rw [if_neg hv, h1, ok_bind]
  dsimp only
  rw [h2, ok_bind]
  dsimp only
  rw [dif_neg hbad]
  rfl

/-- A file whose instance loop fails is rejected with the error of that loop. -/
theorem load_instance_error (inp inp1 inp2 inp3 inp4 inp5 inp6 inp7 inp8 inp9 : List Byte)
    (magic numTextures numMaterials numObjects numInstances : SizeT)
    (textures : List (SP Texture)) (materials : List (SP Material)) (objects : List (SP Object))
    (lights : List QuadLight × List DirLight × SP EnvMapLight) (next1 next2 next3 next4 : Nat)
    (e : Error)
    (h0 : io.readElement inp = .ok (magic, inp1)) (hm : magic.val = expected_magic)
    (h1 : io.readElement inp1 = .ok (numTextures, inp2))
    (h2 : readEach loadTexture numTextures.val 0 0 inp2 = .ok (textures, next1, inp3))
    (h3 : loadLights next1 inp3 = .ok (lights, next2, inp4))
    (h4 : io.readElement inp4 = .ok (numMaterials, inp5))
    (h5 : readEach (loadMaterial 12 textures) numMaterials.val 0 next2 inp5
      = .ok (materials, next3, inp6))
    (h6 : io.readElement inp6 = .ok (numObjects, inp7))
    (h7 : readEach (loadObject materials) numObjects.val 0 next3 inp7
      = .ok (objects, next4, inp8))
    (h8 : io.readElement inp8 = .ok (numInstances, inp9))
    (h9 : readEach (loadInstance objects) numInstances.val 0 next4 inp9 = .error e) :
    Scene.load inp = .error e := by
  apply load_of_loadSections_error
  unfold Scene.loadSections
  rw [h0, ok_bind]
  dsimp only
  have hf : formatOfMagic magic = .ok 12 := by
    unfold formatOfMagic
    rw [if_pos hm]
    rfl
  rw [hf, ok_bind]
  unfold Scene.loadBody
  rw [h1, ok_bind]
  dsimp only
  rw [h2, ok_bind]
  dsimp only
  rw [h3, ok_bind]
  obtain ⟨quadLights, dirLights, envMapLight⟩ := lights
  dsimp only
  rw [h4, ok_bind]
  dsimp only
  rw [h5, ok_bind]
  dsimp only
  rw [h6, ok_bind]
  dsimp only
  rw [h7, ok_bind]
  dsimp only
  rw [h8, ok_bind]
  dsimp only
  rw [h9]
  rfl

theorem loadLights_none (next : Nat) (rest : List Byte) :
    loadLights next (io.writeVector ([] : List QuadLight)
        ++ (io.writeVector ([] : List DirLight) ++ (io.writeElement (I32.wrap 0) ++ rest)))
      = .ok (([], [], none), next, rest) := by
  simp only [loadLights,
    readVector_append _ _ (by decide : ([] : List QuadLight).length < 18446744073709551616),
    readVector_append _ _ (by decide : ([] : List DirLight).length < 18446744073709551616),
    readElement_append, ok_bind, wrap32_zero, if_true]
  rfl

/-- The unchecked subscript `objects[...]` of the instance loop is reached on a file
whose instance stores an object ID the object table has no entry for. -/
theorem load_stray_object : Scene.load strayObjectFile = .error .undefinedBehaviour :=
  load_instance_error strayObjectFile _ _ _ _ _ _ _ _ _ _ _ _ _ _ [] [] [] ([], [], none)
    0 0 0 0 _
    (readElement_append _ _) magic_val (readElement_append _ _) rfl (loadLights_none _ _)
    (readElement_append _ _) rfl (readElement_append _ _) rfl (readElement_append _ _)
    (by
      have hi := loadInstance_bad_object [] 0
        (io.writeElement (I32.wrap 1) ++ (io.writeElement (default : Affine3f)
          ++ (io.writeElement (I32.wrap 0) ++ (io.writeElement (SizeT.wrap expected_magic) ++ []))))
        _ _ _ (I32.wrap 1) (I32.wrap 0) default
        (readElement_append _ _) (by decide) (readElement_append _ _) (readElement_append _ _)
        (by decide)
      exact readEach_fails _ _ 0 1 0 0 _ [] 0 _ (by decide) rfl hi)

/-- C17: the two guarded cross-references and the unguarded one.  A texture ID of a
Disney material outside the texture table and a material ID of a mesh outside the
material table stop `Scene::load` at the `assert` that guards them; an object ID of an
instance outside the object table meets no check: the subscript `objects[...]` is
evaluated out of range, which is undefined behaviour and no failure of `Scene::load`. -/
theorem cross_reference_checks :
    (∀ (inp inp' : List Byte) (texID : I32) (textures : List (SP Texture)),
      io.readElement inp = .ok (texID, inp') →
      ¬ (0 ≤ texID.val ∧ texID.val.toNat < textures.length) →
      readTextureRef inp textures = .error .assertion)
    ∧ (∀ (materials : List (SP Material)) (k next : Nat)
        (inp inp1 inp2 inp3 inp4 inp5 inp6 : List Byte) (isValid matID : I32)
        (indices : List Vec3i) (vertices normals : List Vec3f) (texcoords : List Vec2f),
        io.readElement inp = .ok (isValid, inp1) → isValid.val ≠ 0 →
        io.readVector inp1 = .ok (indices, inp2) →
        io.readVector inp2 = .ok (vertices, inp3) →
        io.readVector inp3 = .ok (normals, inp4) →
        io.readVector inp4 = .ok (texcoords, inp5) →
        io.readElement inp5 = .ok (matID, inp6) →
        ¬ (0 ≤ matID.val ∧ matID.val.toNat < materials.length) →
        loadMeshes materials (k + 1) next inp = .error .assertion)
    ∧ (∀ (objects : List (SP Object)) (next : Nat) (inp inp1 inp2 inp3 : List Byte)
        (isValid objID : I32) (xfm : Affine3f),
        io.readElement inp = .ok (isValid, inp1) → isValid.val ≠ 0 →
        io.readElement inp1 = .ok (xfm, inp2) →
        io.readElement inp2 = .ok (objID, inp3) →
        ¬ (0 ≤ objID.val ∧ objID.val.toNat < objects.length) →
        loadInstance objects next inp = .error .undefinedBehaviour)
    ∧ Scene.load strayObjectFile = .error .undefinedBehaviour :=
  ⟨readTextureRef_bad, loadMeshes_bad_material, loadInstance_bad_object, load_stray_object⟩

theorem cross_reference_checks_witness :
    loadInstance [] 0 (io.writeElement (I32.wrap 1) ++ (io.writeElement (default : Affine3f)
        ++ (io.writeElement (I32.wrap (-1)) ++ [])))
      = .error .undefinedBehaviour :=
  cross_reference_checks.2.2.1 [] 0 _ _ _ _ (I32.wrap 1) (I32.wrap (-1)) default
    (readElement_append _ _) (by decide) (readElement_append _ _) (readElement_append _ _)
    (by decide)

/-! ## The bounds engine -/

section BoundsLaws

variable {K : Type} [LinearOrderedField K]

theorem isLeast_single (f : Vec3 K → K) (v : Vec3 K) :
    IsLeast {c | ∃ p ∈ [v], f p = c} (f v) := by
  refine ⟨⟨v, List.mem_singleton_self v, rfl⟩, ?_⟩
  rintro c ⟨p, hp, rfl⟩
  rw [List.mem_singleton.mp hp]

theorem isGreatest_single (f : Vec3 K → K) (v : Vec3 K) :
    IsGreatest {c | ∃ p ∈ [v], f p = c} (f v) := by
  refine ⟨⟨v, List.mem_singleton_self v, rfl⟩, ?_⟩
  rintro c ⟨p, hp, rfl⟩
  rw [List.mem_singleton.mp hp]

theorem isLeast_snoc (f : Vec3 K → K) (seen : List (Vec3 K)) (v : Vec3 K) (m : K)
    (h : IsLeast {c | ∃ p ∈ seen, f p = c} m) :
    IsLeast {c | ∃ p ∈ seen ++ [v], f p = c} (min m (f v)) := by
  obtain ⟨⟨q, hq, hqm⟩, hlow⟩ := h
  constructor
  · rcases min_choice m (f v) with e | e
    · exact ⟨q, List.mem_append_left _ hq, by rw [e, hqm]⟩
    · exact ⟨v, List.mem_append_right _ (List.mem_singleton_self v), e.symm⟩
  · rintro c ⟨p, hp, rfl⟩
    rcases List.mem_append.mp hp with hp | hp
    · exact le_trans (min_le_left _ _) (hlow ⟨p, hp, rfl⟩)
    · rw [List.mem_singleton.mp hp]
      exact min_le_right _ _

theorem isGreatest_snoc (f : Vec3 K → K) (seen : List (Vec3 K)) (v : Vec3 K) (m : K)
    (h : IsGreatest {c | ∃ p ∈ seen, f p = c} m) :
    IsGreatest {c | ∃ p ∈ seen ++ [v], f p = c} (max m (f v)) := by
  obtain ⟨⟨q, hq, hqm⟩, hup⟩ := h
  constructor
  · rcases max_choice m (f v) with e | e
    · exact ⟨q, List.mem_append_left _ hq, by rw [e, hqm]⟩
    · exact ⟨v, List.mem_append_right _ (List.mem_singleton_self v), e.symm⟩
  · rintro c ⟨p, hp, rfl⟩
    rcases List.mem_append.mp hp with hp | hp
    · exact le_trans (hup ⟨p, hp, rfl⟩) (le_max_left _ _)
    · rw [List.mem_singleton.mp hp]
      exact le_max_right _ _

theorem extend_isBoundsOf (b : Box3 K) (seen : List (Vec3 K)) (v : Vec3 K)
    (h : b.IsBoundsOf seen) : (b.extend v).IsBoundsOf (seen ++ [v]) := by
  obtain ⟨lower, upper, rfl, h1, h2, h3, h4, h5, h6⟩ := h
  exact ⟨lower.min v, upper.max v, rfl,
    isLeast_snoc (fun p => p.x) seen v _ h1, isLeast_snoc (fun p => p.y) seen v _ h2,
    isLeast_snoc (fun p => p.z) seen v _ h3, isGreatest_snoc (fun p => p.x) seen v _ h4,
    isGreatest_snoc (fun p => p.y) seen v _ h5, isGreatest_snoc (fun p => p.z) seen v _ h6⟩

theorem foldl_extend_isBoundsOf (pts : List (Vec3 K)) :
    ∀ (b : Box3 K) (seen : List (Vec3 K)), b.IsBoundsOf seen →
      (pts.foldl Box3.extend b).IsBoundsOf (seen ++ pts) := by
  induction pts with
  | nil => intro b seen h; rw [List.append_nil]; exact h
  | cons v pts ih =>
    intro b seen h
    have := ih (b.extend v) (seen ++ [v]) (extend_isBoundsOf b seen v h)
    rw [List.append_assoc] at this
    exact this

/-- The loop `box3f bounds; for (p : pts) bounds.extend(p)` over a non-empty list gives
the componentwise minimum and maximum. -/
theorem ofPoints_isBoundsOf (pts : List (Vec3 K)) (h : pts ≠ []) :
    (pts.foldl Box3.extend .empty).IsBoundsOf pts := by
  cases pts with
  | nil => exact absurd rfl h
  | cons v pts =>
    have h0 : (Box3.empty.extend v).IsBoundsOf [v] :=
      ⟨v, v, rfl, isLeast_single (fun p => p.x) v, isLeast_single (fun p => p.y) v,
        isLeast_single (fun p => p.z) v, isGreatest_single (fun p => p.x) v,
        isGreatest_single (fun p => p.y) v, isGreatest_single (fun p => p.z) v⟩
    exact foldl_extend_isBoundsOf pts _ [v] h0

theorem isBoundsOf_congr (b : Box3 K) (l1 l2 : List (Vec3 K)) (hl : ∀ p, p ∈ l1 ↔ p ∈ l2)
    (h : b.IsBoundsOf l1) : b.IsBoundsOf l2 := by
  have e : ∀ f : Vec3 K → K, {c | ∃ p ∈ l1, f p = c} = {c | ∃ p ∈ l2, f p = c} := by
    intro f
    ext c
    constructor
    · rintro ⟨p, hp, rfl⟩; exact ⟨p, (hl p).mp hp, rfl⟩
    · rintro ⟨p, hp, rfl⟩; exact ⟨p, (hl p).mpr hp, rfl⟩
  obtain ⟨lower, upper, rfl, h1, h2, h3, h4, h5, h6⟩ := h
  refine ⟨lower, upper, rfl, ?_, ?_, ?_, ?_, ?_, ?_⟩
  · rw [← e (fun p => p.x)]; exact h1
  · rw [← e (fun p => p.y)]; exact h2
  · rw [← e (fun p => p.z)]; exact h3
  · rw [← e (fun p => p.x)]; exact h4
  · rw [← e (fun p => p.y)]; exact h5
  · rw [← e (fun p => p.z)]; exact h6

theorem isBoundsOf_unique (b b' : Box3 K) (pts : List (Vec3 K)) (h : b.IsBoundsOf pts)
    (h' : b'.IsBoundsOf pts) : b = b' := by
  obtain ⟨lower, upper, rfl, h1, h2, h3, h4, h5, h6⟩ := h
  obtain ⟨lower', upper', rfl, k1, k2, k3, k4, k5, k6⟩ := h'
  obtain ⟨lx, ly, lz⟩ := lower
  obtain ⟨ux, uy, uz⟩ := upper
  obtain ⟨lx', ly', lz'⟩ := lower'
  obtain ⟨ux', uy', uz'⟩ := upper'
  have e1 := h1.unique k1
  have e2 := h2.unique k2
  have e3 := h3.unique k3
  have e4 := h4.unique k4
  have e5 := h5.unique k5
  have e6 := h6.unique k6
  simp only at e1 e2 e3 e4 e5 e6
  subst e1 e2 e3 e4 e5 e6
  rfl

theorem vec3_min_assoc (a b c : Vec3 K) : (a.min b).min c = a.min (b.min c) := by
  simp only [Vec3.min, min_assoc]

theorem vec3_max_assoc (a b c : Vec3 K) : (a.max b).max c = a.max (b.max c) := by
  simp only [Vec3.max, max_assoc]

theorem extendBox_empty_left (b : Box3 K) : Box3.empty.extendBox b = b := by
  cases b <;> rfl

theorem extendBox_empty_right (b : Box3 K) : b.extendBox .empty = b := by
  cases b <;> rfl

theorem extendBox_extend (a c : Box3 K) (v : Vec3 K) :
    a.extendBox (c.extend v) = (a.extendBox c).extend v := by
  cases a <;> cases c <;> simp only [Box3.extendBox, Box3.extend, vec3_min_assoc, vec3_max_assoc]

theorem extendBox_foldl (pts : List (Vec3 K)) :
    ∀ a c : Box3 K, a.extendBox (pts.foldl Box3.extend c) = pts.foldl Box3.extend (a.extendBox c) := by
  induction pts with
  | nil => intro a c; rfl
  | cons v pts ih =>
    intro a c
    simp only [List.foldl_cons]
    rw [ih, extendBox_extend]

theorem blocks_foldl (blocks : List (List (Vec3 K))) :
    ∀ acc : Box3 K,
      blocks.foldl (fun bounds block => bounds.extendBox (block.foldl Box3.extend .empty)) acc
        = blocks.flatten.foldl Box3.extend acc := by
  induction blocks with
  | nil => intro acc; rfl
  | cons block blocks ih =>
    intro acc
    simp only [List.foldl_cons, List.flatten_cons, List.foldl_append]
    rw [ih, extendBox_foldl, extendBox_empty_right]

theorem blocksOf_take {α : Type} (blockSize : Nat) (items : List α) (n : Nat) :
    ((List.range n).map (fun blockIdx => (items.drop (blockIdx * blockSize)).take blockSize)).flatten
      = items.take (n * blockSize) := by
  induction n with
  | zero => simp
  | succ n ih =>
    rw [List.range_succ, List.map_append, List.flatten_append, ih]
    simp only [List.map_cons, List.map_nil, List.flatten_cons, List.flatten_nil, List.append_nil]
    rw [Nat.succ_mul, List.take_add]

theorem blocksOf_flatten {α : Type} (blockSize : Nat) (items : List α) (h : 0 < blockSize) :
    (blocksOf blockSize items).flatten = items := by
  unfold blocksOf
  rw [blocksOf_take]
  apply List.take_of_length_le
  have := Nat.lt_div_mul_add (a := items.length + blockSize - 1) h
  have h2 : (items.length + blockSize - 1) / blockSize * blockSize
      = blockSize * ((items.length + blockSize - 1) / blockSize) := Nat.mul_comm _ _
  omega

theorem foldl_extend_map {α : Type} (f : α → Vec3 K) (l : List α) (acc : Box3 K) :
    l.foldl (fun b v => b.extend (f v)) acc = (l.map f).foldl Box3.extend acc := by
  rw [List.foldl_map]

/-- `Mesh::getBounds` is the loop over all vertices, whichever branch is taken. -/
theorem mesh_getBounds_eq (num : F32 → K) (m : Mesh) :
    m.getBounds num = (m.vertices.map (Vec3f.toVec3 num)).foldl Box3.extend .empty := by
  unfold Mesh.getBounds
  split
  · have e : ∀ blocks : List (List Vec3f), ∀ acc : Box3 K,
        blocks.foldl (fun bounds block => bounds.extendBox
          (block.foldl (fun blockBox vtx => blockBox.extend (vtx.toVec3 num)) .empty)) acc
        = (blocks.map (List.map (Vec3f.toVec3 num))).foldl
            (fun bounds block => bounds.extendBox (block.foldl Box3.extend .empty)) acc := by
      intro blocks
      induction blocks with
      | nil => intro acc; rfl
      | cons b bs ih =>
        intro acc
        simp only [List.foldl_cons, List.map_cons]
        rw [ih, foldl_extend_map]
    rw [e, blocks_foldl, ← List.map_flatten, blocksOf_flatten _ _ (by decide)]
  · exact foldl_extend_map _ _ _

end BoundsLaws

section TransformLaws

variable {K : Type} [LinearOrderedField K]

/-- The loop of `transformedBoxBounds`, unrolled: the corners in the order `i = 0..7`. -/
theorem transformedBoxBounds_unrolled (xfm : Affine3 K) (lower upper : Vec3 K) :
    transformedBoxBounds xfm (.mk lower upper)
      = ([⟨upper.x, upper.y, upper.z⟩, ⟨lower.x, upper.y, upper.z⟩,
          ⟨upper.x, lower.y, upper.z⟩, ⟨lower.x, lower.y, upper.z⟩,
          ⟨upper.x, upper.y, lower.z⟩, ⟨lower.x, upper.y, lower.z⟩,
          ⟨upper.x, lower.y, lower.z⟩, ⟨lower.x, lower.y, lower.z⟩].map
            (xfmPoint xfm)).foldl Box3.extend .empty := by
  rfl

theorem mem_corners (lower upper p : Vec3 K) :
    p ∈ corners lower upper ↔
      (p.x = lower.x ∨ p.x = upper.x) ∧ (p.y = lower.y ∨ p.y = upper.y)
        ∧ (p.z = lower.z ∨ p.z = upper.z) := by
  obtain ⟨px, py, pz⟩ := p
  simp only [corners, List.mem_cons, Vec3.mk.injEq, List.mem_singleton, List.not_mem_nil, or_false]
  tauto

theorem transformedBoxBounds_isBoundsOf (xfm : Affine3 K) (lower upper : Vec3 K) :
    (transformedBoxBounds xfm (.mk lower upper)).IsBoundsOf
      ((corners lower upper).map (xfmPoint xfm)) := by
  rw [transformedBoxBounds_unrolled]
  refine isBoundsOf_congr _ _ _ ?_ (ofPoints_isBoundsOf _ (by simp))
  intro p
  simp only [List.mem_map, mem_corners]
  constructor
  · rintro ⟨q, hq, rfl⟩
    refine ⟨q, ?_, rfl⟩
    obtain ⟨qx, qy, qz⟩ := q
    simp only [List.mem_cons, Vec3.mk.injEq, List.mem_singleton, List.not_mem_nil, or_false] at hq
    simp only
    tauto
  · rintro ⟨q, hq, rfl⟩
    refine ⟨q, ?_, rfl⟩
    obtain ⟨qx, qy, qz⟩ := q
    simp only [List.mem_cons, Vec3.mk.injEq, List.mem_singleton, List.not_mem_nil, or_false]
    simp only at hq
    tauto

theorem corner_below (lo hi p a : K) (h1 : lo ≤ p) (h2 : p ≤ hi) :
    ∃ q, (q = lo ∨ q = hi) ∧ q * a ≤ p * a := by
  rcases le_total 0 a with h | h
  · exact ⟨lo, Or.inl rfl, mul_le_mul_of_nonneg_right h1 h⟩
  · exact ⟨hi, Or.inr rfl, mul_le_mul_of_nonpos_right h2 h⟩

theorem corner_above (lo hi p a : K) (h1 : lo ≤ p) (h2 : p ≤ hi) :
    ∃ q, (q = lo ∨ q = hi) ∧ p * a ≤ q * a := by
  rcases le_total 0 a with h | h
  · exact ⟨hi, Or.inr rfl, mul_le_mul_of_nonneg_right h2 h⟩
  · exact ⟨lo, Or.inl rfl, mul_le_mul_of_nonpos_right h1 h⟩

/-- An affine form takes, on a box, values between its values at two corners. -/
theorem corner_bounds (lower upper p : Vec3 K) (a b c d : K)
    (hx1 : lower.x ≤ p.x) (hx2 : p.x ≤ upper.x) (hy1 : lower.y ≤ p.y) (hy2 : p.y ≤ upper.y)
    (hz1 : lower.z ≤ p.z) (hz2 : p.z ≤ upper.z) :
    (∃ q ∈ corners lower upper,
      q.x * a + (q.y * b + (q.z * c + d)) ≤ p.x * a + (p.y * b + (p.z * c + d)))
    ∧ (∃ q ∈ corners lower upper,
      p.x * a + (p.y * b + (p.z * c + d)) ≤ q.x * a + (q.y * b + (q.z * c + d))) := by
  constructor
  · obtain ⟨qx, hqx, ex⟩ := corner_below lower.x upper.x p.x a hx1 hx2
    obtain ⟨qy, hqy, ey⟩ := corner_below lower.y upper.y p.y b hy1 hy2
    obtain ⟨qz, hqz, ez⟩ := corner_below lower.z upper.z p.z c hz1 hz2
    exact ⟨⟨qx, qy, qz⟩, (mem_corners _ _ _).mpr ⟨hqx, hqy, hqz⟩, by simp only; linarith⟩
  · obtain ⟨qx, hqx, ex⟩ := corner_above lower.x upper.x p.x a hx1 hx2
    obtain ⟨qy, hqy, ey⟩ := corner_above lower.y upper.y p.y b hy1 hy2
    obtain ⟨qz, hqz, ez⟩ := corner_above lower.z upper.z p.z c hz1 hz2
    exact ⟨⟨qx, qy, qz⟩, (mem_corners _ _ _).mpr ⟨hqx, hqy, hqz⟩, by simp only; linarith⟩

theorem transformedBoxBounds_contains (xfm : Affine3 K) (lower upper p : Vec3 K)
    (h : (Box3.mk lower upper).Contains p) :
    (transformedBoxBounds xfm (.mk lower upper)).Contains (xfmPoint xfm p) := by
  obtain ⟨l, u, e, hx1, hx2, hy1, hy2, hz1, hz2⟩ := h
  cases e
  obtain ⟨lo, hi, hb, h1, h2, h3, h4, h5, h6⟩ := transformedBoxBounds_isBoundsOf xfm lower upper
  have kx := corner_bounds lower upper p xfm.vx.x xfm.vy.x xfm.vz.x xfm.p.x
    hx1 hx2 hy1 hy2 hz1 hz2
  have ky := corner_bounds lower upper p xfm.vx.y xfm.vy.y xfm.vz.y xfm.p.y
    hx1 hx2 hy1 hy2 hz1 hz2
  have kz := corner_bounds lower upper p xfm.vx.z xfm.vy.z xfm.vz.z xfm.p.z
    hx1 hx2 hy1 hy2 hz1 hz2
  refine ⟨lo, hi, hb, ?_, ?_, ?_, ?_, ?_, ?_⟩
  · obtain ⟨q, hq, hle⟩ := kx.1
    exact le_trans (h1.2 ⟨xfmPoint xfm q, List.mem_map_of_mem _ hq, rfl⟩) hle
  · obtain ⟨q, hq, hle⟩ := kx.2
    exact le_trans hle (h4.2 ⟨xfmPoint xfm q, List.mem_map_of_mem _ hq, rfl⟩)
  · obtain ⟨q, hq, hle⟩ := ky.1
    exact le_trans (h2.2 ⟨xfmPoint xfm q, List.mem_map_of_mem _ hq, rfl⟩) hle
  · obtain ⟨q, hq, hle⟩ := ky.2
    exact le_trans hle (h5.2 ⟨xfmPoint xfm q, List.mem_map_of_mem _ hq, rfl⟩)
  · obtain ⟨q, hq, hle⟩ := kz.1
    exact le_trans (h3.2 ⟨xfmPoint xfm q, List.mem_map_of_mem _ hq, rfl⟩) hle
  · obtain ⟨q, hq, hle⟩ := kz.2
    exact le_trans hle (h6.2 ⟨xfmPoint xfm q, List.mem_map_of_mem _ hq, rfl⟩)

theorem instance_getBounds_eq (num : F32 → K) (inst : Instance) (o : Ref Object) (box : Box3 K)
    (ho : inst.object = some o) (hb : o.val.getBounds num = .ok box) :
    inst.getBounds num = .ok (transformedBoxBounds (inst.xfm.toAffine3 num) box) := by
  unfold Instance.getBounds
  rw [ho]
  show (Except.ok o.val >>= fun object => _) = _
  rw [ok_bind, hb]
  rfl

/-- C18: for every affine transform and every box with finite corners,
`transformedBoxBounds` is the box whose corners are the componentwise minimum and maximum
of the images of the eight corners, and it contains the image of every point of the box;
`Instance::getBounds` is that box for the bounds of the instance's object and the
instance's transform (over exact arithmetic). -/
theorem transformedBoxBounds_spec (xfm : Affine3 K) (lower upper : Vec3 K) :
    (transformedBoxBounds xfm (.mk lower upper)).IsBoundsOf
      ((corners lower upper).map (xfmPoint xfm))
    ∧ (∀ p, (Box3.mk lower upper).Contains p →
        (transformedBoxBounds xfm (.mk lower upper)).Contains (xfmPoint xfm p))
    ∧ (∀ (num : F32 → K) (inst : Instance) (o : Ref Object), inst.object = some o →
        o.val.getBounds num = .ok (.mk lower upper) → inst.xfm.toAffine3 num = xfm →
        inst.getBounds num = .ok (transformedBoxBounds xfm (.mk lower upper))) :=
  ⟨transformedBoxBounds_isBoundsOf xfm lower upper,
    fun p hp => transformedBoxBounds_contains xfm lower upper p hp,
    fun num inst o ho hb hx => hx ▸ instance_getBounds_eq num inst o _ ho hb⟩

end TransformLaws

section SceneBounds

variable {K : Type} [LinearOrderedField K]

theorem blocksOf_single {α : Type} (a : α) : blocksOf 1024 [a] = [[a]] := by
  have h : ([a].length + 1024 - 1) / 1024 = 1 := by
    simp only [List.length_singleton]
  unfold blocksOf
  rw [h]
  have hr : List.range 1 = [0] := rfl
  rw [hr]
  simp only [List.map_cons, List.map_nil, Nat.zero_mul, List.drop_zero]
  rfl

/-- `Scene::getBounds` of a scene with one instance is the transformed box of the bounds
of its object. -/
theorem scene_getBounds_single (num : F32 → K) (s : Scene) (inst : Ref Instance)
    (o : Ref Object) (box : Box3 K) (hs : s.instances = [some inst])
    (ho : inst.val.object = some o) (hb : o.val.getBounds num = .ok box) :
    s.getBounds num = .ok (transformedBoxBounds (inst.val.xfm.toAffine3 num) box) := by
  unfold Scene.getBounds
  rw [hs]
  simp only [mapEach, deref, ok_bind, pure_bind, bind_pure, List.map_cons, List.map_nil, ho,
    List.dedup_cons_of_not_mem (List.not_mem_nil _), List.dedup_nil, hb, blocksOf_single,
    List.foldl_cons, List.foldl_nil, lookupBounds, List.find?_cons, decide_True,
    extendBox_empty_left]
  rfl

end SceneBounds

section Translate

variable {K : Type} [LinearOrderedField K]

theorem xfmPoint_translate (xfm : Affine3 K) (t p : Vec3 K) :
    xfmPoint (xfm.translate t) p = (xfmPoint xfm p).add t := by
  simp only [xfmPoint, Affine3.translate, Vec3.add, Vec3.mk.injEq]
  refine ⟨?_, ?_, ?_⟩ <;> ring

theorem extend_shift (b : Box3 K) (t v : Vec3 K) :
    (b.shift t).extend (v.add t) = (b.extend v).shift t := by
  cases b with
  | empty => rfl
  | nonFinite => rfl
  | mk lower upper =>
    simp only [Box3.shift, Box3.extend, Vec3.min, Vec3.max, Vec3.add, min_add_add_right,
      max_add_add_right]

theorem foldl_extend_shift (t : Vec3 K) (pts : List (Vec3 K)) :
    ∀ b : Box3 K, (pts.map (fun p => p.add t)).foldl Box3.extend (b.shift t)
      = (pts.foldl Box3.extend b).shift t := by
  induction pts with
  | nil => intro b; rfl
  | cons v pts ih =>
    intro b
    simp only [List.map_cons, List.foldl_cons]
    rw [extend_shift, ih]

theorem transformedBoxBounds_translate (xfm : Affine3 K) (t lower upper : Vec3 K) :
    transformedBoxBounds (xfm.translate t) (.mk lower upper)
      = (transformedBoxBounds xfm (.mk lower upper)).shift t := by
  rw [transformedBoxBounds_unrolled, transformedBoxBounds_unrolled, ← foldl_extend_shift,
    List.map_map]
  have e : xfmPoint (xfm.translate t) = (fun p => p.add t) ∘ xfmPoint xfm := by
    funext p
    exact xfmPoint_translate xfm t p
  rw [e]
  rfl

/-- C19: for a scene with one instance whose object has bounds with finite corners,
replacing the instance's transform by the transform followed by the translation by `t`
moves both corners of the box `Scene::getBounds` returns by exactly `t` (over exact
arithmetic). -/
theorem getBounds_translate (num : F32 → K) (s s' : Scene) (inst inst' : Ref Instance)
    (o : Ref Object) (lower upper t : Vec3 K)
    (hs : s.instances = [some inst]) (hs' : s'.instances = [some inst'])
    (ho : inst.val.object = some o) (ho' : inst'.val.object = some o)
    (hb : o.val.getBounds num = .ok (.mk lower upper))
    (hx : inst'.val.xfm.toAffine3 num = (inst.val.xfm.toAffine3 num).translate t) :
    ∃ lo hi, s.getBounds num = .ok (.mk lo hi)
      ∧ s'.getBounds num = .ok (.mk (lo.add t) (hi.add t)) := by
  obtain ⟨lo, hi, e, -⟩ :=
    transformedBoxBounds_isBoundsOf (inst.val.xfm.toAffine3 num) lower upper
  refine ⟨lo, hi, ?_, ?_⟩
  · rw [scene_getBounds_single num s inst o _ hs ho hb, e]
  · rw [scene_getBounds_single num s' inst' o _ hs' ho' hb, hx, transformedBoxBounds_translate, e]
    rfl

end Translate

section SingleMesh

variable {K : Type} [LinearOrderedField K]

theorem object_getBounds_single (num : F32 → K) (o : Object) (m : Ref Mesh)
    (h : o.meshes = [some m]) : o.getBounds num = .ok (m.val.getBounds num) := by
  unfold Object.getBounds
  rw [h]
  have hlen : ¬ [some m].length > 16 * 1024 := by
    simp only [List.length_singleton]
    omega
  rw [if_neg hlen]
  simp only [List.foldlM_cons, List.foldlM_nil, deref, ok_bind, pure_bind, bind_pure,
    extendBox_empty_left]
  rfl

theorem xfmPoint_identity (p : Vec3 K) : xfmPoint Affine3.identity p = p := by
  obtain ⟨x, y, z⟩ := p
  simp only [xfmPoint, Affine3.identity, mul_one, mul_zero, add_zero, zero_add]

theorem isBoundsOf_corners (lower upper : Vec3 K) (hx : lower.x ≤ upper.x)
    (hy : lower.y ≤ upper.y) (hz : lower.z ≤ upper.z) :
    (Box3.mk lower upper).IsBoundsOf (corners lower upper) := by
  refine ⟨lower, upper, rfl, ⟨?_, ?_⟩, ⟨?_, ?_⟩, ⟨?_, ?_⟩, ⟨?_, ?_⟩, ⟨?_, ?_⟩, ⟨?_, ?_⟩⟩
  · exact ⟨⟨lower.x, lower.y, lower.z⟩, (mem_corners _ _ _).mpr ⟨Or.inl rfl, Or.inl rfl, Or.inl rfl⟩, rfl⟩
  · rintro c ⟨p, hp, rfl⟩
    rcases ((mem_corners _ _ _).mp hp).1 with e | e <;> rw [e]
    exact hx
  · exact ⟨⟨lower.x, lower.y, lower.z⟩, (mem_corners _ _ _).mpr ⟨Or.inl rfl, Or.inl rfl, Or.inl rfl⟩, rfl⟩
  · rintro c ⟨p, hp, rfl⟩
    rcases ((mem_corners _ _ _).mp hp).2.1 with e | e <;> rw [e]
    exact hy
  · exact ⟨⟨lower.x, lower.y, lower.z⟩, (mem_corners _ _ _).mpr ⟨Or.inl rfl, Or.inl rfl, Or.inl rfl⟩, rfl⟩
  · rintro c ⟨p, hp, rfl⟩
    rcases ((mem_corners _ _ _).mp hp).2.2 with e | e <;> rw [e]
    exact hz
  · exact ⟨⟨upper.x, upper.y, upper.z⟩, (mem_corners _ _ _).mpr ⟨Or.inr rfl, Or.inr rfl, Or.inr rfl⟩, rfl⟩
  · rintro c ⟨p, hp, rfl⟩
    rcases ((mem_corners _ _ _).mp hp).1 with e | e <;> rw [e]
    exact hx
  · exact ⟨⟨upper.x, upper.y, upper.z⟩, (mem_corners _ _ _).mpr ⟨Or.inr rfl, Or.inr rfl, Or.inr rfl⟩, rfl⟩
  · rintro c ⟨p, hp, rfl⟩
    rcases ((mem_corners _ _ _).mp hp).2.1 with e | e <;> rw [e]
    exact hy
  · exact ⟨⟨upper.x, upper.y, upper.z⟩, (mem_corners _ _ _).mpr ⟨Or.inr rfl, Or.inr rfl, Or.inr rfl⟩, rfl⟩
  · rintro c ⟨p, hp, rfl⟩
    rcases ((mem_corners _ _ _).mp hp).2.2 with e | e <;> rw [e]
    exact hz

/-- Under the identity transform a box whose lower corner is below its upper corner is
its own transformed box. -/
theorem transformedBoxBounds_identity (lower upper : Vec3 K) (hx : lower.x ≤ upper.x)
    (hy : lower.y ≤ upper.y) (hz : lower.z ≤ upper.z) :
    transformedBoxBounds Affine3.identity (.mk lower upper) = .mk lower upper := by
  have h := transformedBoxBounds_isBoundsOf (Affine3.identity : Affine3 K) lower upper
  have e : (corners lower upper).map (xfmPoint Affine3.identity) = corners lower upper :=
    map_eq_self _ _ (fun p _ => xfmPoint_identity p)
  rw [e] at h
  exact isBoundsOf_unique _ _ _ h (isBoundsOf_corners lower upper hx hy hz)

theorem isBoundsOf_ordered (lower upper : Vec3 K) (pts : List (Vec3 K))
    (h : (Box3.mk lower upper).IsBoundsOf pts) :
    lower.x ≤ upper.x ∧ lower.y ≤ upper.y ∧ lower.z ≤ upper.z := by
  obtain ⟨l, u, e, h1, h2, h3, h4, h5, h6⟩ := h
  cases e
  exact ⟨h1.2 h4.1, h2.2 h5.1, h3.2 h6.1⟩

theorem scene_getBounds_mesh (num : F32 → K) (s : Scene) (inst : Ref Instance)
    (o : Ref Object) (m : Ref Mesh) (hs : s.instances = [some inst])
    (ho : inst.val.object = some o) (hm : o.val.meshes = [some m])
    (hx : inst.val.xfm.toAffine3 num = Affine3.identity) (hv : m.val.vertices ≠ []) :
    ∃ b, s.getBounds num = .ok b ∧ b.IsBoundsOf (m.val.vertices.map (Vec3f.toVec3 num)) := by
  have hb := object_getBounds_single num o.val m hm
  have hne : m.val.vertices.map (Vec3f.toVec3 num) ≠ [] := by
    intro e
    exact hv (List.map_eq_nil_iff.mp e)
  have hbox := ofPoints_isBoundsOf _ hne
  rw [← mesh_getBounds_eq] at hbox
  obtain ⟨lower, upper, e, -⟩ := id hbox
  rw [e] at hbox hb
  obtain ⟨ox, oy, oz⟩ := isBoundsOf_ordered lower upper _ hbox
  refine ⟨.mk lower upper, ?_, hbox⟩
  rw [scene_getBounds_single num s inst o _ hs ho hb, hx,
    transformedBoxBounds_identity lower upper ox oy oz]

end SingleMesh

theorem zero_val : F32.toRat 0 = 0 := by
  norm_num [F32.toRat]

theorem one_val : F32.toRat F32.one = 1 := by
  norm_num [F32.toRat, F32.one]

theorem two_val : F32.toRat F32.two = 2 := by
  norm_num [F32.toRat, F32.two]

theorem half_val : F32.toRat F32.half = 1 / 2 := by
  norm_num [F32.toRat, F32.half]

theorem negHalf_val : F32.toRat F32.negHalf = -1 / 2 := by
  norm_num [F32.toRat, F32.negHalf]

theorem identityXfm_val : identityXfm.toAffine3 F32.toRat = Affine3.identity := by
  simp only [identityXfm, Affine3f.toAffine3, Vec3f.toVec3, Affine3.identity, one_val, zero_val]

theorem shiftedXfm_val :
    shiftedXfm.toAffine3 F32.toRat
      = (identityXfm.toAffine3 F32.toRat).translate ⟨2, 1, 1 / 2⟩ := by
  simp only [shiftedXfm, identityXfm, Affine3f.toAffine3, Vec3f.toVec3, Affine3.translate,
    Vec3.add, one_val, zero_val, two_val, half_val, zero_add]

theorem cube_mesh_bounds :
    cubeMesh.val.getBounds F32.toRat = .mk ⟨-1 / 2, -1 / 2, -1 / 2⟩ ⟨1 / 2, 1 / 2, 1 / 2⟩ := by
  rw [mesh_getBounds_eq]
  norm_num [cubeMesh, Vec3f.toVec3, Box3.extend, Vec3.min, Vec3.max, half_val, negHalf_val]

theorem cube_object_bounds :
    cubeObject.val.getBounds F32.toRat
      = .ok (.mk ⟨-1 / 2, -1 / 2, -1 / 2⟩ ⟨1 / 2, 1 / 2, 1 / 2⟩) := by
  rw [object_getBounds_single F32.toRat cubeObject.val cubeMesh rfl, cube_mesh_bounds]

theorem cube_scene_bounds :
    (cubeScene identityXfm).getBounds F32.toRat
      = .ok (.mk ⟨-1 / 2, -1 / 2, -1 / 2⟩ ⟨1 / 2, 1 / 2, 1 / 2⟩) := by
  rw [scene_getBounds_single F32.toRat (cubeScene identityXfm)
    ⟨550, { object := some cubeObject, xfm := identityXfm }⟩ cubeObject _ rfl rfl
    cube_object_bounds]
  show Except.ok (transformedBoxBounds (identityXfm.toAffine3 F32.toRat) _) = _
  rw [identityXfm_val, transformedBoxBounds_identity _ _ (by norm_num) (by norm_num)
    (by norm_num)]

/-- C20: for a scene with one instance whose transform is the identity and whose object
has one mesh with at least one vertex, `Scene::getBounds` returns the box whose corners
are the componentwise minimum and maximum of the mesh's vertices; for the unit cube
centred at the origin that box has lower corner (-1/2,-1/2,-1/2) and upper corner
(1/2,1/2,1/2). -/
theorem getBounds_single_mesh :
    (∀ {K : Type} [LinearOrderedField K] (num : F32 → K) (s : Scene) (inst : Ref Instance)
        (o : Ref Object) (m : Ref Mesh),
        s.instances = [some inst] → inst.val.object = some o → o.val.meshes = [some m] →
        inst.val.xfm.toAffine3 num = Affine3.identity → m.val.vertices ≠ [] →
        ∃ b, s.getBounds num = .ok b ∧ b.IsBoundsOf (m.val.vertices.map (Vec3f.toVec3 num)))
    ∧ (cubeScene identityXfm).getBounds F32.toRat
        = .ok (.mk ⟨-1 / 2, -1 / 2, -1 / 2⟩ ⟨1 / 2, 1 / 2, 1 / 2⟩) :=
  ⟨fun num s inst o m hs ho hm hx hv => scene_getBounds_mesh num s inst o m hs ho hm hx hv,
    cube_scene_bounds⟩

theorem getBounds_single_mesh_witness :
    ∃ b, (cubeScene identityXfm).getBounds F32.toRat = .ok b
      ∧ b.IsBoundsOf (cubeMesh.val.vertices.map (Vec3f.toVec3 F32.toRat)) :=
  getBounds_single_mesh.1 F32.toRat (cubeScene identityXfm)
    ⟨550, { object := some cubeObject, xfm := identityXfm }⟩ cubeObject cubeMesh rfl rfl rfl
    identityXfm_val (by decide)

theorem getBounds_translate_witness :
    ∃ lo hi, (cubeScene identityXfm).getBounds F32.toRat = .ok (.mk lo hi)
      ∧ (cubeScene shiftedXfm).getBounds F32.toRat
          = .ok (.mk (lo.add ⟨2, 1, 1 / 2⟩) (hi.add ⟨2, 1, 1 / 2⟩)) :=
  getBounds_translate F32.toRat (cubeScene identityXfm) (cubeScene shiftedXfm)
    ⟨550, { object := some cubeObject, xfm := identityXfm }⟩
    ⟨550, { object := some cubeObject, xfm := shiftedXfm }⟩ cubeObject
    ⟨-1 / 2, -1 / 2, -1 / 2⟩ ⟨1 / 2, 1 / 2, 1 / 2⟩ ⟨2, 1, 1 / 2⟩ rfl rfl rfl rfl
    cube_object_bounds shiftedXfm_val

/-- A quarter turn about the z axis followed by a translation. -/
theorem transformedBoxBounds_spec_witness :
    (transformedBoxBounds (⟨⟨0, 1, 0⟩, ⟨-1, 0, 0⟩, ⟨0, 0, 1⟩, ⟨1, 2, 3⟩⟩ : Affine3 ℚ)
        (.mk ⟨0, 0, 0⟩ ⟨1, 1, 1⟩)).Contains
      (xfmPoint ⟨⟨0, 1, 0⟩, ⟨-1, 0, 0⟩, ⟨0, 0, 1⟩, ⟨1, 2, 3⟩⟩ ⟨1 / 2, 1 / 3, 1 / 4⟩) :=
  (transformedBoxBounds_spec (⟨⟨0, 1, 0⟩, ⟨-1, 0, 0⟩, ⟨0, 0, 1⟩, ⟨1, 2, 3⟩⟩ : Affine3 ℚ)
    ⟨0, 0, 0⟩ ⟨1, 1, 1⟩).2.1 ⟨1 / 2, 1 / 3, 1 / 4⟩
    ⟨⟨0, 0, 0⟩, ⟨1, 1, 1⟩, rfl, by norm_num, by norm_num, by norm_num, by norm_num,
      by norm_num, by norm_num⟩

/-! ## The trailing word -/

theorem load_good_trailer (inp : List Byte) (r : Loaded) (inp' : List Byte) (w : SizeT)
    (rest : List Byte) (hs : Scene.loadSections inp = .ok (r, inp'))
    (hw : io.readElement inp' = .ok (w, rest))
    (h : w.val = 4321000012 ∨ w.val = 4321000011) :
    Scene.load inp = .ok r.scene := by
  unfold Scene.load Scene.loadTables
  rw [hs, ok_bind]
  dsimp only
  rw [hw, ok_bind]
  dsimp only
  have hn : ¬ (w.val ≠ expected_magic ∧ w.val ≠ expected_magic - 1) := by
    rintro ⟨h1, h2⟩
    rcases h with h | h
    · exact h1 h
    · exact h2 h
  rw [if_neg hn]
  rfl

theorem load_saved_legacy (ser : SerializedScene) (s : Scene) (hz : ser.Sized s)
    (hin : ser.InRange s) (hm : ser.LegacyMaterials) :
    ∃ body, Scene.saveLegacyWith ser s
        = .ok (body ++ io.writeElement (SizeT.wrap (expected_magic - 1)))
      ∧ (∃ rest, body = io.writeElement (SizeT.wrap 4321000011) ++ rest)
      ∧ ∀ rest, Scene.loadSections (body ++ rest)
          = .ok (Scene.reloadAs 11 (fun n => reloadMaterialsLegacy ser
              (reloadTextures 0 ser.textures.list) n ser.materials.list) ser s, rest) := by
  have hm' : ∀ mat ∈ ser.materials.list, ∃ r, mat = some r ∧ ∃ d, r.val = .disney d
      ∧ (0 ≤ (ser.textures.getID d.colorTexture).val
          ∧ (ser.textures.getID d.colorTexture).val.toNat
              < (reloadTextures 0 ser.textures.list).length)
      ∧ (0 ≤ (ser.textures.getID d.alphaTexture).val
          ∧ (ser.textures.getID d.alphaTexture).val.toNat
              < (reloadTextures 0 ser.textures.list).length) := by
    intro mat hmat
    rw [reloadTextures_length]
    exact hm mat hmat
  obtain ⟨bm, hbm, hlm⟩ := loadMaterials_legacy ser (reloadTextures 0 ser.textures.list)
    ser.materials.list hm'
  obtain ⟨bl, bo, hbl, hbo, hload⟩ := loadBody_saved 11 ser s hz hin bm
    (fun n => reloadMaterialsLegacy ser (reloadTextures 0 ser.textures.list) n
      ser.materials.list)
    (fun n => reloadMaterialsLegacy_length _ _ _ _) hlm
  refine ⟨io.writeElement (SizeT.wrap (expected_magic - 1)) ++ saveTextures ser ++ bl ++
      (io.writeElement (SizeT.wrap ser.materials.list.length) ++ bm) ++
      (io.writeElement (SizeT.wrap ser.objects.size) ++ bo) ++ saveInstances ser s, ?_,
      ⟨_, by simp only [List.append_assoc]; rfl⟩, ?_⟩
  · simp only [Scene.saveLegacyWith, saveMaterialsLegacy, saveObjects, hbl, hbm, hbo, ok_bind]
    rfl
  · intro rest
    unfold Scene.loadSections
    simp only [List.append_assoc]
    rw [readElement_append, ok_bind]
    dsimp only
    rw [formatOfMagic_previous, ok_bind, hload]

theorem load_saved_current (ser : SerializedScene) (s : Scene) (hz : ser.Sized s)
    (hr : ser.Resolves s) :
    ∃ body, Scene.saveWith ser s = .ok (body ++ io.writeElement (SizeT.wrap expected_magic))
      ∧ (∃ rest, body = io.writeElement (SizeT.wrap 4321000012) ++ rest)
      ∧ ∀ rest, Scene.loadSections (body ++ rest) = .ok (Scene.reload ser s, rest) := by
  obtain ⟨bm, hbm, hlm⟩ := loadMaterials_saved ser (reloadTextures 0 ser.textures.list)
    ser.materials.list (by
      intro mat hmat
      obtain ⟨r, hr1, hsup, hd⟩ := hr.1 mat hmat
      refine ⟨r, hr1, hsup, ?_⟩
      intro d hd'
      have := hd d hd'
      rw [reloadTextures_length]
      exact ⟨resolves_range this.1, resolves_range this.2⟩)
  obtain ⟨bl, bo, hbl, hbo, hload⟩ := loadBody_saved 12 ser s hz (resolves_inRange ser s hr) bm
    (fun n => reloadMaterials ser.textures.registry (reloadTextures 0 ser.textures.list) n
      ser.materials.list)
    (fun n => reloadMaterials_length _ _ _ _) hlm
  refine ⟨io.writeElement (SizeT.wrap expected_magic) ++ saveTextures ser ++ bl ++
      (io.writeElement (SizeT.wrap ser.materials.list.length) ++ bm) ++
      (io.writeElement (SizeT.wrap ser.objects.size) ++ bo) ++ saveInstances ser s, ?_,
      ⟨_, by simp only [List.append_assoc]; rfl⟩, ?_⟩
  · simp only [Scene.saveWith, saveMaterials, saveObjects, hbl, hbm, hbo, ok_bind]
    rfl
  · intro rest
    unfold Scene.loadSections
    simp only [List.append_assoc]
    rw [readElement_append, ok_bind]
    dsimp only
    rw [formatOfMagic_current, ok_bind, hload]
    rfl

theorem current_word_val : (SizeT.wrap 4321000012).val = 4321000012 := by decide

theorem previous_word_val : (SizeT.wrap 4321000011).val = 4321000011 := by decide

/-- C29: `Scene::load` accepts either magic word as the trailing word whatever the
leading word was: when the sections parse under the format the leading word chose and the
word after them is 4321000012 or 4321000011, the load succeeds with the scene the
sections gave.  So a file `Scene::save` wrote loads to the same scene with its trailing
word replaced by 4321000011, and a version-11 file loads to the same scene with its
trailing word replaced by 4321000012. -/
theorem load_mixed_words :
    (∀ (inp : List Byte) (r : Loaded) (inp' : List Byte) (w : SizeT) (rest : List Byte),
        Scene.loadSections inp = .ok (r, inp') → io.readElement inp' = .ok (w, rest) →
        (w.val = 4321000012 ∨ w.val = 4321000011) → Scene.load inp = .ok r.scene)
    ∧ (∀ (ser : SerializedScene) (s : Scene), ser.Sized s → ser.Resolves s →
        ∃ body scene, Scene.saveWith ser s = .ok (body ++ io.writeElement (SizeT.wrap 4321000012))
          ∧ (∃ rest, body = io.writeElement (SizeT.wrap 4321000012) ++ rest)
          ∧ Scene.load (body ++ io.writeElement (SizeT.wrap 4321000012)) = .ok scene
          ∧ Scene.load (body ++ io.writeElement (SizeT.wrap 4321000011)) = .ok scene)
    ∧ (∀ (ser : SerializedScene) (s : Scene), ser.Sized s → ser.InRange s →
        ser.LegacyMaterials →
        ∃ body scene, Scene.saveLegacyWith ser s
            = .ok (body ++ io.writeElement (SizeT.wrap 4321000011))
          ∧ (∃ rest, body = io.writeElement (SizeT.wrap 4321000011) ++ rest)
          ∧ Scene.load (body ++ io.writeElement (SizeT.wrap 4321000011)) = .ok scene
          ∧ Scene.load (body ++ io.writeElement (SizeT.wrap 4321000012)) = .ok scene) := by
  refine ⟨load_good_trailer, ?_, ?_⟩
  · intro ser s hz hr
    obtain ⟨body, hsave, hlead, hload⟩ := load_saved_current ser s hz hr
    refine ⟨body, (Scene.reload ser s).scene, hsave, hlead, ?_, ?_⟩
    · exact load_good_trailer _ _ _ _ _ (hload _) (readElement_exact _)
        (Or.inl current_word_val)
    · exact load_good_trailer _ _ _ _ _ (hload _) (readElement_exact _)
        (Or.inr previous_word_val)
  · intro ser s hz hin hm
    obtain ⟨body, hsave, hlead, hload⟩ := load_saved_legacy ser s hz hin hm
    refine ⟨body, (Scene.reloadAs 11 (fun n => reloadMaterialsLegacy ser
      (reloadTextures 0 ser.textures.list) n ser.materials.list) ser s).scene, hsave, hlead,
      ?_, ?_⟩
    · exact load_good_trailer _ _ _ _ _ (hload _) (readElement_exact _)
        (Or.inr previous_word_val)
    · exact load_good_trailer _ _ _ _ _ (hload _) (readElement_exact _)
        (Or.inl current_word_val)

theorem load_mixed_words_witness :
    ∃ body scene, Scene.saveWith (SerializedScene.ofScene demoScene) demoScene
        = .ok (body ++ io.writeElement (SizeT.wrap 4321000012))
      ∧ (∃ rest, body = io.writeElement (SizeT.wrap 4321000012) ++ rest)
      ∧ Scene.load (body ++ io.writeElement (SizeT.wrap 4321000012)) = .ok scene
      ∧ Scene.load (body ++ io.writeElement (SizeT.wrap 4321000011)) = .ok scene :=
  load_mixed_words.2.1 (SerializedScene.ofScene demoScene) demoScene (by decide) (by decide)

/-! ## Null mesh slots -/

theorem loadMeshes_skip (materials : List (SP Material)) (k next : Nat) (rest : List Byte) :
    loadMeshes materials (k + 1) next (io.writeElement (I32.wrap 0) ++ rest)
      = loadMeshes materials k next rest := by
  conv_lhs => unfold loadMeshes
  rw [readElement_append, ok_bind]
  dsimp only
  rw [if_pos wrap32_zero]

theorem reloadMeshes_length (ser : SerializedScene) (materials : List (SP Material))
    (next : Nat) (l : List (SP Mesh)) :
    (reloadMeshes ser materials next l).length = liveCount l := by
  induction l generalizing next with
  | nil => rfl
  | cons mesh l ih =>
    cases mesh with
    | none => simp only [reloadMeshes, liveCount, ih]
    | some m => simp only [reloadMeshes, liveCount, List.length_cons, ih]

theorem liveCount_filter {α : Type} (l : List (SP α)) :
    liveCount l = (l.filter Option.isSome).length := by
  induction l with
  | nil => rfl
  | cons a l ih =>
    cases a with
    | none => simp only [liveCount, List.filter_cons, Option.isSome_none, Bool.false_eq_true,
        if_false, ih]
    | some r => simp only [liveCount, List.filter_cons, Option.isSome_some, if_true,
        List.length_cons, ih]

theorem reloadObjects_meshes (ser : SerializedScene) (materials : List (SP Material)) :
    ∀ (l : List (SP Object)) (next k : Nat) (o : Ref Object), l[k]? = some (some o) →
      ∃ a n, (reloadObjects ser materials next l)[k]?
        = some (some ⟨a, { meshes := reloadMeshes ser materials n o.val.meshes }⟩) := by
  intro l
  induction l with
  | nil => intro next k o h; simp at h
  | cons x l ih =>
    intro next k o h
    cases k with
    | zero =>
      simp only [List.getElem?_cons_zero, Option.some.injEq] at h
      subst h
      exact ⟨next, next + 1, by simp only [reloadObjects, List.getElem?_cons_zero]⟩
    | succ k =>
      simp only [List.getElem?_cons_succ] at h
      cases x with
      | none =>
        obtain ⟨a, n, e⟩ := ih next k o h
        exact ⟨a, n, by simp only [reloadObjects, List.getElem?_cons_succ, e]⟩
      | some r =>
        obtain ⟨a, n, e⟩ := ih (next + 1 + liveCount r.val.meshes) k o h
        exact ⟨a, n, by simp only [reloadObjects, List.getElem?_cons_succ, e]⟩

theorem reload_materials_strip (ser : SerializedScene) (s : Scene) (hr : ser.Resolves s) :
    (Scene.reload ser s).materials.map (stripSP Material.strip)
      = ser.materials.list.map (stripSP Material.strip) := by
  apply reloadMaterials_strip
  intro mat hmat r hrm d hd
  obtain ⟨r', hr', -, hd'⟩ := hr.1 mat hmat
  rw [Option.mem_def] at hrm
  rw [hrm] at hr'
  cases Option.some.inj hr'
  exact hd' d hd

/-- C27: `Scene::save` writes validity flag 0 for a null mesh slot, and the mesh loop of
`Scene::load` passes over a record with flag 0 without appending anything.  So for every
serialized view whose counts fit and whose IDs resolve, the object `Scene::load` builds
at a position of the object table has the meshes of the saved object with the null slots
removed, in the same order: their number is the number of non-null slots, and the loaded
scene has the structure of the saved scene without its null mesh slots. -/
theorem null_mesh_dropped :
    (∀ ser : SerializedScene, saveMesh ser none = .ok (io.writeElement (I32.wrap 0)))
    ∧ (∀ (materials : List (SP Material)) (k next : Nat) (rest : List Byte),
        loadMeshes materials (k + 1) next (io.writeElement (I32.wrap 0) ++ rest)
          = loadMeshes materials k next rest)
    ∧ (∀ (ser : SerializedScene) (s : Scene), ser.Sized s → ser.Resolves s →
        ∃ b r, Scene.saveWith ser s = .ok b ∧ Scene.loadTables b = .ok r
          ∧ Scene.load b = .ok r.scene
          ∧ r.scene.strip = s.compact.strip
          ∧ r.objects.length = ser.objects.list.length
          ∧ ∀ (k : Nat) (o : Ref Object), ser.objects.list[k]? = some (some o) →
              ∃ o', r.objects[k]? = some (some o')
                ∧ o'.val.meshes.length = (o.val.meshes.filter Option.isSome).length
                ∧ o'.val.meshes.map (stripSP Mesh.strip)
                    = (o.val.meshes.filter Option.isSome).map (stripSP Mesh.strip)) := by
  refine ⟨fun _ => rfl, loadMeshes_skip, ?_⟩
  intro ser s hz hr
  obtain ⟨b, hb, hload⟩ := loadTables_saved ser s hz hr
  refine ⟨b, _, hb, hload, load_of_loadTables b _ hload, reload_strip ser s hr,
    reloadObjects_length _ _ _ _, ?_⟩
  intro k o hk
  obtain ⟨a, n, e⟩ := reloadObjects_meshes ser (Scene.reload ser s).materials
    ser.objects.list _ k o hk
  refine ⟨_, e, ?_, ?_⟩
  · show (reloadMeshes ser _ n o.val.meshes).length = _
    rw [reloadMeshes_length, liveCount_filter]
  · show (reloadMeshes ser _ n o.val.meshes).map (stripSP Mesh.strip) = _
    apply reloadMeshes_strip ser _ (reload_materials_strip ser s hr)
    intro mesh hmesh m hm
    have hmem : some o ∈ ser.objects.list := by
      obtain ⟨hlt, hv⟩ := List.getElem?_eq_some_iff.mp hk
      exact hv ▸ List.getElem_mem hlt
    obtain ⟨o', ho', hres⟩ := hr.2.1 (some o) hmem
    cases Option.some.inj ho'
    exact hres mesh hmesh m hm

theorem null_mesh_dropped_witness :
    ∃ b r, Scene.saveWith (SerializedScene.ofScene gapScene) gapScene = .ok b
      ∧ Scene.loadTables b = .ok r ∧ Scene.load b = .ok r.scene
      ∧ r.scene.strip = gapScene.compact.strip
      ∧ r.objects.length = (SerializedScene.ofScene gapScene).objects.list.length
      ∧ ∀ (k : Nat) (o : Ref Object),
          (SerializedScene.ofScene gapScene).objects.list[k]? = some (some o) →
          ∃ o', r.objects[k]? = some (some o')
            ∧ o'.val.meshes.length = (o.val.meshes.filter Option.isSome).length
            ∧ o'.val.meshes.map (stripSP Mesh.strip)
                = (o.val.meshes.filter Option.isSome).map (stripSP Mesh.strip) :=
  null_mesh_dropped.2.2 (SerializedScene.ofScene gapScene) gapScene (by decide) (by decide)


/-! ## Quarter turns of a cube -/

section QuarterTurn

variable {K : Type} [LinearOrderedField K]

/-- A quarter turn about a coordinate axis maps the cube of half-width `h` about the
origin onto a box with the same bounds. -/
theorem transformedBoxBounds_quarterTurn (rot : Affine3 K)
    (hrot : rot ∈ (quarterTurns : List (Affine3 K))) (h : K) (hh : 0 ≤ h) :
    transformedBoxBounds rot (.mk ⟨-h, -h, -h⟩ ⟨h, h, h⟩) = .mk ⟨-h, -h, -h⟩ ⟨h, h, h⟩ := by
  have hle : -h ≤ h := neg_le_self hh
  rw [transformedBoxBounds_unrolled]
  simp only [quarterTurns, List.mem_cons, List.mem_singleton, List.not_mem_nil, or_false] at hrot
  rcases hrot with rfl | rfl | rfl | rfl | rfl | rfl <;>
    simp [xfmPoint, Box3.extend, Vec3.min, Vec3.max, hle, hh]

/-- C21: for every scene with one instance whose object has the bounds of the
axis-aligned cube of half-width `h` about the origin, and whose transform is one of the six
rotations by 90 degrees about a coordinate axis, `Scene::getBounds` returns the extents of
the cube, `[-h, h]` in every coordinate. -/
theorem getBounds_quarter_turn (num : F32 → K) (s : Scene) (inst : Ref Instance)
    (o : Ref Object) (h : K) (hs : s.instances = [some inst]) (ho : inst.val.object = some o)
    (hh : 0 ≤ h) (hb : o.val.getBounds num = .ok (.mk ⟨-h, -h, -h⟩ ⟨h, h, h⟩))
    (hrot : inst.val.xfm.toAffine3 num ∈ (quarterTurns : List (Affine3 K))) :
    s.getBounds num = .ok (.mk ⟨-h, -h, -h⟩ ⟨h, h, h⟩) := by
  rw [scene_getBounds_single num s inst o _ hs ho hb,
    transformedBoxBounds_quarterTurn _ hrot h hh]

end QuarterTurn

theorem negOne_val : F32.toRat F32.negOne = -1 := by
  norm_num [F32.toRat, F32.negOne]

theorem quarterTurnXfm_val :
    quarterTurnXfm.toAffine3 F32.toRat ∈ (quarterTurns : List (Affine3 ℚ)) := by
  simp only [quarterTurnXfm, Affine3f.toAffine3, Vec3f.toVec3, one_val, zero_val, negOne_val,
    quarterTurns]
  simp

theorem cube_object_extents :
    cubeObject.val.getBounds F32.toRat
      = .ok (.mk ⟨-(1 / 2), -(1 / 2), -(1 / 2)⟩ ⟨1 / 2, 1 / 2, 1 / 2⟩) := by
  rw [cube_object_bounds]
  norm_num

/-- The unit cube under the quarter turn about the z axis keeps its bounds. -/
theorem getBounds_quarter_turn_witness :
    (cubeScene quarterTurnXfm).getBounds F32.toRat
      = .ok (.mk ⟨-(1 / 2), -(1 / 2), -(1 / 2)⟩ ⟨1 / 2, 1 / 2, 1 / 2⟩) :=
  getBounds_quarter_turn F32.toRat (cubeScene quarterTurnXfm)
    ⟨550, { object := some cubeObject, xfm := quarterTurnXfm }⟩ cubeObject (1 / 2) rfl rfl
    (by norm_num) cube_object_extents quarterTurnXfm_val


/-! ## The block-parallel reductions -/

section Blocked

variable {K : Type} [LinearOrderedField K]

theorem vec3_min_comm (a b : Vec3 K) : a.min b = b.min a := by
  simp only [Vec3.min, min_comm]

theorem vec3_max_comm (a b : Vec3 K) : a.max b = b.max a := by
  simp only [Vec3.max, max_comm]

theorem extendBox_comm (a b : Box3 K) : a.extendBox b = b.extendBox a := by
  cases a <;> cases b <;> simp only [Box3.extendBox, vec3_min_comm, vec3_max_comm]

theorem extendBox_assoc (a b c : Box3 K) :
    (a.extendBox b).extendBox c = a.extendBox (b.extendBox c) := by
  cases a <;> cases b <;> cases c <;>
    simp only [Box3.extendBox, vec3_min_assoc, vec3_max_assoc]

theorem extendBox_right_comm (a b c : Box3 K) :
    (a.extendBox b).extendBox c = (a.extendBox c).extendBox b := by
  rw [extendBox_assoc, extendBox_comm b c, ← extendBox_assoc]

/-- A fold of box unions does not depend on the order of the boxes. -/
theorem foldl_extendBox_perm {α : Type} (g : α → Box3 K) {l₁ l₂ : List α} (p : l₁.Perm l₂) :
    ∀ acc : Box3 K, l₁.foldl (fun b x => b.extendBox (g x)) acc
      = l₂.foldl (fun b x => b.extendBox (g x)) acc := by
  induction p with
  | nil => intro acc; rfl
  | cons x _ ih => intro acc; simp only [List.foldl_cons]; exact ih _
  | swap x y l => intro acc; simp only [List.foldl_cons]; rw [extendBox_right_comm]
  | trans _ _ ih₁ ih₂ => intro acc; rw [ih₁, ih₂]

theorem extendBox_foldl_extendBox {α : Type} (g : α → Box3 K) (l : List α) :
    ∀ a c : Box3 K, a.extendBox (l.foldl (fun b x => b.extendBox (g x)) c)
      = l.foldl (fun b x => b.extendBox (g x)) (a.extendBox c) := by
  induction l with
  | nil => intro a c; rfl
  | cons x l ih =>
    intro a c
    simp only [List.foldl_cons]
    rw [ih, extendBox_assoc]

/-- Merging one box per block is the fold over all elements. -/
theorem blocks_foldl_extendBox {α : Type} (g : α → Box3 K) (blocks : List (List α)) :
    ∀ acc : Box3 K,
      blocks.foldl (fun bounds block =>
          bounds.extendBox (block.foldl (fun b x => b.extendBox (g x)) .empty)) acc
        = blocks.flatten.foldl (fun b x => b.extendBox (g x)) acc := by
  induction blocks with
  | nil => intro acc; rfl
  | cons block blocks ih =>
    intro acc
    simp only [List.foldl_cons, List.flatten_cons, List.foldl_append]
    rw [ih, extendBox_foldl_extendBox, extendBox_empty_right]

theorem extendBox_foldl_map {α : Type} (f : α → Vec3 K) (l : List α) :
    ∀ a c : Box3 K, a.extendBox (l.foldl (fun b v => b.extend (f v)) c)
      = l.foldl (fun b v => b.extend (f v)) (a.extendBox c) := by
  induction l with
  | nil => intro a c; rfl
  | cons v l ih =>
    intro a c
    simp only [List.foldl_cons]
    rw [ih, extendBox_extend]

/-- Merging the block boxes of a mesh in any order of completion is the loop over all
vertices. -/
theorem mesh_getBoundsBlocked_eq (num : F32 → K) (m : Mesh) (completion : List (List Vec3f))
    (p : completion.Perm (blocksOf (16 * 1024) m.vertices)) :
    Mesh.getBoundsBlocked num completion = m.getBoundsSequential num := by
  unfold Mesh.getBoundsBlocked Mesh.getBoundsSequential
  rw [foldl_extendBox_perm
    (fun block : List Vec3f => block.foldl (fun blockBox vtx => blockBox.extend (vtx.toVec3 num))
      (.empty : Box3 K)) p]
  have e : ∀ blocks : List (List Vec3f), ∀ acc : Box3 K,
      blocks.foldl (fun bounds block => bounds.extendBox
        (block.foldl (fun blockBox vtx => blockBox.extend (vtx.toVec3 num)) .empty)) acc
      = blocks.flatten.foldl (fun bounds vtx => bounds.extend (vtx.toVec3 num)) acc := by
    intro blocks
    induction blocks with
    | nil => intro acc; rfl
    | cons b bs ih =>
      intro acc
      simp only [List.foldl_cons, List.flatten_cons, List.foldl_append]
      rw [ih, extendBox_foldl_map, extendBox_empty_right]
  rw [e, blocksOf_flatten _ _ (by decide)]

/-- The loop over mesh slots: the union of the boxes when every slot is non-null, a null
dereference else. -/
theorem meshes_foldlM (num : F32 → K) (meshes : List (SP Mesh)) :
    ∀ acc : Box3 K,
      meshes.foldlM (fun bounds mesh => do
          let m ← deref mesh
          pure (bounds.extendBox (m.getBounds num))) acc
        = if meshes.all Option.isSome then
            .ok (meshes.foldl (fun b mesh => b.extendBox (slotBounds num mesh)) acc)
          else .error .undefinedBehaviour := by
  induction meshes with
  | nil => intro acc; rfl
  | cons mesh meshes ih =>
    intro acc
    cases mesh with
    | none => rfl
    | some m =>
      simp only [List.foldlM_cons, deref, ok_bind, pure_bind, List.all_cons, Option.isSome_some,
        Bool.true_and, List.foldl_cons, slotBounds]
      exact ih _

/-- The merge of one box per block of mesh slots. -/
theorem blocks_foldlM (num : F32 → K) (blocks : List (List (SP Mesh))) :
    ∀ acc : Box3 K,
      blocks.foldlM (fun (bounds : Box3 K) (block : List (SP Mesh)) => do
          let blockBox ← block.foldlM (fun (blockBox : Box3 K) (mesh : SP Mesh) => do
              let m ← deref mesh
              pure (blockBox.extendBox (m.getBounds num))) (Box3.empty : Box3 K)
          pure (bounds.extendBox blockBox)) acc
        = if blocks.flatten.all Option.isSome then
            .ok (blocks.foldl (fun (bounds : Box3 K) (block : List (SP Mesh)) => bounds.extendBox
              (block.foldl (fun (b : Box3 K) (mesh : SP Mesh) => b.extendBox (slotBounds num mesh))
                (.empty : Box3 K))) acc)
          else .error .undefinedBehaviour := by
  induction blocks with
  | nil => intro acc; rfl
  | cons block blocks ih =>
    intro acc
    simp only [List.foldlM_cons, List.flatten_cons, List.all_append, List.foldl_cons]
    rw [meshes_foldlM]
    by_cases hb : block.all Option.isSome = true
    · rw [if_pos hb, ok_bind, pure_bind, ih, hb, Bool.true_and]
    · rw [if_neg hb]
      have hb' : block.all Option.isSome = false := by simpa using hb
      rw [hb', Bool.false_and]
      rfl

theorem all_perm {α : Type} (q : α → Bool) {l₁ l₂ : List α} (p : l₁.Perm l₂) :
    l₁.all q = l₂.all q := by
  induction p with
  | nil => rfl
  | cons x _ ih => simp only [List.all_cons, ih]
  | swap x y l => simp only [List.all_cons, Bool.and_left_comm]
  | trans _ _ ih₁ ih₂ => rw [ih₁, ih₂]

theorem all_flatten {α : Type} (q : α → Bool) (ls : List (List α)) :
    ls.flatten.all q = ls.all (fun l => l.all q) := by
  induction ls with
  | nil => rfl
  | cons l ls ih => simp only [List.flatten_cons, List.all_append, List.all_cons, ih]

/-- Merging the block boxes of an object in any order of completion is the loop over all
mesh slots. -/
theorem object_getBoundsBlocked_eq (num : F32 → K) (o : Object)
    (completion : List (List (SP Mesh))) (p : completion.Perm (blocksOf (16 * 1024) o.meshes)) :
    Object.getBoundsBlocked num completion = o.getBoundsSequential num := by
  unfold Object.getBoundsBlocked Object.getBoundsSequential
  rw [blocks_foldlM, meshes_foldlM, all_flatten, all_perm _ p, ← all_flatten,
    blocksOf_flatten _ _ (by decide),
    foldl_extendBox_perm (fun block : List (SP Mesh) =>
      block.foldl (fun b mesh => b.extendBox (slotBounds num mesh)) (.empty : Box3 K)) p,
    blocks_foldl_extendBox, blocksOf_flatten _ _ (by decide)]

/-- C22: for every mesh and every object with more than `16*1024` elements, `getBounds`
is the block reduction over the blocks of at most `16*1024` consecutive elements; and for
every mesh and every object, the block reduction with the block boxes merged in any order
of completion returns the same as the sequential loop over all elements in order. -/
theorem getBounds_blocked_eq_sequential (num : F32 → K) :
    (∀ m : Mesh, 16 * 1024 < m.vertices.length →
        m.getBounds num = Mesh.getBoundsBlocked num (blocksOf (16 * 1024) m.vertices))
    ∧ (∀ (m : Mesh) (completion : List (List Vec3f)),
        completion.Perm (blocksOf (16 * 1024) m.vertices) →
        Mesh.getBoundsBlocked num completion = m.getBoundsSequential num)
    ∧ (∀ o : Object, 16 * 1024 < o.meshes.length →
        o.getBounds num = Object.getBoundsBlocked num (blocksOf (16 * 1024) o.meshes))
    ∧ (∀ (o : Object) (completion : List (List (SP Mesh))),
        completion.Perm (blocksOf (16 * 1024) o.meshes) →
        Object.getBoundsBlocked num completion = o.getBoundsSequential num)
    ∧ (∀ (α : Type) (items : List α),
        (blocksOf (16 * 1024) items).flatten = items
        ∧ ∀ block ∈ blocksOf (16 * 1024) items, block.length ≤ 16 * 1024) := by
  refine ⟨?_, mesh_getBoundsBlocked_eq num, ?_, object_getBoundsBlocked_eq num, ?_⟩
  · intro m h
    unfold Mesh.getBounds Mesh.getBoundsBlocked
    rw [if_pos h]
  · intro o h
    unfold Object.getBounds Object.getBoundsBlocked
    rw [if_pos h]
  · intro α items
    refine ⟨blocksOf_flatten _ _ (by decide), ?_⟩
    intro block hb
    unfold blocksOf at hb
    obtain ⟨i, -, rfl⟩ := List.mem_map.mp hb
    exact List.length_take_le _ _

end Blocked

theorem largeMesh_length : 16 * 1024 < largeMesh.vertices.length := by
  simp only [largeMesh, List.length_map, List.length_range]
  decide

/-- A mesh of 20000 vertices: its two blocks merged in reverse order give the box of the
sequential loop. -/
theorem getBounds_blocked_eq_sequential_witness :
    16 * 1024 < largeMesh.vertices.length
    ∧ (blocksOf (16 * 1024) largeMesh.vertices).reverse.Perm (blocksOf (16 * 1024) largeMesh.vertices)
    ∧ largeMesh.getBounds F32.toRat
        = Mesh.getBoundsBlocked F32.toRat (blocksOf (16 * 1024) largeMesh.vertices)
    ∧ Mesh.getBoundsBlocked F32.toRat (blocksOf (16 * 1024) largeMesh.vertices).reverse
        = largeMesh.getBoundsSequential F32.toRat :=
  ⟨largeMesh_length, List.reverse_perm _,
    (getBounds_blocked_eq_sequential F32.toRat).1 largeMesh largeMesh_length,
    (getBounds_blocked_eq_sequential F32.toRat).2.1 largeMesh _ (List.reverse_perm _)⟩


/-! ## The bounds of a scene -/

section SceneReference

variable {K : Type} [LinearOrderedField K]

/-- `Object::getBounds` is the sequential loop, whichever branch is taken. -/
theorem object_getBounds_eq (num : F32 → K) (o : Object) :
    o.getBounds num = o.getBoundsSequential num := by
  by_cases h : o.meshes.length > 16 * 1024
  · rw [← object_getBoundsBlocked_eq num o _ (List.Perm.refl _)]
    unfold Object.getBounds Object.getBoundsBlocked
    rw [if_pos h]
  · unfold Object.getBounds Object.getBoundsSequential
    rw [if_neg h]

theorem object_getBounds_ok (num : F32 → K) (o : Object) (h : ∀ mesh ∈ o.meshes, mesh ≠ none) :
    ∃ box, o.getBounds num = .ok box := by
  rw [object_getBounds_eq]
  unfold Object.getBoundsSequential
  rw [meshes_foldlM]
  have hall : o.meshes.all Option.isSome = true := by
    rw [List.all_eq_true]
    intro mesh hm
    cases mesh with
    | none => exact absurd rfl (h _ hm)
    | some m => rfl
  rw [if_pos hall]
  exact ⟨_, rfl⟩

theorem object_getBounds_null (num : F32 → K) (o : Object) (h : none ∈ o.meshes) :
    o.getBounds num = .error .undefinedBehaviour := by
  rw [object_getBounds_eq]
  unfold Object.getBoundsSequential
  rw [meshes_foldlM]
  have hall : ¬ o.meshes.all Option.isSome = true := by
    rw [List.all_eq_true]
    intro hx
    exact absurd (hx _ h) (by decide)
  rw [if_neg hall]

theorem object_getBounds_error (num : F32 → K) (o : Object) (e : Error)
    (h : o.getBounds num = .error e) : e = .undefinedBehaviour ∧ none ∈ o.meshes := by
  by_cases hn : none ∈ o.meshes
  · rw [object_getBounds_null num o hn] at h
    cases h
    exact ⟨rfl, hn⟩
  · obtain ⟨box, hb⟩ := object_getBounds_ok num o (fun mesh hm e => hn (e ▸ hm))
    rw [hb] at h
    cases h

theorem mapEach_ok {α β : Type} (f : α → Except Error β) (g : α → β) (l : List α)
    (h : ∀ a ∈ l, f a = .ok (g a)) : mapEach f l = .ok (l.map g) := by
  induction l with
  | nil => rfl
  | cons a l ih =>
    unfold mapEach
    rw [h a (List.mem_cons_self _ _), ok_bind,
      ih (fun b hb => h b (List.mem_cons_of_mem _ hb)), ok_bind]
    rfl

theorem mapEach_deref {α : Type} (rs : List (Ref α)) :
    mapEach deref (rs.map some) = .ok (rs.map (fun r => r.val)) := by
  induction rs with
  | nil => rfl
  | cons r rs ih =>
    rw [List.map_cons, mapEach, ih]
    rfl

theorem mapEach_error {α β : Type} (f : α → Except Error β) (l : List α) (e : Error)
    (h : mapEach f l = .error e) : ∃ a ∈ l, f a = .error e := by
  induction l with
  | nil => cases h
  | cons a l ih =>
    unfold mapEach at h
    cases hfa : f a with
    | error e' =>
      rw [hfa] at h
      cases h
      exact ⟨a, List.mem_cons_self _ _, hfa⟩
    | ok b =>
      rw [hfa, ok_bind] at h
      cases hl : mapEach f l with
      | error e' =>
        rw [hl] at h
        cases h
        obtain ⟨a', ha', hf⟩ := ih hl
        exact ⟨a', List.mem_cons_of_mem _ ha', hf⟩
      | ok bs =>
        rw [hl, ok_bind] at h
        cases h

theorem mapEach_fails {α β : Type} (f : α → Except Error β) (l : List α) (a : α) (e : Error)
    (ha : a ∈ l) (hf : f a = .error e) : ∃ e', mapEach f l = .error e' := by
  cases hm : mapEach f l with
  | error e' => exact ⟨e', rfl⟩
  | ok bs =>
    exfalso
    induction l generalizing bs with
    | nil => cases ha
    | cons x l ih =>
      unfold mapEach at hm
      cases hfx : f x with
      | error e' => rw [hfx] at hm; cases hm
      | ok b =>
        rw [hfx, ok_bind] at hm
        cases hl : mapEach f l with
        | error e' => rw [hl] at hm; cases hm
        | ok bs' =>
          rcases List.mem_cons.mp ha with rfl | ha'
          · rw [hf] at hfx; cases hfx
          · exact ih ha' bs' hl

theorem foldlM_ok {α β : Type} (f : β → α → Except Error β) (g : β → α → β) (l : List α)
    (h : ∀ a ∈ l, ∀ b, f b a = .ok (g b a)) :
    ∀ acc, l.foldlM f acc = .ok (l.foldl g acc) := by
  induction l with
  | nil => intro acc; rfl
  | cons a l ih =>
    intro acc
    rw [List.foldlM_cons, h a (List.mem_cons_self _ _), ok_bind, List.foldl_cons]
    exact ih (fun b hb => h b (List.mem_cons_of_mem _ hb)) _

omit [LinearOrderedField K] in
theorem lookupBounds_map (g : SP Object → Box3 K) (l : List (SP Object)) (obj : SP Object)
    (h : obj ∈ l) : lookupBounds (l.map (fun x => (x, g x))) obj = g obj := by
  induction l with
  | nil => cases h
  | cons x l ih =>
    unfold lookupBounds
    rw [List.map_cons, List.find?_cons]
    by_cases e : x = obj
    · subst e
      simp only [decide_True]
    · simp only [e, decide_False]
      rcases List.mem_cons.mp h with e' | h'
      · exact absurd e'.symm e
      · exact ih h'

theorem slots_live {α : Type} (l : List (SP α)) (h : ∀ p ∈ l, p ≠ none) :
    ∃ rs : List (Ref α), l = rs.map some := by
  induction l with
  | nil => exact ⟨[], rfl⟩
  | cons p l ih =>
    obtain ⟨rs, e⟩ := ih (fun q hq => h q (List.mem_cons_of_mem _ hq))
    cases p with
    | none => exact absurd rfl (h _ (List.mem_cons_self _ _))
    | some r => exact ⟨r :: rs, by rw [e]; rfl⟩

/-- The box both loops of `Scene::getBounds` return for a scene without null pointers:
the union, in order, of the transformed object boxes. -/
theorem scene_getBounds_live (num : F32 → K) (s : Scene) (h : s.Live) :
    ∃ rs : List (Ref Instance), s.instances = rs.map some
      ∧ s.getBounds num = .ok (rs.foldl (fun bounds inst => bounds.extendBox
          (transformedBoxBounds (inst.val.xfm.toAffine3 num) (objectBox num inst.val.object)))
          .empty)
      ∧ s.getBoundsReference num = .ok (rs.foldl (fun bounds inst => bounds.extendBox
          (transformedBoxBounds (inst.val.xfm.toAffine3 num) (objectBox num inst.val.object)))
          .empty) := by
  obtain ⟨rs, hrs⟩ := slots_live s.instances (by
    intro p hp e
    obtain ⟨i, hi, -⟩ := h p hp
    rw [e] at hi
    cases hi)
  have hobj : ∀ r ∈ rs, ∃ o, r.val.object = some o
      ∧ o.val.getBounds num = .ok (objectBox num r.val.object) := by
    intro r hr
    obtain ⟨i, hi, o, ho, hm⟩ := h (some r) (by rw [hrs]; exact List.mem_map_of_mem _ hr)
    cases hi
    obtain ⟨box, hb⟩ := object_getBounds_ok num o.val hm
    refine ⟨o, ho, ?_⟩
    rw [ho]
    simp only [objectBox, hb]
  refine ⟨rs, hrs, ?_, ?_⟩
  · unfold Scene.getBounds
    rw [hrs, mapEach_deref, ok_bind]
    dsimp only
    rw [mapEach_ok _ (fun obj => (obj, objectBox num obj)) _ (by
      intro obj hobj'
      rw [List.mem_dedup] at hobj'
      obtain ⟨i, hi, rfl⟩ := List.mem_map.mp hobj'
      obtain ⟨r, hr, rfl⟩ := List.mem_map.mp hi
      obtain ⟨o, ho, hb⟩ := hobj r hr
      show (deref r.val.object >>= fun o => _) = _
      rw [ho] at hb ⊢
      show (Except.ok o.val >>= fun o => _) = _
      rw [ok_bind, hb]
      rfl), ok_bind]
    show Except.ok _ = Except.ok _
    congr 1
    rw [blocks_foldl_extendBox, blocksOf_flatten _ _ (by decide), List.map_map, List.foldl_map]
    apply List.foldl_ext
    intro bounds r hr
    show bounds.extendBox (transformedBoxBounds _ (lookupBounds _ r.val.object)) = _
    rw [lookupBounds_map]
    rw [List.mem_dedup]
    exact List.mem_map.mpr ⟨r, hr, rfl⟩
  · unfold Scene.getBoundsReference
    rw [hrs, foldlM_ok _ (fun bounds p => match p with
        | some r => bounds.extendBox
            (transformedBoxBounds (r.val.xfm.toAffine3 num) (objectBox num r.val.object))
        | none => bounds) _ (by
      intro p hp bounds
      obtain ⟨r, hr, rfl⟩ := List.mem_map.mp hp
      obtain ⟨o, ho, hb⟩ := hobj r hr
      show (Except.ok r.val >>= fun i => _) = _
      rw [ok_bind, instance_getBounds_eq num r.val o _ ho hb]
      rfl), List.foldl_map]

end SceneReference


section SceneNull

variable {K : Type} [LinearOrderedField K]

theorem mapEach_ok_inv {α β : Type} (f : α → Except Error β) (l : List α) (bs : List β)
    (h : mapEach f l = .ok bs) : ∀ a ∈ l, ∃ b ∈ bs, f a = .ok b := by
  induction l generalizing bs with
  | nil => intro a ha; cases ha
  | cons x l ih =>
    unfold mapEach at h
    cases hfx : f x with
    | error e => rw [hfx] at h; cases h
    | ok b =>
      rw [hfx, ok_bind] at h
      cases hl : mapEach f l with
      | error e => rw [hl] at h; cases h
      | ok bs' =>
        rw [hl, ok_bind] at h
        cases h
        intro a ha
        rcases List.mem_cons.mp ha with rfl | ha'
        · exact ⟨b, List.mem_cons_self _ _, hfx⟩
        · obtain ⟨b', hb', hf⟩ := ih bs' hl a ha'
          exact ⟨b', List.mem_cons_of_mem _ hb', hf⟩

theorem deref_error {α : Type} (p : SP α) (e : Error) (h : deref p = .error e) :
    e = .undefinedBehaviour := by
  cases p with
  | none => cases h; rfl
  | some r => cases h

/-- The pass that fills `objectBounds` for one object. -/
theorem objectPass_error (num : F32 → K) (obj : SP Object) (e : Error)
    (h : (do
      let o ← deref obj
      let box ← o.getBounds num
      pure (obj, box) : Except Error (SP Object × Box3 K)) = .error e) :
    e = .undefinedBehaviour := by
  cases obj with
  | none => cases h; rfl
  | some o =>
    change (Except.ok o.val >>= fun o' => _) = _ at h
    rw [ok_bind] at h
    cases hb : o.val.getBounds num with
    | error e' =>
      rw [hb] at h
      cases h
      exact (object_getBounds_error num o.val _ hb).1
    | ok box => rw [hb] at h; cases h

theorem objectPass_ok (num : F32 → K) (obj : SP Object) (r : SP Object × Box3 K)
    (h : (do
      let o ← deref obj
      let box ← o.getBounds num
      pure (obj, box) : Except Error (SP Object × Box3 K)) = .ok r) :
    ∃ o, obj = some o ∧ ∀ mesh ∈ o.val.meshes, mesh ≠ none := by
  cases obj with
  | none => cases h
  | some o =>
    refine ⟨o, rfl, ?_⟩
    intro mesh hm e
    subst e
    change (Except.ok o.val >>= fun o' => _) = _ at h
    rw [ok_bind, object_getBounds_null num o.val hm] at h
    cases h

/-- Every failure of `Scene::getBounds` is a null dereference. -/
theorem scene_getBounds_error (num : F32 → K) (s : Scene) (e : Error)
    (h : s.getBounds num = .error e) : e = .undefinedBehaviour := by
  unfold Scene.getBounds at h
  cases h1 : mapEach deref s.instances with
  | error e1 =>
    rw [h1] at h
    cases h
    obtain ⟨p, -, hp⟩ := mapEach_error _ _ _ h1
    exact deref_error p _ hp
  | ok insts =>
    rw [h1, ok_bind] at h
    dsimp only at h
    cases h2 : mapEach (fun obj => (do
        let o ← deref obj
        let box ← o.getBounds num
        pure (obj, box) : Except Error (SP Object × Box3 K)))
        (insts.map (fun inst => inst.object)).dedup with
    | error e2 =>
      rw [h2] at h
      cases h
      obtain ⟨obj, -, hobj⟩ := mapEach_error _ _ _ h2
      exact objectPass_error num obj _ hobj
    | ok obs =>
      rw [h2, ok_bind] at h
      cases h

/-- Where `Scene::getBounds` returns, no pointer it follows is null. -/
theorem scene_getBounds_ok_live (num : F32 → K) (s : Scene) (b : Box3 K)
    (h : s.getBounds num = .ok b) : s.Live := by
  unfold Scene.getBounds at h
  cases h1 : mapEach deref s.instances with
  | error e1 => rw [h1] at h; cases h
  | ok insts =>
    rw [h1, ok_bind] at h
    dsimp only at h
    cases h2 : mapEach (fun obj => (do
        let o ← deref obj
        let box ← o.getBounds num
        pure (obj, box) : Except Error (SP Object × Box3 K)))
        (insts.map (fun inst => inst.object)).dedup with
    | error e2 => rw [h2] at h; cases h
    | ok obs =>
      intro p hp
      obtain ⟨i, hi, hd⟩ := mapEach_ok_inv _ _ _ h1 p hp
      cases p with
      | none => cases hd
      | some r =>
        cases hd
        refine ⟨r, rfl, ?_⟩
        have hmem : r.val.object ∈ (insts.map (fun inst => inst.object)).dedup := by
          rw [List.mem_dedup]
          exact List.mem_map.mpr ⟨r.val, hi, rfl⟩
        obtain ⟨e, -, he⟩ := mapEach_ok_inv _ _ _ h2 _ hmem
        exact objectPass_ok num _ e he

end SceneNull


section SceneClaims

variable {K : Type} [LinearOrderedField K]

/-- C23: for every scene whose instance slots, objects and mesh slots are all non-null,
`Scene::getBounds` (distinct objects collected, one box per distinct object stored in the
table, the instances reduced in blocks of 1024) returns a box, and it is the box the
reference loop `for (auto inst : instances) bounds.extend(inst->getBounds())` returns. -/
theorem getBounds_eq_reference (num : F32 → K) (s : Scene) (h : s.Live) :
    ∃ b, s.getBounds num = .ok b ∧ s.getBoundsReference num = .ok b := by
  obtain ⟨rs, -, h1, h2⟩ := scene_getBounds_live num s h
  exact ⟨_, h1, h2⟩

/-- C28: `Scene::getBounds` returns a box exactly when every instance slot, the object of
every instance and every mesh slot of these objects is non-null; for every other scene it
runs into a null dereference; and `Scene::save` writes, and `Scene::load` reads back, every
scene whose counts fit and whose IDs resolve, null slots or not. -/
theorem getBounds_null_deref (num : F32 → K) (s : Scene) :
    ((∃ b, s.getBounds num = .ok b) ↔ s.Live)
    ∧ (¬ s.Live → s.getBounds num = .error .undefinedBehaviour)
    ∧ (∀ ser : SerializedScene, ser.Sized s → ser.Resolves s →
        ∃ b scene, Scene.saveWith ser s = .ok b ∧ Scene.load b = .ok scene) := by
  have hiff : (∃ b, s.getBounds num = .ok b) ↔ s.Live := by
    constructor
    · rintro ⟨b, hb⟩
      exact scene_getBounds_ok_live num s b hb
    · intro h
      obtain ⟨rs, -, h1, -⟩ := scene_getBounds_live num s h
      exact ⟨_, h1⟩
  refine ⟨hiff, ?_, ?_⟩
  · intro hn
    cases hb : s.getBounds num with
    | ok b => exact absurd (hiff.mp ⟨b, hb⟩) hn
    | error e => rw [scene_getBounds_error num s e hb]
  · intro ser hz hr
    obtain ⟨b, hb, hload⟩ := loadTables_saved ser s hz hr
    exact ⟨b, _, hb, load_of_loadTables b _ hload⟩

end SceneClaims

/-- Two instances of one object: both loops return the same box. -/
theorem getBounds_eq_reference_witness :
    demoScene.Live
    ∧ ∃ b, demoScene.getBounds F32.toRat = .ok b ∧ demoScene.getBoundsReference F32.toRat = .ok b :=
  ⟨by decide, getBounds_eq_reference F32.toRat demoScene (by decide)⟩

/-- A scene with null instance slots and a null mesh slot is saved and loaded, and has no
bounds. -/
theorem getBounds_null_deref_witness :
    ¬ gapScene.Live
    ∧ gapScene.getBounds F32.toRat = .error .undefinedBehaviour
    ∧ ∃ b scene, Scene.saveWith (SerializedScene.ofScene gapScene) gapScene = .ok b
        ∧ Scene.load b = .ok scene :=
  ⟨by decide, (getBounds_null_deref F32.toRat gapScene).2.1 (by decide),
    (getBounds_null_deref F32.toRat gapScene).2.2 (SerializedScene.ofScene gapScene)
      (by decide) (by decide)⟩


/-! ## The keys of `vertexMap` -/

theorem digitChar_value (d : Nat) (h : d < 10) : digitValue (digitChar d) = d := by
  interval_cases d <;> rfl

theorem digitChar_ne_comma (d : Nat) : digitChar d ≠ ',' := by
  unfold digitChar
  split <;> decide

theorem digitChar_ne_minus (d : Nat) : digitChar d ≠ '-' := by
  unfold digitChar
  split <;> decide

theorem decimalValue_append (s : StdString) (c : Char) :
    decimalValue (s ++ [c]) = 10 * decimalValue s + digitValue c := by
  unfold decimalValue
  rw [List.foldl_append]
  rfl

theorem decimal_value (fuel : Nat) : ∀ n, n < 10 ^ fuel → decimalValue (decimal fuel n) = n := by
  induction fuel with
  | zero =>
    intro n h
    have : n = 0 := by simpa using h
    subst this
    rfl
  | succ fuel ih =>
    intro n h
    unfold decimal
    by_cases h10 : n < 10
    · rw [if_pos h10]
      show 10 * 0 + digitValue (digitChar n) = n
      rw [digitChar_value n h10]
      omega
    · rw [if_neg h10, decimalValue_append, ih (n / 10) (by
        rw [pow_succ] at h
        exact Nat.div_lt_of_lt_mul (by omega)),
        digitChar_value _ (Nat.mod_lt _ (by decide))]
      omega

theorem decimal_chars (fuel : Nat) : ∀ n, ∀ c ∈ decimal fuel n, c ≠ ',' ∧ c ≠ '-' := by
  induction fuel with
  | zero => intro n c hc; cases hc
  | succ fuel ih =>
    intro n c hc
    unfold decimal at hc
    split at hc
    · rw [List.mem_singleton] at hc
      subst hc
      exact ⟨digitChar_ne_comma _, digitChar_ne_minus _⟩
    · rcases List.mem_append.mp hc with h | h
      · exact ih _ c h
      · rw [List.mem_singleton] at h
        subst h
        exact ⟨digitChar_ne_comma _, digitChar_ne_minus _⟩

theorem natAbs_lt_pow (i : I32) : i.val.natAbs < 10 ^ 10 := by
  have h1 := i.property.1
  have h2 := i.property.2
  omega

/-- `std::to_string` sends two different `int32_t` values to two different strings. -/
theorem to_string_inj (a b : I32) (h : to_string a = to_string b) : a = b := by
  unfold to_string at h
  have ha := decimal_value 10 a.val.natAbs (natAbs_lt_pow a)
  have hb := decimal_value 10 b.val.natAbs (natAbs_lt_pow b)
  apply Subtype.ext
  by_cases h1 : a.val < 0 <;> by_cases h2 : b.val < 0
  · rw [if_pos h1, if_pos h2] at h
    have e := List.tail_eq_of_cons_eq h
    rw [e, hb] at ha
    omega
  · rw [if_pos h1, if_neg h2] at h
    exact absurd rfl ((decimal_chars 10 _ '-' (h ▸ List.mem_cons_self _ _)).2)
  · rw [if_neg h1, if_pos h2] at h
    exact absurd rfl ((decimal_chars 10 _ '-' (h ▸ List.mem_cons_self _ _)).2)
  · rw [if_neg h1, if_neg h2] at h
    rw [h, hb] at ha
    omega

theorem to_string_no_comma (a : I32) : ',' ∉ to_string a := by
  intro h
  unfold to_string at h
  split at h
  · rcases List.mem_cons.mp h with e | h'
    · exact absurd e (by decide)
    · exact (decimal_chars 10 _ _ h').1 rfl
  · exact (decimal_chars 10 _ _ h).1 rfl

theorem append_comma_inj : ∀ (xs xs' ys ys' : StdString), ',' ∉ xs → ',' ∉ xs' →
    xs ++ [','] ++ ys = xs' ++ [','] ++ ys' → xs = xs' ∧ ys = ys' := by
  intro xs
  induction xs with
  | nil =>
    intro xs' ys ys' _ h' h
    cases xs' with
    | nil =>
      simp only [List.nil_append, List.singleton_append, List.cons.injEq, true_and] at h
      exact ⟨rfl, h⟩
    | cons c xs' =>
      simp only [List.nil_append, List.singleton_append, List.cons_append, List.cons.injEq] at h
      exact absurd (List.mem_cons.mpr (Or.inl h.1)) h'
  | cons c xs ih =>
    intro xs' ys ys' hx h' h
    cases xs' with
    | nil =>
      simp only [List.nil_append, List.singleton_append, List.cons_append, List.cons.injEq] at h
      exact absurd (List.mem_cons.mpr (Or.inl h.1.symm)) hx
    | cons c' xs' =>
      simp only [List.cons_append, List.cons.injEq] at h
      obtain ⟨e1, e2⟩ := ih xs' ys ys' (fun hc => hx (List.mem_cons_of_mem _ hc))
        (fun hc => h' (List.mem_cons_of_mem _ hc)) (by simpa using h.2)
      exact ⟨by rw [h.1, e1], e2⟩

/-- The key of a midpoint does not depend on the direction of the edge. -/
theorem midpointIndexToString_comm (a b : I32) :
    midpointIndexToString a b = midpointIndexToString b a := by
  unfold midpointIndexToString
  by_cases h1 : a.val < b.val
  · have h2 : ¬ b.val < a.val := by omega
    rw [if_pos h1, if_neg h2]
  · by_cases h2 : b.val < a.val
    · rw [if_neg h1, if_pos h2]
    · have e : a = b := Subtype.ext (by omega)
      subst e
      rfl

/-- Two midpoint keys are equal for the same undirected edge only. -/
theorem midpointIndexToString_inj (a b c d : I32)
    (h : midpointIndexToString a b = midpointIndexToString c d) :
    (a = c ∧ b = d) ∨ (a = d ∧ b = c) := by
  unfold midpointIndexToString at h
  by_cases h1 : a.val < b.val <;> by_cases h2 : c.val < d.val
  · rw [if_pos h1, if_pos h2] at h
    obtain ⟨e1, e2⟩ := append_comma_inj _ _ _ _ (to_string_no_comma _) (to_string_no_comma _) h
    exact Or.inl ⟨to_string_inj _ _ e1, to_string_inj _ _ e2⟩
  · rw [if_pos h1, if_neg h2] at h
    obtain ⟨e1, e2⟩ := append_comma_inj _ _ _ _ (to_string_no_comma _) (to_string_no_comma _) h
    exact Or.inr ⟨to_string_inj _ _ e1, to_string_inj _ _ e2⟩
  · rw [if_neg h1, if_pos h2] at h
    obtain ⟨e1, e2⟩ := append_comma_inj _ _ _ _ (to_string_no_comma _) (to_string_no_comma _) h
    exact Or.inr ⟨to_string_inj _ _ e2, to_string_inj _ _ e1⟩
  · rw [if_neg h1, if_neg h2] at h
    obtain ⟨e1, e2⟩ := append_comma_inj _ _ _ _ (to_string_no_comma _) (to_string_no_comma _) h
    exact Or.inl ⟨to_string_inj _ _ e2, to_string_inj _ _ e1⟩

theorem midpointIndexToString_comma (a b : I32) : ',' ∈ midpointIndexToString a b := by
  unfold midpointIndexToString
  split <;> simp

/-- The key of a midpoint is the key of no vertex. -/
theorem midpointIndexToString_ne (a b c : I32) : midpointIndexToString a b ≠ to_string c := by
  intro h
  exact to_string_no_comma c (h ▸ midpointIndexToString_comma a b)


/-! ## The triangle loop -/

theorem find_none_iff {κ ν : Type} [DecidableEq κ] (m : StdMap κ ν) (key : κ) :
    m.find key = none ↔ key ∉ m.map Prod.fst := by
  induction m with
  | nil => simp [StdMap.find]
  | cons e m ih =>
    obtain ⟨k, v⟩ := e
    unfold StdMap.find
    by_cases h : k = key
    · subst h
      simp
    · rw [if_neg h, ih]
      simp only [List.map_cons, List.mem_cons, not_or]
      exact ⟨fun hm => ⟨fun e => h e.symm, hm⟩, fun hm => hm.2⟩

theorem find_some_mem {κ ν : Type} [DecidableEq κ] (m : StdMap κ ν) (key : κ) (v : ν)
    (h : m.find key = some v) : key ∈ m.map Prod.fst := by
  by_contra hn
  rw [(find_none_iff m key).mpr hn] at h
  cases h

theorem find_of_mem {κ ν : Type} [DecidableEq κ] (m : StdMap κ ν) (key : κ)
    (h : key ∈ m.map Prod.fst) : ∃ v, m.find key = some v := by
  cases hf : m.find key with
  | none => exact absurd h ((find_none_iff m key).mp hf)
  | some v => exact ⟨v, rfl⟩

theorem find_set {κ ν : Type} [DecidableEq κ] (m : StdMap κ ν) (key : κ) (v : ν) :
    (m.set key v).find key = some v := by
  unfold StdMap.set StdMap.find
  rw [if_pos rfl]

theorem find_set_ne {κ ν : Type} [DecidableEq κ] (m : StdMap κ ν) (key key' : κ) (v : ν)
    (h : key ≠ key') : (m.set key v).find key' = m.find key' := by
  unfold StdMap.set
  rw [StdMap.find, if_neg h]

/-- An assignment to a key the map does not hold keeps what the map holds. -/
theorem find_set_mono {κ ν : Type} [DecidableEq κ] (m : StdMap κ ν) (key key' : κ) (v v' : ν)
    (hn : m.find key = none) (h : m.find key' = some v') : (m.set key v).find key' = some v' := by
  rw [find_set_ne _ _ _ _ (by
    intro e
    subst e
    rw [hn] at h
    cases h)]
  exact h

theorem wrap_val (p : Nat) (h : p < 2147483648) : (I32.wrap p).val = p := by
  unfold I32.wrap ofInt32 toInt32
  have e : ((p : Int) % 4294967296).toNat = p := by omega
  rw [e]
  have h1 : p % 4294967296 < 2147483648 := by omega
  rw [dif_pos h1]
  show ((p % 4294967296 : Nat) : Int) = p
  omega

/-- What one lookup-or-append does to the build. -/
theorem vertexFor_spec (b : MeshBuild) (key : StdString) (position : Vec3f) :
    (b.vertexFor key position).2.indices = b.indices
    ∧ (b.vertexFor key position).2.vertexMap.find key = some (b.vertexFor key position).1
    ∧ (∀ key' v, b.vertexMap.find key' = some v →
        (b.vertexFor key position).2.vertexMap.find key' = some v)
    ∧ (∃ extra, (b.vertexFor key position).2.vertices = b.vertices ++ extra ∧ extra.length ≤ 1) := by
  unfold MeshBuild.vertexFor
  cases hf : b.vertexMap.find key with
  | some idx => exact ⟨rfl, hf, fun _ _ h => h, [], (List.append_nil _).symm, Nat.zero_le _⟩
  | none =>
    refine ⟨rfl, find_set _ _ _, ?_, [position], rfl, Nat.le_refl _⟩
    intro key' v h
    exact find_set_mono _ _ _ _ _ hf h

theorem getElem?_append_some {α : Type} (l extra : List α) (p : Nat) (a : α)
    (h : l[p]? = some a) : (l ++ extra)[p]? = some a := by
  obtain ⟨hlt, -⟩ := List.getElem?_eq_some_iff.mp h
  rw [List.getElem?_append_left hlt]
  exact h

/-- One lookup-or-append keeps the build sound. -/
theorem vertexFor_sound (mid : Vec3f → Vec3f → Vec3f) (vertices : List Vec3f)
    (keys : List StdString) (b : MeshBuild) (key : StdString) (position : Vec3f)
    (hb : b.Sound mid vertices keys) (hk : KeyPosition mid vertices key position)
    (hlen : b.vertices.length < 2147483648) :
    (b.vertexFor key position).2.Sound mid vertices (keys ++ [key]) := by
  obtain ⟨hnd, hkeys, hl, hpos, hinj⟩ := hb
  unfold MeshBuild.vertexFor
  cases hf : b.vertexMap.find key with
  | some idx =>
    refine ⟨hnd, ?_, hl, hpos, hinj⟩
    intro key'
    rw [hkeys, List.mem_append, List.mem_singleton]
    constructor
    · exact Or.inl
    · rintro (h | rfl)
      · exact h
      · exact (hkeys _).mp (find_some_mem _ _ _ hf)
  | none =>
    have hnew : key ∉ b.vertexMap.map Prod.fst := (find_none_iff _ _).mp hf
    have hold : ∀ key' v, b.vertexMap.find key' = some v →
        ∃ p : Nat, v = I32.wrap p ∧ p < b.vertices.length := by
      intro key' v h
      obtain ⟨p, position', e, hp, -⟩ := hpos key' v h
      exact ⟨p, e, (List.getElem?_eq_some_iff.mp hp).1⟩
    have hfresh : ∀ key' v, b.vertexMap.find key' = some v → v ≠ I32.wrap b.vertices.length := by
      intro key' v h e
      obtain ⟨p, e', hp⟩ := hold key' v h
      have h1 := wrap_val p (by omega)
      have h2 := wrap_val b.vertices.length hlen
      rw [← e', e, h2] at h1
      omega
    refine ⟨?_, ?_, ?_, ?_, ?_⟩
    · show ((key, _) :: b.vertexMap).map Prod.fst |>.Nodup
      rw [List.map_cons]
      exact List.nodup_cons.mpr ⟨hnew, hnd⟩
    · intro key'
      show key' ∈ ((key, _) :: b.vertexMap).map Prod.fst ↔ _
      rw [List.map_cons, List.mem_cons, hkeys, List.mem_append, List.mem_singleton]
      exact or_comm
    · show ((key, _) :: b.vertexMap).length = (b.vertices ++ [position]).length
      rw [List.length_cons, List.length_append, hl]
      rfl
    · intro key' v h
      show ∃ (p : Nat) (position' : Vec3f),
        v = I32.wrap p ∧ (b.vertices ++ [position])[p]? = some position' ∧ _
      change (b.vertexMap.set key (I32.wrap b.vertices.length)).find key' = some v at h
      by_cases e : key = key'
      · subst e
        rw [find_set] at h
        cases h
        exact ⟨b.vertices.length, position, rfl, by simp, hk⟩
      · rw [find_set_ne _ _ _ _ e] at h
        obtain ⟨p, position', e', hp, hkp⟩ := hpos key' v h
        exact ⟨p, position', e', getElem?_append_some _ _ _ _ hp, hkp⟩
    · intro k1 k2 v h1 h2
      change (b.vertexMap.set key (I32.wrap b.vertices.length)).find k1 = some v at h1
      change (b.vertexMap.set key (I32.wrap b.vertices.length)).find k2 = some v at h2
      by_cases e1 : key = k1 <;> by_cases e2 : key = k2
      · rw [← e1, ← e2]
      · subst e1
        rw [find_set] at h1
        rw [find_set_ne _ _ _ _ e2] at h2
        cases h1
        exact absurd rfl (hfresh _ _ h2)
      · subst e2
        rw [find_set] at h2
        rw [find_set_ne _ _ _ _ e1] at h1
        cases h2
        exact absurd rfl (hfresh _ _ h1)
      · rw [find_set_ne _ _ _ _ e1] at h1
        rw [find_set_ne _ _ _ _ e2] at h2
        exact hinj _ _ _ h1 h2


theorem trianglePositions_inv (vertices : List Vec3f) (index : Vec3i) (v0 v1 v2 : Vec3f)
    (h : trianglePositions vertices index = .ok (v0, v1, v2)) :
    vertexAt vertices index.x = .ok v0 ∧ vertexAt vertices index.y = .ok v1
      ∧ vertexAt vertices index.z = .ok v2 := by
  unfold trianglePositions at h
  obtain ⟨a, ha, h⟩ := bind_ok_inv _ _ _ h
  obtain ⟨b, hb, h⟩ := bind_ok_inv _ _ _ h
  obtain ⟨c, hc, h⟩ := bind_ok_inv _ _ _ h
  cases Except.ok.inj h
  exact ⟨ha, hb, hc⟩

theorem vertexAt_ok (vertices : List Vec3f) (i : I32) (h : InRange vertices.length i) :
    ∃ v, vertexAt vertices i = .ok v := by
  unfold vertexAt
  unfold InRange at h
  rw [dif_pos h]
  exact ⟨_, rfl⟩

theorem vertexAt_inv (vertices : List Vec3f) (i : I32) (v : Vec3f)
    (h : vertexAt vertices i = .ok v) :
    InRange vertices.length i ∧ vertices[i.val.toNat]? = some v := by
  unfold vertexAt at h
  by_cases hr : 0 ≤ i.val ∧ i.val.toNat < vertices.length
  · rw [dif_pos hr] at h
    cases Except.ok.inj h
    refine ⟨hr, ?_⟩
    rw [List.getElem?_eq_getElem hr.2]
    rfl
  · rw [dif_neg hr] at h
    cases h

theorem vertexAt_of_getElem? (vertices : List Vec3f) (p : Nat) (v : Vec3f)
    (h : vertices[p]? = some v) (hp : p < 2147483648) : vertexAt vertices (I32.wrap p) = .ok v := by
  obtain ⟨hlt, hv⟩ := List.getElem?_eq_some_iff.mp h
  have hw := wrap_val p hp
  unfold vertexAt
  have hr : 0 ≤ (I32.wrap p).val ∧ (I32.wrap p).val.toNat < vertices.length := by
    rw [hw]
    exact ⟨by omega, by simpa using hlt⟩
  rw [dif_pos hr]
  show Except.ok _ = Except.ok _
  congr 1
  rw [← hv]
  simp only [List.get_eq_getElem, hw, Int.toNat_ofNat]

theorem trianglePositions_ok (vertices : List Vec3f) (index : Vec3i)
    (h : InRange vertices.length index.x ∧ InRange vertices.length index.y
      ∧ InRange vertices.length index.z) :
    ∃ v0 v1 v2, trianglePositions vertices index = .ok (v0, v1, v2) := by
  obtain ⟨v0, h0⟩ := vertexAt_ok vertices index.x h.1
  obtain ⟨v1, h1⟩ := vertexAt_ok vertices index.y h.2.1
  obtain ⟨v2, h2⟩ := vertexAt_ok vertices index.z h.2.2
  refine ⟨v0, v1, v2, ?_⟩
  unfold trianglePositions
  rw [h0, ok_bind, h1, ok_bind, h2, ok_bind]
  rfl

theorem trianglePositions_of (vertices : List Vec3f) (index : Vec3i) (v0 v1 v2 : Vec3f)
    (h0 : vertexAt vertices index.x = .ok v0) (h1 : vertexAt vertices index.y = .ok v1)
    (h2 : vertexAt vertices index.z = .ok v2) :
    trianglePositions vertices index = .ok (v0, v1, v2) := by
  unfold trianglePositions
  rw [h0, ok_bind, h1, ok_bind, h2, ok_bind]
  rfl

theorem keyPosition_vertex (mid : Vec3f → Vec3f → Vec3f) (vertices : List Vec3f) (a : I32)
    (va : Vec3f) (ha : vertexAt vertices a = .ok va) :
    KeyPosition mid vertices (to_string a) va := by
  constructor
  · intro i e
    rw [← to_string_inj _ _ e]
    exact ha
  · intro i j vi vj e
    exact absurd e.symm (midpointIndexToString_ne i j a)

theorem keyPosition_midpoint (mid : Vec3f → Vec3f → Vec3f) (hmid : ∀ p q, mid p q = mid q p)
    (vertices : List Vec3f) (a b : I32) (va vb : Vec3f) (ha : vertexAt vertices a = .ok va)
    (hb : vertexAt vertices b = .ok vb) :
    KeyPosition mid vertices (midpointIndexToString a b) (mid va vb) := by
  constructor
  · intro i e
    exact absurd e (midpointIndexToString_ne a b i)
  · intro i j vi vj e hi hj
    rcases midpointIndexToString_inj _ _ _ _ e with ⟨rfl, rfl⟩ | ⟨rfl, rfl⟩
    · rw [ha] at hi
      rw [hb] at hj
      cases hi
      cases hj
      rfl
    · rw [ha] at hj
      rw [hb] at hi
      cases hi
      cases hj
      exact hmid _ _

/-- What one pass of the triangle loop does to a sound build. -/
theorem subdivideTriangle_spec (mid : Vec3f → Vec3f → Vec3f) (hmid : ∀ p q, mid p q = mid q p)
    (mesh : Mesh) (keys : List StdString) (b : MeshBuild) (index : Vec3i) (v0 v1 v2 : Vec3f)
    (hpos : trianglePositions mesh.vertices index = .ok (v0, v1, v2))
    (hb : b.Sound mid mesh.vertices keys) (hlen : b.vertices.length + 6 ≤ 2147483648) :
    ∃ b', subdivideTriangle mid mesh b index = .ok b'
      ∧ b'.Sound mid mesh.vertices (keys ++ triangleKeys index)
      ∧ (∀ key v, b.vertexMap.find key = some v → b'.vertexMap.find key = some v)
      ∧ (∃ extra, b'.vertices = b.vertices ++ extra ∧ extra.length ≤ 6)
      ∧ ∃ i0 i1 i2 j0 j1 j2,
          b'.vertexMap.find (to_string index.x) = some i0
          ∧ b'.vertexMap.find (to_string index.y) = some i1
          ∧ b'.vertexMap.find (to_string index.z) = some i2
          ∧ b'.vertexMap.find (midpointIndexToString index.x index.y) = some j0
          ∧ b'.vertexMap.find (midpointIndexToString index.y index.z) = some j1
          ∧ b'.vertexMap.find (midpointIndexToString index.z index.x) = some j2
          ∧ b'.indices = b.indices ++ [⟨i0, j0, j2⟩, ⟨i1, j1, j0⟩, ⟨i2, j2, j1⟩, ⟨j0, j1, j2⟩] := by
  obtain ⟨hx, hy, hz⟩ := trianglePositions_inv _ _ _ _ _ hpos
  unfold subdivideTriangle
  rw [hpos, ok_bind]
  dsimp only
  rcases h0 : b.vertexFor (midpointIndexToString index.x index.y) (mid v0 v1) with ⟨j0, b0⟩
  obtain ⟨s0i, s0f, s0m, e0, s0v, s0l⟩ := vertexFor_spec b (midpointIndexToString index.x index.y) (mid v0 v1)
  have c0 := vertexFor_sound mid mesh.vertices keys b _ _ hb
    (keyPosition_midpoint mid hmid mesh.vertices index.x index.y v0 v1 hx hy) (by omega)
  rw [h0] at s0i s0f s0m s0v c0
  dsimp only at s0i s0f s0m s0v c0 ⊢
  rcases h1 : b0.vertexFor (midpointIndexToString index.y index.z) (mid v1 v2) with ⟨j1, b1⟩
  obtain ⟨s1i, s1f, s1m, e1, s1v, s1l⟩ := vertexFor_spec b0 (midpointIndexToString index.y index.z) (mid v1 v2)
  have c1 := vertexFor_sound mid mesh.vertices _ b0 _ _ c0
    (keyPosition_midpoint mid hmid mesh.vertices index.y index.z v1 v2 hy hz)
    (by rw [s0v, List.length_append]; omega)
  rw [h1] at s1i s1f s1m s1v c1
  dsimp only at s1i s1f s1m s1v c1 ⊢
  rcases h2 : b1.vertexFor (midpointIndexToString index.z index.x) (mid v2 v0) with ⟨j2, b2⟩
  obtain ⟨s2i, s2f, s2m, e2, s2v, s2l⟩ := vertexFor_spec b1 (midpointIndexToString index.z index.x) (mid v2 v0)
  have c2 := vertexFor_sound mid mesh.vertices _ b1 _ _ c1
    (keyPosition_midpoint mid hmid mesh.vertices index.z index.x v2 v0 hz hx)
    (by rw [s1v, s0v, List.length_append, List.length_append]; omega)
  rw [h2] at s2i s2f s2m s2v c2
  dsimp only at s2i s2f s2m s2v c2 ⊢
  rcases h3 : b2.vertexFor (to_string index.x) v0 with ⟨i0, b3⟩
  obtain ⟨s3i, s3f, s3m, e3, s3v, s3l⟩ := vertexFor_spec b2 (to_string index.x) v0
  have c3 := vertexFor_sound mid mesh.vertices _ b2 _ _ c2
    (keyPosition_vertex mid mesh.vertices index.x v0 hx)
    (by rw [s2v, s1v, s0v, List.length_append, List.length_append, List.length_append]; omega)
  rw [h3] at s3i s3f s3m s3v c3
  dsimp only at s3i s3f s3m s3v c3 ⊢
  rcases h4 : b3.vertexFor (to_string index.y) v1 with ⟨i1, b4⟩
  obtain ⟨s4i, s4f, s4m, e4, s4v, s4l⟩ := vertexFor_spec b3 (to_string index.y) v1
  have c4 := vertexFor_sound mid mesh.vertices _ b3 _ _ c3
    (keyPosition_vertex mid mesh.vertices index.y v1 hy)
    (by rw [s3v, s2v, s1v, s0v, List.length_append, List.length_append, List.length_append,
          List.length_append]; omega)
  rw [h4] at s4i s4f s4m s4v c4
  dsimp only at s4i s4f s4m s4v c4 ⊢
  rcases h5 : b4.vertexFor (to_string index.z) v2 with ⟨i2, b5⟩
  obtain ⟨s5i, s5f, s5m, e5, s5v, s5l⟩ := vertexFor_spec b4 (to_string index.z) v2
  have c5 := vertexFor_sound mid mesh.vertices _ b4 _ _ c4
    (keyPosition_vertex mid mesh.vertices index.z v2 hz)
    (by rw [s4v, s3v, s2v, s1v, s0v, List.length_append, List.length_append, List.length_append,
          List.length_append, List.length_append]; omega)
  rw [h5] at s5i s5f s5m s5v c5
  dsimp only at s5i s5f s5m s5v c5 ⊢
  refine ⟨_, rfl, ?_, ?_, ?_, i0, i1, i2, j0, j1, j2, ?_, ?_, s5f, ?_, ?_, ?_, ?_⟩
  · have e : keys ++ triangleKeys index
        = keys ++ [midpointIndexToString index.x index.y] ++ [midpointIndexToString index.y index.z]
          ++ [midpointIndexToString index.z index.x] ++ [to_string index.x] ++ [to_string index.y]
          ++ [to_string index.z] := by
      simp only [triangleKeys, List.append_assoc, List.singleton_append, List.cons_append,
        List.nil_append]
    rw [e]
    exact c5
  · intro key v h
    exact s5m _ _ (s4m _ _ (s3m _ _ (s2m _ _ (s1m _ _ (s0m _ _ h)))))
  · refine ⟨e0 ++ e1 ++ e2 ++ e3 ++ e4 ++ e5, ?_, ?_⟩
    · show b5.vertices = _
      rw [s5v, s4v, s3v, s2v, s1v, s0v]
      simp only [List.append_assoc]
    · simp only [List.length_append]
      omega
  · exact s5m _ _ (s4m _ _ s3f)
  · exact s5m _ _ s4f
  · exact s5m _ _ (s4m _ _ (s3m _ _ (s2m _ _ (s1m _ _ s0f))))
  · exact s5m _ _ (s4m _ _ (s3m _ _ (s2m _ _ s1f)))
  · exact s5m _ _ (s4m _ _ (s3m _ _ s2f))
  · show b5.indices ++ _ = _
    rw [s5i, s4i, s3i, s2i, s1i, s0i]


theorem emitted_mono (b b' : MeshBuild) (k : Nat) (index : Vec3i) (extra : List Vec3i)
    (hm : ∀ key v, b.vertexMap.find key = some v → b'.vertexMap.find key = some v)
    (hi : b'.indices = b.indices ++ extra) (h : b.Emitted k index) : b'.Emitted k index := by
  obtain ⟨i0, i1, i2, j0, j1, j2, f0, f1, f2, g0, g1, g2, t0, t1, t2, t3⟩ := h
  refine ⟨i0, i1, i2, j0, j1, j2, hm _ _ f0, hm _ _ f1, hm _ _ f2, hm _ _ g0, hm _ _ g1,
    hm _ _ g2, ?_, ?_, ?_, ?_⟩ <;> rw [hi] <;> apply getElem?_append_some <;> assumption

/-- The triangle loop from a sound build over triangles with valid indices. -/
theorem triangles_foldlM (mid : Vec3f → Vec3f → Vec3f) (hmid : ∀ p q, mid p q = mid q p)
    (mesh : Mesh) :
    ∀ (todo done : List Vec3i) (b : MeshBuild),
      (∀ index ∈ todo, InRange mesh.vertices.length index.x
        ∧ InRange mesh.vertices.length index.y ∧ InRange mesh.vertices.length index.z) →
      b.Sound mid mesh.vertices (done.flatMap triangleKeys) →
      b.vertices.length ≤ 6 * done.length →
      b.indices.length = 4 * done.length →
      (∀ k index, done[k]? = some index → b.Emitted k index) →
      6 * (done.length + todo.length) < 2147483648 →
      ∃ b', todo.foldlM (subdivideTriangle mid mesh) b = .ok b'
        ∧ b'.Sound mid mesh.vertices ((done ++ todo).flatMap triangleKeys)
        ∧ b'.vertices.length ≤ 6 * (done ++ todo).length
        ∧ b'.indices.length = 4 * (done ++ todo).length
        ∧ ∀ k index, (done ++ todo)[k]? = some index → b'.Emitted k index := by
  intro todo
  induction todo with
  | nil =>
    intro done b _ hs hv hi he _
    refine ⟨b, rfl, ?_, ?_, ?_, ?_⟩
    · rw [List.append_nil]; exact hs
    · rw [List.append_nil]; exact hv
    · rw [List.append_nil]; exact hi
    · rw [List.append_nil]; exact he
  | cons index todo ih =>
    intro done b hvalid hs hv hi he hsize
    rw [List.length_cons] at hsize
    obtain ⟨v0, v1, v2, hpos⟩ := trianglePositions_ok mesh.vertices index
      (hvalid index (List.mem_cons_self _ _))
    obtain ⟨b1, hstep, hs1, hm1, ⟨extra, hv1, hl1⟩, i0, i1, i2, j0, j1, j2, f0, f1, f2, g0, g1,
      g2, hidx⟩ := subdivideTriangle_spec mid hmid mesh _ b index v0 v1 v2 hpos hs (by omega)
    have hdone : (done ++ [index]).length = done.length + 1 := by
      rw [List.length_append]; rfl
    obtain ⟨b', hfold, hs', hv', hi', he'⟩ := ih (done ++ [index]) b1
      (fun t ht => hvalid t (List.mem_cons_of_mem _ ht))
      (by
        rw [List.flatMap_append]
        simpa using hs1)
      (by rw [hv1, List.length_append, hdone]; omega)
      (by rw [hidx, List.length_append, hdone, hi]; rfl)
      (by
        intro k t hk
        by_cases hlt : k < done.length
        · rw [List.getElem?_append_left hlt] at hk
          exact emitted_mono b b1 k t _ hm1 hidx (he k t hk)
        · have hk' : k = done.length := by
            have := (List.getElem?_eq_some_iff.mp hk).1
            rw [hdone] at this
            omega
          subst hk'
          rw [List.getElem?_append_right (Nat.le_refl _)] at hk
          simp only [Nat.sub_self, List.getElem?_cons_zero, Option.some.injEq] at hk
          subst hk
          refine ⟨i0, i1, i2, j0, j1, j2, f0, f1, f2, g0, g1, g2, ?_, ?_, ?_, ?_⟩ <;>
            rw [hidx, List.getElem?_append_right (by omega)] <;>
            simp [hi])
      (by rw [hdone]; omega)
    refine ⟨b', ?_, ?_, ?_, ?_, ?_⟩
    · rw [List.foldlM_cons, hstep, ok_bind]
      exact hfold
    · simpa using hs'
    · simpa using hv'
    · simpa using hi'
    · simpa using he'

theorem sound_empty (mid : Vec3f → Vec3f → Vec3f) (vertices : List Vec3f) :
    MeshBuild.Sound mid vertices [] { vertexMap := [], vertices := [], indices := [] } := by
  refine ⟨List.nodup_nil, fun key => Iff.rfl, rfl, ?_, ?_⟩
  · intro key v h
    cases h
  · intro key key' v h
    cases h

/-- The triangle loop of a mesh with valid indices: the build it ends with. -/
theorem subdivideBuild_spec (mid : Vec3f → Vec3f → Vec3f) (hmid : ∀ p q, mid p q = mid q p)
    (mesh : Mesh) (hvalid : mesh.IndicesValid) (hsize : 6 * mesh.indices.length < 2147483648) :
    ∃ b, subdivideBuild mid mesh = .ok b
      ∧ b.Sound mid mesh.vertices (mesh.indices.flatMap triangleKeys)
      ∧ b.vertices.length ≤ 6 * mesh.indices.length
      ∧ b.indices.length = 4 * mesh.indices.length
      ∧ ∀ k index, mesh.indices[k]? = some index → b.Emitted k index := by
  obtain ⟨b, h, hs, hv, hi, he⟩ := triangles_foldlM mid hmid mesh mesh.indices []
    { vertexMap := [], vertices := [], indices := [] } hvalid (sound_empty mid mesh.vertices)
    (Nat.zero_le _) rfl (fun k index hk => by cases hk) (by simpa using hsize)
  exact ⟨b, h, by simpa using hs, by simpa using hv, by simpa using hi, by simpa using he⟩


theorem sound_vertex (mid : Vec3f → Vec3f → Vec3f) (vertices : List Vec3f) (keys : List StdString)
    (b : MeshBuild) (hb : b.Sound mid vertices keys) (hlen : b.vertices.length ≤ 2147483648)
    (i idx : I32) (a : Vec3f) (hf : b.vertexMap.find (to_string i) = some idx)
    (ha : vertexAt vertices i = .ok a) : vertexAt b.vertices idx = .ok a := by
  obtain ⟨p, position, e, hp, hk⟩ := hb.2.2.2.1 _ _ hf
  have h := hk.1 i rfl
  rw [ha] at h
  cases h
  rw [e]
  exact vertexAt_of_getElem? _ _ _ hp (by
    have := (List.getElem?_eq_some_iff.mp hp).1
    omega)

theorem sound_midpoint (mid : Vec3f → Vec3f → Vec3f) (vertices : List Vec3f)
    (keys : List StdString) (b : MeshBuild) (hb : b.Sound mid vertices keys)
    (hlen : b.vertices.length ≤ 2147483648) (i j idx : I32) (a c : Vec3f)
    (hf : b.vertexMap.find (midpointIndexToString i j) = some idx)
    (ha : vertexAt vertices i = .ok a) (hc : vertexAt vertices j = .ok c) :
    vertexAt b.vertices idx = .ok (mid a c) := by
  obtain ⟨p, position, e, hp, hk⟩ := hb.2.2.2.1 _ _ hf
  have h := hk.2 i j a c rfl ha hc
  subst h
  rw [e]
  exact vertexAt_of_getElem? _ _ _ hp (by
    have := (List.getElem?_eq_some_iff.mp hp).1
    omega)

theorem sound_inRange (mid : Vec3f → Vec3f → Vec3f) (vertices : List Vec3f)
    (keys : List StdString) (b : MeshBuild) (hb : b.Sound mid vertices keys)
    (hlen : b.vertices.length ≤ 2147483648) (key : StdString) (idx : I32)
    (hf : b.vertexMap.find key = some idx) : InRange b.vertices.length idx := by
  obtain ⟨p, position, e, hp, -⟩ := hb.2.2.2.1 _ _ hf
  have hlt := (List.getElem?_eq_some_iff.mp hp).1
  have hw := wrap_val p (by omega)
  unfold InRange
  rw [e, hw]
  exact ⟨by omega, by simpa using hlt⟩

theorem subdivideMesh_eq (mid : Vec3f → Vec3f → Vec3f) (material : SP Material) (mesh : Mesh)
    (b : MeshBuild) (h : subdivideBuild mid mesh = .ok b) :
    subdivideMesh mid material mesh
      = .ok { indices := b.indices, vertices := b.vertices, normals := [], texcoords := [],
              material := material } := by
  unfold subdivideMesh
  rw [h]
  rfl

/-- C24: for every mesh with `n` triangles whose indices are positions of its vertices
(and `6n` below `2^31`, so that every new index fits the `int32_t` it is stored in), the
mesh the tool builds has `4n` triangles, and for the input triangle at position `k` with the
vertex positions `(a, b, c)` the triangles at the positions `4k .. 4k+3` have the vertex
positions `(a, mid a b, mid c a)`, `(b, mid b c, mid a b)`, `(c, mid c a, mid b c)` and
`(mid a b, mid b c, mid c a)`; `mid` is the midpoint function, taken to be symmetric. -/
theorem subdivide_four_triangles (mid : Vec3f → Vec3f → Vec3f) (hmid : ∀ p q, mid p q = mid q p)
    (material : SP Material) (mesh : Mesh) (hvalid : mesh.IndicesValid)
    (hsize : 6 * mesh.indices.length < 2147483648) :
    ∃ newMesh, subdivideMesh mid material mesh = .ok newMesh
      ∧ newMesh.indices.length = 4 * mesh.indices.length
      ∧ ∀ (k : Nat) (index : Vec3i) (a b c : Vec3f), mesh.indices[k]? = some index →
          trianglePositions mesh.vertices index = .ok (a, b, c) →
          (newMesh.indices[4 * k]?).map (trianglePositions newMesh.vertices)
              = some (.ok (a, mid a b, mid c a))
          ∧ (newMesh.indices[4 * k + 1]?).map (trianglePositions newMesh.vertices)
              = some (.ok (b, mid b c, mid a b))
          ∧ (newMesh.indices[4 * k + 2]?).map (trianglePositions newMesh.vertices)
              = some (.ok (c, mid c a, mid b c))
          ∧ (newMesh.indices[4 * k + 3]?).map (trianglePositions newMesh.vertices)
              = some (.ok (mid a b, mid b c, mid c a)) := by
  obtain ⟨bd, hbuild, hs, hv, hi, he⟩ := subdivideBuild_spec mid hmid mesh hvalid hsize
  refine ⟨_, subdivideMesh_eq mid material mesh bd hbuild, hi, ?_⟩
  intro k index a b c hk hpos
  obtain ⟨hx, hy, hz⟩ := trianglePositions_inv _ _ _ _ _ hpos
  obtain ⟨i0, i1, i2, j0, j1, j2, f0, f1, f2, g0, g1, g2, t0, t1, t2, t3⟩ := he k index hk
  have hlen : bd.vertices.length ≤ 2147483648 := by omega
  have p0 := sound_vertex mid _ _ bd hs hlen _ _ _ f0 hx
  have p1 := sound_vertex mid _ _ bd hs hlen _ _ _ f1 hy
  have p2 := sound_vertex mid _ _ bd hs hlen _ _ _ f2 hz
  have q0 := sound_midpoint mid _ _ bd hs hlen _ _ _ _ _ g0 hx hy
  have q1 := sound_midpoint mid _ _ bd hs hlen _ _ _ _ _ g1 hy hz
  have q2 := sound_midpoint mid _ _ bd hs hlen _ _ _ _ _ g2 hz hx
  refine ⟨?_, ?_, ?_, ?_⟩
  · show (bd.indices[4 * k]?).map (trianglePositions bd.vertices) = _
    rw [t0, Option.map_some', trianglePositions_of _ _ _ _ _ p0 q0 q2]
  · show (bd.indices[4 * k + 1]?).map (trianglePositions bd.vertices) = _
    rw [t1, Option.map_some', trianglePositions_of _ _ _ _ _ p1 q1 q0]
  · show (bd.indices[4 * k + 2]?).map (trianglePositions bd.vertices) = _
    rw [t2, Option.map_some', trianglePositions_of _ _ _ _ _ p2 q2 q1]
  · show (bd.indices[4 * k + 3]?).map (trianglePositions bd.vertices) = _
    rw [t3, Option.map_some', trianglePositions_of _ _ _ _ _ q0 q1 q2]

theorem meanBits_comm (p q : Vec3f) : meanBits p q = meanBits q p := by
  unfold meanBits
  rw [Nat.add_comm p.x.val, Nat.add_comm p.y.val, Nat.add_comm p.z.val]

/-- Two triangles with a common edge: eight triangles, the first four as stated. -/
theorem subdivide_four_triangles_witness :
    quadMesh.IndicesValid ∧ 6 * quadMesh.indices.length < 2147483648
    ∧ ∃ newMesh, subdivideMesh meanBits none quadMesh = .ok newMesh
      ∧ newMesh.indices.length = 4 * quadMesh.indices.length
      ∧ ∀ (k : Nat) (index : Vec3i) (a b c : Vec3f), quadMesh.indices[k]? = some index →
          trianglePositions quadMesh.vertices index = .ok (a, b, c) →
          (newMesh.indices[4 * k]?).map (trianglePositions newMesh.vertices)
              = some (.ok (a, meanBits a b, meanBits c a))
          ∧ (newMesh.indices[4 * k + 1]?).map (trianglePositions newMesh.vertices)
              = some (.ok (b, meanBits b c, meanBits a b))
          ∧ (newMesh.indices[4 * k + 2]?).map (trianglePositions newMesh.vertices)
              = some (.ok (c, meanBits c a, meanBits b c))
          ∧ (newMesh.indices[4 * k + 3]?).map (trianglePositions newMesh.vertices)
              = some (.ok (meanBits a b, meanBits b c, meanBits c a)) :=
  ⟨by decide, by decide,
    subdivide_four_triangles meanBits meanBits_comm none quadMesh (by decide) (by decide)⟩


/-! ## The new vertices -/

theorem edgeKey_injective :
    Function.Injective (Sym2.lift ⟨midpointIndexToString, midpointIndexToString_comm⟩) := by
  intro e1 e2
  induction e1 using Sym2.ind with
  | _ a b =>
    induction e2 using Sym2.ind with
    | _ c d =>
      intro h
      rw [Sym2.lift_mk, Sym2.lift_mk] at h
      exact Sym2.eq_iff.mpr (midpointIndexToString_inj a b c d h)

/-- The number of distinct keys of a list of triangles: one per vertex index used and one
per undirected edge. -/
theorem keys_count (indices : List Vec3i) :
    (indices.flatMap triangleKeys).dedup.length
      = (usedVertices indices).dedup.length + (usedEdges indices).dedup.length := by
  rw [← List.card_toFinset, ← List.card_toFinset, ← List.card_toFinset,
    ← Finset.card_image_of_injective _ (fun a b h => to_string_inj a b h),
    ← Finset.card_image_of_injective _ edgeKey_injective,
    ← Finset.card_union_of_disjoint]
  · congr 1
    ext key
    simp only [List.mem_toFinset, List.mem_flatMap, triangleKeys, usedVertices, usedEdges,
      Finset.mem_union, Finset.mem_image, List.mem_cons, List.mem_singleton, List.not_mem_nil,
      or_false]
    constructor
    · rintro ⟨t, ht, h | h | h | h | h | h⟩
      · exact Or.inr ⟨s(t.x, t.y), ⟨t, ht, Or.inl rfl⟩, by rw [Sym2.lift_mk, h]⟩
      · exact Or.inr ⟨s(t.y, t.z), ⟨t, ht, Or.inr (Or.inl rfl)⟩, by rw [Sym2.lift_mk, h]⟩
      · exact Or.inr ⟨s(t.z, t.x), ⟨t, ht, Or.inr (Or.inr rfl)⟩, by rw [Sym2.lift_mk, h]⟩
      · exact Or.inl ⟨t.x, ⟨t, ht, Or.inl rfl⟩, h.symm⟩
      · exact Or.inl ⟨t.y, ⟨t, ht, Or.inr (Or.inl rfl)⟩, h.symm⟩
      · exact Or.inl ⟨t.z, ⟨t, ht, Or.inr (Or.inr rfl)⟩, h.symm⟩
    · rintro (⟨a, ⟨t, ht, h | h | h⟩, rfl⟩ | ⟨e, ⟨t, ht, h | h | h⟩, rfl⟩)
      · exact ⟨t, ht, Or.inr (Or.inr (Or.inr (Or.inl (by rw [h]))))⟩
      · exact ⟨t, ht, Or.inr (Or.inr (Or.inr (Or.inr (Or.inl (by rw [h])))))⟩
      · exact ⟨t, ht, Or.inr (Or.inr (Or.inr (Or.inr (Or.inr (by rw [h])))))⟩
      · exact ⟨t, ht, Or.inl (by rw [h, Sym2.lift_mk])⟩
      · exact ⟨t, ht, Or.inr (Or.inl (by rw [h, Sym2.lift_mk]))⟩
      · exact ⟨t, ht, Or.inr (Or.inr (Or.inl (by rw [h, Sym2.lift_mk])))⟩
  · rw [Finset.disjoint_left]
    intro key h1 h2
    obtain ⟨a, -, rfl⟩ := Finset.mem_image.mp h1
    obtain ⟨e, -, he⟩ := Finset.mem_image.mp h2
    induction e using Sym2.ind with
    | _ c d =>
      rw [Sym2.lift_mk] at he
      exact midpointIndexToString_ne c d a he

theorem sound_count (mid : Vec3f → Vec3f → Vec3f) (vertices : List Vec3f) (keys : List StdString)
    (b : MeshBuild) (hb : b.Sound mid vertices keys) : b.vertices.length = keys.dedup.length := by
  obtain ⟨hnd, hkeys, hl, -, -⟩ := hb
  rw [← hl, ← List.length_map b.vertexMap Prod.fst, ← List.toFinset_card_of_nodup hnd,
    ← List.card_toFinset]
  congr 1
  ext key
  rw [List.mem_toFinset, List.mem_toFinset, hkeys]

theorem mem_indices_emitted (b : MeshBuild) (done : List Vec3i)
    (hi : b.indices.length = 4 * done.length)
    (he : ∀ k index, done[k]? = some index → b.Emitted k index) (t : Vec3i) (ht : t ∈ b.indices) :
    ∃ key0 key1 key2, b.vertexMap.find key0 = some t.x ∧ b.vertexMap.find key1 = some t.y
      ∧ b.vertexMap.find key2 = some t.z := by
  obtain ⟨q, hq, hqt⟩ := List.getElem_of_mem ht
  have hq' : b.indices[q]? = some t := by rw [List.getElem?_eq_getElem hq, hqt]
  have hk : q / 4 < done.length := by omega
  obtain ⟨i0, i1, i2, j0, j1, j2, f0, f1, f2, g0, g1, g2, t0, t1, t2, t3⟩ :=
    he (q / 4) done[q / 4] (by rw [List.getElem?_eq_getElem hk])
  have hr : q % 4 = 0 ∨ q % 4 = 1 ∨ q % 4 = 2 ∨ q % 4 = 3 := by omega
  rcases hr with h | h | h | h
  · have e : q = 4 * (q / 4) := by omega
    rw [e, t0] at hq'
    cases hq'
    exact ⟨_, _, _, f0, g0, g2⟩
  · have e : q = 4 * (q / 4) + 1 := by omega
    rw [e, t1] at hq'
    cases hq'
    exact ⟨_, _, _, f1, g1, g0⟩
  · have e : q = 4 * (q / 4) + 2 := by omega
    rw [e, t2] at hq'
    cases hq'
    exact ⟨_, _, _, f2, g2, g1⟩
  · have e : q = 4 * (q / 4) + 3 := by omega
    rw [e, t3] at hq'
    cases hq'
    exact ⟨_, _, _, g0, g1, g2⟩

/-- C25: in the build the triangle loop ends with for a mesh whose indices are positions of
its vertices (and `6n` below `2^31`): every new triangle index is a position of the new
vertices; the key of an edge does not depend on its direction, is the key of no vertex
index, and two keys are equal for the same vertex index or the same undirected edge only;
`vertexMap` holds exactly the keys of the triangles, sends different keys to different new
vertices, and the four triangles of an input triangle use the new vertices it holds for the
corners and edges; and the number of new vertices is the number of distinct vertex indices
used plus the number of distinct undirected edges. -/
theorem subdivide_vertex_map (mid : Vec3f → Vec3f → Vec3f) (hmid : ∀ p q, mid p q = mid q p)
    (mesh : Mesh) (hvalid : mesh.IndicesValid) (hsize : 6 * mesh.indices.length < 2147483648) :
    ∃ b, subdivideBuild mid mesh = .ok b
      ∧ (∀ material, subdivideMesh mid material mesh
          = .ok { indices := b.indices, vertices := b.vertices, normals := [], texcoords := [],
                  material := material })
      ∧ (∀ index ∈ b.indices, InRange b.vertices.length index.x
          ∧ InRange b.vertices.length index.y ∧ InRange b.vertices.length index.z)
      ∧ (∀ i j, midpointIndexToString i j = midpointIndexToString j i)
      ∧ (∀ i j k, midpointIndexToString i j ≠ to_string k)
      ∧ (∀ i j, to_string i = to_string j → i = j)
      ∧ (∀ i j k l, midpointIndexToString i j = midpointIndexToString k l → s(i, j) = s(k, l))
      ∧ (∀ key, (∃ v, b.vertexMap.find key = some v) ↔ key ∈ mesh.indices.flatMap triangleKeys)
      ∧ (∀ key key' v, b.vertexMap.find key = some v → b.vertexMap.find key' = some v → key = key')
      ∧ (∀ k index, mesh.indices[k]? = some index → b.Emitted k index)
      ∧ b.vertices.length
          = (usedVertices mesh.indices).dedup.length + (usedEdges mesh.indices).dedup.length := by
  obtain ⟨b, hbuild, hs, hv, hi, he⟩ := subdivideBuild_spec mid hmid mesh hvalid hsize
  have hlen : b.vertices.length ≤ 2147483648 := by omega
  refine ⟨b, hbuild, fun material => subdivideMesh_eq mid material mesh b hbuild, ?_,
    midpointIndexToString_comm, midpointIndexToString_ne, to_string_inj, ?_, ?_, hs.2.2.2.2, he,
    ?_⟩
  · intro t ht
    obtain ⟨k0, k1, k2, h0, h1, h2⟩ := mem_indices_emitted b mesh.indices hi he t ht
    exact ⟨sound_inRange mid _ _ b hs hlen _ _ h0, sound_inRange mid _ _ b hs hlen _ _ h1,
      sound_inRange mid _ _ b hs hlen _ _ h2⟩
  · intro i j k l h
    exact Sym2.eq_iff.mpr (midpointIndexToString_inj i j k l h)
  · intro key
    rw [← hs.2.1]
    constructor
    · rintro ⟨v, h⟩
      exact find_some_mem _ _ _ h
    · exact find_of_mem _ _
  · rw [sound_count mid _ _ b hs, keys_count]

/-- Two triangles with the common edge between the vertices 1 and 2, in opposite
directions: four vertex indices and five edges, nine new vertices. -/
theorem subdivide_vertex_map_witness :
    quadMesh.IndicesValid ∧ 6 * quadMesh.indices.length < 2147483648
    ∧ (usedVertices quadMesh.indices).dedup.length = 4
    ∧ (usedEdges quadMesh.indices).dedup.length = 5
    ∧ ∃ b, subdivideBuild meanBits quadMesh = .ok b
      ∧ (∀ material, subdivideMesh meanBits material quadMesh
          = .ok { indices := b.indices, vertices := b.vertices, normals := [], texcoords := [],
                  material := material })
      ∧ (∀ index ∈ b.indices, InRange b.vertices.length index.x
          ∧ InRange b.vertices.length index.y ∧ InRange b.vertices.length index.z)
      ∧ (∀ i j, midpointIndexToString i j = midpointIndexToString j i)
      ∧ (∀ i j k, midpointIndexToString i j ≠ to_string k)
      ∧ (∀ i j, to_string i = to_string j → i = j)
      ∧ (∀ i j k l, midpointIndexToString i j = midpointIndexToString k l → s(i, j) = s(k, l))
      ∧ (∀ key, (∃ v, b.vertexMap.find key = some v) ↔ key ∈ quadMesh.indices.flatMap triangleKeys)
      ∧ (∀ key key' v, b.vertexMap.find key = some v → b.vertexMap.find key' = some v → key = key')
      ∧ (∀ k index, quadMesh.indices[k]? = some index → b.Emitted k index)
      ∧ b.vertices.length
          = (usedVertices quadMesh.indices).dedup.length + (usedEdges quadMesh.indices).dedup.length :=
  ⟨by decide, by decide, by decide, by decide,
    subdivide_vertex_map meanBits meanBits_comm quadMesh (by decide) (by decide)⟩


/-! ## The instance loop of the subdivide tool -/

theorem subdivideTriangle_ok (mid : Vec3f → Vec3f → Vec3f) (mesh : Mesh) (b : MeshBuild)
    (index : Vec3i)
    (h : InRange mesh.vertices.length index.x ∧ InRange mesh.vertices.length index.y
      ∧ InRange mesh.vertices.length index.z) :
    ∃ b', subdivideTriangle mid mesh b index = .ok b' := by
  obtain ⟨v0, v1, v2, hpos⟩ := trianglePositions_ok mesh.vertices index h
  unfold subdivideTriangle
  rw [hpos, ok_bind]
  exact ⟨_, rfl⟩

/-- The triangle loop returns for every mesh whose indices are positions of its vertices. -/
theorem subdivideBuild_ok (mid : Vec3f → Vec3f → Vec3f) (mesh : Mesh) (hvalid : mesh.IndicesValid) :
    ∃ b, subdivideBuild mid mesh = .ok b := by
  unfold subdivideBuild
  have h : ∀ (todo : List Vec3i) (b : MeshBuild),
      (∀ index ∈ todo, InRange mesh.vertices.length index.x
        ∧ InRange mesh.vertices.length index.y ∧ InRange mesh.vertices.length index.z) →
      ∃ b', todo.foldlM (subdivideTriangle mid mesh) b = .ok b' := by
    intro todo
    induction todo with
    | nil => intro b _; exact ⟨b, rfl⟩
    | cons index todo ih =>
      intro b hv
      obtain ⟨b1, h1⟩ := subdivideTriangle_ok mid mesh b index (hv index (List.mem_cons_self _ _))
      obtain ⟨b', h'⟩ := ih b1 (fun t ht => hv t (List.mem_cons_of_mem _ ht))
      exact ⟨b', by rw [List.foldlM_cons, h1, ok_bind]; exact h'⟩
  exact h _ _ hvalid

theorem subdivideMesh_ok (mid : Vec3f → Vec3f → Vec3f) (material : SP Material) (mesh : Mesh)
    (hvalid : mesh.IndicesValid) : ∃ newMesh, subdivideMesh mid material mesh = .ok newMesh := by
  obtain ⟨b, hb⟩ := subdivideBuild_ok mid mesh hvalid
  exact ⟨_, subdivideMesh_eq mid material mesh b hb⟩

/-- One pass of the mesh loop for a mesh with valid indices. -/
theorem subdivideMeshSlot_spec (mid : Vec3f → Vec3f → Vec3f) (st : MeshPass) (m : Ref Mesh)
    (hvalid : m.val.IndicesValid) (hs : MeshesSound mid st.meshes) :
    ∃ st' newMesh, subdivideMeshSlot mid st (some m) = .ok st'
      ∧ MeshesSound mid st'.meshes
      ∧ (∀ key v, st.meshes.find key = some v → st'.meshes.find key = some v)
      ∧ st'.meshes.find (some m) = some newMesh
      ∧ st'.newMeshes = st.newMeshes ++ [newMesh] := by
  unfold subdivideMeshSlot
  cases hf : st.meshes.find (some m) with
  | some newMesh =>
    exact ⟨_, newMesh, rfl, hs, fun _ _ h => h, hf, rfl⟩
  | none =>
    obtain ⟨newMesh, hm⟩ := subdivideMesh_ok mid (some ⟨st.next, Material.create⟩) m.val hvalid
    refine ⟨MeshPass.mk (st.meshes.set (some m) (some ⟨st.next + 1, newMesh⟩)) (st.next + 2)
      (st.newMeshes ++ [some ⟨st.next + 1, newMesh⟩]), some ⟨st.next + 1, newMesh⟩,
      ?_, ?_, ?_, ?_, ?_⟩
    · show (Except.ok m.val >>= fun m' => _) = _
      rw [ok_bind, hm, ok_bind]
      rfl
    · intro key v h
      change (st.meshes.set (some m) (some ⟨st.next + 1, newMesh⟩)).find key = some v at h
      by_cases e : some m = key
      · subst e
        rw [find_set] at h
        cases h
        exact ⟨m, _, st.next, rfl, rfl, hm⟩
      · rw [find_set_ne _ _ _ _ e] at h
        exact hs key v h
    · intro key v h
      exact find_set_mono _ _ _ _ _ hf h
    · exact find_set _ _ _
    · rfl

/-- The mesh loop of one object whose mesh slots are non-null and have valid indices. -/
theorem meshes_pass (mid : Vec3f → Vec3f → Vec3f) :
    ∀ (todo : List (SP Mesh)) (st : MeshPass),
      (∀ mesh ∈ todo, ∃ m, mesh = some m ∧ m.val.IndicesValid) → MeshesSound mid st.meshes →
      ∃ st', todo.foldlM (subdivideMeshSlot mid) st = .ok st'
        ∧ MeshesSound mid st'.meshes
        ∧ (∀ key v, st.meshes.find key = some v → st'.meshes.find key = some v)
        ∧ (∀ mesh ∈ todo, ∃ newMesh, st'.meshes.find mesh = some newMesh)
        ∧ st'.newMeshes = st.newMeshes ++ todo.map (fun mesh => (st'.meshes.find mesh).getD none) := by
  intro todo
  induction todo with
  | nil =>
    intro st _ hs
    refine ⟨st, rfl, hs, fun _ _ h => h, ?_, ?_⟩
    · intro mesh hmesh
      cases hmesh
    · rw [List.map_nil, List.append_nil]
  | cons mesh todo ih =>
    intro st hv hs
    obtain ⟨m, rfl, hm⟩ := hv mesh (List.mem_cons_self _ _)
    obtain ⟨st1, newMesh, h1, hs1, hm1, hf1, hn1⟩ := subdivideMeshSlot_spec mid st m hm hs
    obtain ⟨st', h', hs', hm', hf', hn'⟩ := ih st1 (fun x hx => hv x (List.mem_cons_of_mem _ hx)) hs1
    refine ⟨st', ?_, hs', fun key v h => hm' _ _ (hm1 _ _ h), ?_, ?_⟩
    · rw [List.foldlM_cons, h1, ok_bind]
      exact h'
    · intro x hx
      rcases List.mem_cons.mp hx with rfl | hx'
      · exact ⟨newMesh, hm' _ _ hf1⟩
      · exact hf' x hx'
    · rw [hn', hn1, List.map_cons, hm' _ _ hf1]
      simp


theorem subdivideInstance_found (mid : Vec3f → Vec3f → Vec3f) (st : Subdivision)
    (inst newInstance : SP Instance) (h : st.instances.find inst = some newInstance) :
    subdivideInstance mid st inst
      = .ok (Subdivision.mk st.instances st.objects st.meshes
          (st.newInstances ++ [newInstance]) st.next) := by
  unfold subdivideInstance
  rw [h]
  rfl

theorem subdivideInstance_object (mid : Vec3f → Vec3f → Vec3f) (st : Subdivision)
    (i : Ref Instance) (newObject : SP Object) (h1 : st.instances.find (some i) = none)
    (h2 : st.objects.find i.val.object = some newObject) :
    subdivideInstance mid st (some i)
      = .ok (Subdivision.mk st.instances st.objects st.meshes
          (st.newInstances ++ [some ⟨st.next, Instance.create newObject⟩]) (st.next + 1)) := by
  unfold subdivideInstance
  rw [h1]
  show (Except.ok i.val >>= fun i' => _) = _
  rw [ok_bind]
  dsimp only
  rw [h2]
  rfl

theorem subdivideInstance_fresh (mid : Vec3f → Vec3f → Vec3f) (st : Subdivision)
    (i : Ref Instance) (o : Ref Object) (pass : MeshPass)
    (h1 : st.instances.find (some i) = none) (ho : i.val.object = some o)
    (h2 : st.objects.find (some o) = none)
    (hp : o.val.meshes.foldlM (subdivideMeshSlot mid) (MeshPass.mk st.meshes st.next [])
      = .ok pass) :
    subdivideInstance mid st (some i)
      = .ok (Subdivision.mk
          (st.instances.set (some i)
            (some ⟨pass.next + 1, Instance.create (some ⟨pass.next, Object.create pass.newMeshes⟩)⟩))
          (st.objects.set (some o) (some ⟨pass.next, Object.create pass.newMeshes⟩))
          pass.meshes
          (st.newInstances
            ++ [some ⟨pass.next + 1, Instance.create (some ⟨pass.next, Object.create pass.newMeshes⟩)⟩])
          (pass.next + 2)) := by
  unfold subdivideInstance
  rw [h1]
  show (Except.ok i.val >>= fun i' => _) = _
  rw [ok_bind]
  dsimp only
  rw [ho, h2]
  show (Except.ok o.val >>= fun o' => _) = _
  rw [ok_bind]
  show ((o.val.meshes.foldlM (subdivideMeshSlot mid) (MeshPass.mk st.meshes st.next []))
    >>= fun pass => _) = _
  rw [hp, ok_bind]
  rfl

theorem getElem?_append_last {α : Type} (l : List α) (a : α) : (l ++ [a])[l.length]? = some a := by
  rw [List.getElem?_append_right (Nat.le_refl _)]
  simp

/-- A position of a list with one more element: a position of the list, or the last one. -/
theorem getElem?_append_single {α : Type} (l : List α) (a x : α) (k : Nat)
    (h : (l ++ [a])[k]? = some x) : (k < l.length ∧ l[k]? = some x) ∨ (k = l.length ∧ x = a) := by
  by_cases hlt : k < l.length
  · rw [List.getElem?_append_left hlt] at h
    exact Or.inl ⟨hlt, h⟩
  · have hk : k = l.length := by
      have := (List.getElem?_eq_some_iff.mp h).1
      rw [List.length_append] at this
      simp only [List.length_singleton] at this
      omega
    subst hk
    rw [getElem?_append_last] at h
    exact Or.inr ⟨rfl, (Option.some.inj h).symm⟩

/-- A slot appended with a new instance created from the entry of `objects` for its object
keeps the state sound when the maps grow. -/
theorem sound_append (mid : Vec3f → Vec3f → Vec3f) (done : List (SP Instance))
    (st st' : Subdivision) (i : Ref Instance) (o newObject : Ref Object)
    (newInstance : Ref Instance) (hs : st.Sound mid done) (ho : i.val.object = some o)
    (hn : st'.newInstances = st.newInstances ++ [some newInstance])
    (hno : newInstance.val = Instance.create (some newObject))
    (hfo : st'.objects.find (some o) = some (some newObject))
    (hmo : ∀ key v, st.objects.find key = some v → st'.objects.find key = some v)
    (hko : ∀ key v, st'.objects.find key = some v →
      st.objects.find key = some v ∨ key = some o)
    (hmi : ∀ key v, st.instances.find key = some v → st'.instances.find key = some v)
    (hki : ∀ key v, st'.instances.find key = some v →
      st.instances.find key = some v ∨ (key = some i ∧ v = some newInstance))
    (hnew : (∃ v, st'.instances.find (some i) = some v)
      ∨ ∃ v, st.objects.find (some o) = some v)
    (hrep : (∃ k : Nat, done[k]? = some (some i)) → ∀ v, st'.instances.find (some i) = some v →
      st.instances.find (some i) = some v)
    (hfound : ∀ v, st.instances.find (some i) = some v → v = some newInstance)
    (h3 : InstancesSound st'.instances st'.objects) (h4 : ObjectsSound st'.objects st'.meshes)
    (h5 : MeshesSound mid st'.meshes) : st'.Sound mid (done ++ [some i]) := by
  obtain ⟨hl, hslots, -, -, -, hent, hkeys, hfirst⟩ := hs
  refine ⟨?_, ?_, h3, h4, h5, ?_, ?_, ?_⟩
  · rw [hn, List.length_append, List.length_append, hl]
    rfl
  · intro k i' hk
    rcases getElem?_append_single _ _ _ _ hk with ⟨-, hk'⟩ | ⟨rfl, e⟩
    · obtain ⟨o', ni, no, e1, e2, e3, e4⟩ := hslots k i' hk'
      exact ⟨o', ni, no, e1, by rw [hn]; exact getElem?_append_some _ _ _ _ e2, e3, hmo _ _ e4⟩
    · cases e
      refine ⟨o, newInstance, newObject, ho, ?_, hno, hfo⟩
      rw [hn, ← hl]
      exact getElem?_append_last _ _
  · intro key v hv k hk
    rw [hn]
    rcases getElem?_append_single _ _ _ _ hk with ⟨-, hk'⟩ | ⟨rfl, e⟩
    · apply getElem?_append_some
      rcases hki key v hv with hold | ⟨rfl, rfl⟩
      · exact hent key v hold k hk'
      · exact hent _ _ (hrep ⟨k, hk'⟩ _ hv) k hk'
    · subst e
      rw [← hl, getElem?_append_last]
      rcases hki _ v hv with hold | ⟨-, rfl⟩
      · rw [hfound v hold]
      · rfl
  · intro key v hv
    rcases hko key v hv with hold | rfl
    · obtain ⟨k, i', hk, e⟩ := hkeys key v hold
      exact ⟨k, i', getElem?_append_some _ _ _ _ hk, e⟩
    · exact ⟨done.length, i, getElem?_append_last _ _, ho⟩
  · intro k i' hk hcond
    rcases getElem?_append_single _ _ _ _ hk with ⟨hlt, hk'⟩ | ⟨rfl, e⟩
    · obtain ⟨v, hv⟩ := hfirst k i' hk' (fun k' i'' hlt' hk'' =>
        hcond k' i'' hlt' (getElem?_append_some _ _ _ _ hk''))
      exact ⟨v, hmi _ _ hv⟩
    · cases e
      rcases hnew with h | ⟨v, hv⟩
      · exact h
      · exfalso
        obtain ⟨k0, i0, hk0, e0⟩ := hkeys _ _ hv
        have hlt : k0 < done.length := (List.getElem?_eq_some_iff.mp hk0).1
        exact hcond k0 i0 hlt (getElem?_append_some _ _ _ _ hk0) (by rw [e0, ho])

/-- One pass of the instance loop for a non-null slot whose object is non-null and whose
meshes are non-null with valid indices. -/
theorem subdivideInstance_spec (mid : Vec3f → Vec3f → Vec3f) (done : List (SP Instance))
    (st : Subdivision) (i : Ref Instance) (o : Ref Object) (ho : i.val.object = some o)
    (hmeshes : ∀ mesh ∈ o.val.meshes, ∃ m, mesh = some m ∧ m.val.IndicesValid)
    (hs : st.Sound mid done) :
    ∃ st', subdivideInstance mid st (some i) = .ok st' ∧ st'.Sound mid (done ++ [some i]) := by
  have hs' := hs
  obtain ⟨hl, hslots, hinst, hobj, hmesh, hent, hkeys, hfirst⟩ := hs'
  cases h1 : st.instances.find (some i) with
  | some v =>
    obtain ⟨i', o', ni, no, e1, e2, e3, e4, e5⟩ := hinst _ _ h1
    cases e1
    rw [ho] at e2
    cases e2
    subst e3
    exact ⟨_, subdivideInstance_found mid st _ _ h1,
      sound_append mid done st _ i o no ni hs ho rfl e4 e5 (fun _ _ h => h)
        (fun _ _ h => Or.inl h) (fun _ _ h => h) (fun _ _ h => Or.inl h) (Or.inl ⟨_, h1⟩)
        (fun _ _ h => h) (fun v hv => by rw [h1] at hv; exact (Option.some.inj hv).symm)
        hinst hobj hmesh⟩
  | none =>
    cases h2 : st.objects.find (some o) with
    | some v =>
      obtain ⟨o', no, e1, e2, e3, e4⟩ := hobj _ _ h2
      cases e1
      subst e2
      exact ⟨_, subdivideInstance_object mid st i _ h1 (by rw [ho]; exact h2),
        sound_append mid done st _ i o no ⟨st.next, Instance.create (some no)⟩ hs ho rfl rfl h2
          (fun _ _ h => h) (fun _ _ h => Or.inl h) (fun _ _ h => h) (fun _ _ h => Or.inl h)
          (Or.inr ⟨_, h2⟩) (fun _ _ h => h) (fun v hv => by rw [h1] at hv; cases hv)
          hinst hobj hmesh⟩
    | none =>
      obtain ⟨pass, hp, hps, hpm, hpf, hpn⟩ := meshes_pass mid o.val.meshes
        (MeshPass.mk st.meshes st.next []) hmeshes hmesh
      refine ⟨_, subdivideInstance_fresh mid st i o pass h1 ho h2 hp, ?_⟩
      have hmo : ∀ key v, st.objects.find key = some v →
          (st.objects.set (some o) (some ⟨pass.next, Object.create pass.newMeshes⟩)).find key
            = some v := fun key v h => find_set_mono _ _ _ _ _ h2 h
      apply sound_append mid done st _ i o ⟨pass.next, Object.create pass.newMeshes⟩
        ⟨pass.next + 1, Instance.create (some ⟨pass.next, Object.create pass.newMeshes⟩)⟩ hs ho
        rfl rfl (find_set _ _ _) hmo
      · intro key v h
        change (st.objects.set (some o) _).find key = some v at h
        by_cases e : some o = key
        · exact Or.inr e.symm
        · rw [find_set_ne _ _ _ _ e] at h
          exact Or.inl h
      · intro key v h
        exact find_set_mono _ _ _ _ _ h1 h
      · intro key v h
        change (st.instances.set (some i) _).find key = some v at h
        by_cases e : some i = key
        · subst e
          rw [find_set] at h
          exact Or.inr ⟨rfl, (Option.some.inj h).symm⟩
        · rw [find_set_ne _ _ _ _ e] at h
          exact Or.inl h
      · exact Or.inl ⟨_, find_set _ _ _⟩
      · rintro ⟨k, hk⟩ v -
        exfalso
        obtain ⟨o', ni, no, e1, -, -, e4⟩ := hslots k i hk
        rw [ho] at e1
        cases e1
        rw [h2] at e4
        cases e4
      · intro v hv
        rw [h1] at hv
        cases hv
      · intro key v h
        change (st.instances.set (some i) _).find key = some v at h
        by_cases e : some i = key
        · subst e
          rw [find_set] at h
          cases h
          exact ⟨i, o, _, _, rfl, ho, rfl, rfl, find_set _ _ _⟩
        · rw [find_set_ne _ _ _ _ e] at h
          obtain ⟨i', o', ni, no, e1, e2, e3, e4, e5⟩ := hinst _ _ h
          exact ⟨i', o', ni, no, e1, e2, e3, e4, hmo _ _ e5⟩
      · intro key v h
        change (st.objects.set (some o) _).find key = some v at h
        by_cases e : some o = key
        · subst e
          rw [find_set] at h
          cases h
          refine ⟨o, _, rfl, rfl, ?_, hpf⟩
          show pass.newMeshes = _
          rw [hpn]
          rfl
        · rw [find_set_ne _ _ _ _ e] at h
          obtain ⟨o', no, e1, e2, e3, e4⟩ := hobj _ _ h
          refine ⟨o', no, e1, e2, ?_, ?_⟩
          · rw [e3]
            apply List.map_congr_left
            intro mesh hm
            obtain ⟨nm, hnm⟩ := e4 mesh hm
            show (st.meshes.find mesh).getD none = (pass.meshes.find mesh).getD none
            rw [hnm, hpm _ _ hnm]
          · intro mesh hm
            obtain ⟨nm, hnm⟩ := e4 mesh hm
            exact ⟨nm, hpm _ _ hnm⟩
      · exact hps

theorem subdivision_sound_empty (mid : Vec3f → Vec3f → Vec3f) (next : Nat) :
    (Subdivision.mk [] [] [] [] next).Sound mid [] := by
  refine ⟨rfl, ?_, ?_, ?_, ?_, ?_, ?_, ?_⟩
  · intro k i h
    cases h
  · intro key v h
    cases h
  · intro key v h
    cases h
  · intro key v h
    cases h
  · intro key v h
    cases h
  · intro key v h
    cases h
  · intro k i h
    cases h

/-- The instance loop over slots that are non-null, with non-null objects and meshes and
valid indices. -/
theorem instances_pass (mid : Vec3f → Vec3f → Vec3f) :
    ∀ (todo done : List (SP Instance)) (st : Subdivision),
      (∀ inst ∈ todo, ∃ i o, inst = some i ∧ i.val.object = some o
        ∧ ∀ mesh ∈ o.val.meshes, ∃ m, mesh = some m ∧ m.val.IndicesValid) →
      st.Sound mid done →
      ∃ st', todo.foldlM (subdivideInstance mid) st = .ok st' ∧ st'.Sound mid (done ++ todo) := by
  intro todo
  induction todo with
  | nil =>
    intro done st _ hs
    exact ⟨st, rfl, by rw [List.append_nil]; exact hs⟩
  | cons inst todo ih =>
    intro done st hv hs
    obtain ⟨i, o, rfl, ho, hm⟩ := hv inst (List.mem_cons_self _ _)
    obtain ⟨st1, h1, hs1⟩ := subdivideInstance_spec mid done st i o ho hm hs
    obtain ⟨st', h', hs'⟩ := ih (done ++ [some i]) st1
      (fun x hx => hv x (List.mem_cons_of_mem _ hx)) hs1
    refine ⟨st', ?_, ?_⟩
    · rw [List.foldlM_cons, h1, ok_bind]
      exact h'
    · simpa using hs'


/-! ## The scenes `Scene::load` returns -/

theorem loadInstance_addr (objects : List (SP Object)) (next : Nat) (inp : List Byte)
    (inst : SP Instance) (next' : Nat) (rest : List Byte)
    (h : loadInstance objects next inp = .ok (inst, next', rest)) :
    next ≤ next' ∧ ∀ i ∈ inst, next ≤ i.addr ∧ i.addr < next' := by
  unfold loadInstance at h
  obtain ⟨⟨isValid, inp1⟩, -, h⟩ := bind_ok_inv _ _ _ h
  dsimp only at h
  by_cases hv : isValid.val = 0
  · rw [if_pos hv] at h
    cases Except.ok.inj h
    exact ⟨Nat.le_refl _, fun i hi => Option.noConfusion hi⟩
  · rw [if_neg hv] at h
    obtain ⟨⟨xfm, inp2⟩, -, h⟩ := bind_ok_inv _ _ _ h
    dsimp only at h
    obtain ⟨⟨objID, inp3⟩, -, h⟩ := bind_ok_inv _ _ _ h
    dsimp only at h
    by_cases hr : 0 ≤ objID.val ∧ objID.val.toNat < objects.length
    · rw [dif_pos hr] at h
      cases Except.ok.inj h
      refine ⟨Nat.le_succ _, ?_⟩
      intro i hi
      cases Option.some.inj hi
      exact ⟨Nat.le_refl _, Nat.lt_succ_self _⟩
    · rw [dif_neg hr] at h
      exact Except.noConfusion h

/-- The nodes a loop of `Scene::load` allocates stand at increasing addresses. -/
theorem readEach_addr {α : Type}
    (body : Nat → List Byte → Except Error (SP α × Nat × List Byte))
    (hb : ∀ next inp a next' inp', body next inp = .ok (a, next', inp') →
      next ≤ next' ∧ ∀ r ∈ a, next ≤ r.addr ∧ r.addr < next') :
    ∀ (k i next : Nat) (inp : List Byte) (as : List (SP α)) (next' : Nat) (inp' : List Byte),
      readEach body k i next inp = .ok (as, next', inp') →
      next ≤ next' ∧ (∀ a ∈ as, ∀ r ∈ a, next ≤ r.addr ∧ r.addr < next')
        ∧ as.Pairwise (fun a b => ∀ r ∈ a, ∀ r' ∈ b, r.addr < r'.addr) := by
  intro k
  induction k with
  | zero =>
    intro i next inp as next' inp' h
    cases Except.ok.inj h
    exact ⟨Nat.le_refl _, fun a ha => absurd ha (List.not_mem_nil _), List.Pairwise.nil⟩
  | succ k ih =>
    intro i next inp as next' inp' h
    unfold readEach at h
    obtain ⟨⟨a1, next1, inp1⟩, hbody, h⟩ := bind_ok_inv _ _ _ h
    dsimp only at h
    by_cases hi : i + 1 < 2147483648
    · rw [if_pos hi] at h
      obtain ⟨⟨as1, next2, inp2⟩, hrest, h⟩ := bind_ok_inv _ _ _ h
      cases Except.ok.inj h
      obtain ⟨hle1, ha1⟩ := hb _ _ _ _ _ hbody
      obtain ⟨hle2, has, hpw⟩ := ih _ _ _ _ _ _ hrest
      refine ⟨Nat.le_trans hle1 hle2, ?_, ?_⟩
      · intro a ha r hr
        rcases List.mem_cons.mp ha with rfl | ha'
        · obtain ⟨h1, h2⟩ := ha1 r hr
          exact ⟨h1, Nat.lt_of_lt_of_le h2 hle2⟩
        · obtain ⟨h1, h2⟩ := has a ha' r hr
          exact ⟨Nat.le_trans hle1 h1, h2⟩
      · refine List.Pairwise.cons ?_ hpw
        intro b hb' r hr r' hr'
        exact Nat.lt_of_lt_of_le (ha1 r hr).2 (has b hb' r' hr').1
    · rw [if_neg hi] at h
      exact Except.noConfusion h

/-- A scene `Scene::load` returns has a non-null object behind every instance and no null
mesh slot, and no two slots of it hold the same instance. -/
theorem load_shape (inp : List Byte) (s : Scene) (h : Scene.load inp = .ok s) :
    (∀ inst ∈ s.instances, ∀ i ∈ inst, ∃ o, i.val.object = some o
      ∧ ∀ mesh ∈ o.val.meshes, ∃ m, mesh = some m)
    ∧ ∀ (k l : Nat) (i : Ref Instance), s.instances[k]? = some (some i) →
        s.instances[l]? = some (some i) → k = l := by
  obtain ⟨r, hr, rfl⟩ := load_inv inp s h
  obtain ⟨v, inp1, rest, hbody⟩ := loadTables_inv inp r hr
  obtain ⟨k2, n2, n2', k3, n3, n3', k4, n4, n4', i2, i2', i3, i3', i4, i4', hmat, hobj, hinst⟩ :=
    loadBody_inv v inp1 r rest hbody
  have hlive : ∀ mat ∈ r.materials, mat ≠ none :=
    readEach_all _ (fun mat => mat ≠ none)
      (fun next inp a next' inp' ha => loadMaterial_live v r.textures next inp a next' inp' ha)
      _ _ _ _ _ _ _ hmat
  have hobjs := readEach_all _
    (fun obj : SP Object => ∃ o, obj = some o ∧ ∀ mesh ∈ o.val.meshes, ∃ m mat, mesh = some m
      ∧ m.val.material = some mat ∧ ∃ matID : I32, resolves r.materials matID (some mat))
    (fun next inp a next' inp' ha => loadObject_all r.materials hlive next inp a next' inp' ha)
    _ _ _ _ _ _ _ hobj
  have hinsts := readEach_all _ (fun inst : SP Instance => ∀ i ∈ inst, i.val.object ∈ r.objects)
    (fun next inp a next' inp' ha => loadInstance_object r.objects next inp a next' inp' ha)
    _ _ _ _ _ _ _ hinst
  constructor
  · intro inst hi i hii
    obtain ⟨o, ho, hmeshes⟩ := hobjs _ (hinsts inst hi i hii)
    refine ⟨o, ho, ?_⟩
    intro mesh hm
    obtain ⟨m, -, e, -⟩ := hmeshes mesh hm
    exact ⟨m, e⟩
  · obtain ⟨-, -, hpw⟩ := readEach_addr _ (loadInstance_addr r.objects) _ _ _ _ _ _ _ hinst
    intro k l i hk hl
    by_contra hne
    obtain ⟨hk1, hk2⟩ := List.getElem?_eq_some_iff.mp hk
    obtain ⟨hl1, hl2⟩ := List.getElem?_eq_some_iff.mp hl
    rcases Nat.lt_or_gt_of_ne hne with hlt | hlt
    · have := List.pairwise_iff_getElem.mp hpw k l hk1 hl1 hlt i (by rw [hk2]; rfl) i
        (by rw [hl2]; rfl)
      omega
    · have := List.pairwise_iff_getElem.mp hpw l k hl1 hk1 hlt i (by rw [hl2]; rfl) i
        (by rw [hk2]; rfl)
      omega


/-! ## Sharing in the scene the subdivide tool builds -/

theorem subdivideMesh_material (mid : Vec3f → Vec3f → Vec3f) (material : SP Material)
    (mesh newMesh : Mesh) (h : subdivideMesh mid material mesh = .ok newMesh) :
    newMesh.material = material := by
  unfold subdivideMesh at h
  obtain ⟨b, -, h⟩ := bind_ok_inv _ _ _ h
  cases Except.ok.inj h
  rfl

/-- `Scene::save` of a scene one of whose meshes has the dummy material fails at the
material section. -/
theorem save_dummy_material (instances : List (SP Instance)) (i : Ref Instance)
    (o : Ref Object) (m : Ref Mesh) (a : Nat) (hi : some i ∈ instances)
    (ho : i.val.object = some o) (hm : some m ∈ o.val.meshes)
    (hmat : m.val.material = some ⟨a, Material.create⟩) :
    (Scene.create instances).save = .error .unsupportedType := by
  have hobj : some o ∈ (Scene.create instances).objectRefs := by
    unfold Scene.objectRefs
    refine List.mem_flatMap.mpr ⟨some i, hi, ?_⟩
    show some o ∈ refOf i.val.object
    rw [ho]
    exact List.mem_singleton.mpr rfl
  have hlist : some o ∈ (SerializedScene.ofScene (Scene.create instances)).objects.list := by
    rw [(ofScene_trace _).2.2.2.2.2]
    exact (mem_firstSeen _ _ _).mpr (Or.inr hobj)
  have hmem : some ⟨a, Material.create⟩
      ∈ (SerializedScene.ofScene (Scene.create instances)).materials.list := by
    rw [(ofScene_trace _).2.2.2.2.1]
    refine (mem_firstSeen _ _ _).mpr (Or.inr ?_)
    unfold materialRefs
    refine List.mem_flatMap.mpr ⟨some o, hlist, ?_⟩
    show _ ∈ meshMaterialRefs o.val.meshes
    unfold meshMaterialRefs
    refine List.mem_flatMap.mpr ⟨some m, hm, ?_⟩
    show _ ∈ refOf m.val.material
    rw [hmat]
    exact List.mem_singleton.mpr rfl
  obtain ⟨e, he, hu⟩ := saveWith_materials_error (SerializedScene.ofScene (Scene.create instances))
    (Scene.create instances) _
    (saveMaterials_unsupported _ _ ⟨a, Material.create⟩ rfl hmem (ofScene_materials_live _))
  have hlights : ∃ b, saveLights (Scene.create instances) = .ok b := ⟨_, rfl⟩
  rw [hu hlights] at he
  exact he

/-- Every pass of the instance loop is defined on a scene without null pointers and with
valid indices. -/
theorem live_ready (s : Scene) (hlive : s.Live) (hvalid : s.IndicesValid) :
    ∀ inst ∈ s.instances, ∃ i o, inst = some i ∧ i.val.object = some o
      ∧ ∀ mesh ∈ o.val.meshes, ∃ m, mesh = some m ∧ m.val.IndicesValid := by
  intro inst hinst
  obtain ⟨i, rfl, o, ho, hm⟩ := hlive inst hinst
  refine ⟨i, o, rfl, ho, ?_⟩
  intro mesh hmesh
  cases mesh with
  | none => exact absurd rfl (hm _ hmesh)
  | some m => exact ⟨m, rfl, hvalid _ hinst i rfl o ho _ hmesh m rfl⟩

theorem mem_of_getElem? {α : Type} (l : List α) (k : Nat) (a : α) (h : l[k]? = some a) :
    a ∈ l := by
  obtain ⟨hlt, hv⟩ := List.getElem?_eq_some_iff.mp h
  exact hv ▸ List.getElem_mem hlt

/-- An instance whose object was met before under another instance is not entered in
`instances`: of the three slots, the second and the third hold the same instance and get two
new instances, at different addresses. -/
theorem subdivide_instance_not_entered :
    ∃ st, subdivideScene meanBits 1000 repeatedScene = .ok st
      ∧ repeatedScene.Live ∧ repeatedScene.IndicesValid
      ∧ repeatedScene.instances[1]? = repeatedScene.instances[2]?
      ∧ st.newInstances[1]? ≠ st.newInstances[2]? := by
  refine ⟨Subdivision.mk _ _ _ _ _, rfl, ?_, ?_, ?_, ?_⟩ <;> decide


/-! ## The transforms of the input instances -/

theorem subdivideInstance_null (mid : Vec3f → Vec3f → Vec3f) (st : Subdivision)
    (h : st.instances.find none = none) :
    subdivideInstance mid st none = .error .undefinedBehaviour := by
  unfold subdivideInstance
  rw [h]
  rfl

theorem subdivideInstance_nullObject (mid : Vec3f → Vec3f → Vec3f) (st : Subdivision)
    (i : Ref Instance) (h1 : st.instances.find (some i) = none) (ho : i.val.object = none)
    (h2 : st.objects.find none = none) :
    subdivideInstance mid st (some i) = .error .undefinedBehaviour := by
  unfold subdivideInstance
  rw [h1]
  show (Except.ok i.val >>= fun i' => _) = _
  rw [ok_bind]
  dsimp only
  rw [ho, h2]
  rfl

theorem subdivideInstance_fails (mid : Vec3f → Vec3f → Vec3f) (st : Subdivision)
    (i : Ref Instance) (o : Ref Object) (e : Error)
    (h1 : st.instances.find (some i) = none) (ho : i.val.object = some o)
    (h2 : st.objects.find (some o) = none)
    (hp : o.val.meshes.foldlM (subdivideMeshSlot mid) (MeshPass.mk st.meshes st.next [])
      = .error e) :
    subdivideInstance mid st (some i) = .error e := by
  unfold subdivideInstance
  rw [h1]
  show (Except.ok i.val >>= fun i' => _) = _
  rw [ok_bind]
  dsimp only
  rw [ho, h2]
  show (Except.ok o.val >>= fun o' => _) = _
  rw [ok_bind]
  show ((o.val.meshes.foldlM (subdivideMeshSlot mid) (MeshPass.mk st.meshes st.next []))
    >>= fun pass => _) = _
  rw [hp]
  rfl

/-- Two maps with corresponding keys and equal values give the same answer for
corresponding keys. -/
theorem find_sim (Z : List (SP Instance × SP Instance))
    (hZ : ∀ p ∈ Z, ∀ q ∈ Z, (p.1 = q.1 ↔ p.2 = q.2)) (a : SP Instance × SP Instance)
    (ha : a ∈ Z) (m1 m2 : StdMap (SP Instance) (SP Instance))
    (h : List.Forall₂ (fun e1 e2 => e1.2 = e2.2 ∧ (e1.1, e2.1) ∈ Z) m1 m2) :
    m1.find a.1 = m2.find a.2 := by
  induction m1 generalizing m2 with
  | nil =>
    cases h
    rfl
  | cons e1 l1 ih =>
    obtain ⟨e2, l2, hhead, htail, rfl⟩ := List.forall₂_cons_left_iff.mp h
    obtain ⟨k1, v1⟩ := e1
    obtain ⟨k2, v2⟩ := e2
    obtain ⟨hv, hk⟩ := hhead
    dsimp only at hv hk
    subst hv
    have hiff := hZ _ hk a ha
    dsimp only at hiff
    unfold StdMap.find
    by_cases e : k1 = a.1
    · rw [if_pos e, if_pos (hiff.mp e)]
    · rw [if_neg e, if_neg (fun e' => e (hiff.mpr e'))]
      exact ih l2 htail

/-- One pass of the instance loop on corresponding slots of two scenes that differ in the
transforms only: the same failure, or corresponding states again. -/
theorem subdivideInstance_sim (mid : Vec3f → Vec3f → Vec3f)
    (Z : List (SP Instance × SP Instance))
    (hZ : ∀ p ∈ Z, p.1.map (fun r => (r.addr, r.val.object)) = p.2.map (fun r => (r.addr, r.val.object))
      ∧ ∀ q ∈ Z, (p.1 = q.1 ↔ p.2 = q.2))
    (a : SP Instance × SP Instance) (ha : a ∈ Z) (st1 st2 : Subdivision)
    (hobj : st1.objects = st2.objects) (hmesh : st1.meshes = st2.meshes)
    (hnew : st1.newInstances = st2.newInstances) (hnext : st1.next = st2.next)
    (hinst : List.Forall₂ (fun e1 e2 => e1.2 = e2.2 ∧ (e1.1, e2.1) ∈ Z) st1.instances st2.instances) :
    (∃ e, subdivideInstance mid st1 a.1 = .error e ∧ subdivideInstance mid st2 a.2 = .error e)
    ∨ ∃ st1' st2', subdivideInstance mid st1 a.1 = .ok st1'
        ∧ subdivideInstance mid st2 a.2 = .ok st2'
        ∧ st1'.objects = st2'.objects ∧ st1'.meshes = st2'.meshes
        ∧ st1'.newInstances = st2'.newInstances ∧ st1'.next = st2'.next
        ∧ List.Forall₂ (fun e1 e2 => e1.2 = e2.2 ∧ (e1.1, e2.1) ∈ Z) st1'.instances
            st2'.instances := by
  have hfind := find_sim Z (fun p hp q hq => (hZ p hp).2 q hq) a ha _ _ hinst
  obtain ⟨a1, a2⟩ := a
  dsimp only at hfind ⊢
  have hkey := (hZ _ ha).1
  dsimp only at hkey
  cases h1 : st1.instances.find a1 with
  | some v =>
    have h2 : st2.instances.find a2 = some v := by rw [← hfind, h1]
    right
    exact ⟨_, _, subdivideInstance_found mid st1 _ _ h1, subdivideInstance_found mid st2 _ _ h2,
      hobj, hmesh, by rw [hnew], hnext, hinst⟩
  | none =>
    have h2 : st2.instances.find a2 = none := by rw [← hfind, h1]
    cases a1 with
    | none =>
      cases a2 with
      | none =>
        left
        exact ⟨_, subdivideInstance_null mid st1 h1, subdivideInstance_null mid st2 h2⟩
      | some i2 => cases hkey
    | some i1 =>
      cases a2 with
      | none => cases hkey
      | some i2 =>
        have hk := Option.some.inj hkey
        have haddr : i1.addr = i2.addr := congrArg Prod.fst hk
        have hobject : i1.val.object = i2.val.object := congrArg Prod.snd hk
        cases ho : i1.val.object with
        | none =>
          cases h3 : st1.objects.find none with
          | none =>
            left
            exact ⟨_, subdivideInstance_nullObject mid st1 i1 h1 ho h3,
              subdivideInstance_nullObject mid st2 i2 h2 (by rw [← hobject, ho])
                (by rw [← hobj, h3])⟩
          | some v =>
            right
            exact ⟨_, _, subdivideInstance_object mid st1 i1 v h1 (by rw [ho, h3]),
              subdivideInstance_object mid st2 i2 v h2 (by rw [← hobject, ho, ← hobj, h3]),
              hobj, hmesh, by rw [hnew, hnext], by rw [hnext], hinst⟩
        | some o =>
          cases h3 : st1.objects.find (some o) with
          | some v =>
            right
            exact ⟨_, _, subdivideInstance_object mid st1 i1 v h1 (by rw [ho, h3]),
              subdivideInstance_object mid st2 i2 v h2 (by rw [← hobject, ho, ← hobj, h3]),
              hobj, hmesh, by rw [hnew, hnext], by rw [hnext], hinst⟩
          | none =>
            cases hp : o.val.meshes.foldlM (subdivideMeshSlot mid)
                (MeshPass.mk st1.meshes st1.next []) with
            | error e =>
              left
              exact ⟨e, subdivideInstance_fails mid st1 i1 o e h1 ho h3 hp,
                subdivideInstance_fails mid st2 i2 o e h2 (by rw [← hobject, ho])
                  (by rw [← hobj, h3]) (by rw [← hmesh, ← hnext, hp])⟩
            | ok pass =>
              right
              refine ⟨_, _, subdivideInstance_fresh mid st1 i1 o pass h1 ho h3 hp,
                subdivideInstance_fresh mid st2 i2 o pass h2 (by rw [← hobject, ho])
                  (by rw [← hobj, h3]) (by rw [← hmesh, ← hnext, hp]), ?_, rfl, ?_, rfl, ?_⟩
              · show st1.objects.set _ _ = st2.objects.set _ _
                rw [hobj]
              · show st1.newInstances ++ _ = st2.newInstances ++ _
                rw [hnew]
              · exact List.Forall₂.cons ⟨rfl, ha⟩ hinst

/-- The instance loop on two lists of corresponding slots. -/
theorem instances_sim (mid : Vec3f → Vec3f → Vec3f) (Z : List (SP Instance × SP Instance))
    (hZ : ∀ p ∈ Z, p.1.map (fun r => (r.addr, r.val.object)) = p.2.map (fun r => (r.addr, r.val.object))
      ∧ ∀ q ∈ Z, (p.1 = q.1 ↔ p.2 = q.2)) :
    ∀ (todo : List (SP Instance × SP Instance)) (st1 st2 : Subdivision),
      (∀ p ∈ todo, p ∈ Z) → st1.objects = st2.objects → st1.meshes = st2.meshes →
      st1.newInstances = st2.newInstances → st1.next = st2.next →
      List.Forall₂ (fun e1 e2 => e1.2 = e2.2 ∧ (e1.1, e2.1) ∈ Z) st1.instances st2.instances →
      ((todo.map Prod.fst).foldlM (subdivideInstance mid) st1).map
          (fun st => Scene.create st.newInstances)
        = ((todo.map Prod.snd).foldlM (subdivideInstance mid) st2).map
          (fun st => Scene.create st.newInstances) := by
  intro todo
  induction todo with
  | nil =>
    intro st1 st2 _ _ _ hnew _ _
    show Except.ok (Scene.create st1.newInstances) = Except.ok (Scene.create st2.newInstances)
    rw [hnew]
  | cons a todo ih =>
    intro st1 st2 hsub hobj hmesh hnew hnext hinst
    rw [List.map_cons, List.map_cons, List.foldlM_cons, List.foldlM_cons]
    rcases subdivideInstance_sim mid Z hZ a (hsub a (List.mem_cons_self _ _)) st1 st2 hobj hmesh
      hnew hnext hinst with ⟨e, e1, e2⟩ | ⟨st1', st2', e1, e2, h1, h2, h3, h4, h5⟩
    · rw [e1, e2]
      rfl
    · rw [e1, e2, ok_bind, ok_bind]
      exact ih st1' st2' (fun p hp => hsub p (List.mem_cons_of_mem _ hp)) h1 h2 h3 h4 h5

/-- Every instance the loop appends or enters in `instances` has the default transform. -/
theorem subdivideInstance_xfm (mid : Vec3f → Vec3f → Vec3f) (st st' : Subdivision)
    (inst : SP Instance) (h : subdivideInstance mid st inst = .ok st')
    (h1 : ∀ slot ∈ st.newInstances, ∀ i ∈ slot, i.val.xfm = default)
    (h2 : ∀ key v, st.instances.find key = some v → ∀ i ∈ v, i.val.xfm = default) :
    (∀ slot ∈ st'.newInstances, ∀ i ∈ slot, i.val.xfm = default)
    ∧ ∀ key v, st'.instances.find key = some v → ∀ i ∈ v, i.val.xfm = default := by
  have happend : ∀ (l : List (SP Instance)) (x : SP Instance),
      (∀ slot ∈ l, ∀ i ∈ slot, i.val.xfm = default) → (∀ i ∈ x, i.val.xfm = default) →
      ∀ slot ∈ l ++ [x], ∀ i ∈ slot, i.val.xfm = default := by
    intro l x hl hx slot hslot
    rcases List.mem_append.mp hslot with hm | hm
    · exact hl slot hm
    · rw [List.mem_singleton] at hm
      subst hm
      exact hx
  cases hf : st.instances.find inst with
  | some v =>
    rw [subdivideInstance_found mid st _ _ hf] at h
    cases Except.ok.inj h
    exact ⟨happend _ _ h1 (h2 _ _ hf), h2⟩
  | none =>
    cases inst with
    | none =>
      rw [subdivideInstance_null mid st hf] at h
      cases h
    | some i =>
      cases h3 : st.objects.find i.val.object with
      | some v =>
        rw [subdivideInstance_object mid st i v hf h3] at h
        cases Except.ok.inj h
        refine ⟨happend _ _ h1 ?_, h2⟩
        intro i' hi'
        cases Option.some.inj hi'
        rfl
      | none =>
        cases ho : i.val.object with
        | none =>
          rw [ho] at h3
          rw [subdivideInstance_nullObject mid st i hf ho h3] at h
          cases h
        | some o =>
          rw [ho] at h3
          cases hp : o.val.meshes.foldlM (subdivideMeshSlot mid)
              (MeshPass.mk st.meshes st.next []) with
          | error e =>
            rw [subdivideInstance_fails mid st i o e hf ho h3 hp] at h
            cases h
          | ok pass =>
            rw [subdivideInstance_fresh mid st i o pass hf ho h3 hp] at h
            cases Except.ok.inj h
            refine ⟨happend _ _ h1 ?_, ?_⟩
            · intro i' hi'
              cases Option.some.inj hi'
              rfl
            · intro key v hv
              change (st.instances.set (some i) _).find key = some v at hv
              by_cases e : some i = key
              · subst e
                rw [find_set] at hv
                cases hv
                intro i' hi'
                cases Option.some.inj hi'
                rfl
              · rw [find_set_ne _ _ _ _ e] at hv
                exact h2 key v hv

theorem instances_xfm (mid : Vec3f → Vec3f → Vec3f) :
    ∀ (todo : List (SP Instance)) (st st' : Subdivision),
      todo.foldlM (subdivideInstance mid) st = .ok st' →
      (∀ slot ∈ st.newInstances, ∀ i ∈ slot, i.val.xfm = default) →
      (∀ key v, st.instances.find key = some v → ∀ i ∈ v, i.val.xfm = default) →
      ∀ slot ∈ st'.newInstances, ∀ i ∈ slot, i.val.xfm = default := by
  intro todo
  induction todo with
  | nil =>
    intro st st' h h1 _
    cases Except.ok.inj h
    exact h1
  | cons inst todo ih =>
    intro st st' h h1 h2
    rw [List.foldlM_cons] at h
    obtain ⟨st1, hs1, h⟩ := bind_ok_inv _ _ _ h
    obtain ⟨g1, g2⟩ := subdivideInstance_xfm mid st st1 inst hs1 h1 h2
    exact ih st1 st' h g1 g2

/-- C30: the instance loop gives every new instance the default transform, and for two
scenes whose instance slots agree up to the transforms (slot by slot both null, or the same
address and the same object; the same slots equal) the tool builds the same scene from the
same free address, or fails in the same way on both. -/
theorem subdivide_ignores_xfm (mid : Vec3f → Vec3f → Vec3f) (next : Nat) (s1 s2 : Scene)
    (h : s1.XfmVariant s2) :
    (subdivideScene mid next s1).map (fun st => Scene.create st.newInstances)
      = (subdivideScene mid next s2).map (fun st => Scene.create st.newInstances)
    ∧ ∀ st, subdivideScene mid next s1 = .ok st →
        ∀ slot ∈ st.newInstances, ∀ i ∈ slot, i.val.xfm = default := by
  obtain ⟨hlen, hZ⟩ := h
  constructor
  · have e := instances_sim mid (s1.instances.zip s2.instances) hZ
      (s1.instances.zip s2.instances)
      (Subdivision.mk [] [] [] [] next) (Subdivision.mk [] [] [] [] next)
      (fun p hp => hp) rfl rfl rfl rfl List.Forall₂.nil
    rw [List.map_fst_zip _ _ (Nat.le_of_eq hlen), List.map_snd_zip _ _ (Nat.le_of_eq hlen.symm)] at e
    exact e
  · intro st hst
    exact instances_xfm mid s1.instances _ st hst (fun slot hs => by cases hs)
      (fun key v hv => by cases hv)

/-- The demo scene and the demo scene with other transforms give the same new scene. -/
theorem subdivide_ignores_xfm_witness :
    demoScene.XfmVariant turnedScene
    ∧ (subdivideScene meanBits 1000 demoScene).map (fun st => Scene.create st.newInstances)
      = (subdivideScene meanBits 1000 turnedScene).map (fun st => Scene.create st.newInstances)
    ∧ ∀ st, subdivideScene meanBits 1000 demoScene = .ok st →
        ∀ slot ∈ st.newInstances, ∀ i ∈ slot, i.val.xfm = default :=
  ⟨by decide, subdivide_ignores_xfm meanBits 1000 demoScene turnedScene (by decide)⟩

end mini
